import Mathlib

/-!
# Environment rebuilding of sudo (`env.c`)

A shallow embedding of `env.c`: the pattern test shared by `var_ok` and the
keep loop of `rebuild_env`, the classifier `var_ok`, the formatter
`format_env`, the builder `insert_env` over a vector of pointer slots, and
the orchestrator `rebuild_env`.

Conventions of the embedding.

* A C string is the list of its characters before the terminating NUL
  (`Str`); a `char *` that the code tests against `NULL` is an `Option Str`.
* Code whose behaviour is undefined in C (indexing before a string, a
  pointer difference with `NULL`, reading a slot that was never written)
  returns `none`; every function that can reach such a point is
  `Option`-valued.
* The file-scope globals read by the code (`def_env_reset`, `def_env_keep`,
  `runas_pw`, `user_name`, ...) are the fields of the record `Ctx`.
-/

namespace Sudo

/-! ## C strings -/

/-- A C string: its characters before the terminating NUL. -/
abbrev Str := List Char

/-- The character read by `s[i]`; the terminator reads as NUL. -/
def char_at (s : Str) (i : Nat) : Char := s.getD i (Char.ofNat 0)

/-- The call `strlen(s)`. -/
def strlen (s : Str) : Nat := s.length

/-- The call `strncmp(s1, s2, n)`, up to the sign of the result: zero when
the first `n` characters (or the whole strings, when shorter) agree. -/
def strncmp : Str → Str → Nat → Int
  | _, _, 0 => 0
  | [], [], _ + 1 => 0
  | [], _ :: _, _ + 1 => -1
  | _ :: _, [], _ + 1 => 1
  | a :: s1, b :: s2, n + 1 =>
    if a = b then strncmp s1 s2 n else if a.toNat < b.toNat then -1 else 1

/-- The call `strchr(s, c)` for a non-NUL `c`: the offset of the first
occurrence of `c`, or `none` for a `NULL` result. -/
def strchr : Str → Char → Option Nat
  | [], _ => none
  | a :: s, c => if a = c then some 0 else (strchr s c).map (· + 1)

/-- The call `strpbrk(s, accept)`: the offset of the first character of `s`
that occurs in `accept`, or `none` for a `NULL` result. -/
def strpbrk : Str → Str → Option Nat
  | [], _ => none
  | a :: s, accept => if a ∈ accept then some 0 else (strpbrk s accept).map (· + 1)

/-! ## Globals -/

/-- The fields of `struct passwd` read by `rebuild_env`. -/
structure passwd where
  pw_name : Option Str
  pw_dir : Option Str
  pw_shell : Str

/-- The three arms of the `#if` around the noexec variable (lines 503-514). -/
inductive Platform where
  | darwin
  | osf_sgi
  | other
  deriving DecidableEq, Repr

/-- The globals and build-time constants read by `env.c`.

Modelled from the spec: `_PATH_DEFPATH` comes from a header that is not among
the sources; it is the field `PATH_DEFPATH`, a fixed default search path, of
which only the leading `/` of its first directory is assumed.

`SIZE_MAX` is the largest value of `size_t`, a constant of the platform.  The
strings that `rebuild_env` hands to `format_env` are distinct objects of one
address space, which they share with the program: `strings_fit` records that
the length of each of them, and of the command together with its arguments,
is at least 64 below `SIZE_MAX`. -/
structure Ctx where
  def_env_reset : Bool
  def_env_delete : List Str
  def_env_check : List Str
  def_env_keep : List Str
  def_secure_path : Option Str
  user_is_exempt : Bool
  def_noexec_file : Option Str
  runas_pw : passwd
  user_name : Str
  user_dir : Str
  sudo_user_pw_shell : Str
  user_cmnd : Str
  user_args : Option Str
  user_uid : Nat
  user_gid : Nat
  PATH_DEFPATH : Str
  PATH_DEFPATH_abs : PATH_DEFPATH.head? = some '/'
  platform : Platform
  SIZE_MAX : Nat
  strings_fit : ∀ s ∈ [def_secure_path.getD [], def_noexec_file.getD [],
      runas_pw.pw_name.getD [], runas_pw.pw_dir.getD [], runas_pw.pw_shell, user_name,
      user_dir, sudo_user_pw_shell, user_cmnd ++ user_args.getD [], PATH_DEFPATH],
    strlen s + 64 ≤ SIZE_MAX

/-- The argument `sudo_mode`, as the two tests the code makes on it:
`ISSET(sudo_mode, MODE_LOGIN_SHELL)` and `ISSET(sudo_mode, MODE_RESET_HOME)`
(the values of the two `MODE_` macros are not among the sources). -/
structure sudo_mode_t where
  login_shell : Bool
  reset_home : Bool

/-! ## var_ok -/

/-- The guard of lines 300-303 and 376-379:
`(cp = strchr(var, '=')) != NULL && strncmp(cp, "=() ", 3) == 0`. -/
def is_bash_function (var : Str) : Bool :=
  match strchr var '=' with
  | none => false
  | some i => strncmp (var.drop i) "=() ".toList 3 == 0

/-- The pattern test written out three times in the source (lines 307-315,
322-330, 382-390): strip a trailing `*`, then compare `len` characters and,
for a pattern without `*`, require `var[len] == '='`.  An empty pattern makes
`cur->value[len - 1]` read before the string: `none`. -/
def pattern_test (value var : Str) : Option Bool :=
  let len := strlen value
  if len = 0 then none
  else
    let iswild := char_at value (len - 1) == '*'
    let len := if iswild then len - 1 else len
    some (strncmp value var len == 0 && (iswild || char_at var len == '='))

/-- The loop over `def_env_delete` (lines 306-318). -/
def delete_loop : List Str → Str → Bool → Option Bool
  | [], _, okvar => some okvar
  | cur :: next, var, okvar =>
    if okvar then
      match pattern_test cur var with
      | none => none
      | some m => delete_loop next var (if m then false else okvar)
    else some okvar

/-- The loop over `def_env_check` (lines 321-334). -/
def check_loop : List Str → Str → Bool → Option Bool
  | [], _, okvar => some okvar
  | cur :: next, var, okvar =>
    if okvar then
      match pattern_test cur var with
      | none => none
      | some m =>
        check_loop next var (if m && (strpbrk var "/%".toList).isSome then false else okvar)
    else some okvar

/-- The function `var_ok` (lines 290-337): `some true` for TRUE, `some false`
for FALSE. -/
def var_ok (g : Ctx) (var : Str) : Option Bool :=
  if is_bash_function var then some false
  else
    match delete_loop g.def_env_delete var true with
    | none => none
    | some okvar => check_loop g.def_env_check var okvar

/-- The keep loop of `rebuild_env` (lines 381-394): the value of `keepit`. -/
def keep_loop : List Str → Str → Option Bool
  | [], _ => some false
  | cur :: next, ep =>
    match pattern_test cur ep with
    | none => none
    | some m => if m then some true else keep_loop next ep

/-! ## The matching rule in the words of the specification -/

/-- The matching rule of the specification: a pattern ending in `*` matches
the names that start with the pattern minus that `*`; any other pattern
matches only the name equal to it. -/
def SpecMatch (pattern name : Str) : Prop :=
  if pattern.getLast? = some '*' then pattern.dropLast <+: name else name = pattern

instance (pattern name : Str) : Decidable (SpecMatch pattern name) := by
  unfold SpecMatch; infer_instance

/-- A context that only carries a deny list and a check list. -/
def Ctx.ofLists (deny check : List Str) : Ctx :=
  { def_env_reset := false, def_env_delete := deny, def_env_check := check,
    def_env_keep := [], def_secure_path := none, user_is_exempt := false,
    def_noexec_file := none, runas_pw := ⟨none, none, []⟩, user_name := [],
    user_dir := [], sudo_user_pw_shell := [], user_cmnd := [], user_args := none,
    user_uid := 0, user_gid := 0, PATH_DEFPATH := ['/'], PATH_DEFPATH_abs := rfl,
    platform := Platform.other, SIZE_MAX := 18446744073709551615,
    strings_fit := by decide }

/-- The pattern test read on the whole entry, as the code makes it: a pattern
ending in `*` asks for the stripped pattern at the start of the entry, any
other pattern asks for the pattern followed by `=` at the start of the entry. -/
def EntryMatch (pattern var : Str) : Prop :=
  if pattern.getLast? = some '*' then pattern.dropLast <+: var else (pattern ++ ['=']) <+: var

instance (pattern var : Str) : Decidable (EntryMatch pattern var) := by
  unfold EntryMatch; infer_instance

/-- The condition under which the specification's `classify` rejects the entry
`name=value`: the value begins with `()`, or a deny pattern matches the name,
or a check pattern matches the name and the value contains `/` or `%`. -/
def SpecReject (deny check : List Str) (name value : Str) : Prop :=
  "()".toList <+: value ∨ (∃ p ∈ deny, SpecMatch p name) ∨
    ((∃ p ∈ check, SpecMatch p name) ∧ ∃ c ∈ value, c = '/' ∨ c = '%')

/-- The condition under which the code rejects the entry `name=value`: as
`SpecReject`, with `/` or `%` looked for in the whole entry. -/
def CodeReject (deny check : List Str) (name value : Str) : Prop :=
  "()".toList <+: value ∨ (∃ p ∈ deny, SpecMatch p name) ∨
    ((∃ p ∈ check, SpecMatch p name) ∧ ∃ c ∈ name ++ '=' :: value, c = '/' ∨ c = '%')

instance (deny check : List Str) (name value : Str) : Decidable (SpecReject deny check name value) := by
  unfold SpecReject; infer_instance

instance (deny check : List Str) (name value : Str) : Decidable (CodeReject deny check name value) := by
  unfold CodeReject; infer_instance

/-! ## format_env -/

/-- The call `strlcpy(dst, src, siz)` on a destination not read before: the
new contents of `dst` and the value returned, `strlen(src)` (the length of a
string in memory, which is below `SIZE_MAX`). -/
def strlcpy (src : Str) (siz : Nat) : Str × Nat :=
  (src.take (siz - 1), strlen src)

/-- The call `strlcat(dst, src, siz)`: the new contents of `dst` and the value
returned, `strlen(src)` plus the smaller of `siz` and the length of `dst`
(`dst` and `src` are distinct objects of one address space, so that this sum
is below `SIZE_MAX` and is the value of the `size_t` returned). -/
def strlcat (dst src : Str) (siz : Nat) : Str × Nat :=
  if siz ≤ strlen dst then (dst, siz + strlen src)
  else (dst ++ src.take (siz - strlen dst - 1), strlen dst + strlen src)

/-- The values the two `va_arg` loops of `format_env` read: the variadic
arguments up to the first `NULL` (the list ends where the call has `VNULL`). -/
def va_strings : List (Option Str) → List Str
  | some val :: ap => val :: va_strings ap
  | _ => []

/-- The second `va_arg` loop of `format_env` (lines 242-245); `none` is the
`errorx` exit. -/
def format_env_cat : Str → List Str → Nat → Option Str
  | estring, [], _ => some estring
  | estring, val :: ap, esize =>
    let r := strlcat estring val esize
    if r.2 ≥ esize then none else format_env_cat r.1 ap esize

/-- The first `va_arg` loop of `format_env` (lines 222-225): the value of
`esize` handed to `emalloc`.  The sum is made in `size_t`: each addition is
taken modulo `SIZE_MAX + 1`. -/
def format_env_esize (size_max : Nat) (var : Str) (args : List (Option Str)) : Nat :=
  (va_strings args).foldl (fun esize val => (esize + strlen val) % (size_max + 1))
    ((strlen var + 2) % (size_max + 1))

/-- The function `format_env` (lines 204-249) for a `size_t` of largest value
`size_max`; `none` is the `errorx` exit.  Storage is taken to be available
(`emalloc` returns). -/
def format_env (size_max : Nat) (var : Str) (args : List (Option Str)) : Option Str :=
  let esize := format_env_esize size_max var args
  let r1 := strlcpy var esize
  if r1.2 ≥ esize then none
  else
    let r2 := strlcat r1.1 "=".toList esize
    if r2.2 ≥ esize then none
    else format_env_cat r2.1 (va_strings args) esize

/-- Modelled from the spec: `easprintf` is not among the sources; the calls
`easprintf(&cp, "SUDO_UID=%lu", n)` and `easprintf(&cp, "SUDO_GID=%lu", n)` are
taken to yield the prefix followed by the decimal rendering of `n`. -/
def easprintf_lu (pre : Str) (n : Nat) : Str := pre ++ Nat.toDigits 10 n

/-! ## The builder -/

/-- One `char *` slot of the vector `envp`: storage never written, `NULL`, or
a pointer to a string. -/
inductive Slot where
  | uninit
  | null
  | ptr (s : Str)
  deriving DecidableEq

/-- The record `struct environment`: `envp` lists the slots of the vector (no
slot at all for a `NULL` vector), `env_size` and `env_len` are the counters. -/
structure environment where
  envp : List Slot
  env_size : Nat
  env_len : Nat
  deriving DecidableEq

/-- Modelled from the spec: `erealloc3` is not among the sources; it is taken
to grow the vector to `nmemb` slots, keeping the slots it had; as with
`realloc`, the added slots hold nothing that may be read. -/
def erealloc3 (envp : List Slot) (nmemb : Nat) : List Slot :=
  envp ++ List.replicate (nmemb - envp.length) Slot.uninit

/-- The assignment `envp[k] = x`; `none` when slot `k` is outside the vector. -/
def store (envp : List Slot) (k : Nat) (x : Slot) : Option (List Slot) :=
  if k < envp.length then some (envp.set k x) else none

/-- The scan `for (nep = e->envp; *nep; nep++)` of `insert_env` (lines
272-277), started at slot `k`: `(true, i)` when slot `i` is the first whose
string agrees with `str` on `varlen` characters, `(false, i)` when the scan
stops at the `NULL` in slot `i`; `none` when it reads a slot never written or
leaves the vector. -/
def dup_scan (str : Str) (varlen : Nat) : List Slot → Nat → Option (Bool × Nat)
  | [], _ => none
  | Slot.uninit :: _, _ => none
  | Slot.null :: _, k => some (false, k)
  | Slot.ptr s :: nep, k =>
    if strncmp str s varlen == 0 then some (true, k) else dup_scan str varlen nep (k + 1)

/-- The last three statements of `insert_env` (lines 281-283) with `nep` at
slot `k`: `e->env_len++; *nep++ = str; *nep = NULL;`. -/
def insert_at (e : environment) (k : Nat) (str : Str) : Option environment :=
  match store e.envp k (Slot.ptr str) with
  | none => none
  | some v =>
    match store v (k + 1) Slot.null with
    | none => none
    | some v2 => some { e with envp := v2, env_len := e.env_len + 1 }

/-- The function `insert_env` (lines 254-284).  With `dupcheck` set, a `str`
without `=` makes `strchr` return `NULL` and the pointer difference
undefined: `none`. -/
def insert_env (str : Str) (e : environment) (dupcheck : Bool) : Option environment :=
  let e1 : environment :=
    if e.env_len + 2 > e.env_size then
      { e with env_size := e.env_size + 128, envp := erealloc3 e.envp (e.env_size + 128) }
    else e
  if dupcheck then
    match strchr str '=' with
    | none => none
    | some i =>
      let varlen := i + 1
      match dup_scan str varlen e1.envp 0 with
      | none => none
      | some (true, k) =>
        match store e1.envp k (Slot.ptr str) with
        | none => none
        | some v => some { e1 with envp := v }
      | some (false, k) => insert_at e1 k str
  else insert_at e1 e1.env_len str

/-- The sequence of strings an `exec` reads from a vector: the strings up to
the first `NULL`; `none` when a slot never written, or the end of the vector,
comes first. -/
def environ_of : List Slot → Option (List Str)
  | [] => none
  | Slot.uninit :: _ => none
  | Slot.null :: _ => some []
  | Slot.ptr s :: v => (environ_of v).map (s :: ·)

/-! ## rebuild_env -/

/-- The flag `DID_TERM`. -/
def DID_TERM : Nat := 0x01
/-- The flag `DID_PATH`. -/
def DID_PATH : Nat := 0x02
/-- The flag `DID_HOME`. -/
def DID_HOME : Nat := 0x04
/-- The flag `DID_SHELL`. -/
def DID_SHELL : Nat := 0x08
/-- The flag `DID_LOGNAME`. -/
def DID_LOGNAME : Nat := 0x10
/-- The flag `DID_USER`. -/
def DID_USER : Nat := 0x20

/-- Modelled from the spec: the macro `SET` of `sudo.h` (not among the
sources) marks a bit as supplied, `t |= f`; the value is the new `t`. -/
def SET (t f : Nat) : Nat := t ||| f

/-- Modelled from the spec: the macro `ISSET` of `sudo.h` (not among the
sources) tests a bit, `t & f`, read as a condition. -/
def ISSET (t f : Nat) : Bool := (t &&& f) != 0

/-- The locals of `rebuild_env` that outlive the source loops, over a builder
state of type `E`. -/
structure locals (E : Type) where
  env : E
  didvar : Nat
  ps1 : Option Str

/-- The `switch (**ep)` of the keep branch (lines 402-427): the new `didvar`. -/
def keep_didvar (ep : Str) (didvar : Nat) : Nat :=
  let c := char_at ep 0
  if c = 'H' then
    if strncmp ep "HOME=".toList 5 == 0 then SET didvar DID_HOME else didvar
  else if c = 'L' then
    if strncmp ep "LOGNAME=".toList 8 == 0 then SET didvar DID_LOGNAME else didvar
  else if c = 'P' then
    if strncmp ep "PATH=".toList 5 == 0 then SET didvar DID_PATH else didvar
  else if c = 'S' then
    if strncmp ep "SHELL=".toList 6 == 0 then SET didvar DID_SHELL else didvar
  else if c = 'T' then
    if strncmp ep "TERM=".toList 5 == 0 then SET didvar DID_TERM else didvar
  else if c = 'U' then
    if strncmp ep "USER=".toList 5 == 0 then SET didvar DID_USER else didvar
  else didvar

section Body

variable {E : Type} (ins : Str → E → Bool → Option E)

/-- The statement `insert_env(str, &env, dupcheck)`. -/
def put_str (str : Str) (dupcheck : Bool) (st : locals E) : Option (locals E) :=
  match ins str st.env dupcheck with
  | none => none
  | some env => some { st with env := env }

/-- The statement `insert_env(format_env(var, args..., VNULL), &env, dupcheck)`,
for a `size_t` of largest value `size_max`. -/
def put (size_max : Nat) (var : Str) (args : List (Option Str)) (dupcheck : Bool)
    (st : locals E) : Option (locals E) :=
  match format_env size_max var args with
  | none => none
  | some str => put_str ins str dupcheck st

/-- The body of the reset-mode loop for one entry `*ep` (lines 373-429). -/
def reset_entry (g : Ctx) (ep : Str) (st : locals E) : Option (locals E) :=
  if is_bash_function ep then some st
  else
    match keep_loop g.def_env_keep ep with
    | none => none
    | some keepit =>
      let ps1 := if strncmp ep "SUDO_PS1=".toList 8 == 0 then some (ep.drop 5) else st.ps1
      if keepit then
        put_str ins ep false { st with didvar := keep_didvar ep st.didvar, ps1 := ps1 }
      else some { st with ps1 := ps1 }

/-- The body of the filter-mode loop for one entry `*ep` (lines 463-471). -/
def filter_entry (g : Ctx) (ep : Str) (st : locals E) : Option (locals E) :=
  match var_ok g ep with
  | none => none
  | some ok =>
    if ok then
      if strncmp ep "SUDO_PS1=".toList 9 == 0 then
        put_str ins ep false { st with ps1 := some (ep.drop 5) }
      else if strncmp ep "PATH=".toList 5 == 0 then
        put_str ins ep false { st with didvar := SET st.didvar DID_PATH }
      else if strncmp ep "TERM=".toList 5 == 0 then
        put_str ins ep false { st with didvar := SET st.didvar DID_TERM }
      else put_str ins ep false st
    else some st

/-- The loop `for (; *ep; ep++)` over one source vector. -/
def each_entry (body : Str → locals E → Option (locals E)) :
    List Str → locals E → Option (locals E)
  | [], st => some st
  | ep :: rest, st =>
    match body ep st with
    | none => none
    | some st1 => each_entry body rest st1

/-- The loop `for (i = 0; i < 2; i++)` over `envpv`, skipping a `NULL` vector. -/
def each_source (body : Str → locals E → Option (locals E))
    (envp1 envp2 : Option (List Str)) (st : locals E) : Option (locals E) :=
  match (match envp1 with
    | none => some st
    | some v => each_entry body v st) with
  | none => none
  | some st1 =>
    match envp2 with
    | none => some st1
    | some v => each_entry body v st1

/-- The defaults added at the end of the reset branch (lines 438-453). -/
def reset_defaults (g : Ctx) (sudo_mode : sudo_mode_t) (st : locals E) : Option (locals E) :=
  if sudo_mode.login_shell then
    (put ins g.SIZE_MAX "HOME".toList [g.runas_pw.pw_dir] false st).bind fun st =>
    (put ins g.SIZE_MAX "SHELL".toList [some g.runas_pw.pw_shell] false st).bind fun st =>
    (put ins g.SIZE_MAX "LOGNAME".toList [g.runas_pw.pw_name] false st).bind fun st =>
    put ins g.SIZE_MAX "USER".toList [g.runas_pw.pw_name] false st
  else
    (if !ISSET st.didvar DID_HOME then put ins g.SIZE_MAX "HOME".toList [some g.user_dir] false st
      else some st).bind fun st =>
    (if !ISSET st.didvar DID_SHELL then
        put ins g.SIZE_MAX "SHELL".toList [some g.sudo_user_pw_shell] false st
      else some st).bind fun st =>
    (if !ISSET st.didvar DID_LOGNAME then put ins g.SIZE_MAX "LOGNAME".toList [some g.user_name] false st
      else some st).bind fun st =>
    (if !ISSET st.didvar DID_USER then put ins g.SIZE_MAX "USER".toList [some g.user_name] false st
      else some st)

/-- Lines 475-479: the secure path. -/
def secure_path (g : Ctx) (st : locals E) : Option (locals E) :=
  match g.def_secure_path with
  | some sp =>
    if !g.user_is_exempt then
      (put ins g.SIZE_MAX "PATH".toList [some sp] true st).map fun st =>
        { st with didvar := SET st.didvar DID_PATH }
    else some st
  | none => some st

/-- Lines 481-485: `LOGNAME` and `USER` of the target user. -/
def set_logname (g : Ctx) (st : locals E) : Option (locals E) :=
  match g.runas_pw.pw_name with
  | some name =>
    if g.def_env_reset then
      (put ins g.SIZE_MAX "LOGNAME".toList [some name] true st).bind fun st =>
      put ins g.SIZE_MAX "USER".toList [some name] true st
    else some st
  | none => some st

/-- Lines 487-489: `HOME` of the target user. -/
def set_home (g : Ctx) (sudo_mode : sudo_mode_t) (st : locals E) : Option (locals E) :=
  match g.runas_pw.pw_dir with
  | some dir =>
    if g.def_env_reset || sudo_mode.reset_home then put ins g.SIZE_MAX "HOME".toList [some dir] true st
    else some st
  | none => some st

/-- Lines 491-495: defaults for `TERM` and `PATH`. -/
def default_term_path (g : Ctx) (st : locals E) : Option (locals E) :=
  (if !ISSET st.didvar DID_TERM then put_str ins "TERM=unknown".toList false st
    else some st).bind fun st =>
  (if !ISSET st.didvar DID_PATH then put ins g.SIZE_MAX "PATH".toList [some g.PATH_DEFPATH] false st
    else some st)

/-- Lines 502-515: the noexec preload variable. -/
def noexec_preload (g : Ctx) (noexec : Bool) (st : locals E) : Option (locals E) :=
  match g.def_noexec_file with
  | some file =>
    if noexec then
      match g.platform with
      | Platform.darwin =>
        (put ins g.SIZE_MAX "DYLD_INSERT_LIBRARIES".toList [some file] true st).bind fun st =>
        put ins g.SIZE_MAX "DYLD_FORCE_FLAT_NAMESPACE".toList [] true st
      | Platform.osf_sgi => put ins g.SIZE_MAX "_RLD_LIST".toList [some file, some ":DEFAULT".toList] true st
      | Platform.other => put ins g.SIZE_MAX "LD_PRELOAD".toList [some file] true st
    else some st
  | none => some st

/-- Lines 517-519: `PS1` from `SUDO_PS1`. -/
def set_ps1 (st : locals E) : Option (locals E) :=
  match st.ps1 with
  | some ps1 => put_str ins ps1 true st
  | none => some st

/-- Lines 521-533: `SUDO_COMMAND`, `SUDO_USER`, `SUDO_UID`, `SUDO_GID`. -/
def sudo_vars (g : Ctx) (st : locals E) : Option (locals E) :=
  (match g.user_args with
    | some args =>
      put ins g.SIZE_MAX "SUDO_COMMAND".toList [some g.user_cmnd, some " ".toList, some args] true st
    | none => put ins g.SIZE_MAX "SUDO_COMMAND".toList [some g.user_cmnd] true st).bind fun st =>
  (put ins g.SIZE_MAX "SUDO_USER".toList [some g.user_name] true st).bind fun st =>
  (put_str ins (easprintf_lu "SUDO_UID=".toList g.user_uid) true st).bind fun st =>
  put_str ins (easprintf_lu "SUDO_GID=".toList g.user_gid) true st

/-- The body of `rebuild_env` (lines 358-533) over the builder operation
`ins`, started on the builder state `env0`. -/
def rebuild_body (env0 : E) (g : Ctx) (envp1 envp2 : Option (List Str))
    (sudo_mode : sudo_mode_t) (noexec : Bool) : Option (locals E) :=
  (if g.def_env_reset then
      (each_source (reset_entry ins g) envp1 envp2 ⟨env0, 0, none⟩).bind
        (reset_defaults ins g sudo_mode)
    else each_source (filter_entry ins g) envp1 envp2 ⟨env0, 0, none⟩).bind fun st =>
  (secure_path ins g st).bind fun st =>
  (set_logname ins g st).bind fun st =>
  (set_home ins g sudo_mode st).bind fun st =>
  (default_term_path ins g st).bind fun st =>
  (noexec_preload ins g noexec st).bind fun st =>
  (set_ps1 ins st).bind fun st =>
  sudo_vars ins g st

end Body

/-- The function `rebuild_env` (lines 344-536): the body run on `insert_env`
from the zeroed `struct environment`; the value returned is `env.envp`. -/
def rebuild_env (g : Ctx) (envp1 envp2 : Option (List Str)) (sudo_mode : sudo_mode_t)
    (noexec : Bool) : Option (List Slot) :=
  (rebuild_body insert_env ⟨[], 0, 0⟩ g envp1 envp2 sudo_mode noexec).map fun st => st.env.envp

/-- The environment handed to the command: the strings read from the vector
that `rebuild_env` returns. -/
def rebuild_environ (g : Ctx) (envp1 envp2 : Option (List Str)) (sudo_mode : sudo_mode_t)
    (noexec : Bool) : Option (List Str) :=
  (rebuild_env g envp1 envp2 sudo_mode noexec).bind environ_of

/-! ## The builder on lists -/

/-- The list after a replace-or-append insertion: the first string that `p`
accepts is replaced by `str`; without one, `str` goes to the end. -/
def replace_or_append (p : Str → Bool) (str : Str) : List Str → List Str
  | [] => [str]
  | s :: l => if p s then str :: l else s :: replace_or_append p str l

/-- The effect of `insert_env` on the list of strings held by the builder.
With `dupcheck` set there is no result for a `str` without `=`, nor on the
builder that holds nothing yet (its vector was never written). -/
def list_insert (str : Str) (l : List Str) (dupcheck : Bool) : Option (List Str) :=
  if dupcheck then
    match strchr str '=' with
    | none => none
    | some i =>
      if l = [] then none
      else some (replace_or_append (fun s => strncmp str s (i + 1) == 0) str l)
  else some (l ++ [str])

/-- The body of `rebuild_env` run on lists: the list of strings of the result. -/
def rebuild_list (g : Ctx) (envp1 envp2 : Option (List Str)) (sudo_mode : sudo_mode_t)
    (noexec : Bool) : Option (List Str) :=
  (rebuild_body list_insert [] g envp1 envp2 sudo_mode noexec).map fun st => st.env

/-! ## Relating the vector and the list -/

/-- The builder state `e` holds the strings `l`: either it is the zeroed
record and `l` is empty, or its vector starts with pointers to the strings of
`l` followed by `NULL`, with `env_len` their number and `env_size` the number
of slots. -/
def Rep (e : environment) (l : List Str) : Prop :=
  (l = [] ∧ e = ⟨[], 0, 0⟩) ∨
  (l ≠ [] ∧ ∃ rest, e.envp = l.map Slot.ptr ++ Slot.null :: rest ∧
    e.env_len = l.length ∧ e.env_size = e.envp.length)

/-- Two optional results agree: both absent, or both present and related. -/
def OptRel {α β : Type} (R : α → β → Prop) : Option α → Option β → Prop
  | none, none => True
  | some a, some b => R a b
  | _, _ => False

/-- Two records of locals agree: related builders, equal `didvar` and `ps1`. -/
def LocRel {E1 E2 : Type} (R : E1 → E2 → Prop) (s1 : locals E1) (s2 : locals E2) : Prop :=
  R s1.env s2.env ∧ s1.didvar = s2.didvar ∧ s1.ps1 = s2.ps1

/-! ## The sequence of insertions made by rebuild_env -/

/-- The string `var=fragments` that `format_env(var, args..., VNULL)` builds. -/
def fmt (var : Str) (args : List (Option Str)) : Str := var ++ '=' :: (va_strings args).flatten

/-- A sequence of calls of `insert_env`, each a string and its `dupcheck`, run
on the list held by the builder. -/
def run : List (Str × Bool) → List Str → Option (List Str)
  | [], l => some l
  | c :: cs, l => (list_insert c.1 l c.2).bind (run cs)

/-- The two source vectors in the order the loops read them. -/
def sources (envp1 envp2 : Option (List Str)) : List Str := envp1.getD [] ++ envp2.getD []

/-- The test made on a source entry by the reset-mode loop: it passes the
guard of lines 376-379 and the keep loop sets `keepit`. -/
def reset_keeps (g : Ctx) (ep : Str) : Bool :=
  !is_bash_function ep && keep_loop g.def_env_keep ep == some true

/-- The reset-mode loop has a defined result on the entry. -/
def reset_defined (g : Ctx) (ep : Str) : Bool :=
  is_bash_function ep || (keep_loop g.def_env_keep ep).isSome

/-- The value of `ps1` after the reset-mode loop: the tail, from offset 5, of
the last entry that passes the guard and agrees with `SUDO_PS1=` on 8
characters. -/
def reset_ps1 (v : List Str) (ps1 : Option Str) : Option Str :=
  v.foldl (fun p ep =>
    if !is_bash_function ep && strncmp ep "SUDO_PS1=".toList 8 == 0 then some (ep.drop 5) else p) ps1

/-- The locals after the reset-mode loop over the entries `v`. -/
def reset_locals (g : Ctx) (v : List Str) (st : locals (List Str)) : locals (List Str) :=
  ⟨st.env ++ v.filter (reset_keeps g),
   (v.filter (reset_keeps g)).foldl (fun d ep => keep_didvar ep d) st.didvar,
   reset_ps1 v st.ps1⟩

/-- The test made on a source entry by the filter-mode loop. -/
def filter_keeps (g : Ctx) (ep : Str) : Bool := var_ok g ep == some true

/-- The update of `didvar` for a copied entry in filter mode (lines 464-469). -/
def filter_didvar (ep : Str) (didvar : Nat) : Nat :=
  if strncmp ep "SUDO_PS1=".toList 9 == 0 then didvar
  else if strncmp ep "PATH=".toList 5 == 0 then SET didvar DID_PATH
  else if strncmp ep "TERM=".toList 5 == 0 then SET didvar DID_TERM
  else didvar

/-- The value of `ps1` after the filter-mode loop. -/
def filter_ps1 (g : Ctx) (v : List Str) (ps1 : Option Str) : Option Str :=
  (v.filter (filter_keeps g)).foldl (fun p ep =>
    if strncmp ep "SUDO_PS1=".toList 9 == 0 then some (ep.drop 5) else p) ps1

/-- The locals after the filter-mode loop over the entries `v`. -/
def filter_locals (g : Ctx) (v : List Str) (st : locals (List Str)) : locals (List Str) :=
  ⟨st.env ++ v.filter (filter_keeps g),
   (v.filter (filter_keeps g)).foldl (fun d ep => filter_didvar ep d) st.didvar,
   filter_ps1 g v st.ps1⟩

/-- The locals after the source loops, when every entry has a defined result. -/
def loop_locals (g : Ctx) (v : List Str) : Option (locals (List Str)) :=
  if g.def_env_reset then
    if v.all (reset_defined g) then some (reset_locals g v ⟨[], 0, none⟩) else none
  else
    if v.all (fun ep => (var_ok g ep).isSome) then some (filter_locals g v ⟨[], 0, none⟩)
    else none

/-- The insertions of lines 438-453. -/
def defaults_cmds (g : Ctx) (m : sudo_mode_t) (didvar : Nat) : List (Str × Bool) :=
  if m.login_shell then
    [(fmt "HOME".toList [g.runas_pw.pw_dir], false),
     (fmt "SHELL".toList [some g.runas_pw.pw_shell], false),
     (fmt "LOGNAME".toList [g.runas_pw.pw_name], false),
     (fmt "USER".toList [g.runas_pw.pw_name], false)]
  else
    (if !ISSET didvar DID_HOME then [(fmt "HOME".toList [some g.user_dir], false)] else []) ++
    ((if !ISSET didvar DID_SHELL then [(fmt "SHELL".toList [some g.sudo_user_pw_shell], false)]
      else []) ++
    ((if !ISSET didvar DID_LOGNAME then [(fmt "LOGNAME".toList [some g.user_name], false)]
      else []) ++
    (if !ISSET didvar DID_USER then [(fmt "USER".toList [some g.user_name], false)] else [])))

/-- The secure path is in force: it is configured and the user is not exempt. -/
def secure_active (g : Ctx) : Bool := g.def_secure_path.isSome && !g.user_is_exempt

/-- The insertion of lines 475-479. -/
def secure_cmds (g : Ctx) : List (Str × Bool) :=
  match g.def_secure_path with
  | some sp => if !g.user_is_exempt then [(fmt "PATH".toList [some sp], true)] else []
  | none => []

/-- The value of `didvar` after lines 475-479. -/
def secure_didvar (g : Ctx) (didvar : Nat) : Nat :=
  if secure_active g then SET didvar DID_PATH else didvar

/-- The insertions of lines 481-485. -/
def logname_cmds (g : Ctx) : List (Str × Bool) :=
  match g.runas_pw.pw_name with
  | some name =>
    if g.def_env_reset then
      [(fmt "LOGNAME".toList [some name], true), (fmt "USER".toList [some name], true)]
    else []
  | none => []

/-- The insertion of lines 487-489. -/
def home_cmds (g : Ctx) (m : sudo_mode_t) : List (Str × Bool) :=
  match g.runas_pw.pw_dir with
  | some dir =>
    if g.def_env_reset || m.reset_home then [(fmt "HOME".toList [some dir], true)] else []
  | none => []

/-- The insertions of lines 491-495. -/
def termpath_cmds (g : Ctx) (didvar : Nat) : List (Str × Bool) :=
  (if !ISSET didvar DID_TERM then [("TERM=unknown".toList, false)] else []) ++
  (if !ISSET didvar DID_PATH then [(fmt "PATH".toList [some g.PATH_DEFPATH], false)] else [])

/-- The insertions of lines 502-515. -/
def noexec_cmds (g : Ctx) (noexec : Bool) : List (Str × Bool) :=
  match g.def_noexec_file with
  | some file =>
    if noexec then
      match g.platform with
      | Platform.darwin =>
        [(fmt "DYLD_INSERT_LIBRARIES".toList [some file], true),
         (fmt "DYLD_FORCE_FLAT_NAMESPACE".toList [], true)]
      | Platform.osf_sgi => [(fmt "_RLD_LIST".toList [some file, some ":DEFAULT".toList], true)]
      | Platform.other => [(fmt "LD_PRELOAD".toList [some file], true)]
    else []
  | none => []

/-- The insertion of lines 517-519. -/
def ps1_cmds (ps1 : Option Str) : List (Str × Bool) :=
  match ps1 with
  | some s => [(s, true)]
  | none => []

/-- The insertions of lines 521-533. -/
def sudo_cmds (g : Ctx) : List (Str × Bool) :=
  [((match g.user_args with
      | some args => fmt "SUDO_COMMAND".toList [some g.user_cmnd, some " ".toList, some args]
      | none => fmt "SUDO_COMMAND".toList [some g.user_cmnd]), true),
   (fmt "SUDO_USER".toList [some g.user_name], true),
   (easprintf_lu "SUDO_UID=".toList g.user_uid, true),
   (easprintf_lu "SUDO_GID=".toList g.user_gid, true)]

/-- The insertions of lines 475-533, for the `didvar` and `ps1` left by the
source loops. -/
def tail_cmds (g : Ctx) (m : sudo_mode_t) (noexec : Bool) (didvar : Nat) (ps1 : Option Str) :
    List (Str × Bool) :=
  secure_cmds g ++ (logname_cmds g ++ (home_cmds g m ++
    (termpath_cmds g (secure_didvar g didvar) ++ (noexec_cmds g noexec ++
      (ps1_cmds ps1 ++ sudo_cmds g)))))

/-- The insertions made after the source loops. -/
def all_cmds (g : Ctx) (m : sudo_mode_t) (noexec : Bool) (didvar : Nat) (ps1 : Option Str) :
    List (Str × Bool) :=
  (if g.def_env_reset then defaults_cmds g m didvar else []) ++ tail_cmds g m noexec didvar ps1

/-- A step of the body in normal form: it runs the insertions `c` and updates
`didvar` by `u`. -/
def execd (c : List (Str × Bool)) (u : Nat → Nat) (st : locals (List Str)) :
    Option (locals (List Str)) :=
  (run c st.env).map fun l => ⟨l, u st.didvar, st.ps1⟩

/-- The step `F` runs the insertions `c didvar ps1` and updates `didvar` by `u`. -/
def IsPlan (F : locals (List Str) → Option (locals (List Str)))
    (c : Nat → Option Str → List (Str × Bool)) (u : Nat → Nat) : Prop :=
  ∀ st, F st = execd (c st.didvar st.ps1) u st

/-! ## Looking a name up -/

/-- The string `var` is an entry for `name`: it starts with `name=`. -/
def Named (name var : Str) : Prop := (name ++ ['=']) <+: var

instance (name var : Str) : Decidable (Named name var) := by
  unfold Named; infer_instance

/-- The value a lookup of `name` finds in the environment `l`: what follows
`name=` in the first entry for `name`. -/
def getenv (name : Str) : List Str → Option Str
  | [] => none
  | s :: l => if Named name s then some (s.drop (name.length + 1)) else getenv name l

/-- None of the configured values begins with `()`: the name, home and shell
of the target user and of the invoking user, the secure path, the noexec file
and the command path. -/
def ValuesPlain (g : Ctx) : Prop :=
  (∀ v, g.runas_pw.pw_name = some v → ¬ "()".toList <+: v) ∧
  (∀ v, g.runas_pw.pw_dir = some v → ¬ "()".toList <+: v) ∧
  ¬ "()".toList <+: g.runas_pw.pw_shell ∧
  ¬ "()".toList <+: g.user_name ∧
  ¬ "()".toList <+: g.user_dir ∧
  ¬ "()".toList <+: g.sudo_user_pw_shell ∧
  (∀ v, g.def_secure_path = some v → ¬ "()".toList <+: v) ∧
  (∀ v, g.def_noexec_file = some v → ¬ "()".toList <+: v) ∧
  ¬ "()".toList <+: g.user_cmnd

/-- The entry has the characters `=()` at its first `=`. -/
def FunctionExport (e : Str) : Prop :=
  ∃ name rest, '=' ∉ name ∧ e = name ++ '=' :: '(' :: ')' :: rest

/-- The string inserted for `SUDO_COMMAND` (lines 522-526). -/
def sudo_command (g : Ctx) : Str :=
  match g.user_args with
  | some args => "SUDO_COMMAND=".toList ++ g.user_cmnd ++ ' ' :: args
  | none => "SUDO_COMMAND=".toList ++ g.user_cmnd

/-! ## A sample configuration -/

/-- A sample configuration: filter mode, deny list `IFS`, `LD_*`, check list
`LC_*`, keep list `PATH`, `TERM`, `SHELL`, `HOME`; target user `root`,
invoking user `bob` (uid 1000, gid 100) running `/bin/ls -l`; a `size_t` of
64 bits. -/
def sample : Ctx :=
  { def_env_reset := false,
    def_env_delete := ["IFS".toList, "LD_*".toList],
    def_env_check := ["LC_*".toList],
    def_env_keep := ["PATH".toList, "TERM".toList, "SHELL".toList, "HOME".toList],
    def_secure_path := none,
    user_is_exempt := false,
    def_noexec_file := none,
    runas_pw := ⟨some "root".toList, some "/root".toList, "/bin/sh".toList⟩,
    user_name := "bob".toList,
    user_dir := "/home/bob".toList,
    sudo_user_pw_shell := "/bin/bash".toList,
    user_cmnd := "/bin/ls".toList,
    user_args := some "-l".toList,
    user_uid := 1000,
    user_gid := 100,
    PATH_DEFPATH := "/usr/bin:/bin".toList,
    PATH_DEFPATH_abs := rfl,
    platform := Platform.other,
    SIZE_MAX := 18446744073709551615,
    strings_fit := by decide }

/-- The sample configuration with the secure path `/usr/bin:/bin`. -/
def sample_secure : Ctx :=
  { sample with def_secure_path := some "/usr/bin:/bin".toList, strings_fit := by decide }

/-- The entry `e` is the noexec preload variable of the platform for the
library `file` (lines 503-514). -/
def NoexecVar (pl : Platform) (file e : Str) : Prop :=
  match pl with
  | Platform.darwin =>
    e = "DYLD_INSERT_LIBRARIES=".toList ++ file ∨ e = "DYLD_FORCE_FLAT_NAMESPACE=".toList
  | Platform.osf_sgi => e = "_RLD_LIST=".toList ++ file ++ ":DEFAULT".toList
  | Platform.other => e = "LD_PRELOAD=".toList ++ file

/-- The entry `e` is one of the four entries of lines 521-533: `SUDO_COMMAND`,
`SUDO_USER`, `SUDO_UID`, `SUDO_GID`. -/
def SudoVar (g : Ctx) (e : Str) : Prop :=
  e = sudo_command g ∨ e = "SUDO_USER=".toList ++ g.user_name ∨
  e = "SUDO_UID=".toList ++ Nat.toDigits 10 g.user_uid ∨
  e = "SUDO_GID=".toList ++ Nat.toDigits 10 g.user_gid

/-- The mandatory additions of filter mode: secure `PATH`, reset-home `HOME`,
`TERM=unknown`, default `PATH`, the noexec preload variable, `PS1` from a
copied `SUDO_PS1`, and the four `SUDO_` entries. -/
def FilterAddition (g : Ctx) (m : sudo_mode_t) (nx : Bool) (srcs : List Str) (e : Str) : Prop :=
  (∃ sp, g.def_secure_path = some sp ∧ g.user_is_exempt = false ∧ e = "PATH=".toList ++ sp) ∨
  (∃ dir, g.runas_pw.pw_dir = some dir ∧ m.reset_home = true ∧ e = "HOME=".toList ++ dir) ∨
  e = "TERM=unknown".toList ∨
  e = "PATH=".toList ++ g.PATH_DEFPATH ∨
  (∃ file, g.def_noexec_file = some file ∧ nx = true ∧ NoexecVar g.platform file e) ∨
  (∃ v, "SUDO_PS1=".toList ++ v ∈ srcs ∧ var_ok g ("SUDO_PS1=".toList ++ v) = some true ∧
    e = "PS1=".toList ++ v) ∨
  SudoVar g e

/-! ## Counting the entries of a name -/

/-- The number of entries for `name` in the environment `l`. -/
def count_named (name : Str) (l : List Str) : Nat := l.countP fun e => decide (Named name e)

/-- The effect of one insertion on the number of entries for `name`: an
insertion with `dupcheck` leaves it alone unless it was zero, one without
`dupcheck` adds one. -/
def cnt_step (name : Str) (c : Nat) (cmd : Str × Bool) : Nat :=
  if Named name cmd.1 then (if cmd.2 then max 1 c else c + 1) else c

/-- No insertion of the sequence is an entry for `name`. -/
def SkipFor (name : Str) (cs : List (Str × Bool)) : Prop := ∀ c ∈ cs, ¬ Named name c.1

/-- Every insertion of the sequence is made with `dupcheck` or is no entry
for `name`. -/
def QuietFor (name : Str) (cs : List (Str × Bool)) : Prop :=
  ∀ c ∈ cs, c.2 = true ∨ ¬ Named name c.1

/-- The six names of P3. -/
def six_names : List Str :=
  ["HOME".toList, "SHELL".toList, "LOGNAME".toList, "USER".toList, "TERM".toList, "PATH".toList]

/-- The names of P3 with the bit of `didvar` that stands for each. -/
def flag_table : List (Str × Nat) :=
  [("HOME".toList, 2), ("SHELL".toList, 3), ("LOGNAME".toList, 4), ("USER".toList, 5),
   ("TERM".toList, 0), ("PATH".toList, 1)]

/-- The strings from which the code builds `HOME`, `SHELL`, `LOGNAME`, `USER`
and `PATH` are not empty: those of the target user under the login-shell flag,
those of the invoking user otherwise, the secure path, and the name and home
of the target user when present. -/
def ValuesNonEmpty (g : Ctx) (m : sudo_mode_t) : Prop :=
  (m.login_shell = true →
    g.runas_pw.pw_dir.getD [] ≠ [] ∧ g.runas_pw.pw_shell ≠ [] ∧ g.runas_pw.pw_name.getD [] ≠ []) ∧
  (m.login_shell = false → g.user_dir ≠ [] ∧ g.sudo_user_pw_shell ≠ [] ∧ g.user_name ≠ []) ∧
  (∀ v, g.def_secure_path = some v → v ≠ []) ∧
  (∀ v, g.runas_pw.pw_name = some v → v ≠ []) ∧
  (∀ v, g.runas_pw.pw_dir = some v → v ≠ [])

/-- The four names of P5. -/
def sudo_names : List Str :=
  ["SUDO_USER".toList, "SUDO_UID".toList, "SUDO_GID".toList, "SUDO_COMMAND".toList]

/-! ## Names of entries -/

/-- The name of an entry: its characters before the first `=`. -/
def name_of (e : Str) : Str := e.takeWhile (· != '=')

/-- No two entries of the environment share a name. -/
def UniqueNames (l : List Str) : Prop := (l.map name_of).Nodup

instance (l : List Str) : Decidable (UniqueNames l) := by
  unfold UniqueNames; infer_instance

/-! ## clean_env -/

/-- The object representation of a `char *`: its `sizeof(char *)` bytes, in
the order they lie in memory. -/
abbrev Pointer := List Nat

/-- The strings in memory: the pointers that may be dereferenced, each with
the string it points to. -/
abbrev Heap := List (Pointer × Str)

/-- The string `*p`; `none` for a pointer to no string. -/
def deref : Heap → Pointer → Option Str
  | [], _ => none
  | (q, s) :: heap, p => if q = p then some s else deref heap p

/-- The test `p == NULL`: every byte is zero. -/
def is_null (p : Pointer) : Bool := p.all (· == 0)

/-- The slot `envp[i]` of a vector that lies in the bytes `mem`, for pointers
of `w` bytes; `none` outside the bytes. -/
def load (w : Nat) (mem : List Nat) (i : Nat) : Option Pointer :=
  if (i + 1) * w ≤ mem.length then some ((mem.drop (i * w)).take w) else none

/-- The call `memmove(dst, src, n)` on byte offsets into `mem`: `n` bytes are
copied; `none` when a range leaves the bytes. -/
def memmove (mem : List Nat) (dst src n : Nat) : Option (List Nat) :=
  if src + n ≤ mem.length ∧ dst + n ≤ mem.length then
    some (mem.take dst ++ ((mem.drop src).take n ++ mem.drop (dst + n)))
  else none

/-- The loop `for (end = envp; *end; end++)` of `clean_env` (lines 167-168),
from slot `i`: the index of the first `NULL` slot. -/
def find_end (w : Nat) (mem : List Nat) : Nat → Nat → Option Nat
  | 0, _ => none
  | fuel + 1, i =>
    match load w mem i with
    | none => none
    | some p => if is_null p then some i else find_end w mem fuel (i + 1)

/-- The file-scope variables that `clean_env` sets as side effects. -/
structure side_effects where
  user_path : Option Str
  user_shell : Option Str
  user_prompt : Option Str
  prev_user : Option Str
  deriving DecidableEq

/-- The `switch (**ep)` of `clean_env` (lines 176-189). -/
def clean_env_switch (ep : Str) (s : side_effects) : side_effects :=
  let c := char_at ep 0
  if c = 'P' then
    if strncmp "PATH=".toList ep 5 == 0 then { s with user_path := some (ep.drop 5) } else s
  else if c = 'S' then
    if strncmp "SHELL=".toList ep 6 == 0 then { s with user_shell := some (ep.drop 6) }
    else if s.user_prompt.isNone && strncmp "SUDO_PROMPT=".toList ep 12 == 0 then
      { s with user_prompt := some (ep.drop 12) }
    else if strncmp "SUDO_USER=".toList ep 10 == 0 then { s with prev_user := some (ep.drop 10) }
    else s
  else s

/-- The loop `for (ep = envp; *ep; )` of `clean_env` (lines 175-196), with
`ep` at slot `ep` and `end` at slot `end_`; the vector lies in the bytes `mem`
and `w` is `sizeof(char *)`.  The third argument of `memmove` is `end - ep`, a
number of slots, taken by `memmove` as a number of bytes.  The pruned vector
holds the strings its slots point to.  No result when the fuel runs out, when
a slot outside the bytes is read or a pointer to no string is dereferenced. -/
def clean_env_loop (w : Nat) (heap : Heap) (g : Ctx) (end_ : Nat) :
    Nat → List Nat → Nat → environment → side_effects →
      Option (List Nat × environment × side_effects)
  | 0, _, _, _, _ => none
  | fuel + 1, mem, ep, pruned_env, s =>
    match load w mem ep with
    | none => none
    | some p =>
      if is_null p then some (mem, pruned_env, s)
      else
        match deref heap p with
        | none => none
        | some str =>
          match var_ok g str with
          | none => none
          | some true => clean_env_loop w heap g end_ fuel mem (ep + 1) pruned_env
              (clean_env_switch str s)
          | some false =>
            match insert_env str pruned_env false with
            | none => none
            | some pruned =>
              match memmove mem (ep * w) ((ep + 1) * w) (end_ - ep) with
              | none => none
              | some mem2 => clean_env_loop w heap g end_ fuel mem2 ep pruned
                  (clean_env_switch str s)

/-- The function `clean_env` (lines 158-199) on a vector that lies in the
bytes `mem`: the bytes afterwards, the vector returned (`pruned_env.envp`) and
the variables set. -/
def clean_env (w : Nat) (heap : Heap) (g : Ctx) (s : side_effects) (fuel : Nat)
    (mem : List Nat) : Option (List Nat × List Slot × side_effects) :=
  match find_end w mem (mem.length + 1) 0 with
  | none => none
  | some end_ =>
    (clean_env_loop w heap g end_ fuel mem 0 ⟨[], 0, 0⟩ s).map fun r => (r.1, r.2.1.envp, r.2.2)

/-- The strings of a vector that lies in the bytes `mem`, from slot `i` up to
the first `NULL` slot. -/
def vector_strings (w : Nat) (heap : Heap) (mem : List Nat) : Nat → Nat → Option (List Str)
  | 0, _ => none
  | fuel + 1, i =>
    match load w mem i with
    | none => none
    | some p =>
      if is_null p then some []
      else
        match deref heap p with
        | none => none
        | some str => (vector_strings w heap mem fuel (i + 1)).map (str :: ·)

/-- Two strings as they lie in the environment block of a process with
pointers of 8 bytes: `IFS=x` at address `0x7ffc5a3e1f10` and `A=1`, right
after it, at `0x7ffc5a3e1f16` (bytes in little-endian order). -/
def sample_heap : Heap :=
  [([0x10, 0x1f, 0x3e, 0x5a, 0xfc, 0x7f, 0, 0], "IFS=x".toList),
   ([0x16, 0x1f, 0x3e, 0x5a, 0xfc, 0x7f, 0, 0], "A=1".toList)]

/-- The vector `{"IFS=x", "A=1", NULL}` over `sample_heap`. -/
def sample_vector : List Nat :=
  [0x10, 0x1f, 0x3e, 0x5a, 0xfc, 0x7f, 0, 0] ++ ([0x16, 0x1f, 0x3e, 0x5a, 0xfc, 0x7f, 0, 0] ++
    [0, 0, 0, 0, 0, 0, 0, 0])

/-- What `clean_env` leaves: the strings of the vector afterwards, up to its
first `NULL` slot, and the strings of the vector returned (none for a `NULL`
vector). -/
def clean_env_strings (w : Nat) (heap : Heap) (g : Ctx) (s : side_effects) (fuel : Nat)
    (mem : List Nat) : Option (List Str × List Str) :=
  match clean_env w heap g s fuel mem with
  | none => none
  | some r =>
    match vector_strings w heap r.1 (r.1.length + 1) 0,
      (if r.2.1 = [] then some [] else environ_of r.2.1) with
    | some E, some pruned => some (E, pruned)
    | _, _ => none

/-! ## init_envtables -/

/-- The preprocessor symbols that select entries of `initial_badenv_table`
(lines 101-122). -/
structure build_config where
  hpux : Bool
  aix : Bool
  apple : Bool
  kerb4 : Bool
  kerb5 : Bool
  securid : Bool

/-- The table `initial_badenv_table` (lines 91-130). -/
def initial_badenv_table (b : build_config) : List Str :=
  ["IFS".toList, "CDPATH".toList, "LOCALDOMAIN".toList, "RES_OPTIONS".toList,
    "HOSTALIASES".toList, "NLSPATH".toList, "PATH_LOCALE".toList, "LD_*".toList,
    "_RLD*".toList] ++
  ((if b.hpux then ["SHLIB_PATH".toList] else []) ++
  ((if b.aix then ["LIBPATH".toList] else []) ++
  ((if b.apple then ["DYLD_*".toList] else []) ++
  ((if b.kerb4 then ["KRB_CONF*".toList, "KRBCONFDIR".toList, "KRBTKFILE".toList] else []) ++
  ((if b.kerb5 then ["KRB5_CONFIG*".toList] else []) ++
  ((if b.securid then ["VAR_ACE".toList, "USR_ACE".toList, "DLC_ACE".toList] else []) ++
  ["TERMINFO".toList, "TERMINFO_DIRS".toList, "TERMPATH".toList, "TERMCAP".toList,
    "ENV".toList, "BASH_ENV".toList]))))))

/-- The table `initial_checkenv_table` (lines 135-140). -/
def initial_checkenv_table : List Str := ["LC_*".toList, "LANG".toList, "LANGUAGE".toList]

/-- The table `initial_keepenv_table` (lines 145-151). -/
def initial_keepenv_table : List Str :=
  ["KRB5CCNAME".toList, "PATH".toList, "TERM".toList, "TZ".toList]

/-- One loop of `init_envtables` (lines 545-550): each entry of the table, in
turn, is put in front of the list. -/
def prepend_table (table list : List Str) : List Str :=
  table.foldl (fun cur p => p :: cur) list

/-- The function `init_envtables` (lines 538-567). -/
def init_envtables (b : build_config) (g : Ctx) : Ctx :=
  { g with
    def_env_delete := prepend_table (initial_badenv_table b) g.def_env_delete,
    def_env_check := prepend_table initial_checkenv_table g.def_env_check,
    def_env_keep := prepend_table initial_keepenv_table g.def_env_keep }

/-- The lists of the specification's design: the entries of each table added
at the end of the list, in the order of their declaration. -/
def append_tables (b : build_config) (g : Ctx) : Ctx :=
  { g with
    def_env_delete := g.def_env_delete ++ initial_badenv_table b,
    def_env_check := g.def_env_check ++ initial_checkenv_table,
    def_env_keep := g.def_env_keep ++ initial_keepenv_table }

/-- The effect of one insertion on the value a lookup of `n` finds: an entry
for `n` inserted with `dupcheck` becomes the value found; one inserted without
`dupcheck` is found when no entry for `n` was there. -/
def get_step (n : Str) (o : Option Str) (cmd : Str × Bool) : Option Str :=
  if Named n cmd.1 then
    (if cmd.2 then some (cmd.1.drop (n.length + 1))
      else o.orElse fun _ => some (cmd.1.drop (n.length + 1)))
  else o

/-- The insertions that `rebuild_env` makes with `dupcheck` set. -/
def dup_cmds (g : Ctx) (m : sudo_mode_t) (nx : Bool) (p : Option Str) : List (Str × Bool) :=
  secure_cmds g ++ (logname_cmds g ++ (home_cmds g m ++ (noexec_cmds g nx ++
    (ps1_cmds p ++ sudo_cmds g))))

/-- The entries that reset mode, without the login-shell flag, supplies for
the six names of P3 of which no entry was kept. -/
def default_entries (g : Ctx) : List Str :=
  [fmt "HOME".toList [some g.user_dir], fmt "SHELL".toList [some g.sudo_user_pw_shell],
    fmt "LOGNAME".toList [some g.user_name], fmt "USER".toList [some g.user_name],
    "TERM=unknown".toList, fmt "PATH".toList [some g.PATH_DEFPATH]]

/-- The entries of the environment that come after its first entry for
`name`. -/
def after_first (name : Str) : List Str → List Str
  | [] => []
  | x :: l => if Named name x then l else after_first name l

/-- The names of the entries that `rebuild_env` builds itself. -/
def built_names : List Str :=
  ["HOME".toList, "SHELL".toList, "LOGNAME".toList, "USER".toList, "TERM".toList,
    "PATH".toList, "DYLD_INSERT_LIBRARIES".toList, "DYLD_FORCE_FLAT_NAMESPACE".toList,
    "_RLD_LIST".toList, "LD_PRELOAD".toList, "SUDO_COMMAND".toList, "SUDO_USER".toList,
    "SUDO_UID".toList, "SUDO_GID".toList]

/-- The entry that reset mode under the login-shell flag builds for a name of
`built_names`, whenever it builds one. -/
def login_entry (g : Ctx) (X : Str) : Str :=
  if X = "HOME".toList then "HOME=".toList ++ g.runas_pw.pw_dir.getD []
  else if X = "SHELL".toList then "SHELL=".toList ++ g.runas_pw.pw_shell
  else if X = "LOGNAME".toList then "LOGNAME=".toList ++ g.runas_pw.pw_name.getD []
  else if X = "USER".toList then "USER=".toList ++ g.runas_pw.pw_name.getD []
  else if X = "TERM".toList then "TERM=unknown".toList
  else if X = "PATH".toList then
    (if secure_active g then "PATH=".toList ++ g.def_secure_path.getD []
      else "PATH=".toList ++ g.PATH_DEFPATH)
  else if X = "DYLD_INSERT_LIBRARIES".toList then
    "DYLD_INSERT_LIBRARIES=".toList ++ g.def_noexec_file.getD []
  else if X = "DYLD_FORCE_FLAT_NAMESPACE".toList then "DYLD_FORCE_FLAT_NAMESPACE=".toList
  else if X = "_RLD_LIST".toList then
    "_RLD_LIST=".toList ++ g.def_noexec_file.getD [] ++ ":DEFAULT".toList
  else if X = "LD_PRELOAD".toList then "LD_PRELOAD=".toList ++ g.def_noexec_file.getD []
  else if X = "SUDO_COMMAND".toList then sudo_command g
  else if X = "SUDO_USER".toList then "SUDO_USER=".toList ++ g.user_name
  else if X = "SUDO_UID".toList then "SUDO_UID=".toList ++ Nat.toDigits 10 g.user_uid
  else "SUDO_GID=".toList ++ Nat.toDigits 10 g.user_gid

/-! ## Lemmas on strings -/

theorem strncmp_eq_zero_iff (s1 s2 : Str) (n : Nat) :
    strncmp s1 s2 n = 0 ↔ s1.take n = s2.take n := by
  induction n generalizing s1 s2 with
  | zero => simp [strncmp]
  | succ n ih =>
    cases s1 with
    | nil => cases s2 <;> simp [strncmp]
    | cons a s1 =>
      cases s2 with
      | nil => simp [strncmp]
      | cons b s2 =>
        by_cases hab : a = b
        · simp [strncmp, hab, ih]
        · by_cases hlt : a.toNat < b.toNat <;> simp [strncmp, hab, hlt]

theorem strchr_eq_none_iff (s : Str) (c : Char) : strchr s c = none ↔ c ∉ s := by
  induction s with
  | nil => simp [strchr]
  | cons a s ih =>
    by_cases h : a = c
    · simp [strchr, h]
    · simp [strchr, h, ih, Ne.symm h]

theorem strchr_append_cons (name value : Str) (c : Char) (h : c ∉ name) :
    strchr (name ++ c :: value) c = some name.length := by
  induction name with
  | nil => simp [strchr]
  | cons a name ih =>
    have hne : a ≠ c := fun e => h (by simp [e])
    have hn : c ∉ name := fun e => h (by simp [e])
    simp [strchr, hne, ih hn]

theorem strchr_eq_some_iff (s : Str) (c : Char) (i : Nat) :
    strchr s c = some i ↔ ∃ name value, s = name ++ c :: value ∧ c ∉ name ∧ name.length = i := by
  constructor
  · intro h
    induction s generalizing i with
    | nil => simp [strchr] at h
    | cons a s ih =>
      by_cases hac : a = c
      · simp [strchr, hac] at h
        exact ⟨[], s, by simp [hac], by simp, by simpa using h⟩
      · simp only [strchr, hac, if_false, Option.map_eq_some'] at h
        obtain ⟨j, hj, rfl⟩ := h
        obtain ⟨name, value, hs, hn, hl⟩ := ih j hj
        refine ⟨a :: name, value, by simp [hs], ?_, by simp [hl]⟩
        simp [hn, Ne.symm hac]
  · rintro ⟨name, value, rfl, hn, rfl⟩
    exact strchr_append_cons name value c hn

theorem strpbrk_isSome_iff (s accept : Str) :
    (strpbrk s accept).isSome = true ↔ ∃ c ∈ s, c ∈ accept := by
  induction s with
  | nil => simp [strpbrk]
  | cons a s ih =>
    by_cases h : a ∈ accept
    · simp [strpbrk, h]
    · simp only [strpbrk, h, if_false, Option.isSome_map', ih]
      simp [h]

theorem getElem?_append_cons (p rest : Str) (c : Char) : (p ++ c :: rest)[p.length]? = some c := by
  rw [List.getElem?_eq_getElem (by simp)]
  exact congrArg some (List.getElem_of_append rfl rfl)

theorem char_at_append_cons (p rest : Str) (c : Char) : char_at (p ++ c :: rest) p.length = c := by
  unfold char_at
  rw [List.getD_eq_getElem?_getD, getElem?_append_cons]
  rfl

theorem char_at_last (p : Str) (hp : p ≠ []) :
    char_at p (p.length - 1) = p.getLast hp := by
  have hl : p.length - 1 < p.length := by
    have := List.length_pos_of_ne_nil hp
    omega
  simp [char_at, List.getD_eq_getElem?_getD, List.getLast_eq_getElem, List.getElem?_eq_getElem hl]

theorem prefix_snoc_iff (p var : Str) (c : Char) (hc : c ≠ Char.ofNat 0) :
    (p ++ [c]) <+: var ↔ (p.take p.length = var.take p.length ∧ char_at var p.length = c) := by
  constructor
  · rintro ⟨t, rfl⟩
    have := char_at_append_cons p t c
    simp only [List.append_assoc, List.singleton_append, List.take_length]
    refine ⟨?_, this⟩
    simp
  · rintro ⟨h1, h2⟩
    simp only [List.take_length] at h1
    have hlen : p.length < var.length := by
      by_contra hge
      have : var.getD p.length (Char.ofNat 0) = Char.ofNat 0 := by
        simp [List.getD_eq_getElem?_getD, List.getElem?_eq_none (not_lt.mp hge)]
      exact hc (by rw [← h2, char_at, this])
    have hget : var[p.length] = c := by
      simpa [char_at, List.getD_eq_getElem?_getD, List.getElem?_eq_getElem hlen] using h2
    refine ⟨var.drop (p.length + 1), ?_⟩
    conv_rhs => rw [← List.take_append_drop p.length var]
    rw [← h1, List.append_assoc]
    congr 1
    rw [List.drop_eq_getElem_cons hlen, hget]
    rfl

/-- The pattern test in terms of prefixes of the entry. -/
theorem pattern_test_eq (p var : Str) (hp : p ≠ []) :
    pattern_test p var =
      some (decide (if p.getLast? = some '*' then p.dropLast <+: var else (p ++ ['=']) <+: var)) := by
  have hlen : p.length ≠ 0 := by simpa using hp
  have hlast : p.getLast? = some (p.getLast hp) := List.getLast?_eq_getLast p hp
  unfold pattern_test
  simp only [strlen, hlen, if_false, char_at_last p hp, hlast, Option.some.injEq]
  by_cases hw : p.getLast hp = '*'
  · simp only [hw, beq_self_eq_true, if_true, Bool.true_or, Bool.and_true]
    rw [Bool.eq_iff_iff]
    simp only [beq_iff_eq, decide_eq_true_eq, strncmp_eq_zero_iff, strlen]
    rw [List.prefix_iff_eq_take, List.length_dropLast, List.dropLast_eq_take]
  · have hb : (p.getLast hp == '*') = false := by simpa using hw
    simp only [hb, Bool.false_or, hw, if_false, Bool.false_eq_true]
    rw [Bool.eq_iff_iff]
    simp only [Bool.and_eq_true, beq_iff_eq, decide_eq_true_eq, strncmp_eq_zero_iff, strlen]
    rw [prefix_snoc_iff p var '=' (by decide)]

theorem pattern_test_isSome (p var : Str) (hp : p ≠ []) : ∃ b, pattern_test p var = some b :=
  ⟨_, pattern_test_eq p var hp⟩

theorem pattern_test_nil (var : Str) : pattern_test [] var = none := by
  simp [pattern_test, strlen]

theorem pattern_test_eq_entryMatch (p var : Str) (hp : p ≠ []) :
    pattern_test p var = some (decide (EntryMatch p var)) := by
  rw [pattern_test_eq p var hp]; rfl

theorem prefix_entry_iff (q name value : Str) (hq : '=' ∉ q) :
    q <+: name ++ '=' :: value ↔ q <+: name := by
  induction q generalizing name with
  | nil => simp
  | cons a q ih =>
    have ha : a ≠ '=' := fun e => hq (by simp [e])
    have hq2 : '=' ∉ q := fun e => hq (by simp [e])
    cases name with
    | nil => simp [List.cons_prefix_cons, ha]
    | cons b name => simp [List.cons_prefix_cons, ih name hq2]

theorem snoc_prefix_entry_iff (p name value : Str) (hp : '=' ∉ p) (hn : '=' ∉ name) :
    (p ++ ['=']) <+: name ++ '=' :: value ↔ name = p := by
  induction p generalizing name with
  | nil =>
    cases name with
    | nil => simp
    | cons b name =>
      have hb : '=' ≠ b := fun e => hn (by rw [e]; exact List.mem_cons_self _ _)
      simp [List.cons_prefix_cons, hb]
  | cons a p ih =>
    have ha : a ≠ '=' := fun e => hp (by simp [e])
    have hp2 : '=' ∉ p := fun e => hp (by simp [e])
    cases name with
    | nil => simp [List.cons_prefix_cons, ha]
    | cons b name =>
      have hn2 : '=' ∉ name := fun e => hn (by simp [e])
      simp only [List.cons_append, List.cons_prefix_cons, ih name hp2 hn2, List.cons.injEq]
      constructor
      · rintro ⟨h1, h2⟩; exact ⟨h1.symm, h2⟩
      · rintro ⟨h1, h2⟩; exact ⟨h1.symm, h2⟩

/-- On an entry `name=value` and a pattern without `=`, the coded test is the
rule of the specification on the name. -/
theorem entryMatch_iff_specMatch (p name value : Str) (hp : '=' ∉ p) (hn : '=' ∉ name) :
    EntryMatch p (name ++ '=' :: value) ↔ SpecMatch p name := by
  unfold EntryMatch SpecMatch
  by_cases hw : p.getLast? = some '*'
  · simp only [hw, if_true]
    exact prefix_entry_iff _ _ _ (fun h => hp (List.dropLast_subset p h))
  · simp only [hw, if_false]
    exact snoc_prefix_entry_iff p name value hp hn

theorem is_bash_function_entry (name value : Str) (hn : '=' ∉ name) :
    is_bash_function (name ++ '=' :: value) = decide ("()".toList <+: value) := by
  unfold is_bash_function
  rw [strchr_append_cons name value '=' hn]
  simp only [List.drop_left]
  rw [Bool.eq_iff_iff]
  simp only [beq_iff_eq, decide_eq_true_eq, strncmp_eq_zero_iff]
  rw [List.prefix_iff_eq_take]
  have h1 : "=() ".toList = ['=', '(', ')', ' '] := rfl
  have h2 : "()".toList = ['(', ')'] := rfl
  rw [h1, h2]
  simp only [List.take_succ_cons, List.take_zero, List.length_cons, List.length_nil]
  constructor
  · intro h
    have := List.cons.inj h
    exact this.2.symm
  · intro h
    rw [← h]

theorem delete_loop_false (l : List Str) (var : Str) : delete_loop l var false = some false := by
  cases l <;> simp [delete_loop]

theorem check_loop_false (l : List Str) (var : Str) : check_loop l var false = some false := by
  cases l <;> simp [delete_loop, check_loop]

theorem delete_loop_true (l : List Str) (var : Str) (hl : ∀ p ∈ l, p ≠ []) :
    delete_loop l var true = some (decide (∀ p ∈ l, ¬ EntryMatch p var)) := by
  induction l with
  | nil => simp [delete_loop]
  | cons p l ih =>
    have hp : p ≠ [] := hl p (by simp)
    have hl2 : ∀ q ∈ l, q ≠ [] := fun q hq => hl q (by simp [hq])
    simp only [delete_loop, if_true, pattern_test_eq_entryMatch p var hp]
    by_cases hm : EntryMatch p var
    · simp [hm, delete_loop_false]
    · simp [hm, ih hl2]

theorem check_loop_true (l : List Str) (var : Str) (hl : ∀ p ∈ l, p ≠ []) :
    check_loop l var true =
      some (decide (¬ ((∃ p ∈ l, EntryMatch p var) ∧ ∃ c ∈ var, c = '/' ∨ c = '%'))) := by
  have hbrk : (strpbrk var "/%".toList).isSome = true ↔ ∃ c ∈ var, c = '/' ∨ c = '%' := by
    rw [strpbrk_isSome_iff]
    have h2 : "/%".toList = ['/', '%'] := rfl
    simp [h2]
  induction l with
  | nil => simp [check_loop]
  | cons p l ih =>
    have hp : p ≠ [] := hl p (by simp)
    have hl2 : ∀ q ∈ l, q ≠ [] := fun q hq => hl q (by simp [hq])
    simp only [check_loop, if_true, pattern_test_eq_entryMatch p var hp]
    by_cases hm : EntryMatch p var
    · by_cases hb : (strpbrk var "/%".toList).isSome = true
      · have hb2 := hbrk.mp hb
        simp only [hm, hb, decide_True, Bool.and_self, if_true, check_loop_false]
        simp [hm, hb2]
      · have hb2 : ¬ ∃ c ∈ var, c = '/' ∨ c = '%' := fun h => hb (hbrk.mpr h)
        simp only [hm, hb, decide_True, Bool.and_false, Bool.false_eq_true, if_false,
          ih hl2]
        simp [hb2]
    · simp only [hm, decide_False, Bool.false_and, Bool.false_eq_true, if_false, ih hl2]
      simp [hm]

/-- The function `var_ok` in closed form, for lists of non-empty patterns. -/
theorem var_ok_eq (g : Ctx) (var : Str)
    (hd : ∀ p ∈ g.def_env_delete, p ≠ []) (hc : ∀ p ∈ g.def_env_check, p ≠ []) :
    var_ok g var = some (decide (¬ (is_bash_function var = true ∨
      (∃ p ∈ g.def_env_delete, EntryMatch p var) ∨
      ((∃ p ∈ g.def_env_check, EntryMatch p var) ∧ ∃ c ∈ var, c = '/' ∨ c = '%')))) := by
  unfold var_ok
  by_cases hf : is_bash_function var = true
  · simp [hf]
  · simp only [hf, Bool.false_eq_true, if_false, delete_loop_true _ var hd, false_or]
    by_cases hdm : ∃ p ∈ g.def_env_delete, EntryMatch p var
    · have : ¬ ∀ p ∈ g.def_env_delete, ¬ EntryMatch p var := by
        obtain ⟨p, hp, hm⟩ := hdm
        exact fun h => h p hp hm
      simp only [this, decide_False, check_loop_false]
      simp [hdm]
    · have : ∀ p ∈ g.def_env_delete, ¬ EntryMatch p var := fun p hp hm => hdm ⟨p, hp, hm⟩
      have hdec : decide (∀ p ∈ g.def_env_delete, ¬ EntryMatch p var) = true :=
        decide_eq_true this
      rw [hdec, check_loop_true _ var hc]
      simp [hdm]

/-! ## The builder: vector against list -/

theorem store_append_cons (a b : List Slot) (x y : Slot) :
    store (a ++ x :: b) a.length y = some (a ++ y :: b) := by
  unfold store
  have h : a.length < (a ++ x :: b).length := by simp
  rw [if_pos h]
  congr 1
  induction a with
  | nil => rfl
  | cons c a ih =>
    simp only [List.cons_append, List.length_cons, List.set_cons_succ, List.cons.injEq, true_and]
    exact ih (by simp)

theorem environ_of_map_ptr (l : List Str) (rest : List Slot) :
    environ_of (l.map Slot.ptr ++ Slot.null :: rest) = some l := by
  induction l with
  | nil => rfl
  | cons s l ih => simp [environ_of, ih]

/-- The vector after the capacity test of `insert_env` (lines 264-267). -/
theorem grown_shape (e : environment) (l : List Str) (h : Rep e l) :
    ∃ x r rest,
      (if e.env_len + 2 > e.env_size then
          { e with env_size := e.env_size + 128, envp := erealloc3 e.envp (e.env_size + 128) }
        else e) = ⟨l.map Slot.ptr ++ x :: r :: rest, (l.map Slot.ptr ++ x :: r :: rest).length,
          l.length⟩ ∧
      (l = [] → x = Slot.uninit) ∧ (l ≠ [] → x = Slot.null) := by
  rcases h with ⟨rfl, rfl⟩ | ⟨hne, rest, hv, hlen, hsize⟩
  · refine ⟨Slot.uninit, Slot.uninit, List.replicate 126 Slot.uninit, ?_, fun _ => rfl,
      fun h => absurd rfl h⟩
    simp [erealloc3, List.replicate_succ]
  · obtain ⟨v, n, k⟩ := e
    simp only at hv hlen hsize
    subst hv hlen hsize
    cases rest with
    | nil =>
      refine ⟨Slot.null, Slot.uninit, List.replicate 127 Slot.uninit, ?_, fun h => absurd h hne,
        fun _ => rfl⟩
      have h1 : l.length + 2 > (List.map Slot.ptr l ++ [Slot.null]).length := by simp
      dsimp only
      rw [if_pos h1]
      simp [erealloc3, List.replicate_succ]
    | cons r rest =>
      refine ⟨Slot.null, r, rest, ?_, fun h => absurd h hne, fun _ => rfl⟩
      have h1 : ¬ l.length + 2 > (List.map Slot.ptr l ++ Slot.null :: r :: rest).length := by
        simp
      dsimp only
      rw [if_neg h1]

theorem insert_at_shape (a : List Slot) (x r : Slot) (rest : List Slot) (n k : Nat) (str : Str) :
    insert_at ⟨a ++ x :: r :: rest, n, k⟩ a.length str =
      some ⟨a ++ Slot.ptr str :: Slot.null :: rest, n, k + 1⟩ := by
  unfold insert_at
  simp only [store_append_cons]
  have h : a ++ Slot.ptr str :: r :: rest = (a ++ [Slot.ptr str]) ++ r :: rest := by simp
  have hl : a.length + 1 = (a ++ [Slot.ptr str]).length := by simp
  rw [h, hl, store_append_cons]
  simp

theorem rep_of_shape (l : List Str) (hne : l ≠ []) (rest : List Slot) (n : Nat)
    (hn : n = (l.map Slot.ptr ++ Slot.null :: rest).length) :
    Rep ⟨l.map Slot.ptr ++ Slot.null :: rest, n, l.length⟩ l :=
  Or.inr ⟨hne, rest, rfl, rfl, hn⟩

theorem insert_env_append (str : Str) (e : environment) (l : List Str) (h : Rep e l) :
    ∃ e2, insert_env str e false = some e2 ∧ Rep e2 (l ++ [str]) := by
  obtain ⟨x, r, rest, hg, -, -⟩ := grown_shape e l h
  unfold insert_env
  simp only [hg, Bool.false_eq_true, if_false]
  have hl : l.length = (l.map Slot.ptr).length := by simp
  rw [hl, insert_at_shape]
  refine ⟨_, rfl, ?_⟩
  have hrep := rep_of_shape (l ++ [str]) (by simp) rest
    ((l.map Slot.ptr ++ x :: r :: rest).length) (by simp)
  simpa using hrep

theorem dup_scan_none_found (str : Str) (n : Nat) (l : List Str) (t : List Slot) (k : Nat)
    (h : ∀ s ∈ l, (strncmp str s n == 0) = false) :
    dup_scan str n (l.map Slot.ptr ++ Slot.null :: t) k = some (false, k + l.length) := by
  induction l generalizing k with
  | nil => simp [dup_scan]
  | cons s l ih =>
    have hs := h s (by simp)
    have hl : ∀ x ∈ l, (strncmp str x n == 0) = false := fun x hx => h x (by simp [hx])
    simp only [List.map_cons, List.cons_append, dup_scan, hs, Bool.false_eq_true, if_false,
      List.length_cons]
    have : k + 1 + l.length = k + (l.length + 1) := by omega
    rw [← this]
    exact ih (k + 1) hl

theorem dup_scan_found (str : Str) (n : Nat) (l1 : List Str) (s : Str) (t : List Slot) (k : Nat)
    (h : ∀ x ∈ l1, (strncmp str x n == 0) = false) (hs : (strncmp str s n == 0) = true) :
    dup_scan str n (l1.map Slot.ptr ++ Slot.ptr s :: t) k = some (true, k + l1.length) := by
  induction l1 generalizing k with
  | nil => simp [dup_scan, hs]
  | cons x l1 ih =>
    have hx := h x (by simp)
    have hl : ∀ y ∈ l1, (strncmp str y n == 0) = false := fun y hy => h y (by simp [hy])
    simp only [List.map_cons, List.cons_append, dup_scan, hx, Bool.false_eq_true, if_false,
      List.length_cons]
    have : k + 1 + l1.length = k + (l1.length + 1) := by omega
    rw [← this]
    exact ih (k + 1) hl

theorem replace_or_append_none_found (p : Str → Bool) (str : Str) (l : List Str)
    (h : ∀ s ∈ l, p s = false) : replace_or_append p str l = l ++ [str] := by
  induction l with
  | nil => rfl
  | cons s l ih =>
    have hs := h s (by simp)
    simp [replace_or_append, hs, ih (fun x hx => h x (by simp [hx]))]

theorem replace_or_append_found (p : Str → Bool) (str : Str) (l1 : List Str) (s : Str)
    (l2 : List Str) (h : ∀ x ∈ l1, p x = false) (hs : p s = true) :
    replace_or_append p str (l1 ++ s :: l2) = l1 ++ str :: l2 := by
  induction l1 with
  | nil => simp [replace_or_append, hs]
  | cons x l1 ih =>
    have hx := h x (by simp)
    simp [replace_or_append, hx, ih (fun y hy => h y (by simp [hy]))]

/-- A list either has no element accepted by `p`, or splits at the first one. -/
theorem first_split (p : Str → Bool) (l : List Str) :
    (∀ s ∈ l, p s = false) ∨
    ∃ l1 s l2, l = l1 ++ s :: l2 ∧ (∀ x ∈ l1, p x = false) ∧ p s = true := by
  induction l with
  | nil => left; simp
  | cons a l ih =>
    by_cases ha : p a = true
    · right; exact ⟨[], a, l, rfl, by simp, ha⟩
    · have ha2 : p a = false := by simpa using ha
      rcases ih with h | ⟨l1, s, l2, rfl, h1, h2⟩
      · left
        intro s hs
        rcases List.mem_cons.mp hs with rfl | hs
        · exact ha2
        · exact h s hs
      · right
        refine ⟨a :: l1, s, l2, rfl, ?_, h2⟩
        intro x hx
        rcases List.mem_cons.mp hx with rfl | hx
        · exact ha2
        · exact h1 x hx

theorem replace_or_append_ne_nil (p : Str → Bool) (str : Str) (l : List Str) :
    replace_or_append p str l ≠ [] := by
  cases l with
  | nil => simp [replace_or_append]
  | cons s l => by_cases h : p s = true <;> simp [replace_or_append, h]

/-- The function `insert_env` on a builder that holds `l` does what
`list_insert` does on `l`, and has a result exactly when `list_insert` has. -/
theorem insert_env_sim (str : Str) (e : environment) (l : List Str) (dupcheck : Bool)
    (h : Rep e l) : OptRel Rep (insert_env str e dupcheck) (list_insert str l dupcheck) := by
  cases dupcheck with
  | false =>
    obtain ⟨e2, h1, h2⟩ := insert_env_append str e l h
    simp only [h1, list_insert, Bool.false_eq_true, if_false]
    exact h2
  | true =>
    obtain ⟨x, r, rest, hg, hx0, hx1⟩ := grown_shape e l h
    unfold insert_env list_insert
    simp only [hg, if_true]
    cases hc : strchr str '=' with
    | none => trivial
    | some i =>
      simp only
      by_cases hl : l = []
      · subst hl
        simp only [hx0 rfl, List.map_nil, List.nil_append, dup_scan, if_true]
        trivial
      · simp only [hl, if_false, hx1 hl]
        rcases first_split (fun s => strncmp str s (i + 1) == 0) l with hn | ⟨l1, s, l2, rfl, hn, hs⟩
        · rw [dup_scan_none_found str (i + 1) l _ 0 hn, replace_or_append_none_found _ str l hn]
          simp only [Nat.zero_add]
          have hlen : l.length = (l.map Slot.ptr).length := by simp
          rw [hlen, insert_at_shape]
          have hrep := rep_of_shape (l ++ [str]) (by simp) rest
            ((l.map Slot.ptr ++ Slot.null :: r :: rest).length) (by simp)
          simpa [OptRel] using hrep
        · rw [replace_or_append_found _ str l1 s l2 hn hs]
          have hv : List.map Slot.ptr (l1 ++ s :: l2) ++ Slot.null :: r :: rest =
              l1.map Slot.ptr ++ Slot.ptr s :: (l2.map Slot.ptr ++ Slot.null :: r :: rest) := by
            simp
          rw [hv, dup_scan_found str (i + 1) l1 s _ 0 hn hs]
          simp only [Nat.zero_add]
          have hlen : l1.length = (l1.map Slot.ptr).length := by simp
          rw [hlen, store_append_cons]
          have hrep := rep_of_shape (l1 ++ str :: l2) (by simp) (r :: rest)
            ((l1.map Slot.ptr ++ Slot.ptr s :: (l2.map Slot.ptr ++ Slot.null :: r :: rest)).length)
            (by simp)
          simpa [OptRel] using hrep

/-! ## The body of rebuild_env: vector against list -/

theorem OptRel.bind {α β γ δ : Type} {R : α → β → Prop} {S : γ → δ → Prop}
    {x : Option α} {y : Option β} {f : α → Option γ} {k : β → Option δ}
    (h : OptRel R x y) (hf : ∀ a b, R a b → OptRel S (f a) (k b)) :
    OptRel S (x.bind f) (y.bind k) := by
  cases x <;> cases y <;> simp only [OptRel] at h
  · trivial
  · exact hf _ _ h

theorem OptRel.map {α β γ δ : Type} {R : α → β → Prop} {S : γ → δ → Prop}
    {x : Option α} {y : Option β} {f : α → γ} {k : β → δ}
    (h : OptRel R x y) (hf : ∀ a b, R a b → S (f a) (k b)) :
    OptRel S (x.map f) (y.map k) := by
  cases x <;> cases y <;> simp only [OptRel] at h
  · trivial
  · exact hf _ _ h

theorem OptRel.some {α β : Type} {R : α → β → Prop} {a : α} {b : β} (h : R a b) :
    OptRel R (some a) (some b) := h

section Simulation

variable {E1 E2 : Type} {ins1 : Str → E1 → Bool → Option E1} {ins2 : Str → E2 → Bool → Option E2}
  {R : E1 → E2 → Prop}

theorem put_str_sim (hins : ∀ str e l d, R e l → OptRel R (ins1 str e d) (ins2 str l d))
    (str : Str) (d : Bool) (s1 : locals E1) (s2 : locals E2) (h : LocRel R s1 s2) :
    OptRel (LocRel R) (put_str ins1 str d s1) (put_str ins2 str d s2) := by
  have h1 := hins str s1.env s2.env d h.1
  unfold put_str
  cases hx : ins1 str s1.env d <;> cases hy : ins2 str s2.env d <;>
    simp only [hx, hy, OptRel] at h1 ⊢
  exact ⟨h1, h.2.1, h.2.2⟩

theorem put_sim (hins : ∀ str e l d, R e l → OptRel R (ins1 str e d) (ins2 str l d))
    (size_max : Nat) (var : Str) (args : List (Option Str)) (d : Bool) (s1 : locals E1)
    (s2 : locals E2) (h : LocRel R s1 s2) :
    OptRel (LocRel R) (put ins1 size_max var args d s1) (put ins2 size_max var args d s2) := by
  unfold put
  cases format_env size_max var args with
  | none => trivial
  | some str => exact put_str_sim hins str d s1 s2 h

theorem reset_entry_sim (hins : ∀ str e l d, R e l → OptRel R (ins1 str e d) (ins2 str l d))
    (g : Ctx) (ep : Str) (s1 : locals E1) (s2 : locals E2) (h : LocRel R s1 s2) :
    OptRel (LocRel R) (reset_entry ins1 g ep s1) (reset_entry ins2 g ep s2) := by
  unfold reset_entry
  by_cases hb : is_bash_function ep = true
  · simp only [hb, if_true]; exact h
  · simp only [hb, Bool.false_eq_true, if_false]
    cases keep_loop g.def_env_keep ep with
    | none => trivial
    | some keepit =>
      simp only [h.2.1, h.2.2]
      cases keepit with
      | true =>
        simp only [if_true]
        exact put_str_sim hins _ _ _ _ ⟨h.1, rfl, rfl⟩
      | false =>
        simp only [Bool.false_eq_true, if_false]
        exact ⟨h.1, rfl, rfl⟩

theorem filter_entry_sim (hins : ∀ str e l d, R e l → OptRel R (ins1 str e d) (ins2 str l d))
    (g : Ctx) (ep : Str) (s1 : locals E1) (s2 : locals E2) (h : LocRel R s1 s2) :
    OptRel (LocRel R) (filter_entry ins1 g ep s1) (filter_entry ins2 g ep s2) := by
  unfold filter_entry
  cases var_ok g ep with
  | none => trivial
  | some ok =>
    cases ok with
    | false => exact h
    | true =>
      simp only [if_true, h.2.1, h.2.2]
      split_ifs
      · exact put_str_sim hins _ _ _ _ ⟨h.1, rfl, rfl⟩
      · exact put_str_sim hins _ _ _ _ ⟨h.1, rfl, rfl⟩
      · exact put_str_sim hins _ _ _ _ ⟨h.1, rfl, rfl⟩
      · exact put_str_sim hins _ _ _ _ h

theorem each_entry_sim {body1 : Str → locals E1 → Option (locals E1)}
    {body2 : Str → locals E2 → Option (locals E2)}
    (hb : ∀ ep s1 s2, LocRel R s1 s2 → OptRel (LocRel R) (body1 ep s1) (body2 ep s2))
    (v : List Str) (s1 : locals E1) (s2 : locals E2) (h : LocRel R s1 s2) :
    OptRel (LocRel R) (each_entry body1 v s1) (each_entry body2 v s2) := by
  induction v generalizing s1 s2 with
  | nil => exact h
  | cons ep v ih =>
    have h1 := hb ep s1 s2 h
    unfold each_entry
    cases hx : body1 ep s1 <;> cases hy : body2 ep s2 <;> simp only [hx, hy, OptRel] at h1 ⊢
    exact ih _ _ h1

theorem each_source_sim {body1 : Str → locals E1 → Option (locals E1)}
    {body2 : Str → locals E2 → Option (locals E2)}
    (hb : ∀ ep s1 s2, LocRel R s1 s2 → OptRel (LocRel R) (body1 ep s1) (body2 ep s2))
    (envp1 envp2 : Option (List Str)) (s1 : locals E1) (s2 : locals E2) (h : LocRel R s1 s2) :
    OptRel (LocRel R) (each_source body1 envp1 envp2 s1) (each_source body2 envp1 envp2 s2) := by
  have h1 : OptRel (LocRel R)
      (match envp1 with
        | none => some s1
        | some v => each_entry body1 v s1)
      (match envp1 with
        | none => some s2
        | some v => each_entry body2 v s2) := by
    cases envp1 with
    | none => exact h
    | some v => exact each_entry_sim hb v s1 s2 h
  unfold each_source
  revert h1
  generalize (match envp1 with
        | none => some s1
        | some v => each_entry body1 v s1) = x
  generalize (match envp1 with
        | none => some s2
        | some v => each_entry body2 v s2) = y
  intro h1
  cases x <;> cases y <;> simp only [OptRel] at h1 ⊢
  cases envp2 with
  | none => exact h1
  | some v => exact each_entry_sim hb v _ _ h1

theorem reset_defaults_sim (hins : ∀ str e l d, R e l → OptRel R (ins1 str e d) (ins2 str l d))
    (g : Ctx) (m : sudo_mode_t) (s1 : locals E1) (s2 : locals E2) (h : LocRel R s1 s2) :
    OptRel (LocRel R) (reset_defaults ins1 g m s1) (reset_defaults ins2 g m s2) := by
  unfold reset_defaults
  cases m.login_shell with
  | true =>
    simp only [if_true]
    refine OptRel.bind (put_sim hins _ _ _ _ _ _ h) fun a b hab => ?_
    refine OptRel.bind (put_sim hins _ _ _ _ _ _ hab) fun a b hab => ?_
    refine OptRel.bind (put_sim hins _ _ _ _ _ _ hab) fun a b hab => ?_
    exact put_sim hins _ _ _ _ _ _ hab
  | false =>
    simp only [Bool.false_eq_true, if_false]
    refine OptRel.bind (?_ : OptRel (LocRel R) _ _) fun a b hab => ?_
    · rw [h.2.1]; split_ifs
      · exact put_sim hins _ _ _ _ _ _ h
      · exact h
    refine OptRel.bind (?_ : OptRel (LocRel R) _ _) fun a b hab => ?_
    · rw [hab.2.1]; split_ifs
      · exact put_sim hins _ _ _ _ _ _ hab
      · exact hab
    refine OptRel.bind (?_ : OptRel (LocRel R) _ _) fun a b hab => ?_
    · rw [hab.2.1]; split_ifs
      · exact put_sim hins _ _ _ _ _ _ hab
      · exact hab
    · rw [hab.2.1]; split_ifs
      · exact put_sim hins _ _ _ _ _ _ hab
      · exact hab

theorem secure_path_sim (hins : ∀ str e l d, R e l → OptRel R (ins1 str e d) (ins2 str l d))
    (g : Ctx) (s1 : locals E1) (s2 : locals E2) (h : LocRel R s1 s2) :
    OptRel (LocRel R) (secure_path ins1 g s1) (secure_path ins2 g s2) := by
  unfold secure_path
  cases g.def_secure_path with
  | none => exact h
  | some sp =>
    simp only
    split_ifs
    · exact OptRel.map (put_sim hins _ _ _ _ _ _ h) fun a b hab =>
        ⟨hab.1, by simp only [hab.2.1], hab.2.2⟩
    · exact h

theorem set_logname_sim (hins : ∀ str e l d, R e l → OptRel R (ins1 str e d) (ins2 str l d))
    (g : Ctx) (s1 : locals E1) (s2 : locals E2) (h : LocRel R s1 s2) :
    OptRel (LocRel R) (set_logname ins1 g s1) (set_logname ins2 g s2) := by
  unfold set_logname
  cases g.runas_pw.pw_name with
  | none => exact h
  | some name =>
    simp only
    split_ifs
    · exact OptRel.bind (put_sim hins _ _ _ _ _ _ h) fun a b hab => put_sim hins _ _ _ _ _ _ hab
    · exact h

theorem set_home_sim (hins : ∀ str e l d, R e l → OptRel R (ins1 str e d) (ins2 str l d))
    (g : Ctx) (m : sudo_mode_t) (s1 : locals E1) (s2 : locals E2) (h : LocRel R s1 s2) :
    OptRel (LocRel R) (set_home ins1 g m s1) (set_home ins2 g m s2) := by
  unfold set_home
  cases g.runas_pw.pw_dir with
  | none => exact h
  | some dir =>
    simp only
    split_ifs
    · exact put_sim hins _ _ _ _ _ _ h
    · exact h

theorem default_term_path_sim
    (hins : ∀ str e l d, R e l → OptRel R (ins1 str e d) (ins2 str l d))
    (g : Ctx) (s1 : locals E1) (s2 : locals E2) (h : LocRel R s1 s2) :
    OptRel (LocRel R) (default_term_path ins1 g s1) (default_term_path ins2 g s2) := by
  unfold default_term_path
  refine OptRel.bind (?_ : OptRel (LocRel R) _ _) fun a b hab => ?_
  · rw [h.2.1]; split_ifs
    · exact put_str_sim hins _ _ _ _ h
    · exact h
  · rw [hab.2.1]; split_ifs
    · exact put_sim hins _ _ _ _ _ _ hab
    · exact hab

theorem noexec_preload_sim (hins : ∀ str e l d, R e l → OptRel R (ins1 str e d) (ins2 str l d))
    (g : Ctx) (nx : Bool) (s1 : locals E1) (s2 : locals E2) (h : LocRel R s1 s2) :
    OptRel (LocRel R) (noexec_preload ins1 g nx s1) (noexec_preload ins2 g nx s2) := by
  unfold noexec_preload
  cases g.def_noexec_file with
  | none => exact h
  | some file =>
    simp only
    split_ifs
    · cases g.platform with
      | darwin =>
        exact OptRel.bind (put_sim hins _ _ _ _ _ _ h) fun a b hab => put_sim hins _ _ _ _ _ _ hab
      | osf_sgi => exact put_sim hins _ _ _ _ _ _ h
      | other => exact put_sim hins _ _ _ _ _ _ h
    · exact h

theorem set_ps1_sim (hins : ∀ str e l d, R e l → OptRel R (ins1 str e d) (ins2 str l d))
    (s1 : locals E1) (s2 : locals E2) (h : LocRel R s1 s2) :
    OptRel (LocRel R) (set_ps1 ins1 s1) (set_ps1 ins2 s2) := by
  unfold set_ps1
  rw [h.2.2]
  cases s2.ps1 with
  | none => exact h
  | some ps1 => exact put_str_sim hins _ _ _ _ h

theorem sudo_vars_sim (hins : ∀ str e l d, R e l → OptRel R (ins1 str e d) (ins2 str l d))
    (g : Ctx) (s1 : locals E1) (s2 : locals E2) (h : LocRel R s1 s2) :
    OptRel (LocRel R) (sudo_vars ins1 g s1) (sudo_vars ins2 g s2) := by
  unfold sudo_vars
  refine OptRel.bind (?_ : OptRel (LocRel R) _ _) fun a b hab => ?_
  · cases g.user_args with
    | none => exact put_sim hins _ _ _ _ _ _ h
    | some args => exact put_sim hins _ _ _ _ _ _ h
  refine OptRel.bind (put_sim hins _ _ _ _ _ _ hab) fun a b hab => ?_
  refine OptRel.bind (put_str_sim hins _ _ _ _ hab) fun a b hab => ?_
  exact put_str_sim hins _ _ _ _ hab

theorem rebuild_body_sim (hins : ∀ str e l d, R e l → OptRel R (ins1 str e d) (ins2 str l d))
    (e1 : E1) (e2 : E2) (h0 : R e1 e2) (g : Ctx) (envp1 envp2 : Option (List Str))
    (m : sudo_mode_t) (nx : Bool) :
    OptRel (LocRel R) (rebuild_body ins1 e1 g envp1 envp2 m nx)
      (rebuild_body ins2 e2 g envp1 envp2 m nx) := by
  unfold rebuild_body
  have hst : LocRel R (⟨e1, 0, none⟩ : locals E1) (⟨e2, 0, none⟩ : locals E2) := ⟨h0, rfl, rfl⟩
  refine OptRel.bind (?_ : OptRel (LocRel R) _ _) fun a b hab => ?_
  · split_ifs
    · exact OptRel.bind (each_source_sim (reset_entry_sim hins g) _ _ _ _ hst)
        (reset_defaults_sim hins g m)
    · exact each_source_sim (filter_entry_sim hins g) _ _ _ _ hst
  refine OptRel.bind (secure_path_sim hins g _ _ hab) fun a b hab => ?_
  refine OptRel.bind (set_logname_sim hins g _ _ hab) fun a b hab => ?_
  refine OptRel.bind (set_home_sim hins g m _ _ hab) fun a b hab => ?_
  refine OptRel.bind (default_term_path_sim hins g _ _ hab) fun a b hab => ?_
  refine OptRel.bind (noexec_preload_sim hins g nx _ _ hab) fun a b hab => ?_
  refine OptRel.bind (set_ps1_sim hins _ _ hab) fun a b hab => ?_
  exact sudo_vars_sim hins g _ _ hab

end Simulation

/-! ## format_env: the exit is taken when the capacity wraps, and only then -/

theorem foldl_add_strlen (size_max : Nat) (vals : List Str) (n : Nat) :
    vals.foldl (fun esize val => (esize + strlen val) % (size_max + 1)) (n % (size_max + 1)) =
      (n + (vals.map strlen).sum) % (size_max + 1) := by
  induction vals generalizing n with
  | nil => simp
  | cons v vals ih =>
    simp only [List.foldl_cons, List.map_cons, List.sum_cons, Nat.mod_add_mod, ih]
    rw [Nat.add_assoc]

/-- The value of `esize` in `format_env`: the length of the name plus 2 plus
the lengths of the fragments, modulo `SIZE_MAX + 1`. -/
theorem format_env_esize_eq (size_max : Nat) (var : Str) (args : List (Option Str)) :
    format_env_esize size_max var args =
      (strlen var + 2 + ((va_strings args).map strlen).sum) % (size_max + 1) :=
  foldl_add_strlen _ _ _

theorem va_strings_map_some (vals : List Str) (rest : List (Option Str)) :
    va_strings (vals.map some ++ none :: rest) = vals := by
  induction vals with
  | nil => rfl
  | cons v vals ih => simp [va_strings, ih]

theorem length_flatten_str (vals : List Str) : vals.flatten.length = (vals.map strlen).sum := by
  induction vals with
  | nil => rfl
  | cons v vals ih => simp [strlen, ih]

theorem format_env_cat_eq (e : Str) (vals : List Str) (esize : Nat)
    (h : e.length + (vals.map strlen).sum < esize) :
    format_env_cat e vals esize = some (e ++ vals.flatten) := by
  induction vals generalizing e with
  | nil => simp [format_env_cat]
  | cons v vals ih =>
    simp only [List.map_cons, List.sum_cons, strlen] at h
    have h1 : ¬ esize ≤ e.length := by omega
    have h2 : ¬ e.length + v.length ≥ esize := by omega
    have h3 : v.take (esize - e.length - 1) = v := List.take_of_length_le (by omega)
    simp only [format_env_cat, strlcat, strlen, h1, if_false, h2, h3]
    rw [ih (e ++ v) (by simp only [List.length_append, strlen]; omega)]
    simp

/-- The second loop returns only when every fragment fitted. -/
theorem format_env_cat_some (e : Str) (vals : List Str) (esize : Nat) (r : Str)
    (he : e.length < esize) (h : format_env_cat e vals esize = some r) :
    e.length + (vals.map strlen).sum < esize := by
  induction vals generalizing e with
  | nil => simpa using he
  | cons v vals ih =>
    have h1 : ¬ esize ≤ e.length := by omega
    simp only [format_env_cat, strlcat, strlen, h1, if_false] at h
    by_cases h2 : e.length + v.length ≥ esize
    · simp [h2] at h
    · simp only [h2, if_false] at h
      have h3 : v.take (esize - e.length - 1) = v := List.take_of_length_le (by omega)
      rw [h3] at h
      have := ih (e ++ v) (by simp only [List.length_append]; omega) h
      simp only [List.length_append] at this
      simp only [List.map_cons, List.sum_cons, strlen]
      omega

/-- The function `format_env` returns only when the name, `=`, the fragments
and the terminator fitted in `esize` bytes. -/
theorem format_env_some (size_max : Nat) (var : Str) (args : List (Option Str)) (r : Str)
    (h : format_env size_max var args = some r) :
    strlen var + 1 + ((va_strings args).map strlen).sum < format_env_esize size_max var args := by
  unfold format_env at h
  simp only [strlcpy] at h
  by_cases h1 : strlen var ≥ format_env_esize size_max var args
  · simp [h1] at h
  · simp only [h1, if_false] at h
    have h2 : var.take (format_env_esize size_max var args - 1) = var :=
      List.take_of_length_le (by simp only [strlen] at h1; omega)
    rw [h2] at h
    have h3 : ¬ format_env_esize size_max var args ≤ strlen var := by omega
    have hone : strlen "=".toList = 1 := rfl
    simp only [strlcat, h3, if_false, hone] at h
    by_cases h4 : strlen var + 1 ≥ format_env_esize size_max var args
    · simp [h4] at h
    · simp only [h4, if_false] at h
      have h5 : "=".toList.take (format_env_esize size_max var args - strlen var - 1) = ['='] := by
        have : "=".toList = ['='] := rfl
        rw [this]
        exact List.take_of_length_le (by simp only [List.length_singleton]; omega)
      rw [h5] at h
      have := format_env_cat_some _ _ _ r
        (by simp only [List.length_append, List.length_singleton, strlen] at h4 ⊢; omega) h
      simp only [List.length_append, List.length_singleton, strlen] at this ⊢
      omega

/-- When the sum of the lengths does not wrap, no bound check fails. -/
theorem format_env_eq (size_max : Nat) (var : Str) (args : List (Option Str))
    (hfit : strlen var + 2 + ((va_strings args).map strlen).sum ≤ size_max) :
    format_env size_max var args = some (fmt var args) := by
  have hes : format_env_esize size_max var args =
      strlen var + 2 + ((va_strings args).map strlen).sum := by
    rw [format_env_esize_eq, Nat.mod_eq_of_lt (by omega)]
  unfold format_env fmt
  rw [hes]
  have h1 : ¬ strlen var ≥ strlen var + 2 + ((va_strings args).map strlen).sum := by omega
  have h2 : var.take (strlen var + 2 + ((va_strings args).map strlen).sum - 1) = var :=
    List.take_of_length_le (by simp only [strlen]; omega)
  simp only [strlcpy, h1, if_false, h2]
  have h3 : ¬ strlen var + 2 + ((va_strings args).map strlen).sum ≤ strlen var := by omega
  have h4 : "=".toList.take (strlen var + 2 + ((va_strings args).map strlen).sum - strlen var - 1)
      = ['='] := by
    have : "=".toList = ['='] := rfl
    rw [this]
    exact List.take_of_length_le (by simp only [List.length_singleton]; omega)
  have h5 : ¬ strlen var + strlen "=".toList ≥
      strlen var + 2 + ((va_strings args).map strlen).sum := by
    have : strlen "=".toList = 1 := rfl
    omega
  simp only [strlcat, h3, if_false, h4, h5]
  rw [format_env_cat_eq _ _ _ (by simp only [List.length_append, List.length_singleton, strlen]; omega)]
  simp

/-- When the sum of the lengths exceeds `SIZE_MAX`, `esize` wraps and a bound
check fails: `format_env` takes the `errorx` exit. -/
theorem format_env_wraps (size_max : Nat) (var : Str) (args : List (Option Str))
    (hwrap : size_max < strlen var + 2 + ((va_strings args).map strlen).sum) :
    format_env size_max var args = none := by
  cases h : format_env size_max var args with
  | none => rfl
  | some r =>
    exfalso
    have h1 := format_env_some size_max var args r h
    rw [format_env_esize_eq] at h1
    have h2 : (strlen var + 2 + ((va_strings args).map strlen).sum) % (size_max + 1) ≤
        strlen var + 2 + ((va_strings args).map strlen).sum - (size_max + 1) := by
      rw [Nat.mod_eq_sub_mod (by omega)]
      exact Nat.mod_le _ _
    omega

/-- One string of 1610612736 characters passed three times, with a `size_t`
of 32 bits. -/
theorem format_env_wraps_thrice (s : Str) (hs : s.length = 1610612736) :
    format_env_esize 4294967295 "A".toList [some s, some s, some s] = 536870915 ∧
    format_env 4294967295 "A".toList [some s, some s, some s] = none := by
  have hA : "A".toList.length = 1 := rfl
  constructor
  · rw [format_env_esize_eq]
    simp only [va_strings, List.map_cons, List.map_nil, List.sum_cons, List.sum_nil, strlen, hs,
      hA]
    rfl
  · apply format_env_wraps
    simp only [va_strings, List.map_cons, List.map_nil, List.sum_cons, List.sum_nil, strlen, hs,
      hA]
    decide

/-! ## The strings of the configuration fit -/

theorem Ctx.fits (g : Ctx) (s : Str) (n : Nat)
    (hs : s ∈ [g.def_secure_path.getD [], g.def_noexec_file.getD [],
      g.runas_pw.pw_name.getD [], g.runas_pw.pw_dir.getD [], g.runas_pw.pw_shell, g.user_name,
      g.user_dir, g.sudo_user_pw_shell, g.user_cmnd ++ g.user_args.getD [], g.PATH_DEFPATH])
    (hn : n ≤ strlen s + 64) : n ≤ g.SIZE_MAX :=
  le_trans hn (g.strings_fit s hs)

theorem Ctx.fits_some (g : Ctx) (X s : Str)
    (hs : s ∈ [g.def_secure_path.getD [], g.def_noexec_file.getD [],
      g.runas_pw.pw_name.getD [], g.runas_pw.pw_dir.getD [], g.runas_pw.pw_shell, g.user_name,
      g.user_dir, g.sudo_user_pw_shell, g.user_cmnd ++ g.user_args.getD [], g.PATH_DEFPATH])
    (hX : X.length ≤ 40) :
    strlen X + 2 + ((va_strings [some s]).map strlen).sum ≤ g.SIZE_MAX :=
  g.fits s _ hs (by simp only [va_strings, List.map_cons, List.map_nil, List.sum_cons,
    List.sum_nil, strlen]; omega)

theorem Ctx.fits_opt (g : Ctx) (X : Str) (o : Option Str)
    (hs : o.getD [] ∈ [g.def_secure_path.getD [], g.def_noexec_file.getD [],
      g.runas_pw.pw_name.getD [], g.runas_pw.pw_dir.getD [], g.runas_pw.pw_shell, g.user_name,
      g.user_dir, g.sudo_user_pw_shell, g.user_cmnd ++ g.user_args.getD [], g.PATH_DEFPATH])
    (hX : X.length ≤ 40) :
    strlen X + 2 + ((va_strings [o]).map strlen).sum ≤ g.SIZE_MAX := by
  cases o with
  | none =>
    exact g.fits _ _ hs (by simp only [va_strings, List.map_nil, List.sum_nil, strlen]; omega)
  | some s => exact g.fits_some X s hs hX

theorem Ctx.fits_nil (g : Ctx) (X : Str) (hX : X.length ≤ 40) :
    strlen X + 2 + ((va_strings []).map strlen).sum ≤ g.SIZE_MAX :=
  g.fits g.PATH_DEFPATH _ (by simp)
    (by simp only [va_strings, List.map_nil, List.sum_nil, strlen]; omega)

theorem Ctx.fits_two (g : Ctx) (X s t : Str)
    (hs : s ∈ [g.def_secure_path.getD [], g.def_noexec_file.getD [],
      g.runas_pw.pw_name.getD [], g.runas_pw.pw_dir.getD [], g.runas_pw.pw_shell, g.user_name,
      g.user_dir, g.sudo_user_pw_shell, g.user_cmnd ++ g.user_args.getD [], g.PATH_DEFPATH])
    (hX : X.length + t.length ≤ 40) :
    strlen X + 2 + ((va_strings [some s, some t]).map strlen).sum ≤ g.SIZE_MAX :=
  g.fits s _ hs (by simp only [va_strings, List.map_cons, List.map_nil, List.sum_cons,
    List.sum_nil, strlen]; omega)

theorem Ctx.fits_command (g : Ctx) (X : Str) (args : Str) (ha : g.user_args = some args)
    (hX : X.length ≤ 40) :
    strlen X + 2 + ((va_strings [some g.user_cmnd, some " ".toList, some args]).map strlen).sum ≤
      g.SIZE_MAX :=
  g.fits (g.user_cmnd ++ g.user_args.getD []) _ (by simp)
    (by
      have h1 : " ".toList.length = 1 := rfl
      simp only [va_strings, List.map_cons, List.map_nil, List.sum_cons, List.sum_nil, strlen,
        ha, Option.getD_some, List.length_append, h1]
      omega)

theorem Ctx.fits_command_alone (g : Ctx) (X : Str) (hX : X.length ≤ 40) :
    strlen X + 2 + ((va_strings [some g.user_cmnd]).map strlen).sum ≤ g.SIZE_MAX :=
  g.fits (g.user_cmnd ++ g.user_args.getD []) _ (by simp)
    (by
      simp only [va_strings, List.map_cons, List.map_nil, List.sum_cons, List.sum_nil, strlen,
        List.length_append]
      omega)

/-! ## The body of rebuild_env as a sequence of insertions -/

theorem run_append (c1 c2 : List (Str × Bool)) (l : List Str) :
    run (c1 ++ c2) l = (run c1 l).bind (run c2) := by
  induction c1 generalizing l with
  | nil => rfl
  | cons c c1 ih =>
    simp only [List.cons_append, run]
    cases list_insert c.1 l c.2 with
    | none => rfl
    | some l1 => exact ih l1

theorem IsPlan.plan_nil : IsPlan some (fun _ _ => []) id := fun _ => rfl

theorem execd_nil (st : locals (List Str)) : execd [] id st = some st := rfl

theorem IsPlan.comp {F G : locals (List Str) → Option (locals (List Str))}
    {c c2 : Nat → Option Str → List (Str × Bool)} {u u2 : Nat → Nat}
    (hF : IsPlan F c u) (hG : IsPlan G c2 u2) :
    IsPlan (fun st => (F st).bind G) (fun d p => c d p ++ c2 (u d) p) (u2 ∘ u) := by
  intro st
  simp only [hF st, execd, run_append]
  cases run (c st.didvar st.ps1) st.env with
  | none => rfl
  | some l => simp only [Option.map_some', Option.some_bind, hG _, execd, Function.comp]

theorem put_str_plan (str : Str) (d : Bool) :
    IsPlan (put_str list_insert str d) (fun _ _ => [(str, d)]) id := by
  intro st
  simp only [put_str, execd, run]
  cases list_insert str st.env d <;> rfl

theorem put_plan (size_max : Nat) (var : Str) (args : List (Option Str)) (d : Bool)
    (hfit : strlen var + 2 + ((va_strings args).map strlen).sum ≤ size_max) :
    IsPlan (put list_insert size_max var args d) (fun _ _ => [(fmt var args, d)]) id := by
  intro st
  simp only [put, format_env_eq size_max var args hfit]
  exact put_str_plan _ d st

theorem IsPlan.congr {F : locals (List Str) → Option (locals (List Str))}
    {c c2 : Nat → Option Str → List (Str × Bool)} {u u2 : Nat → Nat}
    (hF : IsPlan F c u) (hc : ∀ d p, c d p = c2 d p) (hu : ∀ d, u d = u2 d) : IsPlan F c2 u2 := by
  intro st
  rw [hF st, hc, execd, execd, hu]

/-- A guarded insertion, `if cond(didvar) then F else skip`. -/
theorem IsPlan.guard {F : locals (List Str) → Option (locals (List Str))}
    {c : Nat → Option Str → List (Str × Bool)} (hF : IsPlan F c id) (t : Nat → Bool) :
    IsPlan (fun st => if t st.didvar then F st else some st)
      (fun d p => if t d then c d p else []) id := by
  intro st
  by_cases h : t st.didvar = true
  · simp only [h, if_true]; exact hF st
  · simp only [h, Bool.false_eq_true, if_false]; rfl

theorem reset_defaults_plan (g : Ctx) (m : sudo_mode_t) :
    IsPlan (reset_defaults list_insert g m) (fun d _ => defaults_cmds g m d) id := by
  cases hm : m.login_shell with
  | true =>
    have h := ((put_plan g.SIZE_MAX "HOME".toList [g.runas_pw.pw_dir] false
        (g.fits_opt _ _ (by simp) (by decide))).comp
      ((put_plan g.SIZE_MAX "SHELL".toList [some g.runas_pw.pw_shell] false
          (g.fits_some _ _ (by simp) (by decide))).comp
        ((put_plan g.SIZE_MAX "LOGNAME".toList [g.runas_pw.pw_name] false
            (g.fits_opt _ _ (by simp) (by decide))).comp
          (put_plan g.SIZE_MAX "USER".toList [g.runas_pw.pw_name] false
            (g.fits_opt _ _ (by simp) (by decide))))))
    intro st
    have h2 := h st
    simp only [reset_defaults, hm, if_true, defaults_cmds]
    exact h2
  | false =>
    have h := ((put_plan g.SIZE_MAX "HOME".toList [some g.user_dir] false
        (g.fits_some _ _ (by simp) (by decide))).guard
        (fun d => !ISSET d DID_HOME)).comp
      (((put_plan g.SIZE_MAX "SHELL".toList [some g.sudo_user_pw_shell] false
          (g.fits_some _ _ (by simp) (by decide))).guard
          (fun d => !ISSET d DID_SHELL)).comp
        (((put_plan g.SIZE_MAX "LOGNAME".toList [some g.user_name] false
            (g.fits_some _ _ (by simp) (by decide))).guard
            (fun d => !ISSET d DID_LOGNAME)).comp
          ((put_plan g.SIZE_MAX "USER".toList [some g.user_name] false
            (g.fits_some _ _ (by simp) (by decide))).guard
            (fun d => !ISSET d DID_USER))))
    intro st
    have h2 := h st
    simp only [reset_defaults, hm, Bool.false_eq_true, if_false, defaults_cmds]
    exact h2

theorem secure_path_plan (g : Ctx) :
    IsPlan (secure_path list_insert g) (fun _ _ => secure_cmds g) (secure_didvar g) := by
  intro st
  unfold secure_path secure_cmds secure_didvar secure_active
  cases hsp : g.def_secure_path with
  | none => rfl
  | some sp =>
    cases g.user_is_exempt with
    | true => rfl
    | false =>
      have hfit := g.fits_some "PATH".toList sp (by simp [hsp]) (by decide)
      simp only [Bool.not_false, if_true, put_plan _ _ _ _ hfit st, execd, Option.map_map,
        Option.isSome_some, Bool.and_self, id]
      rfl

theorem set_logname_plan (g : Ctx) :
    IsPlan (set_logname list_insert g) (fun _ _ => logname_cmds g) id := by
  intro st
  unfold set_logname logname_cmds
  cases hn : g.runas_pw.pw_name with
  | none => rfl
  | some name =>
    cases g.def_env_reset with
    | false => rfl
    | true =>
      exact ((put_plan g.SIZE_MAX "LOGNAME".toList [some name] true
          (g.fits_some _ _ (by simp [hn]) (by decide))).comp
        (put_plan g.SIZE_MAX "USER".toList [some name] true
          (g.fits_some _ _ (by simp [hn]) (by decide)))) st

theorem set_home_plan (g : Ctx) (m : sudo_mode_t) :
    IsPlan (set_home list_insert g m) (fun _ _ => home_cmds g m) id := by
  intro st
  unfold set_home home_cmds
  cases hd : g.runas_pw.pw_dir with
  | none => rfl
  | some dir =>
    by_cases h : (g.def_env_reset || m.reset_home) = true
    · simp only [h, if_true]
      exact put_plan g.SIZE_MAX "HOME".toList [some dir] true
        (g.fits_some _ _ (by simp [hd]) (by decide)) st
    · simp only [h, Bool.false_eq_true, if_false]
      rfl

theorem default_term_path_plan (g : Ctx) :
    IsPlan (default_term_path list_insert g) (fun d _ => termpath_cmds g d) id := by
  have h := ((put_str_plan "TERM=unknown".toList false).guard (fun d => !ISSET d DID_TERM)).comp
    ((put_plan g.SIZE_MAX "PATH".toList [some g.PATH_DEFPATH] false
      (g.fits_some _ _ (by simp) (by decide))).guard (fun d => !ISSET d DID_PATH))
  intro st
  exact h st

theorem noexec_preload_plan (g : Ctx) (nx : Bool) :
    IsPlan (noexec_preload list_insert g nx) (fun _ _ => noexec_cmds g nx) id := by
  intro st
  unfold noexec_preload noexec_cmds
  cases hf : g.def_noexec_file with
  | none => rfl
  | some file =>
    cases nx with
    | false => rfl
    | true =>
      cases g.platform with
      | darwin =>
        exact ((put_plan g.SIZE_MAX "DYLD_INSERT_LIBRARIES".toList [some file] true
            (g.fits_some _ _ (by simp [hf]) (by decide))).comp
          (put_plan g.SIZE_MAX "DYLD_FORCE_FLAT_NAMESPACE".toList [] true
            (g.fits_nil _ (by decide)))) st
      | osf_sgi =>
        exact put_plan g.SIZE_MAX "_RLD_LIST".toList [some file, some ":DEFAULT".toList] true
          (g.fits_two _ _ _ (by simp [hf]) (by decide)) st
      | other =>
        exact put_plan g.SIZE_MAX "LD_PRELOAD".toList [some file] true
          (g.fits_some _ _ (by simp [hf]) (by decide)) st

theorem set_ps1_plan : IsPlan (set_ps1 list_insert) (fun _ p => ps1_cmds p) id := by
  intro st
  unfold set_ps1 ps1_cmds
  cases h : st.ps1 with
  | none => rfl
  | some ps1 => exact put_str_plan ps1 true st

theorem sudo_vars_plan (g : Ctx) :
    IsPlan (sudo_vars list_insert g) (fun _ _ => sudo_cmds g) id := by
  intro st
  unfold sudo_vars sudo_cmds
  cases ha : g.user_args with
  | none =>
    exact ((put_plan g.SIZE_MAX "SUDO_COMMAND".toList [some g.user_cmnd] true
        (g.fits_command_alone _ (by decide))).comp
      ((put_plan g.SIZE_MAX "SUDO_USER".toList [some g.user_name] true
          (g.fits_some _ _ (by simp) (by decide))).comp
        ((put_str_plan (easprintf_lu "SUDO_UID=".toList g.user_uid) true).comp
          (put_str_plan (easprintf_lu "SUDO_GID=".toList g.user_gid) true)))) st
  | some args =>
    exact ((put_plan g.SIZE_MAX "SUDO_COMMAND".toList
        [some g.user_cmnd, some " ".toList, some args] true
        (g.fits_command _ args ha (by decide))).comp
      ((put_plan g.SIZE_MAX "SUDO_USER".toList [some g.user_name] true
          (g.fits_some _ _ (by simp) (by decide))).comp
        ((put_str_plan (easprintf_lu "SUDO_UID=".toList g.user_uid) true).comp
          (put_str_plan (easprintf_lu "SUDO_GID=".toList g.user_gid) true)))) st

/-- Lines 475-533 run the insertions `tail_cmds`. -/
theorem tail_plan (g : Ctx) (m : sudo_mode_t) (nx : Bool) (st : locals (List Str)) :
    ((secure_path list_insert g st).bind fun st =>
      (set_logname list_insert g st).bind fun st =>
      (set_home list_insert g m st).bind fun st =>
      (default_term_path list_insert g st).bind fun st =>
      (noexec_preload list_insert g nx st).bind fun st =>
      (set_ps1 list_insert st).bind fun st =>
      sudo_vars list_insert g st).map (fun st => st.env) =
    run (tail_cmds g m nx st.didvar st.ps1) st.env := by
  have h := (secure_path_plan g).comp ((set_logname_plan g).comp ((set_home_plan g m).comp
    ((default_term_path_plan g).comp ((noexec_preload_plan g nx).comp
      (set_ps1_plan.comp (sudo_vars_plan g))))))
  have h2 := h st
  simp only [Function.comp, id] at h2
  rw [h2, execd, Option.map_map]
  unfold tail_cmds
  cases run _ st.env <;> rfl

/-! ## The source loops in closed form -/

theorem each_entry_append {E : Type} (body : Str → locals E → Option (locals E))
    (v1 v2 : List Str) (st : locals E) :
    each_entry body (v1 ++ v2) st = (each_entry body v1 st).bind (each_entry body v2) := by
  induction v1 generalizing st with
  | nil => rfl
  | cons ep v1 ih =>
    simp only [List.cons_append, each_entry]
    cases body ep st with
    | none => rfl
    | some st1 => exact ih st1

theorem each_source_eq {E : Type} (body : Str → locals E → Option (locals E))
    (envp1 envp2 : Option (List Str)) (st : locals E) :
    each_source body envp1 envp2 st = each_entry body (sources envp1 envp2) st := by
  unfold each_source sources
  rw [each_entry_append]
  cases envp1 with
  | none =>
    cases envp2 with
    | none => rfl
    | some v2 => rfl
  | some v1 =>
    simp only [Option.getD_some]
    cases each_entry body v1 st with
    | none => rfl
    | some st1 =>
      cases envp2 with
      | none => rfl
      | some v2 => rfl

theorem put_str_append (ep : Str) (st : locals (List Str)) :
    put_str list_insert ep false st = some { st with env := st.env ++ [ep] } := by
  simp [put_str, list_insert]

theorem reset_entry_eq (g : Ctx) (ep : Str) (st : locals (List Str)) :
    reset_entry list_insert g ep st =
      if reset_defined g ep then some (reset_locals g [ep] st) else none := by
  unfold reset_entry
  by_cases hb : is_bash_function ep = true
  · simp [reset_locals, reset_keeps, reset_ps1, reset_defined, hb]
  · have hb2 : is_bash_function ep = false := by simpa using hb
    cases hk : keep_loop g.def_env_keep ep with
    | none => simp [hb2, reset_defined, hk]
    | some keepit =>
      cases keepit <;>
        simp [reset_locals, reset_keeps, reset_ps1, reset_defined, hb2, hk, put_str_append]

theorem reset_locals_cons (g : Ctx) (ep : Str) (v : List Str) (st : locals (List Str)) :
    reset_locals g v (reset_locals g [ep] st) = reset_locals g (ep :: v) st := by
  by_cases hk : reset_keeps g ep = true
  · simp [reset_locals, reset_ps1, List.filter_cons, hk]
  · simp [reset_locals, reset_ps1, List.filter_cons, hk]

theorem reset_loop_eq (g : Ctx) (v : List Str) (st : locals (List Str)) :
    each_entry (reset_entry list_insert g) v st =
      if v.all (reset_defined g) then some (reset_locals g v st) else none := by
  induction v generalizing st with
  | nil => simp [each_entry, reset_locals, reset_ps1]
  | cons ep v ih =>
    simp only [each_entry, reset_entry_eq, List.all_cons]
    by_cases hd : reset_defined g ep = true
    · simp only [hd, if_true, ih, Bool.true_and, reset_locals_cons]
    · simp [hd]

theorem filter_entry_eq (g : Ctx) (ep : Str) (st : locals (List Str)) :
    filter_entry list_insert g ep st =
      if (var_ok g ep).isSome then some (filter_locals g [ep] st) else none := by
  unfold filter_entry
  cases hk : var_ok g ep with
  | none => simp
  | some ok =>
    cases ok with
    | false => simp [filter_locals, filter_keeps, filter_ps1, hk]
    | true =>
      simp only [if_true, put_str_append, Option.isSome_some]
      simp only [filter_locals, filter_keeps, filter_ps1, filter_didvar, hk, beq_self_eq_true,
        List.filter_cons, List.filter_nil, if_true, List.foldl_cons, List.foldl_nil]
      split_ifs <;> rfl

theorem filter_locals_cons (g : Ctx) (ep : Str) (v : List Str) (st : locals (List Str)) :
    filter_locals g v (filter_locals g [ep] st) = filter_locals g (ep :: v) st := by
  by_cases hk : filter_keeps g ep = true
  · simp [filter_locals, filter_ps1, List.filter_cons, hk]
  · simp [filter_locals, filter_ps1, List.filter_cons, hk]

theorem filter_loop_eq (g : Ctx) (v : List Str) (st : locals (List Str)) :
    each_entry (filter_entry list_insert g) v st =
      if v.all (fun ep => (var_ok g ep).isSome) then some (filter_locals g v st) else none := by
  induction v generalizing st with
  | nil => simp [each_entry, filter_locals, filter_ps1]
  | cons ep v ih =>
    simp only [each_entry, filter_entry_eq, List.all_cons]
    by_cases hd : (var_ok g ep).isSome = true
    · simp only [hd, if_true, ih, Bool.true_and, filter_locals_cons]
    · simp [hd]

/-- The list built by the body of `rebuild_env`: the entries kept by the
source loop, then the insertions `all_cmds`. -/
theorem rebuild_list_eq (g : Ctx) (envp1 envp2 : Option (List Str)) (m : sudo_mode_t) (nx : Bool) :
    rebuild_list g envp1 envp2 m nx =
      (loop_locals g (sources envp1 envp2)).bind fun st =>
        run (all_cmds g m nx st.didvar st.ps1) st.env := by
  unfold rebuild_list rebuild_body loop_locals all_cmds
  cases hr : g.def_env_reset with
  | true =>
    simp only [if_true, each_source_eq, reset_loop_eq]
    by_cases hd : (sources envp1 envp2).all (reset_defined g) = true
    · simp only [hd, if_true, Option.some_bind]
      have h1 := reset_defaults_plan g m (reset_locals g (sources envp1 envp2) ⟨[], 0, none⟩)
      rw [h1, run_append]
      simp only [execd, id]
      cases run _ _ with
      | none => rfl
      | some l =>
        simp only [Option.map_some', Option.some_bind]
        exact tail_plan g m nx _
    · simp only [hd, Bool.false_eq_true, if_false]
      rfl
  | false =>
    simp only [Bool.false_eq_true, if_false, each_source_eq, filter_loop_eq, List.nil_append]
    by_cases hd : (sources envp1 envp2).all (fun ep => (var_ok g ep).isSome) = true
    · simp only [hd, if_true, Option.some_bind]
      exact tail_plan g m nx _
    · simp only [hd, Bool.false_eq_true, if_false]
      rfl

theorem list_insert_ne_nil (str : Str) (l l2 : List Str) (d : Bool)
    (h : list_insert str l d = some l2) : l2 ≠ [] := by
  unfold list_insert at h
  cases d with
  | false =>
    simp only [Bool.false_eq_true, if_false, Option.some.injEq] at h
    rw [← h]; simp
  | true =>
    simp only [if_true] at h
    cases hc : strchr str '=' with
    | none => simp [hc] at h
    | some i =>
      simp only [hc] at h
      by_cases hl : l = []
      · simp [hl] at h
      · simp only [hl, if_false, Option.some.injEq] at h
        rw [← h]
        exact replace_or_append_ne_nil _ _ _

theorem run_ne_nil (cs : List (Str × Bool)) (l l2 : List Str) (hcs : cs ≠ [])
    (h : run cs l = some l2) : l2 ≠ [] := by
  induction cs generalizing l with
  | nil => exact absurd rfl hcs
  | cons c cs ih =>
    simp only [run] at h
    cases h1 : list_insert c.1 l c.2 with
    | none => simp [h1] at h
    | some l1 =>
      simp only [h1, Option.some_bind] at h
      cases cs with
      | nil =>
        simp only [run, Option.some.injEq] at h
        rw [← h]
        exact list_insert_ne_nil _ _ _ _ h1
      | cons c2 cs => exact ih l1 (by simp) h

theorem all_cmds_ne_nil (g : Ctx) (m : sudo_mode_t) (nx : Bool) (d : Nat) (p : Option Str) :
    all_cmds g m nx d p ≠ [] := by
  simp [all_cmds, tail_cmds, sudo_cmds]

/-- The strings read from the vector that `rebuild_env` returns are the list
built by the body run on lists; the one has a result exactly when the other
has. -/
theorem rebuild_environ_eq_list (g : Ctx) (envp1 envp2 : Option (List Str)) (m : sudo_mode_t)
    (nx : Bool) : rebuild_environ g envp1 envp2 m nx = rebuild_list g envp1 envp2 m nx := by
  have hsim := rebuild_body_sim (fun str e l d h => insert_env_sim str e l d h)
    (⟨[], 0, 0⟩ : environment) ([] : List Str) (Or.inl ⟨rfl, rfl⟩) g envp1 envp2 m nx
  have hne : ∀ l, rebuild_list g envp1 envp2 m nx = some l → l ≠ [] := by
    intro l hl
    rw [rebuild_list_eq] at hl
    cases h0 : loop_locals g (sources envp1 envp2) with
    | none => simp [h0] at hl
    | some st =>
      simp only [h0, Option.some_bind] at hl
      exact run_ne_nil _ _ _ (all_cmds_ne_nil g m nx _ _) hl
  unfold rebuild_environ rebuild_env
  unfold rebuild_list at hne ⊢
  cases h1 : rebuild_body insert_env ⟨[], 0, 0⟩ g envp1 envp2 m nx with
  | none =>
    cases h2 : rebuild_body list_insert [] g envp1 envp2 m nx with
    | none => rfl
    | some s2 => simp [h1, h2, OptRel] at hsim
  | some s1 =>
    cases h2 : rebuild_body list_insert [] g envp1 envp2 m nx with
    | none => simp [h1, h2, OptRel] at hsim
    | some s2 =>
      simp only [h1, h2, OptRel] at hsim
      have hl := hne s2.env (by simp [h2])
      rcases hsim.1 with ⟨h3, -⟩ | ⟨-, rest, hv, -, -⟩
      · exact absurd h3 hl
      · simp [hv, environ_of_map_ptr]

/-- The environment handed to the command, in closed form. -/
theorem rebuild_environ_eq (g : Ctx) (envp1 envp2 : Option (List Str)) (m : sudo_mode_t)
    (nx : Bool) :
    rebuild_environ g envp1 envp2 m nx =
      (loop_locals g (sources envp1 envp2)).bind fun st =>
        run (all_cmds g m nx st.didvar st.ps1) st.env := by
  rw [rebuild_environ_eq_list, rebuild_list_eq]

/-! ## Insertions and lookups -/

theorem named_entry_iff (n var value : Str) (hn : '=' ∉ n) (hv : '=' ∉ var) :
    Named n (var ++ '=' :: value) ↔ var = n :=
  snoc_prefix_entry_iff n var value hn hv

theorem named_fmt_iff (n var : Str) (args : List (Option Str)) (hn : '=' ∉ n) (hv : '=' ∉ var) :
    Named n (fmt var args) ↔ var = n :=
  named_entry_iff n var _ hn hv

theorem named_unique (n n2 x : Str) (hn : '=' ∉ n) (hn2 : '=' ∉ n2)
    (h1 : Named n x) (h2 : Named n2 x) : n = n2 := by
  obtain ⟨t, rfl⟩ := h1
  have : Named n2 (n ++ '=' :: t) := by simpa [Named] using h2
  exact (named_entry_iff n2 n t hn2 hn).mp this

/-- The duplicate test of `insert_env` for the string `n=v`: the scanned
string is an entry for `n`. -/
theorem dup_test_iff (n v x : Str) :
    (strncmp (n ++ '=' :: v) x (n.length + 1) == 0) = true ↔ Named n x := by
  simp only [beq_iff_eq, strncmp_eq_zero_iff, Named]
  rw [List.prefix_iff_eq_take]
  have h : (n ++ '=' :: v).take (n.length + 1) = n ++ ['='] := by
    have : n ++ '=' :: v = (n ++ ['=']) ++ v := by simp
    rw [this, List.take_left' (by simp)]
  rw [h]
  simp

theorem list_insert_dup (n v : Str) (l : List Str) (hn : '=' ∉ n) :
    list_insert (n ++ '=' :: v) l true =
      if l = [] then none
      else some (replace_or_append (fun x => decide (Named n x)) (n ++ '=' :: v) l) := by
  unfold list_insert
  simp only [if_true, strchr_append_cons n v '=' hn]
  by_cases hl : l = []
  · simp [hl]
  · simp only [hl, if_false, Option.some.injEq]
    congr 1
    funext x
    rw [Bool.eq_iff_iff, dup_test_iff]
    simp

theorem getenv_append (n : Str) (l : List Str) (s : Str) :
    getenv n (l ++ [s]) = (getenv n l).orElse fun _ => getenv n [s] := by
  induction l with
  | nil => simp [getenv]
  | cons a l ih =>
    by_cases h : Named n a
    · simp [getenv, h]
    · simp [getenv, h, ih]

theorem getenv_replace_self (n v : Str) (l : List Str) :
    getenv n (replace_or_append (fun x => decide (Named n x)) (n ++ '=' :: v) l) = some v := by
  have hs : Named n (n ++ '=' :: v) := ⟨v, by simp⟩
  induction l with
  | nil => simp [replace_or_append, getenv, hs]
  | cons a l ih =>
    by_cases h : Named n a
    · simp [replace_or_append, getenv, h, hs]
    · simp [replace_or_append, getenv, h, ih]

theorem getenv_replace_other (n v n2 : Str) (l : List Str) (hn : '=' ∉ n) (hn2 : '=' ∉ n2)
    (hne : n ≠ n2) (w : Str) (hw : getenv n2 l = some w) :
    getenv n2 (replace_or_append (fun x => decide (Named n x)) (n ++ '=' :: v) l) = some w := by
  have hs : ¬ Named n2 (n ++ '=' :: v) := fun h => hne ((named_entry_iff n2 n v hn2 hn).mp h)
  induction l with
  | nil => simp [getenv] at hw
  | cons a l ih =>
    by_cases h : Named n a
    · have h2 : ¬ Named n2 a := fun h2 => hne (named_unique n n2 a hn hn2 h h2)
      simp only [getenv, h2, if_false] at hw
      simp [replace_or_append, getenv, h, hs, hw]
    · by_cases h2 : Named n2 a
      · simp only [getenv, h2, if_true] at hw
        simp [replace_or_append, getenv, h, h2, hw]
      · simp only [getenv, h2, if_false] at hw
        simp [replace_or_append, getenv, h, h2, ih hw]

/-- A string with `=` is `name=value` for the text `name` before its first `=`. -/
theorem exists_entry_of_strchr (s : Str) (i : Nat) (h : strchr s '=' = some i) :
    ∃ n v, s = n ++ '=' :: v ∧ '=' ∉ n := by
  obtain ⟨n, v, hs, hn, -⟩ := (strchr_eq_some_iff s '=' i).mp h
  exact ⟨n, v, hs, hn⟩

/-- An insertion keeps the value found for `n`, unless it replaces an entry
for `n`. -/
theorem list_insert_getenv_preserved (n : Str) (hn : '=' ∉ n) (s : Str) (d : Bool)
    (l l2 : List Str) (w : Str) (hs : d = true → ¬ Named n s)
    (hw : getenv n l = some w) (h : list_insert s l d = some l2) : getenv n l2 = some w := by
  cases d with
  | false =>
    simp only [list_insert, Bool.false_eq_true, if_false, Option.some.injEq] at h
    rw [← h, getenv_append, hw]
    rfl
  | true =>
    cases hc : strchr s '=' with
    | none => simp [list_insert, hc] at h
    | some i =>
      obtain ⟨n2, v, rfl, hn2⟩ := exists_entry_of_strchr s i hc
      rw [list_insert_dup n2 v l hn2] at h
      by_cases hl : l = []
      · simp [hl] at h
      · simp only [hl, if_false, Option.some.injEq] at h
        rw [← h]
        have hne : n2 ≠ n := fun e => hs rfl ((named_entry_iff n n2 v hn hn2).mpr e)
        exact getenv_replace_other n2 v n l hn2 hn hne w hw

theorem run_getenv_preserved (n : Str) (hn : '=' ∉ n) (cs : List (Str × Bool))
    (l l2 : List Str) (w : Str) (hcs : ∀ c ∈ cs, c.2 = true → ¬ Named n c.1)
    (hw : getenv n l = some w) (h : run cs l = some l2) : getenv n l2 = some w := by
  induction cs generalizing l with
  | nil =>
    simp only [run, Option.some.injEq] at h
    rw [← h]; exact hw
  | cons c cs ih =>
    simp only [run] at h
    cases h1 : list_insert c.1 l c.2 with
    | none => simp [h1] at h
    | some l1 =>
      simp only [h1, Option.some_bind] at h
      exact ih l1 (fun c2 hc2 => hcs c2 (by simp [hc2]))
        (list_insert_getenv_preserved n hn c.1 c.2 l l1 w (hcs c (by simp)) hw h1) h

/-- After a run that inserts `n=v` with `dupcheck` set and later inserts no
other entry for `n` with `dupcheck` set, a lookup of `n` finds `v`. -/
theorem run_getenv_set (n v : Str) (hn : '=' ∉ n) (pre post : List (Str × Bool))
    (l l2 : List Str) (hpost : ∀ c ∈ post, c.2 = true → ¬ Named n c.1)
    (h : run (pre ++ (n ++ '=' :: v, true) :: post) l = some l2) : getenv n l2 = some v := by
  rw [run_append] at h
  cases h1 : run pre l with
  | none => simp [h1] at h
  | some l1 =>
    simp only [h1, Option.some_bind, run] at h
    rw [list_insert_dup n v l1 hn] at h
    by_cases hl : l1 = []
    · simp [hl] at h
    · simp only [hl, if_false, Option.some_bind] at h
      exact run_getenv_preserved n hn post _ l2 v hpost (getenv_replace_self n v l1) h

theorem list_insert_mem (s : Str) (d : Bool) (l l2 : List Str) (h : list_insert s l d = some l2)
    (e : Str) (he : e ∈ l2) : e ∈ l ∨ e = s := by
  cases d with
  | false =>
    simp only [list_insert, Bool.false_eq_true, if_false, Option.some.injEq] at h
    rw [← h] at he
    simpa using he
  | true =>
    cases hc : strchr s '=' with
    | none => simp [list_insert, hc] at h
    | some i =>
      simp only [list_insert, if_true, hc] at h
      by_cases hl : l = []
      · simp [hl] at h
      · simp only [hl, if_false, Option.some.injEq] at h
        rw [← h] at he
        clear h hl
        induction l with
        | nil =>
          simp only [replace_or_append, List.mem_singleton] at he
          exact Or.inr he
        | cons a l ih =>
          by_cases hp : (strncmp s a (i + 1) == 0) = true
          · simp only [replace_or_append, hp, if_true, List.mem_cons] at he
            rcases he with he | he
            · exact Or.inr he
            · exact Or.inl (by simp [he])
          · simp only [replace_or_append, hp, Bool.false_eq_true, if_false, List.mem_cons] at he
            rcases he with he | he
            · exact Or.inl (by simp [he])
            · rcases ih he with h2 | h2
              · exact Or.inl (by simp [h2])
              · exact Or.inr h2

/-- Every string of the list after a run was in the list before or is one of
the strings inserted. -/
theorem run_mem (cs : List (Str × Bool)) (l l2 : List Str) (h : run cs l = some l2)
    (e : Str) (he : e ∈ l2) : e ∈ l ∨ ∃ c ∈ cs, c.1 = e := by
  induction cs generalizing l with
  | nil =>
    simp only [run, Option.some.injEq] at h
    rw [← h] at he; exact Or.inl he
  | cons c cs ih =>
    simp only [run] at h
    cases h1 : list_insert c.1 l c.2 with
    | none => simp [h1] at h
    | some l1 =>
      simp only [h1, Option.some_bind] at h
      rcases ih l1 h with h2 | ⟨c2, hc2, rfl⟩
      · rcases list_insert_mem c.1 c.2 l l1 h1 e h2 with h3 | h3
        · exact Or.inl h3
        · exact Or.inr ⟨c, by simp, h3.symm⟩
      · exact Or.inr ⟨c2, by simp [hc2], rfl⟩

/-! ## The exported-function guard -/

theorem is_bash_function_iff (e : Str) : is_bash_function e = true ↔ FunctionExport e := by
  constructor
  · intro h
    unfold is_bash_function at h
    cases hc : strchr e '=' with
    | none => simp [hc] at h
    | some i =>
      obtain ⟨n, v, rfl, hn⟩ := exists_entry_of_strchr e i hc
      have h2 := is_bash_function_entry n v hn
      unfold is_bash_function at h2
      rw [h2] at h
      have h3 : "()".toList <+: v := by simpa using h
      obtain ⟨t, rfl⟩ := h3
      exact ⟨n, t, hn, rfl⟩
  · rintro ⟨n, t, hn, rfl⟩
    rw [is_bash_function_entry n _ hn]
    simp only [decide_eq_true_eq]
    exact ⟨t, rfl⟩

theorem not_function_of_entry (n v : Str) (hn : '=' ∉ n) (hv : ¬ "()".toList <+: v) :
    is_bash_function (n ++ '=' :: v) = false := by
  rw [is_bash_function_entry n v hn]
  simpa using hv

theorem is_bash_function_cons (a : Char) (s : Str) (ha : a ≠ '=') :
    is_bash_function (a :: s) = is_bash_function s := by
  unfold is_bash_function
  simp only [strchr, ha, if_false]
  cases strchr s '=' <;> simp

theorem is_bash_function_append (pre s : Str) (hp : '=' ∉ pre) :
    is_bash_function (pre ++ s) = is_bash_function s := by
  induction pre with
  | nil => rfl
  | cons a pre ih =>
    have ha : a ≠ '=' := fun e => hp (by simp [e])
    rw [List.cons_append, is_bash_function_cons _ _ ha]
    exact ih (fun h => hp (by simp [h]))

/-- Dropping the five characters `SUDO_` of an entry that starts with
`SUDO_PS1` does not change the verdict of the guard. -/
theorem is_bash_function_drop5 (ep : Str) (k : Nat) (hk : 8 ≤ k)
    (h : strncmp ep "SUDO_PS1=".toList k = 0) :
    is_bash_function (ep.drop 5) = is_bash_function ep ∧ "PS1".toList <+: ep.drop 5 := by
  rw [strncmp_eq_zero_iff] at h
  have h8 : ep.take 8 = "SUDO_PS1".toList := by
    have := congrArg (List.take 8) h
    rw [List.take_take, List.take_take, Nat.min_eq_left hk] at this
    rw [this]; rfl
  have h5 : ep.take 5 = "SUDO_".toList := by
    have := congrArg (List.take 5) h8
    rw [List.take_take] at this
    have h58 : min 5 8 = 5 := rfl
    rw [h58] at this
    rw [this]; rfl
  have h3 : (ep.drop 5).take 3 = "PS1".toList := by
    have := congrArg (List.drop 5) h8
    rw [List.drop_take] at this
    rw [this]; rfl
  constructor
  · conv_rhs => rw [← List.take_append_drop 5 ep, h5]
    exact (is_bash_function_append _ _ (by decide)).symm
  · rw [← h3]
    exact List.take_prefix _ _

theorem var_ok_true_not_function (g : Ctx) (e : Str) (h : var_ok g e = some true) :
    is_bash_function e = false := by
  unfold var_ok at h
  by_cases hb : is_bash_function e = true
  · simp [hb] at h
  · simpa using hb

/-! ## What the source loops leave -/

theorem reset_ps1_origin (v : List Str) (p0 : Option Str) (p : Str)
    (h : reset_ps1 v p0 = some p) :
    p0 = some p ∨ ∃ ep ∈ v, is_bash_function ep = false ∧
      strncmp ep "SUDO_PS1=".toList 8 = 0 ∧ p = ep.drop 5 := by
  induction v generalizing p0 with
  | nil => exact Or.inl h
  | cons ep v ih =>
    simp only [reset_ps1, List.foldl_cons] at h
    rcases ih _ h with h1 | ⟨e2, he2, h2⟩
    · by_cases hc : (!is_bash_function ep && strncmp ep "SUDO_PS1=".toList 8 == 0) = true
      · simp only [hc, if_true, Option.some.injEq] at h1
        simp only [Bool.and_eq_true, Bool.not_eq_true', beq_iff_eq] at hc
        exact Or.inr ⟨ep, by simp, hc.1, hc.2, h1.symm⟩
      · simp only [hc, if_false] at h1
        exact Or.inl h1
    · exact Or.inr ⟨e2, by simp [he2], h2⟩

theorem filter_ps1_origin (g : Ctx) (v : List Str) (p0 : Option Str) (p : Str)
    (h : filter_ps1 g v p0 = some p) :
    p0 = some p ∨ ∃ ep ∈ v, var_ok g ep = some true ∧
      strncmp ep "SUDO_PS1=".toList 9 = 0 ∧ p = ep.drop 5 := by
  unfold filter_ps1 at h
  have key : ∀ (w : List Str) (q0 : Option Str),
      w.foldl (fun p ep =>
        if strncmp ep "SUDO_PS1=".toList 9 == 0 then some (ep.drop 5) else p) q0 = some p →
      q0 = some p ∨ ∃ ep ∈ w, strncmp ep "SUDO_PS1=".toList 9 = 0 ∧ p = ep.drop 5 := by
    intro w
    induction w with
    | nil => intro q0 hq; exact Or.inl hq
    | cons ep w ih =>
      intro q0 hq
      simp only [List.foldl_cons] at hq
      rcases ih _ hq with h1 | ⟨e2, he2, h2⟩
      · by_cases hc : (strncmp ep "SUDO_PS1=".toList 9 == 0) = true
        · simp only [hc, if_true, Option.some.injEq] at h1
          exact Or.inr ⟨ep, by simp, by simpa using hc, h1.symm⟩
        · simp only [hc, if_false] at h1
          exact Or.inl h1
      · exact Or.inr ⟨e2, by simp [he2], h2⟩
  rcases key _ _ h with h1 | ⟨ep, hep, h2⟩
  · exact Or.inl h1
  · rw [List.mem_filter] at hep
    exact Or.inr ⟨ep, hep.1, by simpa [filter_keeps] using hep.2, h2⟩

theorem loop_locals_env (g : Ctx) (v : List Str) (st : locals (List Str))
    (h : loop_locals g v = some st) (e : Str) (he : e ∈ st.env) :
    e ∈ v ∧ (if g.def_env_reset then reset_keeps g e = true else filter_keeps g e = true) := by
  unfold loop_locals at h
  cases hr : g.def_env_reset with
  | true =>
    simp only [hr, if_true] at h ⊢
    by_cases hd : v.all (reset_defined g) = true
    · simp only [hd, if_true, Option.some.injEq] at h
      rw [← h] at he
      simpa [reset_locals, List.mem_filter] using he
    · simp [hd] at h
  | false =>
    simp only [hr, Bool.false_eq_true, if_false] at h ⊢
    by_cases hd : v.all (fun ep => (var_ok g ep).isSome) = true
    · simp only [hd, if_true, Option.some.injEq] at h
      rw [← h] at he
      simpa [filter_locals, List.mem_filter] using he
    · simp [hd] at h

theorem loop_locals_ps1 (g : Ctx) (v : List Str) (st : locals (List Str))
    (h : loop_locals g v = some st) (p : Str) (hp : st.ps1 = some p) :
    ∃ ep ∈ v, p = ep.drop 5 ∧
      (if g.def_env_reset then
        is_bash_function ep = false ∧ strncmp ep "SUDO_PS1=".toList 8 = 0
      else var_ok g ep = some true ∧ strncmp ep "SUDO_PS1=".toList 9 = 0) := by
  unfold loop_locals at h
  cases hr : g.def_env_reset with
  | true =>
    simp only [hr, if_true] at h ⊢
    by_cases hd : v.all (reset_defined g) = true
    · simp only [hd, if_true, Option.some.injEq] at h
      rw [← h] at hp
      rcases reset_ps1_origin v none p hp with h1 | ⟨ep, hep, h2, h3, h4⟩
      · simp at h1
      · exact ⟨ep, hep, h4, h2, h3⟩
    · simp [hd] at h
  | false =>
    simp only [hr, Bool.false_eq_true, if_false] at h ⊢
    by_cases hd : v.all (fun ep => (var_ok g ep).isSome) = true
    · simp only [hd, if_true, Option.some.injEq] at h
      rw [← h] at hp
      rcases filter_ps1_origin g v none p hp with h1 | ⟨ep, hep, h2, h3, h4⟩
      · simp at h1
      · exact ⟨ep, hep, h4, h2, h3⟩
    · simp [hd] at h

/-- Where the strings of the result come from: a source entry that the loop
of the mode copies, or one of the insertions made after the loops. -/
theorem rebuild_environ_origin (g : Ctx) (envp1 envp2 : Option (List Str)) (m : sudo_mode_t)
    (nx : Bool) (l : List Str) (h : rebuild_environ g envp1 envp2 m nx = some l) :
    ∃ st, loop_locals g (sources envp1 envp2) = some st ∧
      run (all_cmds g m nx st.didvar st.ps1) st.env = some l ∧
      ∀ e ∈ l, (e ∈ sources envp1 envp2 ∧
          (if g.def_env_reset then reset_keeps g e = true else filter_keeps g e = true)) ∨
        ∃ c ∈ all_cmds g m nx st.didvar st.ps1, c.1 = e := by
  rw [rebuild_environ_eq] at h
  cases h0 : loop_locals g (sources envp1 envp2) with
  | none => simp [h0] at h
  | some st =>
    simp only [h0, Option.some_bind] at h
    refine ⟨st, rfl, h, fun e he => ?_⟩
    rcases run_mem _ _ _ h e he with h1 | h1
    · exact Or.inl (loop_locals_env g _ st h0 e h1)
    · exact Or.inr h1

/-! ## The strings inserted after the loops -/

theorem fmt_nil (var : Str) : fmt var [] = var ++ ['='] := by
  simp [fmt, va_strings]

theorem fmt_none (var : Str) : fmt var [none] = var ++ ['='] := by
  simp [fmt, va_strings]

theorem fmt_one (var v : Str) : fmt var [some v] = var ++ '=' :: v := by
  simp [fmt, va_strings]

theorem fmt_two (var v w : Str) : fmt var [some v, some w] = var ++ '=' :: (v ++ w) := by
  simp [fmt, va_strings]

theorem fmt_three (var v w x : Str) :
    fmt var [some v, some w, some x] = var ++ '=' :: (v ++ (w ++ x)) := by
  simp [fmt, va_strings]

theorem fmt_opt (var : Str) (o : Option Str) : fmt var [o] = var ++ '=' :: o.getD [] := by
  cases o with
  | none => simp [fmt_none]
  | some v => simp [fmt_one]

theorem not_fn_append (v t : Str) (c : Char) (hv : ¬ "()".toList <+: v)
    (hc : c ≠ '(' ∧ c ≠ ')') : ¬ "()".toList <+: v ++ c :: t := by
  have h2 : "()".toList = ['(', ')'] := rfl
  rw [h2] at hv ⊢
  cases v with
  | nil => simp [List.cons_prefix_cons, Ne.symm hc.1]
  | cons a v =>
    cases v with
    | nil => simp [List.cons_prefix_cons, Ne.symm hc.2]
    | cons b v =>
      simp only [List.cons_append, List.cons_prefix_cons, List.nil_prefix, and_true] at hv ⊢
      exact hv

theorem toDigitsCore_chars (fuel n : Nat) (ds : List Char) (c : Char)
    (hc : c ∈ Nat.toDigitsCore 10 fuel n ds) : c ∈ ds ∨ c.isDigit = true := by
  induction fuel generalizing n ds with
  | zero => exact Or.inl (by simpa [Nat.toDigitsCore] using hc)
  | succ fuel ih =>
    have hd : (Nat.digitChar (n % 10)).isDigit = true := by
      have hlt : n % 10 < 10 := Nat.mod_lt _ (by decide)
      generalize n % 10 = k at hlt
      interval_cases k <;> decide
    simp only [Nat.toDigitsCore] at hc
    split_ifs at hc
    · rcases List.mem_cons.mp hc with h | h
      · exact Or.inr (h ▸ hd)
      · exact Or.inl h
    · rcases ih _ _ hc with h | h
      · rcases List.mem_cons.mp h with h | h
        · exact Or.inr (h ▸ hd)
        · exact Or.inl h
      · exact Or.inr h

theorem toDigits_not_fn (n : Nat) : ¬ "()".toList <+: Nat.toDigits 10 n := by
  rintro ⟨t, ht⟩
  have hmem : '(' ∈ Nat.toDigits 10 n := by rw [← ht]; simp
  rcases toDigitsCore_chars _ _ _ _ hmem with h | h
  · simp at h
  · exact absurd h (by decide)

theorem mem_ite_singleton {α : Type} {P : Prop} [Decidable P] {x c : α}
    (h : c ∈ (if P then [x] else [])) : P ∧ c = x := by
  by_cases hp : P
  · simp only [hp, if_true, List.mem_singleton] at h
    exact ⟨hp, h⟩
  · simp [hp] at h

theorem sudo_cmds_head (g : Ctx) :
    sudo_cmds g = [(sudo_command g, true),
      ("SUDO_USER=".toList ++ g.user_name, true),
      ("SUDO_UID=".toList ++ Nat.toDigits 10 g.user_uid, true),
      ("SUDO_GID=".toList ++ Nat.toDigits 10 g.user_gid, true)] := by
  unfold sudo_cmds sudo_command easprintf_lu
  cases g.user_args with
  | none => simp [fmt_one]
  | some args => simp [fmt_one, fmt_three]

/-- Every string inserted after the loops is one of the following. -/
theorem all_cmds_cases (g : Ctx) (m : sudo_mode_t) (nx : Bool) (d : Nat) (p : Option Str)
    (P : Str → Prop)
    (h_login : g.def_env_reset = true → m.login_shell = true →
      P ("HOME=".toList ++ g.runas_pw.pw_dir.getD []) ∧
      P ("SHELL=".toList ++ g.runas_pw.pw_shell) ∧
      P ("LOGNAME=".toList ++ g.runas_pw.pw_name.getD []) ∧
      P ("USER=".toList ++ g.runas_pw.pw_name.getD []))
    (h_user : g.def_env_reset = true → m.login_shell = false →
      (ISSET d DID_HOME = false → P ("HOME=".toList ++ g.user_dir)) ∧
      (ISSET d DID_SHELL = false → P ("SHELL=".toList ++ g.sudo_user_pw_shell)) ∧
      (ISSET d DID_LOGNAME = false → P ("LOGNAME=".toList ++ g.user_name)) ∧
      (ISSET d DID_USER = false → P ("USER=".toList ++ g.user_name)))
    (h_secure : ∀ sp, g.def_secure_path = some sp → g.user_is_exempt = false →
      P ("PATH=".toList ++ sp))
    (h_logname : ∀ name, g.runas_pw.pw_name = some name → g.def_env_reset = true →
      P ("LOGNAME=".toList ++ name) ∧ P ("USER=".toList ++ name))
    (h_home : ∀ dir, g.runas_pw.pw_dir = some dir → (g.def_env_reset || m.reset_home) = true →
      P ("HOME=".toList ++ dir))
    (h_term : ISSET (secure_didvar g d) DID_TERM = false → P "TERM=unknown".toList)
    (h_path : ISSET (secure_didvar g d) DID_PATH = false → P ("PATH=".toList ++ g.PATH_DEFPATH))
    (h_noexec : ∀ file, g.def_noexec_file = some file → nx = true →
      (g.platform = Platform.darwin →
        P ("DYLD_INSERT_LIBRARIES=".toList ++ file) ∧ P "DYLD_FORCE_FLAT_NAMESPACE=".toList) ∧
      (g.platform = Platform.osf_sgi → P ("_RLD_LIST=".toList ++ file ++ ":DEFAULT".toList)) ∧
      (g.platform = Platform.other → P ("LD_PRELOAD=".toList ++ file)))
    (h_ps1 : ∀ q, p = some q → P q)
    (h_sudo : P (sudo_command g) ∧ P ("SUDO_USER=".toList ++ g.user_name) ∧
      P ("SUDO_UID=".toList ++ Nat.toDigits 10 g.user_uid) ∧
      P ("SUDO_GID=".toList ++ Nat.toDigits 10 g.user_gid)) :
    ∀ c ∈ all_cmds g m nx d p, P c.1 := by
  intro c hc
  unfold all_cmds tail_cmds at hc
  simp only [List.mem_append] at hc
  rcases hc with h | h | h | h | h | h | h | h
  · by_cases hr : g.def_env_reset = true
    · simp only [hr, if_true, defaults_cmds] at h
      by_cases hl : m.login_shell = true
      · obtain ⟨h1, h2, h3, h4⟩ := h_login hr hl
        simp only [hl, if_true, List.mem_cons, List.mem_singleton, List.not_mem_nil,
          or_false, fmt_opt, fmt_one] at h
        rcases h with rfl | rfl | rfl | rfl
        · simpa using h1
        · simpa using h2
        · simpa using h3
        · simpa using h4
      · have hl2 : m.login_shell = false := by simpa using hl
        obtain ⟨h1, h2, h3, h4⟩ := h_user hr hl2
        simp only [hl2, Bool.false_eq_true, if_false, List.mem_append, fmt_one] at h
        rcases h with h | h | h | h
        · obtain ⟨hc1, rfl⟩ := mem_ite_singleton h
          simpa using h1 (by simpa using hc1)
        · obtain ⟨hc1, rfl⟩ := mem_ite_singleton h
          simpa using h2 (by simpa using hc1)
        · obtain ⟨hc1, rfl⟩ := mem_ite_singleton h
          simpa using h3 (by simpa using hc1)
        · obtain ⟨hc1, rfl⟩ := mem_ite_singleton h
          simpa using h4 (by simpa using hc1)
    · simp [hr] at h
  · unfold secure_cmds at h
    cases hs : g.def_secure_path with
    | none => simp [hs] at h
    | some sp =>
      simp only [hs, fmt_one] at h
      obtain ⟨hc1, rfl⟩ := mem_ite_singleton h
      simpa using h_secure sp hs (by simpa using hc1)
  · unfold logname_cmds at h
    cases hs : g.runas_pw.pw_name with
    | none => simp [hs] at h
    | some name =>
      simp only [hs, fmt_one] at h
      by_cases hr : g.def_env_reset = true
      · obtain ⟨h1, h2⟩ := h_logname name hs hr
        simp only [hr, if_true, List.mem_cons, List.mem_singleton, List.not_mem_nil,
          or_false] at h
        rcases h with rfl | rfl
        · simpa using h1
        · simpa using h2
      · simp [hr] at h
  · unfold home_cmds at h
    cases hs : g.runas_pw.pw_dir with
    | none => simp [hs] at h
    | some dir =>
      simp only [hs, fmt_one] at h
      obtain ⟨hc1, rfl⟩ := mem_ite_singleton h
      simpa using h_home dir hs hc1
  · unfold termpath_cmds at h
    simp only [List.mem_append, fmt_one] at h
    rcases h with h | h
    · obtain ⟨hc1, rfl⟩ := mem_ite_singleton h
      exact h_term (by simpa using hc1)
    · obtain ⟨hc1, rfl⟩ := mem_ite_singleton h
      simpa using h_path (by simpa using hc1)
  · unfold noexec_cmds at h
    cases hs : g.def_noexec_file with
    | none => simp [hs] at h
    | some file =>
      simp only [hs] at h
      by_cases hn : nx = true
      · obtain ⟨h1, h2, h3⟩ := h_noexec file hs hn
        simp only [hn, if_true] at h
        cases hpl : g.platform with
        | darwin =>
          simp only [hpl, List.mem_cons, List.mem_singleton, List.not_mem_nil, or_false,
            fmt_one, fmt_nil] at h
          rcases h with rfl | rfl
          · simpa using (h1 hpl).1
          · simpa using (h1 hpl).2
        | osf_sgi =>
          simp only [hpl, List.mem_singleton, fmt_two] at h
          subst h
          simpa using h2 hpl
        | other =>
          simp only [hpl, List.mem_singleton, fmt_one] at h
          subst h
          simpa using h3 hpl
      · simp [hn] at h
  · unfold ps1_cmds at h
    cases hs : p with
    | none => simp [hs] at h
    | some q =>
      simp only [hs, List.mem_singleton] at h
      subst h
      exact h_ps1 q hs
  · rw [sudo_cmds_head] at h
    simp only [List.mem_cons, List.mem_singleton, List.not_mem_nil, or_false] at h
    rcases h with rfl | rfl | rfl | rfl
    · exact h_sudo.1
    · exact h_sudo.2.1
    · exact h_sudo.2.2.1
    · exact h_sudo.2.2.2

theorem plain_named (var v e : Str) (he : e = var ++ '=' :: v) (hvar : '=' ∉ var)
    (hv : ¬ "()".toList <+: v) : is_bash_function e = false := by
  rw [he]; exact not_function_of_entry var v hvar hv

theorem not_fn_nil : ¬ "()".toList <+: ([] : Str) := by decide

theorem not_fn_getD (o : Option Str) (h : ∀ v, o = some v → ¬ "()".toList <+: v) :
    ¬ "()".toList <+: o.getD [] := by
  cases o with
  | none => exact not_fn_nil
  | some v => exact h v rfl

theorem ps1_plain (g : Ctx) (v : List Str) (st : locals (List Str))
    (h : loop_locals g v = some st) (q : Str) (hq : st.ps1 = some q) :
    is_bash_function q = false ∧ "PS1".toList <+: q := by
  obtain ⟨ep, -, rfl, hep⟩ := loop_locals_ps1 g v st h q hq
  cases hr : g.def_env_reset with
  | true =>
    simp only [hr, if_true] at hep
    have h5 := is_bash_function_drop5 ep 8 (le_refl _) hep.2
    exact ⟨by rw [h5.1]; exact hep.1, h5.2⟩
  | false =>
    simp only [hr, Bool.false_eq_true, if_false] at hep
    have h5 := is_bash_function_drop5 ep 9 (by decide) hep.2
    exact ⟨by rw [h5.1]; exact var_ok_true_not_function g ep hep.1, h5.2⟩

/-- No string of the result is caught by the guard, when no configured value
begins with `()`. -/
theorem rebuild_environ_plain (g : Ctx) (envp1 envp2 : Option (List Str)) (m : sudo_mode_t)
    (nx : Bool) (hv : ValuesPlain g) (l : List Str)
    (h : rebuild_environ g envp1 envp2 m nx = some l) :
    ∀ e ∈ l, is_bash_function e = false := by
  obtain ⟨st, h0, -, horig⟩ := rebuild_environ_origin g envp1 envp2 m nx l h
  obtain ⟨v1, v2, v3, v4, v5, v6, v7, v8, v9⟩ := hv
  intro e he
  rcases horig e he with ⟨-, hk⟩ | ⟨c, hc, rfl⟩
  · cases hr : g.def_env_reset with
    | true =>
      simp only [hr, if_true, reset_keeps, Bool.and_eq_true, Bool.not_eq_true'] at hk
      exact hk.1
    | false =>
      simp only [hr, Bool.false_eq_true, if_false, filter_keeps, beq_iff_eq] at hk
      exact var_ok_true_not_function g e hk
  · refine all_cmds_cases g m nx st.didvar st.ps1 (fun s => is_bash_function s = false)
      ?_ ?_ ?_ ?_ ?_ ?_ ?_ ?_ ?_ ?_ c hc
    · intro _ _
      exact ⟨plain_named "HOME".toList _ _ (by simp) (by decide) (not_fn_getD _ v2),
        plain_named "SHELL".toList _ _ (by simp) (by decide) v3,
        plain_named "LOGNAME".toList _ _ (by simp) (by decide) (not_fn_getD _ v1),
        plain_named "USER".toList _ _ (by simp) (by decide) (not_fn_getD _ v1)⟩
    · intro _ _
      exact ⟨fun _ => plain_named "HOME".toList _ _ (by simp) (by decide) v5,
        fun _ => plain_named "SHELL".toList _ _ (by simp) (by decide) v6,
        fun _ => plain_named "LOGNAME".toList _ _ (by simp) (by decide) v4,
        fun _ => plain_named "USER".toList _ _ (by simp) (by decide) v4⟩
    · intro sp hsp _
      exact plain_named "PATH".toList _ _ (by simp) (by decide) (v7 sp hsp)
    · intro name hname _
      exact ⟨plain_named "LOGNAME".toList _ _ (by simp) (by decide) (v1 name hname),
        plain_named "USER".toList _ _ (by simp) (by decide) (v1 name hname)⟩
    · intro dir hdir _
      exact plain_named "HOME".toList _ _ (by simp) (by decide) (v2 dir hdir)
    · intro _; decide
    · intro _
      refine plain_named "PATH".toList g.PATH_DEFPATH _ (by simp) (by decide) ?_
      rintro ⟨t, ht⟩
      have := g.PATH_DEFPATH_abs
      rw [← ht] at this
      simp at this
    · intro file hfile _
      refine ⟨fun _ => ⟨plain_named "DYLD_INSERT_LIBRARIES".toList _ _ (by simp) (by decide)
          (v8 file hfile), by decide⟩, fun _ => ?_, fun _ =>
          plain_named "LD_PRELOAD".toList _ _ (by simp) (by decide) (v8 file hfile)⟩
      exact plain_named "_RLD_LIST".toList (file ++ ':' :: "DEFAULT".toList) _ (by simp)
        (by decide) (not_fn_append file _ ':' (v8 file hfile) (by decide))
    · intro q hq
      exact (ps1_plain g _ st h0 q hq).1
    · refine ⟨?_, plain_named "SUDO_USER".toList _ _ (by simp) (by decide) v4,
        plain_named "SUDO_UID".toList (Nat.toDigits 10 g.user_uid) _ (by simp) (by decide)
          (toDigits_not_fn _),
        plain_named "SUDO_GID".toList (Nat.toDigits 10 g.user_gid) _ (by simp) (by decide)
          (toDigits_not_fn _)⟩
      unfold sudo_command
      cases g.user_args with
      | none => exact plain_named "SUDO_COMMAND".toList _ _ (by simp) (by decide) v9
      | some args =>
        exact plain_named "SUDO_COMMAND".toList (g.user_cmnd ++ ' ' :: args) _ (by simp)
          (by decide) (not_fn_append g.user_cmnd args ' ' v9 (by decide))

theorem delete_loop_some_true (l : List Str) (var : Str) (ok : Bool)
    (h : delete_loop l var ok = some true) :
    ok = true ∧ ∀ p ∈ l, pattern_test p var = some false := by
  induction l generalizing ok with
  | nil =>
    simp only [delete_loop, Option.some.injEq] at h
    exact ⟨h, by simp⟩
  | cons p l ih =>
    cases ok with
    | false => simp [delete_loop] at h
    | true =>
      simp only [delete_loop, if_true] at h
      cases hp : pattern_test p var with
      | none => simp [hp] at h
      | some b =>
        simp only [hp] at h
        cases b with
        | true =>
          simp only [if_true] at h
          exact absurd (ih false h).1 (by decide)
        | false =>
          simp only [Bool.false_eq_true, if_false] at h
          refine ⟨rfl, fun q hq => ?_⟩
          rcases List.mem_cons.mp hq with rfl | hq
          · exact hp
          · exact (ih true h).2 q hq

theorem check_loop_some_true (l : List Str) (var : Str) (ok : Bool)
    (h : check_loop l var ok = some true) : ok = true := by
  induction l generalizing ok with
  | nil => simpa [check_loop] using h
  | cons p l ih =>
    cases ok with
    | false => simp [check_loop] at h
    | true => rfl

theorem var_ok_true_deny (g : Ctx) (e : Str) (h : var_ok g e = some true) :
    ∀ p ∈ g.def_env_delete, pattern_test p e = some false := by
  unfold var_ok at h
  by_cases hb : is_bash_function e = true
  · simp [hb] at h
  · simp only [hb, Bool.false_eq_true, if_false] at h
    cases hd : delete_loop g.def_env_delete e true with
    | none => simp [hd] at h
    | some ok =>
      simp only [hd] at h
      have := check_loop_some_true _ _ _ h
      subst this
      exact (delete_loop_some_true _ _ _ hd).2

theorem strncmp_literal_prefix (ep lit : Str) (h : strncmp ep lit lit.length = 0) :
    ∃ v, ep = lit ++ v := by
  rw [strncmp_eq_zero_iff, List.take_length] at h
  refine ⟨ep.drop lit.length, ?_⟩
  conv_lhs => rw [← List.take_append_drop lit.length ep]
  rw [h]

theorem keep_loop_some_true (l : List Str) (e : Str) (h : keep_loop l e = some true) :
    ∃ p ∈ l, p ≠ [] ∧ EntryMatch p e := by
  induction l with
  | nil => simp [keep_loop] at h
  | cons p l ih =>
    simp only [keep_loop] at h
    cases hp : pattern_test p e with
    | none => simp [hp] at h
    | some b =>
      simp only [hp] at h
      cases b with
      | true =>
        have hne : p ≠ [] := by
          rintro rfl
          simp [pattern_test_nil] at hp
        rw [pattern_test_eq_entryMatch p e hne] at hp
        exact ⟨p, by simp, hne, by simpa using hp⟩
      | false =>
        simp only [Bool.false_eq_true, if_false] at h
        obtain ⟨q, hq, h2⟩ := ih h
        exact ⟨q, by simp [hq], h2⟩

theorem not_functionExport_iff (e : Str) : ¬ FunctionExport e ↔ is_bash_function e = false := by
  rw [← is_bash_function_iff]
  simp

theorem strncmp_sudo_ps1 (ep : Str) (h : strncmp ep "SUDO_PS1=".toList 8 = 0) :
    "SUDO_PS1".toList <+: ep := by
  rw [strncmp_eq_zero_iff] at h
  have h8 : ep.take 8 = "SUDO_PS1".toList := by rw [h]; rfl
  rw [← h8]
  exact List.take_prefix _ _

/-! ## The names of the strings inserted with dupcheck -/

theorem not_named_var (n var v : Str) (hn : '=' ∉ n) (hvar : '=' ∉ var) (hne : var ≠ n) :
    ¬ Named n (var ++ '=' :: v) :=
  fun h => hne ((named_entry_iff n var v hn hvar).mp h)

theorem not_named_fmt (n var : Str) (args : List (Option Str)) (hn : '=' ∉ n)
    (hvar : '=' ∉ var) (hne : var ≠ n) : ¬ Named n (fmt var args) :=
  not_named_var n var _ hn hvar hne

theorem logname_cmds_not_named (g : Ctx) (n : Str) (hn : '=' ∉ n)
    (h1 : "LOGNAME".toList ≠ n) (h2 : "USER".toList ≠ n) :
    ∀ c ∈ logname_cmds g, c.2 = true → ¬ Named n c.1 := by
  intro c hc _
  unfold logname_cmds at hc
  cases hs : g.runas_pw.pw_name with
  | none => simp [hs] at hc
  | some name =>
    simp only [hs] at hc
    split_ifs at hc
    · simp only [List.mem_cons, List.mem_singleton, List.not_mem_nil, or_false] at hc
      rcases hc with rfl | rfl
      · exact not_named_fmt n _ _ hn (by decide) h1
      · exact not_named_fmt n _ _ hn (by decide) h2
    · simp at hc

theorem home_cmds_not_named (g : Ctx) (m : sudo_mode_t) (n : Str) (hn : '=' ∉ n)
    (h1 : "HOME".toList ≠ n) : ∀ c ∈ home_cmds g m, c.2 = true → ¬ Named n c.1 := by
  intro c hc _
  unfold home_cmds at hc
  cases hs : g.runas_pw.pw_dir with
  | none => simp [hs] at hc
  | some dir =>
    simp only [hs] at hc
    obtain ⟨-, rfl⟩ := mem_ite_singleton hc
    exact not_named_fmt n _ _ hn (by decide) h1

theorem termpath_cmds_not_named (g : Ctx) (d : Nat) (n : Str) :
    ∀ c ∈ termpath_cmds g d, c.2 = true → ¬ Named n c.1 := by
  intro c hc hd
  unfold termpath_cmds at hc
  rcases List.mem_append.mp hc with h | h
  · obtain ⟨-, rfl⟩ := mem_ite_singleton h
    cases hd
  · obtain ⟨-, rfl⟩ := mem_ite_singleton h
    cases hd

theorem noexec_cmds_not_named (g : Ctx) (nx : Bool) (n : Str) (hn : '=' ∉ n)
    (h1 : "DYLD_INSERT_LIBRARIES".toList ≠ n) (h2 : "DYLD_FORCE_FLAT_NAMESPACE".toList ≠ n)
    (h3 : "_RLD_LIST".toList ≠ n) (h4 : "LD_PRELOAD".toList ≠ n) :
    ∀ c ∈ noexec_cmds g nx, c.2 = true → ¬ Named n c.1 := by
  intro c hc _
  unfold noexec_cmds at hc
  cases hs : g.def_noexec_file with
  | none => simp [hs] at hc
  | some file =>
    simp only [hs] at hc
    split_ifs at hc
    · cases hp : g.platform with
      | darwin =>
        simp only [hp, List.mem_cons, List.mem_singleton, List.not_mem_nil, or_false] at hc
        rcases hc with rfl | rfl
        · exact not_named_fmt n _ _ hn (by decide) h1
        · exact not_named_fmt n _ _ hn (by decide) h2
      | osf_sgi =>
        simp only [hp, List.mem_singleton] at hc
        subst hc
        exact not_named_fmt n _ _ hn (by decide) h3
      | other =>
        simp only [hp, List.mem_singleton] at hc
        subst hc
        exact not_named_fmt n _ _ hn (by decide) h4
    · simp at hc

theorem ps1_not_named (n q : Str) (hq : "PS1".toList <+: q)
    (h1 : ¬ "PS1".toList <+: n ++ ['=']) (h2 : ¬ (n ++ ['=']) <+: "PS1".toList) :
    ¬ Named n q := by
  intro h
  rcases List.prefix_or_prefix_of_prefix hq h with h3 | h3
  · exact h1 h3
  · exact h2 h3

theorem ps1_cmds_not_named (p : Option Str) (n : Str)
    (hp : ∀ q, p = some q → "PS1".toList <+: q)
    (h1 : ¬ "PS1".toList <+: n ++ ['=']) (h2 : ¬ (n ++ ['=']) <+: "PS1".toList) :
    ∀ c ∈ ps1_cmds p, c.2 = true → ¬ Named n c.1 := by
  intro c hc _
  unfold ps1_cmds at hc
  cases hs : p with
  | none => simp [hs] at hc
  | some q =>
    simp only [hs, List.mem_singleton] at hc
    subst hc
    exact ps1_not_named n q (hp q hs) h1 h2

theorem sudo_command_eq (g : Ctx) :
    ∃ v, sudo_command g = "SUDO_COMMAND".toList ++ '=' :: v ∧
      v = (match g.user_args with
        | some args => g.user_cmnd ++ ' ' :: args
        | none => g.user_cmnd) := by
  unfold sudo_command
  cases g.user_args with
  | none => exact ⟨_, by simp, rfl⟩
  | some args => exact ⟨_, by simp, rfl⟩

theorem sudo_cmds_not_named (g : Ctx) (n : Str) (hn : '=' ∉ n)
    (h1 : "SUDO_COMMAND".toList ≠ n) (h2 : "SUDO_USER".toList ≠ n)
    (h3 : "SUDO_UID".toList ≠ n) (h4 : "SUDO_GID".toList ≠ n) :
    ∀ c ∈ sudo_cmds g, c.2 = true → ¬ Named n c.1 := by
  intro c hc _
  rw [sudo_cmds_head] at hc
  simp only [List.mem_cons, List.mem_singleton, List.not_mem_nil, or_false] at hc
  rcases hc with rfl | rfl | rfl | rfl
  · obtain ⟨v, hv, -⟩ := sudo_command_eq g
    simp only [hv]
    exact not_named_var n _ v hn (by decide) h1
  · have : "SUDO_USER=".toList ++ g.user_name = "SUDO_USER".toList ++ '=' :: g.user_name := by
      simp
    simp only [this]
    exact not_named_var n _ _ hn (by decide) h2
  · have : "SUDO_UID=".toList ++ Nat.toDigits 10 g.user_uid =
        "SUDO_UID".toList ++ '=' :: Nat.toDigits 10 g.user_uid := by simp
    simp only [this]
    exact not_named_var n _ _ hn (by decide) h3
  · have : "SUDO_GID=".toList ++ Nat.toDigits 10 g.user_gid =
        "SUDO_GID".toList ++ '=' :: Nat.toDigits 10 g.user_gid := by simp
    simp only [this]
    exact not_named_var n _ _ hn (by decide) h4

/-- The insertions that follow lines 487-489 replace no entry for `n`, for a
name `n` that is none of the preload and `SUDO_` names and does not start with
`PS1`. -/
theorem rest_not_named (g : Ctx) (nx : Bool) (d : Nat) (p : Option Str) (n : Str)
    (hn : '=' ∉ n) (hp : ∀ q, p = some q → "PS1".toList <+: q)
    (hlist : n ∉ ["DYLD_INSERT_LIBRARIES".toList, "DYLD_FORCE_FLAT_NAMESPACE".toList,
      "_RLD_LIST".toList, "LD_PRELOAD".toList, "SUDO_COMMAND".toList, "SUDO_USER".toList,
      "SUDO_UID".toList, "SUDO_GID".toList])
    (h1 : ¬ "PS1".toList <+: n ++ ['=']) (h2 : ¬ (n ++ ['=']) <+: "PS1".toList) :
    ∀ c ∈ termpath_cmds g d ++ (noexec_cmds g nx ++ (ps1_cmds p ++ sudo_cmds g)),
      c.2 = true → ¬ Named n c.1 := by
  simp only [List.mem_cons, List.mem_singleton, List.not_mem_nil, or_false, not_or] at hlist
  obtain ⟨a1, a2, a3, a4, a5, a6, a7, a8⟩ := hlist
  intro c hc
  simp only [List.mem_append] at hc
  rcases hc with h | h | h | h
  · exact termpath_cmds_not_named g d n c h
  · exact noexec_cmds_not_named g nx n hn (Ne.symm a1) (Ne.symm a2) (Ne.symm a3) (Ne.symm a4) c h
  · exact ps1_cmds_not_named p n hp h1 h2 c h
  · exact sudo_cmds_not_named g n hn (Ne.symm a5) (Ne.symm a6) (Ne.symm a7) (Ne.symm a8) c h

theorem all_cmds_split_sudo (g : Ctx) (m : sudo_mode_t) (nx : Bool) (d : Nat) (p : Option Str) :
    ∃ pre v, all_cmds g m nx d p = pre ++
      [("SUDO_COMMAND".toList ++ '=' :: v, true),
       ("SUDO_USER".toList ++ '=' :: g.user_name, true),
       ("SUDO_UID".toList ++ '=' :: Nat.toDigits 10 g.user_uid, true),
       ("SUDO_GID".toList ++ '=' :: Nat.toDigits 10 g.user_gid, true)] ∧
      v = (match g.user_args with
        | some args => g.user_cmnd ++ ' ' :: args
        | none => g.user_cmnd) := by
  obtain ⟨v, hv, hv2⟩ := sudo_command_eq g
  refine ⟨(if g.def_env_reset then defaults_cmds g m d else []) ++ (secure_cmds g ++
    (logname_cmds g ++ (home_cmds g m ++ (termpath_cmds g (secure_didvar g d) ++
      (noexec_cmds g nx ++ ps1_cmds p))))), v, ?_, hv2⟩
  rw [all_cmds, tail_cmds, sudo_cmds_head, hv]
  simp

/-! ## Insertions and the number of entries of a name -/

theorem count_named_cons (n a : Str) (l : List Str) :
    count_named n (a :: l) = count_named n l + (if Named n a then 1 else 0) := by
  unfold count_named
  by_cases h : Named n a <;> simp [List.countP_cons, h]

theorem count_named_append_singleton (n s : Str) (l : List Str) :
    count_named n (l ++ [s]) = count_named n l + (if Named n s then 1 else 0) := by
  unfold count_named
  by_cases h : Named n s <;> simp [List.countP_append, h]

theorem count_named_pos_iff (n : Str) (l : List Str) :
    1 ≤ count_named n l ↔ ∃ e ∈ l, Named n e := by
  unfold count_named
  rw [Nat.succ_le_iff, List.countP_pos_iff]
  simp

theorem count_replace (n n2 v : Str) (l : List Str) (hn : '=' ∉ n) (hn2 : '=' ∉ n2) :
    count_named n (replace_or_append (fun x => decide (Named n2 x)) (n2 ++ '=' :: v) l) =
      if n2 = n then max 1 (count_named n l) else count_named n l := by
  have hs : Named n (n2 ++ '=' :: v) ↔ n2 = n := named_entry_iff n n2 v hn hn2
  induction l with
  | nil =>
    by_cases h : n2 = n
    · subst h
      have hs2 : Named n2 (n2 ++ '=' :: v) := hs.mpr rfl
      simp [replace_or_append, count_named_cons, hs2, count_named]
    · have hs2 : ¬ Named n (n2 ++ '=' :: v) := fun h2 => h (hs.mp h2)
      simp [replace_or_append, count_named_cons, hs2, h, count_named]
  | cons a l ih =>
    by_cases ha : Named n2 a
    · simp only [replace_or_append, ha, decide_True, if_true, count_named_cons, hs]
      by_cases h : n2 = n
      · subst h
        simp only [ha, if_true]
        omega
      · have hna : ¬ Named n a := fun h2 => h (named_unique n2 n a hn2 hn ha h2)
        simp [h, hna]
    · simp only [replace_or_append, ha, decide_False, Bool.false_eq_true, if_false,
        count_named_cons, ih]
      by_cases h : n2 = n
      · subst h
        simp only [ha, if_false, if_true]
        omega
      · simp [h]

theorem count_list_insert (n : Str) (hn : '=' ∉ n) (s : Str) (d : Bool) (l l2 : List Str)
    (h : list_insert s l d = some l2) :
    count_named n l2 = cnt_step n (count_named n l) (s, d) := by
  cases d with
  | false =>
    simp only [list_insert, Bool.false_eq_true, if_false, Option.some.injEq] at h
    rw [← h, count_named_append_singleton]
    by_cases hs : Named n s <;> simp [cnt_step, hs]
  | true =>
    cases hc : strchr s '=' with
    | none => simp [list_insert, hc] at h
    | some i =>
      obtain ⟨n2, v, rfl, hn2⟩ := exists_entry_of_strchr s i hc
      rw [list_insert_dup n2 v l hn2] at h
      by_cases hl : l = []
      · simp [hl] at h
      · simp only [hl, if_false, Option.some.injEq] at h
        rw [← h, count_replace n n2 v l hn hn2]
        have hs : Named n (n2 ++ '=' :: v) ↔ n2 = n := named_entry_iff n n2 v hn hn2
        by_cases h2 : n2 = n
        · subst h2
          have hs2 : Named n2 (n2 ++ '=' :: v) := hs.mpr rfl
          simp [cnt_step, hs2]
        · have hs2 : ¬ Named n (n2 ++ '=' :: v) := fun h3 => h2 (hs.mp h3)
          simp [cnt_step, hs2, h2]

theorem count_run (n : Str) (hn : '=' ∉ n) (cs : List (Str × Bool)) (l l2 : List Str)
    (h : run cs l = some l2) :
    count_named n l2 = cs.foldl (cnt_step n) (count_named n l) := by
  induction cs generalizing l with
  | nil =>
    simp only [run, Option.some.injEq] at h
    rw [← h]; rfl
  | cons c cs ih =>
    simp only [run] at h
    cases h1 : list_insert c.1 l c.2 with
    | none => simp [h1] at h
    | some l1 =>
      simp only [h1, Option.some_bind] at h
      rw [ih l1 h, List.foldl_cons, count_list_insert n hn c.1 c.2 l l1 h1]

theorem cnt_step_ge (n : Str) (c : Nat) (cmd : Str × Bool) : c ≤ cnt_step n c cmd := by
  unfold cnt_step
  split_ifs <;> omega

theorem foldl_cnt_ge (n : Str) (cs : List (Str × Bool)) (c : Nat) :
    c ≤ cs.foldl (cnt_step n) c := by
  induction cs generalizing c with
  | nil => exact le_refl _
  | cons a cs ih => exact le_trans (cnt_step_ge n c a) (ih _)

theorem foldl_cnt_pos_of_mem (n : Str) (cs : List (Str × Bool)) (c : Nat)
    (h : ∃ cmd ∈ cs, Named n cmd.1) : 1 ≤ cs.foldl (cnt_step n) c := by
  induction cs generalizing c with
  | nil => simp at h
  | cons a cs ih =>
    obtain ⟨cmd, hcmd, hnamed⟩ := h
    rcases List.mem_cons.mp hcmd with rfl | h2
    · refine le_trans ?_ (foldl_cnt_ge n cs _)
      unfold cnt_step
      simp only [hnamed, if_true]
      split_ifs <;> omega
    · exact ih _ ⟨cmd, h2, hnamed⟩

theorem SkipFor.foldl {n : Str} {cs : List (Str × Bool)} (h : SkipFor n cs) (c : Nat) :
    cs.foldl (cnt_step n) c = c := by
  induction cs generalizing c with
  | nil => rfl
  | cons a cs ih =>
    have ha : ¬ Named n a.1 := h a (by simp)
    simp only [List.foldl_cons, cnt_step, ha, if_false]
    exact ih (fun x hx => h x (by simp [hx])) c

theorem QuietFor.foldl_le_one {n : Str} {cs : List (Str × Bool)} (h : QuietFor n cs) (c : Nat)
    (hc : c ≤ 1) : cs.foldl (cnt_step n) c ≤ 1 := by
  induction cs generalizing c with
  | nil => exact hc
  | cons a cs ih =>
    refine ih (fun x hx => h x (by simp [hx])) _ ?_
    unfold cnt_step
    rcases h a (by simp) with h1 | h1
    · simp only [h1, if_true]
      split_ifs <;> omega
    · simp only [h1, if_false]
      exact hc

theorem SkipFor.skip_append {n : Str} {c1 c2 : List (Str × Bool)} (h1 : SkipFor n c1)
    (h2 : SkipFor n c2) : SkipFor n (c1 ++ c2) := by
  intro c hc
  rcases List.mem_append.mp hc with h | h
  · exact h1 c h
  · exact h2 c h

theorem QuietFor.quiet_append {n : Str} {c1 c2 : List (Str × Bool)} (h1 : QuietFor n c1)
    (h2 : QuietFor n c2) : QuietFor n (c1 ++ c2) := by
  intro c hc
  rcases List.mem_append.mp hc with h | h
  · exact h1 c h
  · exact h2 c h

theorem SkipFor.quiet {n : Str} {cs : List (Str × Bool)} (h : SkipFor n cs) : QuietFor n cs :=
  fun c hc => Or.inr (h c hc)

theorem SkipFor.skip_nil (n : Str) : SkipFor n [] := fun c hc => by simp at hc

theorem QuietFor.quiet_nil (n : Str) : QuietFor n [] := fun c hc => by simp at hc

/-! ## The flags of didvar -/

theorem ISSET_testBit (d k : Nat) : ISSET d (2 ^ k) = d.testBit k := by
  unfold ISSET
  cases hb : d.testBit k with
  | true =>
    simp only [bne_iff_ne, ne_eq]
    intro h0
    have := congrArg (fun x => Nat.testBit x k) h0
    simp [Nat.testBit_and, Nat.testBit_two_pow_self, hb] at this
  | false =>
    have h0 : d &&& 2 ^ k = 0 := by
      apply Nat.eq_of_testBit_eq
      intro i
      simp only [Nat.testBit_and, Nat.testBit_two_pow, Nat.zero_testBit]
      by_cases hki : k = i
      · subst hki; simp [hb]
      · simp [hki]
    simp [h0]

theorem ISSET_SET (d j k : Nat) :
    ISSET (SET d (2 ^ j)) (2 ^ k) = (ISSET d (2 ^ k) || decide (j = k)) := by
  simp only [ISSET_testBit, SET, Nat.testBit_or, Nat.testBit_two_pow]

theorem strncmp_named (n ep : Str) :
    (strncmp ep (n ++ ['=']) (n.length + 1) == 0) = true ↔ Named n ep := by
  simp only [beq_iff_eq, strncmp_eq_zero_iff, Named]
  rw [List.prefix_iff_eq_take]
  have h : (n ++ ['=']).take (n.length + 1) = n ++ ['='] :=
    List.take_of_length_le (by simp)
  rw [h]
  simp only [List.length_append, List.length_singleton]
  exact eq_comm

theorem named_head (n ep : Str) (c : Char) (t : Str) (hn : n = c :: t) (h : Named n ep) :
    char_at ep 0 = c := by
  subst hn
  obtain ⟨r, rfl⟩ := h
  rfl

/-- The `switch` of lines 402-427 sets the flag of the name the entry is for. -/
theorem keep_didvar_eq (ep : Str) (d : Nat) :
    keep_didvar ep d =
      if Named "HOME".toList ep then SET d DID_HOME
      else if Named "LOGNAME".toList ep then SET d DID_LOGNAME
      else if Named "PATH".toList ep then SET d DID_PATH
      else if Named "SHELL".toList ep then SET d DID_SHELL
      else if Named "TERM".toList ep then SET d DID_TERM
      else if Named "USER".toList ep then SET d DID_USER
      else d := by
  have e1 : (strncmp ep "HOME=".toList 5 == 0) = true ↔ Named "HOME".toList ep :=
    strncmp_named "HOME".toList ep
  have e2 : (strncmp ep "LOGNAME=".toList 8 == 0) = true ↔ Named "LOGNAME".toList ep :=
    strncmp_named "LOGNAME".toList ep
  have e3 : (strncmp ep "PATH=".toList 5 == 0) = true ↔ Named "PATH".toList ep :=
    strncmp_named "PATH".toList ep
  have e4 : (strncmp ep "SHELL=".toList 6 == 0) = true ↔ Named "SHELL".toList ep :=
    strncmp_named "SHELL".toList ep
  have e5 : (strncmp ep "TERM=".toList 5 == 0) = true ↔ Named "TERM".toList ep :=
    strncmp_named "TERM".toList ep
  have e6 : (strncmp ep "USER=".toList 5 == 0) = true ↔ Named "USER".toList ep :=
    strncmp_named "USER".toList ep
  have c1 : Named "HOME".toList ep → char_at ep 0 = 'H' := named_head _ ep _ _ rfl
  have c2 : Named "LOGNAME".toList ep → char_at ep 0 = 'L' := named_head _ ep _ _ rfl
  have c3 : Named "PATH".toList ep → char_at ep 0 = 'P' := named_head _ ep _ _ rfl
  have c4 : Named "SHELL".toList ep → char_at ep 0 = 'S' := named_head _ ep _ _ rfl
  have c5 : Named "TERM".toList ep → char_at ep 0 = 'T' := named_head _ ep _ _ rfl
  have c6 : Named "USER".toList ep → char_at ep 0 = 'U' := named_head _ ep _ _ rfl
  unfold keep_didvar
  simp only [e1, e2, e3, e4, e5, e6]
  by_cases h1 : Named "HOME".toList ep
  · simp +decide only [h1, c1 h1, if_true, if_false]
  by_cases h2 : Named "LOGNAME".toList ep
  · simp +decide only [h1, h2, c2 h2, if_true, if_false]
  by_cases h3 : Named "PATH".toList ep
  · simp +decide only [h1, h2, h3, c3 h3, if_true, if_false]
  by_cases h4 : Named "SHELL".toList ep
  · simp +decide only [h1, h2, h3, h4, c4 h4, if_true, if_false]
  by_cases h5 : Named "TERM".toList ep
  · simp +decide only [h1, h2, h3, h4, h5, c5 h5, if_true, if_false]
  by_cases h6 : Named "USER".toList ep
  · simp +decide only [h1, h2, h3, h4, h5, h6, c6 h6, if_true, if_false]
  · simp only [h1, h2, h3, h4, h5, h6, if_false]
    split_ifs <;> rfl

theorem SET_testBit (d j k : Nat) :
    (SET d (2 ^ j)).testBit k = (d.testBit k || decide (j = k)) := by
  simp only [SET, Nat.testBit_or, Nat.testBit_two_pow]

theorem DID_TERM_eq : DID_TERM = 2 ^ 0 := by decide

theorem DID_PATH_eq : DID_PATH = 2 ^ 1 := by decide

theorem DID_HOME_eq : DID_HOME = 2 ^ 2 := by decide

theorem DID_SHELL_eq : DID_SHELL = 2 ^ 3 := by decide

theorem DID_LOGNAME_eq : DID_LOGNAME = 2 ^ 4 := by decide

theorem DID_USER_eq : DID_USER = 2 ^ 5 := by decide

theorem keep_didvar_testBit (ep : Str) (d : Nat) :
    ∀ p ∈ flag_table, (keep_didvar ep d).testBit p.2 = (d.testBit p.2 || decide (Named p.1 ep)) := by
  have uniq : ∀ X Y : Str, '=' ∉ X → '=' ∉ Y → X ≠ Y → Named X ep → ¬ Named Y ep :=
    fun X Y hX hY hne h1 h2 => hne (named_unique X Y ep hX hY h1 h2)
  rw [keep_didvar_eq]
  by_cases h1 : Named "HOME".toList ep
  · have n2 := uniq _ "LOGNAME".toList (by decide) (by decide) (by decide) h1
    have n3 := uniq _ "PATH".toList (by decide) (by decide) (by decide) h1
    have n4 := uniq _ "SHELL".toList (by decide) (by decide) (by decide) h1
    have n5 := uniq _ "TERM".toList (by decide) (by decide) (by decide) h1
    have n6 := uniq _ "USER".toList (by decide) (by decide) (by decide) h1
    intro p hp
    simp only [flag_table, List.mem_cons, List.mem_singleton, List.not_mem_nil, or_false] at hp
    rcases hp with rfl | rfl | rfl | rfl | rfl | rfl <;>
      simp +decide only [h1, n2, n3, n4, n5, n6, if_true, if_false, DID_HOME_eq, SET_testBit, decide_True, decide_False, Bool.or_true, Bool.or_false]
  by_cases h2 : Named "LOGNAME".toList ep
  · have n3 := uniq _ "PATH".toList (by decide) (by decide) (by decide) h2
    have n4 := uniq _ "SHELL".toList (by decide) (by decide) (by decide) h2
    have n5 := uniq _ "TERM".toList (by decide) (by decide) (by decide) h2
    have n6 := uniq _ "USER".toList (by decide) (by decide) (by decide) h2
    intro p hp
    simp only [flag_table, List.mem_cons, List.mem_singleton, List.not_mem_nil, or_false] at hp
    rcases hp with rfl | rfl | rfl | rfl | rfl | rfl <;>
      simp +decide only [h1, h2, n3, n4, n5, n6, if_true, if_false, DID_LOGNAME_eq, SET_testBit, decide_True, decide_False, Bool.or_true, Bool.or_false]
  by_cases h3 : Named "PATH".toList ep
  · have n4 := uniq _ "SHELL".toList (by decide) (by decide) (by decide) h3
    have n5 := uniq _ "TERM".toList (by decide) (by decide) (by decide) h3
    have n6 := uniq _ "USER".toList (by decide) (by decide) (by decide) h3
    intro p hp
    simp only [flag_table, List.mem_cons, List.mem_singleton, List.not_mem_nil, or_false] at hp
    rcases hp with rfl | rfl | rfl | rfl | rfl | rfl <;>
      simp +decide only [h1, h2, h3, n4, n5, n6, if_true, if_false, DID_PATH_eq, SET_testBit, decide_True, decide_False, Bool.or_true, Bool.or_false]
  by_cases h4 : Named "SHELL".toList ep
  · have n5 := uniq _ "TERM".toList (by decide) (by decide) (by decide) h4
    have n6 := uniq _ "USER".toList (by decide) (by decide) (by decide) h4
    intro p hp
    simp only [flag_table, List.mem_cons, List.mem_singleton, List.not_mem_nil, or_false] at hp
    rcases hp with rfl | rfl | rfl | rfl | rfl | rfl <;>
      simp +decide only [h1, h2, h3, h4, n5, n6, if_true, if_false, DID_SHELL_eq, SET_testBit, decide_True, decide_False, Bool.or_true, Bool.or_false]
  by_cases h5 : Named "TERM".toList ep
  · have n6 := uniq _ "USER".toList (by decide) (by decide) (by decide) h5
    intro p hp
    simp only [flag_table, List.mem_cons, List.mem_singleton, List.not_mem_nil, or_false] at hp
    rcases hp with rfl | rfl | rfl | rfl | rfl | rfl <;>
      simp +decide only [h1, h2, h3, h4, h5, n6, if_true, if_false, DID_TERM_eq, SET_testBit, decide_True, decide_False, Bool.or_true, Bool.or_false]
  by_cases h6 : Named "USER".toList ep
  · intro p hp
    simp only [flag_table, List.mem_cons, List.mem_singleton, List.not_mem_nil, or_false] at hp
    rcases hp with rfl | rfl | rfl | rfl | rfl | rfl <;>
      simp +decide only [h1, h2, h3, h4, h5, h6, if_true, if_false, DID_USER_eq, SET_testBit, decide_True, decide_False, Bool.or_true, Bool.or_false]
  · intro p hp
    simp only [flag_table, List.mem_cons, List.mem_singleton, List.not_mem_nil, or_false] at hp
    rcases hp with rfl | rfl | rfl | rfl | rfl | rfl <;>
      simp only [h1, h2, h3, h4, h5, h6, if_false, decide_False, Bool.or_false]

/-- After the reset-mode loop the flag of a name is set exactly when an entry
for the name was kept. -/
theorem reset_didvar_testBit (g : Ctx) (v : List Str) (d : Nat) :
    ∀ p ∈ flag_table,
      ((v.filter (reset_keeps g)).foldl (fun d ep => keep_didvar ep d) d).testBit p.2 =
        (d.testBit p.2 || decide (1 ≤ count_named p.1 (v.filter (reset_keeps g)))) := by
  intro p hp
  generalize v.filter (reset_keeps g) = K
  induction K generalizing d with
  | nil => simp [count_named]
  | cons ep K ih =>
    simp only [List.foldl_cons]
    rw [ih, keep_didvar_testBit ep d p hp, count_named_cons]
    by_cases h : Named p.1 ep
    · simp [h]
    · simp [h]

/-! ## The pieces of the insertion sequence, name by name -/

theorem skip_guarded_fmt (X var : Str) (args : List (Option Str)) (b : Bool)
    (hX : '=' ∉ X) (hvar : '=' ∉ var) (hne : var ≠ X) :
    SkipFor X (if b = true then [(fmt var args, false)] else []) := by
  intro c hc
  obtain ⟨-, rfl⟩ := mem_ite_singleton hc
  exact not_named_fmt X var args hX hvar hne

theorem skip_guarded_term (X : Str) (b : Bool) (hX : '=' ∉ X) (hne : "TERM".toList ≠ X) :
    SkipFor X (if b = true then [("TERM=unknown".toList, false)] else []) := by
  intro c hc
  obtain ⟨-, rfl⟩ := mem_ite_singleton hc
  exact not_named_var X "TERM".toList "unknown".toList hX (by decide) hne

theorem secure_cmds_dup (g : Ctx) : ∀ c ∈ secure_cmds g, c.2 = true := by
  intro c hc
  unfold secure_cmds at hc
  cases hs : g.def_secure_path with
  | none => simp [hs] at hc
  | some sp =>
    simp only [hs] at hc
    obtain ⟨-, rfl⟩ := mem_ite_singleton hc
    rfl

theorem logname_cmds_dup (g : Ctx) : ∀ c ∈ logname_cmds g, c.2 = true := by
  intro c hc
  unfold logname_cmds at hc
  cases hs : g.runas_pw.pw_name with
  | none => simp [hs] at hc
  | some name =>
    simp only [hs] at hc
    split_ifs at hc
    · simp only [List.mem_cons, List.mem_singleton, List.not_mem_nil, or_false] at hc
      rcases hc with rfl | rfl <;> rfl
    · simp at hc

theorem home_cmds_dup (g : Ctx) (m : sudo_mode_t) : ∀ c ∈ home_cmds g m, c.2 = true := by
  intro c hc
  unfold home_cmds at hc
  cases hs : g.runas_pw.pw_dir with
  | none => simp [hs] at hc
  | some dir =>
    simp only [hs] at hc
    obtain ⟨-, rfl⟩ := mem_ite_singleton hc
    rfl

theorem noexec_cmds_dup (g : Ctx) (nx : Bool) : ∀ c ∈ noexec_cmds g nx, c.2 = true := by
  intro c hc
  unfold noexec_cmds at hc
  cases hs : g.def_noexec_file with
  | none => simp [hs] at hc
  | some file =>
    simp only [hs] at hc
    split_ifs at hc
    · cases hp : g.platform with
      | darwin =>
        simp only [hp, List.mem_cons, List.mem_singleton, List.not_mem_nil, or_false] at hc
        rcases hc with rfl | rfl <;> rfl
      | osf_sgi =>
        simp only [hp, List.mem_singleton] at hc
        subst hc; rfl
      | other =>
        simp only [hp, List.mem_singleton] at hc
        subst hc; rfl
    · simp at hc

theorem ps1_cmds_dup (p : Option Str) : ∀ c ∈ ps1_cmds p, c.2 = true := by
  intro c hc
  unfold ps1_cmds at hc
  cases hs : p with
  | none => simp [hs] at hc
  | some q =>
    simp only [hs, List.mem_singleton] at hc
    subst hc; rfl

theorem sudo_cmds_dup (g : Ctx) : ∀ c ∈ sudo_cmds g, c.2 = true := by
  intro c hc
  rw [sudo_cmds_head] at hc
  simp only [List.mem_cons, List.mem_singleton, List.not_mem_nil, or_false] at hc
  rcases hc with rfl | rfl | rfl | rfl <;> rfl

theorem quiet_of_dup {n : Str} {cs : List (Str × Bool)} (h : ∀ c ∈ cs, c.2 = true) :
    QuietFor n cs := fun c hc => Or.inl (h c hc)

theorem skip_of_dup {n : Str} {cs : List (Str × Bool)} (hd : ∀ c ∈ cs, c.2 = true)
    (h : ∀ c ∈ cs, c.2 = true → ¬ Named n c.1) : SkipFor n cs :=
  fun c hc => h c hc (hd c hc)

/-- The insertions after lines 491-495 are all made with `dupcheck`. -/
theorem quiet_last (g : Ctx) (nx : Bool) (p : Option Str) (n : Str) :
    QuietFor n (noexec_cmds g nx ++ (ps1_cmds p ++ sudo_cmds g)) :=
  (quiet_of_dup (noexec_cmds_dup g nx)).quiet_append
    ((quiet_of_dup (ps1_cmds_dup p)).quiet_append (quiet_of_dup (sudo_cmds_dup g)))

/-- A guarded insertion without `dupcheck` keeps the number of entries at
most one when it is made only if there was none. -/
theorem guarded_le_one (X s : Str) (b : Bool) (c0 : Nat) (hc : c0 ≤ 1)
    (hb : b = true → c0 = 0) :
    (if b = true then [(s, false)] else []).foldl (cnt_step X) c0 ≤ 1 := by
  cases b with
  | false => simpa using hc
  | true =>
    have h0 := hb rfl
    subst h0
    simp only [if_true, List.foldl_cons, List.foldl_nil, cnt_step]
    split_ifs <;> omega

/-- The insertions of reset mode without the login-shell flag, piece by piece. -/
theorem all_cmds_reset_user (g : Ctx) (m : sudo_mode_t) (nx : Bool) (d : Nat) (p : Option Str)
    (hr : g.def_env_reset = true) (hl : m.login_shell = false) :
    all_cmds g m nx d p =
      (if (!ISSET d DID_HOME) = true then [(fmt "HOME".toList [some g.user_dir], false)] else []) ++
      ((if (!ISSET d DID_SHELL) = true then
          [(fmt "SHELL".toList [some g.sudo_user_pw_shell], false)] else []) ++
      ((if (!ISSET d DID_LOGNAME) = true then
          [(fmt "LOGNAME".toList [some g.user_name], false)] else []) ++
      ((if (!ISSET d DID_USER) = true then
          [(fmt "USER".toList [some g.user_name], false)] else []) ++
      (secure_cmds g ++ (logname_cmds g ++ (home_cmds g m ++
      ((if (!ISSET (secure_didvar g d) DID_TERM) = true then
          [("TERM=unknown".toList, false)] else []) ++
      ((if (!ISSET (secure_didvar g d) DID_PATH) = true then
          [(fmt "PATH".toList [some g.PATH_DEFPATH], false)] else []) ++
      (noexec_cmds g nx ++ (ps1_cmds p ++ sudo_cmds g)))))))))) := by
  simp only [all_cmds, hr, if_true, defaults_cmds, hl, Bool.false_eq_true, if_false, tail_cmds,
    termpath_cmds, List.append_assoc]

theorem secure_didvar_term (g : Ctx) (d : Nat) :
    ISSET (secure_didvar g d) DID_TERM = ISSET d DID_TERM := by
  unfold secure_didvar
  split_ifs
  · rw [DID_PATH_eq, DID_TERM_eq, ISSET_SET]
    simp
  · rfl

theorem secure_didvar_path (g : Ctx) (d : Nat) :
    ISSET (secure_didvar g d) DID_PATH = (ISSET d DID_PATH || secure_active g) := by
  unfold secure_didvar
  split_ifs with h
  · rw [DID_PATH_eq, ISSET_SET]
    simp [h]
  · simp [h]

theorem secure_cmds_of_inactive (g : Ctx) (h : secure_active g = false) : secure_cmds g = [] := by
  unfold secure_active at h
  unfold secure_cmds
  cases hs : g.def_secure_path with
  | none => rfl
  | some sp =>
    simp only [hs, Option.isSome_some, Bool.true_and, Bool.not_eq_false'] at h
    simp [h]

/-- After the reset-mode loop, the flag of each of the six names tells
whether an entry for the name was kept. -/
theorem reset_flag_iff (g : Ctx) (v : List Str) (st : locals (List Str))
    (hr : g.def_env_reset = true) (h0 : loop_locals g v = some st) :
    ∀ p ∈ flag_table, ISSET st.didvar (2 ^ p.2) = decide (1 ≤ count_named p.1 st.env) := by
  unfold loop_locals at h0
  simp only [hr, if_true] at h0
  by_cases hd : v.all (reset_defined g) = true
  · simp only [hd, if_true, Option.some.injEq] at h0
    rw [← h0]
    intro p hp
    simp only [reset_locals, List.nil_append, ISSET_testBit]
    rw [reset_didvar_testBit g v 0 p hp]
    simp
  · simp [hd] at h0

theorem reset_count_le (g : Ctx) (v : List Str) (st : locals (List Str))
    (hr : g.def_env_reset = true) (h0 : loop_locals g v = some st) (n : Str) :
    count_named n st.env ≤ count_named n v := by
  unfold loop_locals at h0
  simp only [hr, if_true] at h0
  by_cases hd : v.all (reset_defined g) = true
  · simp only [hd, if_true, Option.some.injEq] at h0
    rw [← h0]
    simp only [reset_locals, List.nil_append, count_named]
    rw [List.countP_filter]
    exact List.countP_mono_left (by
      intro x _ hx
      simp only [Bool.and_eq_true, decide_eq_true_eq] at hx ⊢
      exact hx.1)
  · simp [hd] at h0

theorem skip_secure (g : Ctx) (X : Str) (hX : '=' ∉ X) (hne : "PATH".toList ≠ X) :
    SkipFor X (secure_cmds g) := by
  intro c hc
  unfold secure_cmds at hc
  cases hs : g.def_secure_path with
  | none => simp [hs] at hc
  | some sp =>
    simp only [hs] at hc
    obtain ⟨-, rfl⟩ := mem_ite_singleton hc
    exact not_named_fmt X _ _ hX (by decide) hne

theorem skip_logname (g : Ctx) (X : Str) (hX : '=' ∉ X) (h1 : "LOGNAME".toList ≠ X)
    (h2 : "USER".toList ≠ X) : SkipFor X (logname_cmds g) :=
  skip_of_dup (logname_cmds_dup g) (logname_cmds_not_named g X hX h1 h2)

theorem skip_home (g : Ctx) (m : sudo_mode_t) (X : Str) (hX : '=' ∉ X)
    (h1 : "HOME".toList ≠ X) : SkipFor X (home_cmds g m) :=
  skip_of_dup (home_cmds_dup g m) (home_cmds_not_named g m X hX h1)

theorem flag_zero_of_unset (d k c0 : Nat) (hflag : ISSET d (2 ^ k) = decide (1 ≤ c0))
    (h : (!ISSET d (2 ^ k)) = true) : c0 = 0 := by
  rw [hflag] at h
  simp only [Bool.not_eq_true', decide_eq_false_iff_not, not_le, Nat.lt_one_iff] at h
  exact h

/-- In reset mode without the login-shell flag the insertions leave at most
one entry for each of the six names, when at most one was kept. -/
theorem reset_user_fold_le_one (g : Ctx) (m : sudo_mode_t) (nx : Bool) (d : Nat)
    (p : Option Str) (hr : g.def_env_reset = true) (hl : m.login_shell = false)
    (X : Str) (k c0 : Nat) (hXk : (X, k) ∈ flag_table) (hc : c0 ≤ 1)
    (hflag : ISSET d (2 ^ k) = decide (1 ≤ c0)) :
    (all_cmds g m nx d p).foldl (cnt_step X) c0 ≤ 1 := by
  rw [all_cmds_reset_user g m nx d p hr hl]
  simp only [flag_table, List.mem_cons, List.mem_singleton, List.not_mem_nil, or_false,
    Prod.mk.injEq] at hXk
  rcases hXk with ⟨rfl, rfl⟩ | ⟨rfl, rfl⟩ | ⟨rfl, rfl⟩ | ⟨rfl, rfl⟩ | ⟨rfl, rfl⟩ | ⟨rfl, rfl⟩
  · -- HOME
    rw [List.foldl_append]
    refine QuietFor.foldl_le_one ?_ _ (guarded_le_one _ _ _ c0 hc
      (fun h => flag_zero_of_unset d 2 c0 hflag (by rw [← DID_HOME_eq]; exact h)))
    exact (skip_guarded_fmt _ _ _ _ (by decide) (by decide) (by decide)).quiet.quiet_append
      ((skip_guarded_fmt _ _ _ _ (by decide) (by decide) (by decide)).quiet.quiet_append
      ((skip_guarded_fmt _ _ _ _ (by decide) (by decide) (by decide)).quiet.quiet_append
      ((quiet_of_dup (secure_cmds_dup g)).quiet_append ((quiet_of_dup (logname_cmds_dup g)).quiet_append
      ((quiet_of_dup (home_cmds_dup g m)).quiet_append
      ((skip_guarded_term _ _ (by decide) (by decide)).quiet.quiet_append
      ((skip_guarded_fmt _ _ _ _ (by decide) (by decide) (by decide)).quiet.quiet_append
        (quiet_last g nx p _))))))))
  · -- SHELL
    rw [List.foldl_append,
      (skip_guarded_fmt _ _ _ _ (by decide) (by decide) (by decide)).foldl, List.foldl_append]
    refine QuietFor.foldl_le_one ?_ _ (guarded_le_one _ _ _ c0 hc
      (fun h => flag_zero_of_unset d 3 c0 hflag (by rw [← DID_SHELL_eq]; exact h)))
    exact (skip_guarded_fmt _ _ _ _ (by decide) (by decide) (by decide)).quiet.quiet_append
      ((skip_guarded_fmt _ _ _ _ (by decide) (by decide) (by decide)).quiet.quiet_append
      ((quiet_of_dup (secure_cmds_dup g)).quiet_append ((quiet_of_dup (logname_cmds_dup g)).quiet_append
      ((quiet_of_dup (home_cmds_dup g m)).quiet_append
      ((skip_guarded_term _ _ (by decide) (by decide)).quiet.quiet_append
      ((skip_guarded_fmt _ _ _ _ (by decide) (by decide) (by decide)).quiet.quiet_append
        (quiet_last g nx p _)))))))
  · -- LOGNAME
    rw [List.foldl_append,
      (skip_guarded_fmt _ _ _ _ (by decide) (by decide) (by decide)).foldl, List.foldl_append,
      (skip_guarded_fmt _ _ _ _ (by decide) (by decide) (by decide)).foldl, List.foldl_append]
    refine QuietFor.foldl_le_one ?_ _ (guarded_le_one _ _ _ c0 hc
      (fun h => flag_zero_of_unset d 4 c0 hflag (by rw [← DID_LOGNAME_eq]; exact h)))
    exact (skip_guarded_fmt _ _ _ _ (by decide) (by decide) (by decide)).quiet.quiet_append
      ((quiet_of_dup (secure_cmds_dup g)).quiet_append ((quiet_of_dup (logname_cmds_dup g)).quiet_append
      ((quiet_of_dup (home_cmds_dup g m)).quiet_append
      ((skip_guarded_term _ _ (by decide) (by decide)).quiet.quiet_append
      ((skip_guarded_fmt _ _ _ _ (by decide) (by decide) (by decide)).quiet.quiet_append
        (quiet_last g nx p _))))))
  · -- USER
    rw [List.foldl_append,
      (skip_guarded_fmt _ _ _ _ (by decide) (by decide) (by decide)).foldl, List.foldl_append,
      (skip_guarded_fmt _ _ _ _ (by decide) (by decide) (by decide)).foldl, List.foldl_append,
      (skip_guarded_fmt _ _ _ _ (by decide) (by decide) (by decide)).foldl, List.foldl_append]
    refine QuietFor.foldl_le_one ?_ _ (guarded_le_one _ _ _ c0 hc
      (fun h => flag_zero_of_unset d 5 c0 hflag (by rw [← DID_USER_eq]; exact h)))
    exact (quiet_of_dup (secure_cmds_dup g)).quiet_append ((quiet_of_dup (logname_cmds_dup g)).quiet_append
      ((quiet_of_dup (home_cmds_dup g m)).quiet_append
      ((skip_guarded_term _ _ (by decide) (by decide)).quiet.quiet_append
      ((skip_guarded_fmt _ _ _ _ (by decide) (by decide) (by decide)).quiet.quiet_append
        (quiet_last g nx p _)))))
  · -- TERM
    rw [List.foldl_append,
      (skip_guarded_fmt _ _ _ _ (by decide) (by decide) (by decide)).foldl, List.foldl_append,
      (skip_guarded_fmt _ _ _ _ (by decide) (by decide) (by decide)).foldl, List.foldl_append,
      (skip_guarded_fmt _ _ _ _ (by decide) (by decide) (by decide)).foldl, List.foldl_append,
      (skip_guarded_fmt _ _ _ _ (by decide) (by decide) (by decide)).foldl, List.foldl_append,
      (skip_secure g _ (by decide) (by decide)).foldl, List.foldl_append,
      (skip_logname g _ (by decide) (by decide) (by decide)).foldl, List.foldl_append,
      (skip_home g m _ (by decide) (by decide)).foldl, List.foldl_append]
    refine QuietFor.foldl_le_one ?_ _ (guarded_le_one _ _ _ c0 hc
      (fun h => flag_zero_of_unset d 0 c0 hflag (by
        rw [← DID_TERM_eq, ← secure_didvar_term g d]; exact h)))
    exact (skip_guarded_fmt _ _ _ _ (by decide) (by decide) (by decide)).quiet.quiet_append
      (quiet_last g nx p _)
  · -- PATH
    cases hact : secure_active g with
    | true =>
      have hnil : (!ISSET (secure_didvar g d) DID_PATH) = false := by
        rw [secure_didvar_path, hact]; simp
      rw [hnil]
      refine QuietFor.foldl_le_one ?_ _ hc
      exact (skip_guarded_fmt _ _ _ _ (by decide) (by decide) (by decide)).quiet.quiet_append
        ((skip_guarded_fmt _ _ _ _ (by decide) (by decide) (by decide)).quiet.quiet_append
        ((skip_guarded_fmt _ _ _ _ (by decide) (by decide) (by decide)).quiet.quiet_append
        ((skip_guarded_fmt _ _ _ _ (by decide) (by decide) (by decide)).quiet.quiet_append
        ((quiet_of_dup (secure_cmds_dup g)).quiet_append ((quiet_of_dup (logname_cmds_dup g)).quiet_append
        ((quiet_of_dup (home_cmds_dup g m)).quiet_append
        ((skip_guarded_term _ _ (by decide) (by decide)).quiet.quiet_append
        ((QuietFor.quiet_nil _).quiet_append (quiet_last g nx p _)))))))))
    | false =>
      have hsec : SkipFor "PATH".toList (secure_cmds g) := by
        rw [secure_cmds_of_inactive g hact]; exact SkipFor.skip_nil _
      rw [List.foldl_append,
        (skip_guarded_fmt _ _ _ _ (by decide) (by decide) (by decide)).foldl, List.foldl_append,
        (skip_guarded_fmt _ _ _ _ (by decide) (by decide) (by decide)).foldl, List.foldl_append,
        (skip_guarded_fmt _ _ _ _ (by decide) (by decide) (by decide)).foldl, List.foldl_append,
        (skip_guarded_fmt _ _ _ _ (by decide) (by decide) (by decide)).foldl, List.foldl_append,
        hsec.foldl, List.foldl_append,
        (skip_logname g _ (by decide) (by decide) (by decide)).foldl, List.foldl_append,
        (skip_home g m _ (by decide) (by decide)).foldl, List.foldl_append,
        (skip_guarded_term _ _ (by decide) (by decide)).foldl, List.foldl_append]
      refine QuietFor.foldl_le_one (quiet_last g nx p _) _ (guarded_le_one _ _ _ c0 hc
        (fun h => flag_zero_of_unset d 1 c0 hflag (by
          rw [secure_didvar_path, hact, Bool.or_false] at h
          rw [← DID_PATH_eq]; exact h)))

theorem six_names_flag (X : Str) (hX : X ∈ six_names) : ∃ k, (X, k) ∈ flag_table := by
  simp only [six_names, List.mem_cons, List.mem_singleton, List.not_mem_nil, or_false] at hX
  rcases hX with rfl | rfl | rfl | rfl | rfl | rfl
  · exact ⟨2, by decide⟩
  · exact ⟨3, by decide⟩
  · exact ⟨4, by decide⟩
  · exact ⟨5, by decide⟩
  · exact ⟨0, by decide⟩
  · exact ⟨1, by decide⟩

theorem six_names_no_eq : ∀ X ∈ six_names, '=' ∉ X := by decide

theorem mem_all_cmds_named (g : Ctx) (m : sudo_mode_t) (nx : Bool) (d : Nat) (p : Option Str)
    (hr : g.def_env_reset = true) (X : Str) (k : Nat) (hXk : (X, k) ∈ flag_table)
    (hflag : ISSET d (2 ^ k) = false) : ∃ cmd ∈ all_cmds g m nx d p, Named X cmd.1 := by
  have hnamed : ∀ args, Named X (fmt X args) := fun args => ⟨(va_strings args).flatten, by simp [fmt]⟩
  simp only [flag_table, List.mem_cons, List.mem_singleton, List.not_mem_nil, or_false,
    Prod.mk.injEq] at hXk
  cases hl : m.login_shell with
  | true =>
    rcases hXk with ⟨rfl, rfl⟩ | ⟨rfl, rfl⟩ | ⟨rfl, rfl⟩ | ⟨rfl, rfl⟩ | ⟨rfl, rfl⟩ | ⟨rfl, rfl⟩
    · exact ⟨(fmt "HOME".toList [g.runas_pw.pw_dir], false),
        by simp [all_cmds, hr, defaults_cmds, hl], hnamed _⟩
    · exact ⟨(fmt "SHELL".toList [some g.runas_pw.pw_shell], false),
        by simp [all_cmds, hr, defaults_cmds, hl], hnamed _⟩
    · exact ⟨(fmt "LOGNAME".toList [g.runas_pw.pw_name], false),
        by simp [all_cmds, hr, defaults_cmds, hl], hnamed _⟩
    · exact ⟨(fmt "USER".toList [g.runas_pw.pw_name], false),
        by simp [all_cmds, hr, defaults_cmds, hl], hnamed _⟩
    · refine ⟨("TERM=unknown".toList, false), ?_, ⟨"unknown".toList, rfl⟩⟩
      have h1 : ISSET (secure_didvar g d) DID_TERM = false := by
        rw [secure_didvar_term, DID_TERM_eq]; exact hflag
      simp [all_cmds, tail_cmds, termpath_cmds, h1]
    · cases hact : secure_active g with
      | true =>
        unfold secure_active at hact
        cases hs : g.def_secure_path with
        | none => simp [hs] at hact
        | some sp =>
          simp only [hs, Option.isSome_some, Bool.true_and, Bool.not_eq_true'] at hact
          exact ⟨(fmt "PATH".toList [some sp], true),
            by simp [all_cmds, tail_cmds, secure_cmds, hs, hact], hnamed _⟩
      | false =>
        have h1 : ISSET (secure_didvar g d) DID_PATH = false := by
          rw [secure_didvar_path, hact, DID_PATH_eq, hflag]; rfl
        exact ⟨(fmt "PATH".toList [some g.PATH_DEFPATH], false),
          by simp [all_cmds, tail_cmds, termpath_cmds, h1], hnamed _⟩
  | false =>
    rw [all_cmds_reset_user g m nx d p hr hl]
    rcases hXk with ⟨rfl, rfl⟩ | ⟨rfl, rfl⟩ | ⟨rfl, rfl⟩ | ⟨rfl, rfl⟩ | ⟨rfl, rfl⟩ | ⟨rfl, rfl⟩
    · rw [← DID_HOME_eq] at hflag
      exact ⟨(fmt "HOME".toList [some g.user_dir], false), by simp [hflag], hnamed _⟩
    · rw [← DID_SHELL_eq] at hflag
      exact ⟨(fmt "SHELL".toList [some g.sudo_user_pw_shell], false), by simp [hflag], hnamed _⟩
    · rw [← DID_LOGNAME_eq] at hflag
      exact ⟨(fmt "LOGNAME".toList [some g.user_name], false), by simp [hflag], hnamed _⟩
    · rw [← DID_USER_eq] at hflag
      exact ⟨(fmt "USER".toList [some g.user_name], false), by simp [hflag], hnamed _⟩
    · have h1 : ISSET (secure_didvar g d) DID_TERM = false := by
        rw [secure_didvar_term, DID_TERM_eq]; exact hflag
      exact ⟨("TERM=unknown".toList, false), by simp [h1], ⟨"unknown".toList, rfl⟩⟩
    · cases hact : secure_active g with
      | true =>
        unfold secure_active at hact
        cases hs : g.def_secure_path with
        | none => simp [hs] at hact
        | some sp =>
          simp only [hs, Option.isSome_some, Bool.true_and, Bool.not_eq_true'] at hact
          exact ⟨(fmt "PATH".toList [some sp], true), by simp [secure_cmds, hs, hact], hnamed _⟩
      | false =>
        have h1 : ISSET (secure_didvar g d) DID_PATH = false := by
          rw [secure_didvar_path, hact, DID_PATH_eq, hflag]; rfl
        exact ⟨(fmt "PATH".toList [some g.PATH_DEFPATH], false), by simp [h1], hnamed _⟩

theorem entry_eq (a b v w : Str) (ha : '=' ∉ a) (hb : '=' ∉ b)
    (h : a ++ '=' :: v = b ++ '=' :: w) : a = b ∧ v = w := by
  have h1 : Named b (a ++ '=' :: v) := by
    rw [h]; exact ⟨w, by simp⟩
  have h2 := (named_entry_iff b a v hb ha).mp h1
  subst h2
  exact ⟨rfl, by simpa using h⟩

theorem nonempty_entry (var v : Str) (hvar : '=' ∉ var) (hv : v ≠ [] ∨ var ∉ six_names) :
    ∀ X ∈ six_names, var ++ '=' :: v ≠ X ++ ['='] := by
  intro X hX heq
  obtain ⟨h1, h2⟩ := entry_eq var X v [] hvar (six_names_no_eq X hX) heq
  rcases hv with hv | hv
  · exact hv h2
  · exact hv (h1 ▸ hX)

/-! ## When rebuild_env has a defined result -/

theorem keep_loop_isSome (l : List Str) (e : Str) (hl : ∀ p ∈ l, p ≠ []) :
    (keep_loop l e).isSome = true := by
  induction l with
  | nil => rfl
  | cons p l ih =>
    simp only [keep_loop, pattern_test_eq_entryMatch p e (hl p (by simp))]
    by_cases hm : EntryMatch p e
    · simp [hm]
    · simp only [hm, decide_False, Bool.false_eq_true, if_false]
      exact ih (fun q hq => hl q (by simp [hq]))

theorem list_insert_defined (s : Str) (d : Bool) (l : List Str) (hs : '=' ∈ s)
    (hl : l ≠ [] ∨ d = false) : ∃ l2, list_insert s l d = some l2 := by
  cases d with
  | false => exact ⟨_, rfl⟩
  | true =>
    have hl2 : l ≠ [] := by
      rcases hl with h | h
      · exact h
      · cases h
    cases hc : strchr s '=' with
    | none => exact absurd hs ((strchr_eq_none_iff s '=').mp hc)
    | some i =>
      refine ⟨replace_or_append (fun x => strncmp s x (i + 1) == 0) s l, ?_⟩
      simp [list_insert, hc, hl2]

theorem run_defined (cs : List (Str × Bool)) (l : List Str) (hcs : ∀ c ∈ cs, '=' ∈ c.1)
    (hl : l ≠ [] ∨ ∃ c rest, cs = c :: rest ∧ c.2 = false) : ∃ l2, run cs l = some l2 := by
  induction cs generalizing l with
  | nil => exact ⟨l, rfl⟩
  | cons c cs ih =>
    have hd : l ≠ [] ∨ c.2 = false := by
      rcases hl with h | ⟨c2, rest, h1, h2⟩
      · exact Or.inl h
      · obtain ⟨rfl, -⟩ := List.cons.inj h1
        exact Or.inr h2
    obtain ⟨l1, h1⟩ := list_insert_defined c.1 c.2 l (hcs c (by simp)) hd
    obtain ⟨l2, h2⟩ := ih l1 (fun x hx => hcs x (by simp [hx]))
      (Or.inl (list_insert_ne_nil _ _ _ _ h1))
    exact ⟨l2, by simp [run, h1, h2]⟩

theorem mem_eq_literal (lit v : Str) (h : '=' ∈ lit) : '=' ∈ lit ++ v :=
  List.mem_append_left _ h

/-- Every string inserted after the loops contains `=`, when every source
entry does. -/
theorem all_cmds_have_eq (g : Ctx) (m : sudo_mode_t) (nx : Bool) (v : List Str)
    (st : locals (List Str)) (h0 : loop_locals g v = some st) (hsrc : ∀ e ∈ v, '=' ∈ e) :
    ∀ c ∈ all_cmds g m nx st.didvar st.ps1, '=' ∈ c.1 := by
  refine all_cmds_cases g m nx st.didvar st.ps1 (fun s => '=' ∈ s) ?_ ?_ ?_ ?_ ?_ ?_ ?_ ?_ ?_ ?_
  · intro _ _
    exact ⟨mem_eq_literal _ _ (by decide), mem_eq_literal _ _ (by decide),
      mem_eq_literal _ _ (by decide), mem_eq_literal _ _ (by decide)⟩
  · intro _ _
    exact ⟨fun _ => mem_eq_literal _ _ (by decide), fun _ => mem_eq_literal _ _ (by decide),
      fun _ => mem_eq_literal _ _ (by decide), fun _ => mem_eq_literal _ _ (by decide)⟩
  · intro _ _ _; exact mem_eq_literal _ _ (by decide)
  · intro _ _ _; exact ⟨mem_eq_literal _ _ (by decide), mem_eq_literal _ _ (by decide)⟩
  · intro _ _ _; exact mem_eq_literal _ _ (by decide)
  · intro _; decide
  · intro _; exact mem_eq_literal _ _ (by decide)
  · intro file _ _
    exact ⟨fun _ => ⟨mem_eq_literal _ _ (by decide), by decide⟩,
      fun _ => List.mem_append_left _ (mem_eq_literal _ _ (by decide)),
      fun _ => mem_eq_literal _ _ (by decide)⟩
  · intro q hq
    obtain ⟨ep, hep, rfl, hcond⟩ := loop_locals_ps1 g v st h0 q hq
    have h8 : strncmp ep "SUDO_PS1=".toList 8 = 0 := by
      cases hr : g.def_env_reset with
      | true =>
        simp only [hr, if_true] at hcond
        exact hcond.2
      | false =>
        simp only [hr, Bool.false_eq_true, if_false] at hcond
        have h9 := hcond.2
        rw [strncmp_eq_zero_iff] at h9 ⊢
        have := congrArg (List.take 8) h9
        simpa [List.take_take] using this
    rw [strncmp_eq_zero_iff] at h8
    have h5 : ep.take 5 = "SUDO_".toList := by
      have := congrArg (List.take 5) h8
      rw [List.take_take] at this
      have h58 : min 5 8 = 5 := rfl
      rw [h58] at this
      rw [this]; rfl
    have hmem := hsrc ep hep
    rw [← List.take_append_drop 5 ep, List.mem_append, h5] at hmem
    rcases hmem with h | h
    · exact absurd h (by decide)
    · exact h
  · refine ⟨?_, mem_eq_literal _ _ (by decide), mem_eq_literal _ _ (by decide),
      mem_eq_literal _ _ (by decide)⟩
    obtain ⟨w, hw, -⟩ := sudo_command_eq g
    rw [hw]
    simp

/-- The result of `rebuild_env` is defined when the pattern lists the mode
reads hold no empty pattern, every source entry contains `=`, and, in filter
mode, either some source entry is copied or no insertion with `dupcheck`
comes before `TERM=unknown` (no secure path in force and no `HOME` to force):
`insert_env` then never scans a vector that was not written. -/
theorem rebuild_environ_defined (g : Ctx) (envp1 envp2 : Option (List Str)) (m : sudo_mode_t)
    (nx : Bool)
    (hkeep : g.def_env_reset = true → ∀ p ∈ g.def_env_keep, p ≠ [])
    (hdeny : g.def_env_reset = false →
      (∀ p ∈ g.def_env_delete, p ≠ []) ∧ ∀ p ∈ g.def_env_check, p ≠ [])
    (hsrc : ∀ e ∈ sources envp1 envp2, '=' ∈ e)
    (hfilter : g.def_env_reset = false →
      (∃ e ∈ sources envp1 envp2, var_ok g e = some true) ∨
      (secure_active g = false ∧ (g.runas_pw.pw_dir = none ∨ m.reset_home = false))) :
    ∃ l, rebuild_environ g envp1 envp2 m nx = some l := by
  rw [rebuild_environ_eq]
  cases hr : g.def_env_reset with
  | true =>
    have hall : (sources envp1 envp2).all (reset_defined g) = true := by
      rw [List.all_eq_true]
      intro e _
      simp [reset_defined, keep_loop_isSome _ e (hkeep hr)]
    have h0 : loop_locals g (sources envp1 envp2) =
        some (reset_locals g (sources envp1 envp2) ⟨[], 0, none⟩) := by
      simp [loop_locals, hr, hall]
    rw [h0, Option.some_bind]
    refine run_defined _ _ (all_cmds_have_eq g m nx _ _ h0 hsrc) ?_
    by_cases hne : (reset_locals g (sources envp1 envp2) ⟨[], 0, none⟩).env = []
    · right
      have hd : (reset_locals g (sources envp1 envp2) ⟨[], 0, none⟩).didvar = 0 := by
        simp only [reset_locals, List.nil_append] at hne ⊢
        rw [hne]; rfl
      rw [hd]
      cases hl : m.login_shell with
      | true =>
        have heq : all_cmds g m nx 0 (reset_locals g (sources envp1 envp2) ⟨[], 0, none⟩).ps1 =
            (fmt "HOME".toList [g.runas_pw.pw_dir], false) ::
              ((fmt "SHELL".toList [some g.runas_pw.pw_shell], false) ::
                (fmt "LOGNAME".toList [g.runas_pw.pw_name], false) ::
                (fmt "USER".toList [g.runas_pw.pw_name], false) ::
                tail_cmds g m nx 0
                  (reset_locals g (sources envp1 envp2) ⟨[], 0, none⟩).ps1) := by
          simp [all_cmds, hr, defaults_cmds, hl]
        exact ⟨_, _, heq, rfl⟩
      | false =>
        rw [all_cmds_reset_user g m nx _ _ hr hl]
        have hz : (!ISSET 0 DID_HOME) = true := by decide
        rw [if_pos hz]
        exact ⟨_, _, rfl, rfl⟩
    · exact Or.inl hne
  | false =>
    obtain ⟨hd1, hd2⟩ := hdeny hr
    have hall : (sources envp1 envp2).all (fun ep => (var_ok g ep).isSome) = true := by
      rw [List.all_eq_true]
      intro e _
      rw [var_ok_eq g e hd1 hd2]; rfl
    have h0 : loop_locals g (sources envp1 envp2) =
        some (filter_locals g (sources envp1 envp2) ⟨[], 0, none⟩) := by
      simp [loop_locals, hr, hall]
    rw [h0, Option.some_bind]
    refine run_defined _ _ (all_cmds_have_eq g m nx _ _ h0 hsrc) ?_
    by_cases hne : (filter_locals g (sources envp1 envp2) ⟨[], 0, none⟩).env = []
    · right
      have hd : (filter_locals g (sources envp1 envp2) ⟨[], 0, none⟩).didvar = 0 := by
        simp only [filter_locals, List.nil_append] at hne ⊢
        rw [hne]; rfl
      rw [hd]
      rcases hfilter hr with ⟨e, he, hok⟩ | ⟨hsec, hhome⟩
      · exfalso
        have : e ∈ (filter_locals g (sources envp1 envp2) ⟨[], 0, none⟩).env := by
          simp only [filter_locals, List.nil_append, List.mem_filter, filter_keeps]
          exact ⟨he, by simp [hok]⟩
        rw [hne] at this
        simp at this
      · have h1 : secure_cmds g = [] := secure_cmds_of_inactive g hsec
        have h2 : logname_cmds g = [] := by
          unfold logname_cmds
          cases g.runas_pw.pw_name <;> simp [hr]
        have h3 : home_cmds g m = [] := by
          unfold home_cmds
          rcases hhome with h | h
          · simp [h]
          · cases g.runas_pw.pw_dir <;> simp [hr, h]
        have h4 : (!ISSET (secure_didvar g 0) DID_TERM) = true := by
          rw [secure_didvar_term]; decide
        simp only [all_cmds, hr, Bool.false_eq_true, if_false, tail_cmds, h1, h2, h3,
          termpath_cmds, h4, if_true, List.nil_append, List.singleton_append, List.cons_append]
        exact ⟨_, _, rfl, rfl⟩
    · exact Or.inl hne

/-- In filter mode with no source entry to copy and a secure path in force,
the first call of `insert_env` has `dupcheck` set and scans the vector that
`erealloc3` has just handed out: the model has no result there. -/
theorem rebuild_env_scans_fresh_vector :
    rebuild_env sample_secure none none
      ⟨false, false⟩ false = none := by
  decide

/-! ## Insertions without dupcheck -/

theorem named_fmt_self (X : Str) (args : List (Option Str)) : Named X (fmt X args) :=
  ⟨(va_strings args).flatten, by simp [fmt]⟩

/-- Every insertion made without `dupcheck` after the loops is an entry for
one of the six names of P3. -/
theorem all_cmds_nodup_six (g : Ctx) (m : sudo_mode_t) (nx : Bool) (d : Nat) (p : Option Str) :
    ∀ c ∈ all_cmds g m nx d p, c.2 = false → ∃ Y ∈ six_names, Named Y c.1 := by
  intro c hc hf
  have dup : ∀ cs : List (Str × Bool), (∀ x ∈ cs, x.2 = true) → c ∈ cs → False := by
    intro cs hcs hmem
    have := hcs c hmem
    rw [hf] at this
    cases this
  unfold all_cmds tail_cmds at hc
  simp only [List.mem_append] at hc
  rcases hc with h | h | h | h | h | h | h | h
  · by_cases hr : g.def_env_reset = true
    · simp only [hr, if_true, defaults_cmds] at h
      by_cases hl : m.login_shell = true
      · simp only [hl, if_true, List.mem_cons, List.mem_singleton, List.not_mem_nil,
          or_false] at h
        rcases h with rfl | rfl | rfl | rfl
        · exact ⟨_, by decide, named_fmt_self "HOME".toList _⟩
        · exact ⟨_, by decide, named_fmt_self "SHELL".toList _⟩
        · exact ⟨_, by decide, named_fmt_self "LOGNAME".toList _⟩
        · exact ⟨_, by decide, named_fmt_self "USER".toList _⟩
      · have hl2 : m.login_shell = false := by simpa using hl
        simp only [hl2, Bool.false_eq_true, if_false, List.mem_append] at h
        rcases h with h | h | h | h
        · obtain ⟨-, rfl⟩ := mem_ite_singleton h
          exact ⟨_, by decide, named_fmt_self "HOME".toList _⟩
        · obtain ⟨-, rfl⟩ := mem_ite_singleton h
          exact ⟨_, by decide, named_fmt_self "SHELL".toList _⟩
        · obtain ⟨-, rfl⟩ := mem_ite_singleton h
          exact ⟨_, by decide, named_fmt_self "LOGNAME".toList _⟩
        · obtain ⟨-, rfl⟩ := mem_ite_singleton h
          exact ⟨_, by decide, named_fmt_self "USER".toList _⟩
    · simp [hr] at h
  · exact (dup _ (secure_cmds_dup g) h).elim
  · exact (dup _ (logname_cmds_dup g) h).elim
  · exact (dup _ (home_cmds_dup g m) h).elim
  · unfold termpath_cmds at h
    rcases List.mem_append.mp h with h | h
    · obtain ⟨-, rfl⟩ := mem_ite_singleton h
      exact ⟨"TERM".toList, by decide, ⟨"unknown".toList, rfl⟩⟩
    · obtain ⟨-, rfl⟩ := mem_ite_singleton h
      exact ⟨_, by decide, named_fmt_self "PATH".toList _⟩
  · exact (dup _ (noexec_cmds_dup g nx) h).elim
  · exact (dup _ (ps1_cmds_dup p) h).elim
  · exact (dup _ (sudo_cmds_dup g) h).elim

/-- For a name that is none of the six names of P3, every insertion of an entry
for it is made with `dupcheck`. -/
theorem all_cmds_quiet (g : Ctx) (m : sudo_mode_t) (nx : Bool) (d : Nat) (p : Option Str)
    (X : Str) (hX : '=' ∉ X) (hne : X ∉ six_names) : QuietFor X (all_cmds g m nx d p) := by
  intro c hc
  cases hd : c.2 with
  | true => exact Or.inl rfl
  | false =>
    right
    obtain ⟨Y, hY, hn⟩ := all_cmds_nodup_six g m nx d p c hc hd
    intro h
    exact hne ((named_unique Y X c.1 (six_names_no_eq Y hY) hX hn h) ▸ hY)

/-- The entries copied by the source loop are a sublist of the sources. -/
theorem loop_locals_sublist (g : Ctx) (v : List Str) (st : locals (List Str))
    (h : loop_locals g v = some st) : st.env.Sublist v := by
  unfold loop_locals at h
  cases hr : g.def_env_reset with
  | true =>
    simp only [hr, if_true] at h
    by_cases hd : v.all (reset_defined g) = true
    · simp only [hd, if_true, Option.some.injEq] at h
      rw [← h]
      simp [reset_locals]
    · simp [hd] at h
  | false =>
    simp only [hr, Bool.false_eq_true, if_false] at h
    by_cases hd : v.all (fun ep => (var_ok g ep).isSome) = true
    · simp only [hd, if_true, Option.some.injEq] at h
      rw [← h]
      simp [filter_locals]
    · simp [hd] at h

theorem loop_count_le (g : Ctx) (v : List Str) (st : locals (List Str))
    (h : loop_locals g v = some st) (n : Str) : count_named n st.env ≤ count_named n v :=
  (loop_locals_sublist g v st h).countP_le _

theorem sudo_names_no_eq : ∀ X ∈ sudo_names, '=' ∉ X := by decide

theorem sudo_names_not_six : ∀ X ∈ sudo_names, X ∉ six_names := by decide

theorem mem_all_cmds_sudo (g : Ctx) (m : sudo_mode_t) (nx : Bool) (d : Nat) (p : Option Str) :
    ∀ X ∈ sudo_names, ∃ cmd ∈ all_cmds g m nx d p, Named X cmd.1 := by
  obtain ⟨pre, v, hcmds, -⟩ := all_cmds_split_sudo g m nx d p
  intro X hX
  rw [hcmds]
  simp only [sudo_names, List.mem_cons, List.mem_singleton, List.not_mem_nil, or_false] at hX
  rcases hX with rfl | rfl | rfl | rfl
  · exact ⟨("SUDO_USER".toList ++ '=' :: g.user_name, true), by simp, ⟨g.user_name, by simp⟩⟩
  · exact ⟨("SUDO_UID".toList ++ '=' :: Nat.toDigits 10 g.user_uid, true), by simp,
      ⟨Nat.toDigits 10 g.user_uid, by simp⟩⟩
  · exact ⟨("SUDO_GID".toList ++ '=' :: Nat.toDigits 10 g.user_gid, true), by simp,
      ⟨Nat.toDigits 10 g.user_gid, by simp⟩⟩
  · exact ⟨("SUDO_COMMAND".toList ++ '=' :: v, true), by simp, ⟨v, by simp⟩⟩

/-! ## Entries that stay -/

theorem loop_locals_reset (g : Ctx) (v : List Str) (st : locals (List Str))
    (hr : g.def_env_reset = true) (h : loop_locals g v = some st) :
    st = reset_locals g v ⟨[], 0, none⟩ ∧ ∀ e ∈ v, reset_defined g e = true := by
  unfold loop_locals at h
  simp only [hr, if_true] at h
  by_cases hd : v.all (reset_defined g) = true
  · simp only [hd, if_true, Option.some.injEq] at h
    exact ⟨h.symm, by simpa using hd⟩
  · simp [hd] at h

theorem loop_locals_filter (g : Ctx) (v : List Str) (st : locals (List Str))
    (hr : g.def_env_reset = false) (h : loop_locals g v = some st) :
    st = filter_locals g v ⟨[], 0, none⟩ ∧ ∀ e ∈ v, (var_ok g e).isSome = true := by
  unfold loop_locals at h
  simp only [hr, Bool.false_eq_true, if_false] at h
  by_cases hd : v.all (fun ep => (var_ok g ep).isSome) = true
  · simp only [hd, if_true, Option.some.injEq] at h
    exact ⟨h.symm, by simpa using hd⟩
  · simp [hd] at h

theorem keep_loop_some_false (l : List Str) (e : Str) (h : keep_loop l e = some false) :
    ∀ p ∈ l, pattern_test p e = some false := by
  induction l with
  | nil => intro p hp; simp at hp
  | cons q l ih =>
    simp only [keep_loop] at h
    cases hq : pattern_test q e with
    | none => simp [hq] at h
    | some b =>
      simp only [hq] at h
      cases b with
      | true => simp at h
      | false =>
        simp only [Bool.false_eq_true, if_false] at h
        intro p hp
        rcases List.mem_cons.mp hp with rfl | hp2
        · exact hq
        · exact ih h p hp2

/-- A pattern that matches the name matches the entry. -/
theorem entryMatch_of_specMatch (p name value : Str) (h : SpecMatch p name) :
    EntryMatch p (name ++ '=' :: value) := by
  unfold SpecMatch at h
  unfold EntryMatch
  by_cases hw : p.getLast? = some '*'
  · simp only [hw, if_true] at h ⊢
    exact h.trans (List.prefix_append _ _)
  · simp only [hw, if_false] at h ⊢
    subst h
    exact ⟨value, by simp⟩

/-- The keep loop keeps an entry whose name a pattern of the keep list
matches, when it has a result. -/
theorem keep_loop_of_specMatch (l : List Str) (name value : Str) (b : Bool)
    (hm : ∃ p ∈ l, SpecMatch p name) (h : keep_loop l (name ++ '=' :: value) = some b) :
    b = true := by
  cases b with
  | true => rfl
  | false =>
    obtain ⟨p, hp, hs⟩ := hm
    have h1 := keep_loop_some_false l _ h p hp
    have hne : p ≠ [] := by
      rintro rfl
      simp [pattern_test_nil] at h1
    rw [pattern_test_eq_entryMatch p _ hne] at h1
    have := entryMatch_of_specMatch p name value hs
    simp [this] at h1

theorem getenv_filter_first (n : Str) (f : Str → Bool) (pre post : List Str) (e : Str)
    (hpre : ∀ x ∈ pre, Named n x → f x = false) (he : f e = true) (hn : Named n e) :
    getenv n ((pre ++ e :: post).filter f) = some (e.drop (n.length + 1)) := by
  induction pre with
  | nil => simp [List.filter_cons, he, getenv, hn]
  | cons a pre ih =>
    have ih2 := ih (fun x hx => hpre x (by simp [hx]))
    by_cases ha : f a = true
    · have hna : ¬ Named n a := fun h => by
        have := hpre a (by simp) h
        rw [ha] at this
        cases this
      simp only [List.cons_append, List.filter_cons, ha, if_true, getenv, hna, if_false]
      exact ih2
    · simp only [List.cons_append, List.filter_cons, ha, Bool.false_eq_true, if_false]
      exact ih2

/-- The insertions made with `dupcheck`. -/
theorem all_cmds_dup_mem (g : Ctx) (m : sudo_mode_t) (nx : Bool) (d : Nat) (p : Option Str) :
    ∀ c ∈ all_cmds g m nx d p, c.2 = true →
      c ∈ secure_cmds g ∨ c ∈ logname_cmds g ∨ c ∈ home_cmds g m ∨ c ∈ noexec_cmds g nx ∨
        c ∈ ps1_cmds p ∨ c ∈ sudo_cmds g := by
  intro c hc hd
  have nodup : ∀ s : Str, c = (s, false) → False := by
    intro s hs
    rw [hs] at hd
    cases hd
  unfold all_cmds tail_cmds at hc
  simp only [List.mem_append] at hc
  rcases hc with h | h | h | h | h | h | h | h
  · exfalso
    by_cases hr : g.def_env_reset = true
    · simp only [hr, if_true, defaults_cmds] at h
      by_cases hl : m.login_shell = true
      · simp only [hl, if_true, List.mem_cons, List.mem_singleton, List.not_mem_nil,
          or_false] at h
        rcases h with h | h | h | h <;> exact nodup _ h
      · have hl2 : m.login_shell = false := by simpa using hl
        simp only [hl2, Bool.false_eq_true, if_false, List.mem_append] at h
        rcases h with h | h | h | h <;> exact nodup _ (mem_ite_singleton h).2
    · simp [hr] at h
  · exact Or.inl h
  · exact Or.inr (Or.inl h)
  · exact Or.inr (Or.inr (Or.inl h))
  · exfalso
    unfold termpath_cmds at h
    rcases List.mem_append.mp h with h | h <;> exact nodup _ (mem_ite_singleton h).2
  · exact Or.inr (Or.inr (Or.inr (Or.inl h)))
  · exact Or.inr (Or.inr (Or.inr (Or.inr (Or.inl h))))
  · exact Or.inr (Or.inr (Or.inr (Or.inr (Or.inr h))))

theorem skip_last (g : Ctx) (nx : Bool) (p : Option Str) (X : Str) (hX : '=' ∉ X)
    (hp : ∀ q, p = some q → "PS1".toList <+: q)
    (hlist : X ∉ ["DYLD_INSERT_LIBRARIES".toList, "DYLD_FORCE_FLAT_NAMESPACE".toList,
      "_RLD_LIST".toList, "LD_PRELOAD".toList, "SUDO_COMMAND".toList, "SUDO_USER".toList,
      "SUDO_UID".toList, "SUDO_GID".toList])
    (h1 : ¬ "PS1".toList <+: X ++ ['=']) (h2 : ¬ (X ++ ['=']) <+: "PS1".toList) :
    SkipFor X (noexec_cmds g nx ++ (ps1_cmds p ++ sudo_cmds g)) := by
  simp only [List.mem_cons, List.mem_singleton, List.not_mem_nil, or_false, not_or] at hlist
  obtain ⟨a1, a2, a3, a4, a5, a6, a7, a8⟩ := hlist
  exact (skip_of_dup (noexec_cmds_dup g nx) (noexec_cmds_not_named g nx X hX (Ne.symm a1)
      (Ne.symm a2) (Ne.symm a3) (Ne.symm a4))).skip_append
    ((skip_of_dup (ps1_cmds_dup p) (ps1_cmds_not_named p X hp h1 h2)).skip_append
      (skip_of_dup (sudo_cmds_dup g) (sudo_cmds_not_named g X hX (Ne.symm a5) (Ne.symm a6)
        (Ne.symm a7) (Ne.symm a8))))

theorem foldl_guarded (X s : Str) (b : Bool) (c0 : Nat) (hs : Named X s) :
    (if b = true then [(s, false)] else []).foldl (cnt_step X) c0 =
      if b = true then c0 + 1 else c0 := by
  cases b with
  | false => rfl
  | true => simp [cnt_step, hs]

/-- In reset mode without the login-shell flag, the insertions add one entry
for `TERM` when the flag `DID_TERM` is not set, and none when it is. -/
theorem reset_user_fold_term (g : Ctx) (m : sudo_mode_t) (nx : Bool) (d : Nat)
    (p : Option Str) (hr : g.def_env_reset = true) (hl : m.login_shell = false)
    (hp : ∀ q, p = some q → "PS1".toList <+: q) (c0 : Nat) :
    (all_cmds g m nx d p).foldl (cnt_step "TERM".toList) c0 =
      if ISSET d DID_TERM = true then c0 else c0 + 1 := by
  rw [all_cmds_reset_user g m nx d p hr hl]
  rw [List.foldl_append,
    (skip_guarded_fmt _ _ _ _ (by decide) (by decide) (by decide)).foldl, List.foldl_append,
    (skip_guarded_fmt _ _ _ _ (by decide) (by decide) (by decide)).foldl, List.foldl_append,
    (skip_guarded_fmt _ _ _ _ (by decide) (by decide) (by decide)).foldl, List.foldl_append,
    (skip_guarded_fmt _ _ _ _ (by decide) (by decide) (by decide)).foldl, List.foldl_append,
    (skip_secure g _ (by decide) (by decide)).foldl, List.foldl_append,
    (skip_logname g _ (by decide) (by decide) (by decide)).foldl, List.foldl_append,
    (skip_home g m _ (by decide) (by decide)).foldl, List.foldl_append,
    foldl_guarded "TERM".toList "TERM=unknown".toList _ _ ⟨"unknown".toList, rfl⟩, List.foldl_append,
    (skip_guarded_fmt _ _ _ _ (by decide) (by decide) (by decide)).foldl,
    (skip_last g nx p _ (by decide) hp (by decide) (by decide) (by decide)).foldl,
    secure_didvar_term]
  cases ISSET d DID_TERM <;> simp

/-- In reset mode without the login-shell flag and with no secure path in
force, the insertions add one entry for `PATH` when the flag `DID_PATH` is not
set, and none when it is. -/
theorem reset_user_fold_path (g : Ctx) (m : sudo_mode_t) (nx : Bool) (d : Nat)
    (p : Option Str) (hr : g.def_env_reset = true) (hl : m.login_shell = false)
    (hsec : secure_active g = false)
    (hp : ∀ q, p = some q → "PS1".toList <+: q) (c0 : Nat) :
    (all_cmds g m nx d p).foldl (cnt_step "PATH".toList) c0 =
      if ISSET d DID_PATH = true then c0 else c0 + 1 := by
  have hs : SkipFor "PATH".toList (secure_cmds g) := by
    rw [secure_cmds_of_inactive g hsec]; exact SkipFor.skip_nil _
  rw [all_cmds_reset_user g m nx d p hr hl]
  rw [List.foldl_append,
    (skip_guarded_fmt _ _ _ _ (by decide) (by decide) (by decide)).foldl, List.foldl_append,
    (skip_guarded_fmt _ _ _ _ (by decide) (by decide) (by decide)).foldl, List.foldl_append,
    (skip_guarded_fmt _ _ _ _ (by decide) (by decide) (by decide)).foldl, List.foldl_append,
    (skip_guarded_fmt _ _ _ _ (by decide) (by decide) (by decide)).foldl, List.foldl_append,
    hs.foldl, List.foldl_append,
    (skip_logname g _ (by decide) (by decide) (by decide)).foldl, List.foldl_append,
    (skip_home g m _ (by decide) (by decide)).foldl, List.foldl_append,
    (skip_guarded_term _ _ (by decide) (by decide)).foldl, List.foldl_append,
    foldl_guarded "PATH".toList (fmt "PATH".toList [some g.PATH_DEFPATH]) _ _
      (named_fmt_self "PATH".toList _),
    (skip_last g nx p _ (by decide) hp (by decide) (by decide) (by decide)).foldl,
    secure_didvar_path, hsec, Bool.or_false]
  cases ISSET d DID_PATH <;> simp

/-- A string of the list is still in the list after an insertion that does not
replace it by another string. -/
theorem list_insert_keeps (s : Str) (d : Bool) (l l2 : List Str) (h : list_insert s l d = some l2)
    (e : Str) (he : e ∈ l)
    (hs : d = true → s = e ∨ ∀ n, '=' ∉ n → Named n s → ¬ Named n e) : e ∈ l2 := by
  cases d with
  | false =>
    simp only [list_insert, Bool.false_eq_true, if_false, Option.some.injEq] at h
    rw [← h]
    simp [he]
  | true =>
    cases hc : strchr s '=' with
    | none => simp [list_insert, hc] at h
    | some i =>
      obtain ⟨n, v, rfl, hn⟩ := exists_entry_of_strchr s i hc
      rw [list_insert_dup n v l hn] at h
      by_cases hl : l = []
      · simp [hl] at h
      · simp only [hl, if_false, Option.some.injEq] at h
        rw [← h]
        clear h hl hc
        have hs2 := hs rfl
        induction l with
        | nil => simp at he
        | cons a l ih =>
          by_cases ha : Named n a
          · simp only [replace_or_append, ha, decide_True, if_true]
            rcases List.mem_cons.mp he with rfl | he2
            · rcases hs2 with h1 | h1
              · simp [h1]
              · exact absurd ha (h1 n hn ⟨v, by simp⟩)
            · simp [he2]
          · simp only [replace_or_append, ha, decide_False, Bool.false_eq_true, if_false]
            rcases List.mem_cons.mp he with rfl | he2
            · simp
            · exact List.mem_cons_of_mem _ (ih he2)

theorem list_insert_self (s : Str) (d : Bool) (l l2 : List Str)
    (h : list_insert s l d = some l2) : s ∈ l2 := by
  cases d with
  | false =>
    simp only [list_insert, Bool.false_eq_true, if_false, Option.some.injEq] at h
    rw [← h]
    simp
  | true =>
    cases hc : strchr s '=' with
    | none => simp [list_insert, hc] at h
    | some i =>
      simp only [list_insert, if_true, hc] at h
      by_cases hl : l = []
      · simp [hl] at h
      · simp only [hl, if_false, Option.some.injEq] at h
        rw [← h]
        clear h hl
        induction l with
        | nil => simp [replace_or_append]
        | cons a l ih =>
          by_cases hp : (strncmp s a (i + 1) == 0) = true
          · simp [replace_or_append, hp]
          · simp only [replace_or_append, hp, Bool.false_eq_true, if_false]
            exact List.mem_cons_of_mem _ ih

theorem run_keeps (cs : List (Str × Bool)) (l l2 : List Str) (h : run cs l = some l2)
    (e : Str) (he : e ∈ l)
    (hcs : ∀ c ∈ cs, c.2 = true → c.1 = e ∨ ∀ n, '=' ∉ n → Named n c.1 → ¬ Named n e) :
    e ∈ l2 := by
  induction cs generalizing l with
  | nil =>
    simp only [run, Option.some.injEq] at h
    rw [← h]; exact he
  | cons c cs ih =>
    simp only [run] at h
    cases h1 : list_insert c.1 l c.2 with
    | none => simp [h1] at h
    | some l1 =>
      simp only [h1, Option.some_bind] at h
      exact ih l1 h (list_insert_keeps c.1 c.2 l l1 h1 e he (hcs c (by simp)))
        (fun c2 hc2 => hcs c2 (by simp [hc2]))

/-- A string inserted by a run is in the list at the end, when no later
insertion replaces it by another string. -/
theorem run_inserted (pre post : List (Str × Bool)) (s : Str) (d : Bool) (l l2 : List Str)
    (h : run (pre ++ (s, d) :: post) l = some l2)
    (hpost : ∀ c ∈ post, c.2 = true → c.1 = s ∨ ∀ n, '=' ∉ n → Named n c.1 → ¬ Named n s) :
    s ∈ l2 := by
  rw [run_append] at h
  cases h1 : run pre l with
  | none => simp [h1] at h
  | some l1 =>
    simp only [h1, Option.some_bind, run] at h
    cases h2 : list_insert s l1 d with
    | none => simp [h2] at h
    | some l3 =>
      simp only [h2, Option.some_bind] at h
      exact run_keeps post l3 l2 h s (list_insert_self s d l1 l3 h2) hpost


theorem not_replaced_of_not_named (X s e : Str) (hX : '=' ∉ X) (he : Named X e)
    (h : ¬ Named X s) : ∀ n, '=' ∉ n → Named n s → ¬ Named n e := by
  intro n hn h1 h2
  have := named_unique n X e hn hX h2 he
  subst this
  exact h h1

/-- With no secure path in force, no insertion with `dupcheck` is an entry for
`PATH`; none is one for `TERM`. -/
theorem all_cmds_dup_not_path (g : Ctx) (m : sudo_mode_t) (nx : Bool) (d : Nat) (p : Option Str)
    (hp : ∀ q, p = some q → "PS1".toList <+: q) :
    (secure_active g = false → ∀ c ∈ all_cmds g m nx d p, c.2 = true → ¬ Named "PATH".toList c.1) ∧
    ∀ c ∈ all_cmds g m nx d p, c.2 = true → ¬ Named "TERM".toList c.1 := by
  refine ⟨fun hsec c hc hd => ?_, fun c hc hd => ?_⟩
  · rcases all_cmds_dup_mem g m nx d p c hc hd with h | h | h | h | h | h
    · rw [secure_cmds_of_inactive g hsec] at h
      simp at h
    · exact logname_cmds_not_named g _ (by decide) (by decide) (by decide) c h hd
    · exact home_cmds_not_named g m _ (by decide) (by decide) c h hd
    · exact noexec_cmds_not_named g nx _ (by decide) (by decide) (by decide) (by decide)
        (by decide) c h hd
    · exact ps1_cmds_not_named p _ hp (by decide) (by decide) c h hd
    · exact sudo_cmds_not_named g _ (by decide) (by decide) (by decide) (by decide) (by decide)
        c h hd
  · rcases all_cmds_dup_mem g m nx d p c hc hd with h | h | h | h | h | h
    · exact skip_secure g _ (by decide) (by decide) c h
    · exact logname_cmds_not_named g _ (by decide) (by decide) (by decide) c h hd
    · exact home_cmds_not_named g m _ (by decide) (by decide) c h hd
    · exact noexec_cmds_not_named g nx _ (by decide) (by decide) (by decide) (by decide)
        (by decide) c h hd
    · exact ps1_cmds_not_named p _ hp (by decide) (by decide) c h hd
    · exact sudo_cmds_not_named g _ (by decide) (by decide) (by decide) (by decide) (by decide)
        c h hd

/-! ## The flags of didvar in filter mode -/

theorem filter_didvar_eq (ep : Str) (d : Nat) :
    filter_didvar ep d =
      if Named "SUDO_PS1".toList ep then d
      else if Named "PATH".toList ep then SET d DID_PATH
      else if Named "TERM".toList ep then SET d DID_TERM
      else d := by
  have e1 : (strncmp ep "SUDO_PS1=".toList 9 == 0) = true ↔ Named "SUDO_PS1".toList ep :=
    strncmp_named "SUDO_PS1".toList ep
  have e2 : (strncmp ep "PATH=".toList 5 == 0) = true ↔ Named "PATH".toList ep :=
    strncmp_named "PATH".toList ep
  have e3 : (strncmp ep "TERM=".toList 5 == 0) = true ↔ Named "TERM".toList ep :=
    strncmp_named "TERM".toList ep
  unfold filter_didvar
  simp only [e1, e2, e3]

theorem filter_didvar_testBit (ep : Str) (d : Nat) :
    (filter_didvar ep d).testBit 0 = (d.testBit 0 || decide (Named "TERM".toList ep)) ∧
    (filter_didvar ep d).testBit 1 = (d.testBit 1 || decide (Named "PATH".toList ep)) := by
  have uniq : ∀ X Y : Str, '=' ∉ X → '=' ∉ Y → X ≠ Y → Named X ep → ¬ Named Y ep :=
    fun X Y hX hY hne h1 h2 => hne (named_unique X Y ep hX hY h1 h2)
  rw [filter_didvar_eq]
  by_cases h1 : Named "SUDO_PS1".toList ep
  · have n2 := uniq _ "PATH".toList (by decide) (by decide) (by decide) h1
    have n3 := uniq _ "TERM".toList (by decide) (by decide) (by decide) h1
    simp only [h1, n2, n3, if_true, decide_False, Bool.or_false, and_self]
  by_cases h2 : Named "PATH".toList ep
  · have n3 := uniq _ "TERM".toList (by decide) (by decide) (by decide) h2
    simp +decide only [h1, h2, n3, if_true, if_false, DID_PATH_eq, SET_testBit, decide_True,
      decide_False, Bool.or_true, Bool.or_false, and_self]
  by_cases h3 : Named "TERM".toList ep
  · simp +decide only [h1, h2, h3, if_true, if_false, DID_TERM_eq, SET_testBit, decide_True,
      decide_False, Bool.or_true, Bool.or_false, and_self]
  · simp only [h1, h2, h3, if_false, decide_False, Bool.or_false, and_self]

theorem flag_count_step (b : Bool) (P : Prop) [Decidable P] (c : Nat) :
    (b || decide P || decide (1 ≤ c)) = (b || decide (1 ≤ c + if P then 1 else 0)) := by
  by_cases h : P <;> cases b <;> simp [h]

/-- After the filter-mode loop the flags `DID_TERM` and `DID_PATH` tell
whether an entry for the name was copied. -/
theorem filter_flag_iff (g : Ctx) (v : List Str) (st : locals (List Str))
    (hr : g.def_env_reset = false) (h0 : loop_locals g v = some st) :
    ISSET st.didvar DID_TERM = decide (1 ≤ count_named "TERM".toList st.env) ∧
    ISSET st.didvar DID_PATH = decide (1 ≤ count_named "PATH".toList st.env) := by
  obtain ⟨hst, -⟩ := loop_locals_filter g v st hr h0
  rw [hst]
  simp only [filter_locals, List.nil_append]
  have key : ∀ (K : List Str) (d : Nat),
      (K.foldl (fun d ep => filter_didvar ep d) d).testBit 0 =
        (d.testBit 0 || decide (1 ≤ count_named "TERM".toList K)) ∧
      (K.foldl (fun d ep => filter_didvar ep d) d).testBit 1 =
        (d.testBit 1 || decide (1 ≤ count_named "PATH".toList K)) := by
    intro K
    induction K with
    | nil => intro d; simp [count_named]
    | cons ep K ih =>
      intro d
      simp only [List.foldl_cons]
      rw [(ih _).1, (ih _).2, (filter_didvar_testBit ep d).1, (filter_didvar_testBit ep d).2,
        count_named_cons, count_named_cons]
      exact ⟨flag_count_step _ _ _, flag_count_step _ _ _⟩
  have k := key (v.filter (filter_keeps g)) 0
  rw [DID_TERM_eq, DID_PATH_eq, ISSET_testBit, ISSET_testBit, k.1, k.2]
  simp

/-- The insertions of filter mode, piece by piece. -/
theorem all_cmds_filter (g : Ctx) (m : sudo_mode_t) (nx : Bool) (d : Nat) (p : Option Str)
    (hr : g.def_env_reset = false) :
    all_cmds g m nx d p =
      secure_cmds g ++ (logname_cmds g ++ (home_cmds g m ++
      ((if (!ISSET (secure_didvar g d) DID_TERM) = true then
          [("TERM=unknown".toList, false)] else []) ++
      ((if (!ISSET (secure_didvar g d) DID_PATH) = true then
          [(fmt "PATH".toList [some g.PATH_DEFPATH], false)] else []) ++
      (noexec_cmds g nx ++ (ps1_cmds p ++ sudo_cmds g)))))) := by
  simp only [all_cmds, hr, Bool.false_eq_true, if_false, tail_cmds, termpath_cmds,
    List.nil_append, List.append_assoc]

/-- In filter mode the insertions leave at most one entry for `TERM` and for
`PATH`, when at most one was copied. -/
theorem filter_fold_le_one (g : Ctx) (m : sudo_mode_t) (nx : Bool) (d : Nat)
    (p : Option Str) (hr : g.def_env_reset = false) :
    (∀ c0, c0 ≤ 1 → ISSET d DID_TERM = decide (1 ≤ c0) →
      (all_cmds g m nx d p).foldl (cnt_step "TERM".toList) c0 ≤ 1) ∧
    (∀ c0, c0 ≤ 1 → ISSET d DID_PATH = decide (1 ≤ c0) →
      (all_cmds g m nx d p).foldl (cnt_step "PATH".toList) c0 ≤ 1) := by
  rw [all_cmds_filter g m nx d p hr]
  refine ⟨fun c0 hc hflag => ?_, fun c0 hc hflag => ?_⟩
  · rw [List.foldl_append, (skip_secure g _ (by decide) (by decide)).foldl, List.foldl_append,
      (skip_logname g _ (by decide) (by decide) (by decide)).foldl, List.foldl_append,
      (skip_home g m _ (by decide) (by decide)).foldl, List.foldl_append]
    refine QuietFor.foldl_le_one ?_ _ (guarded_le_one _ _ _ c0 hc
      (fun h => flag_zero_of_unset d 0 c0 (by rw [← DID_TERM_eq]; exact hflag) (by
        rw [← DID_TERM_eq, ← secure_didvar_term g d]; exact h)))
    exact (skip_guarded_fmt _ _ _ _ (by decide) (by decide) (by decide)).quiet.quiet_append
      (quiet_last g nx p _)
  · cases hact : secure_active g with
    | true =>
      have hnil : (!ISSET (secure_didvar g d) DID_PATH) = false := by
        rw [secure_didvar_path, hact]; simp
      rw [hnil]
      refine QuietFor.foldl_le_one ?_ _ hc
      exact (quiet_of_dup (secure_cmds_dup g)).quiet_append
        ((quiet_of_dup (logname_cmds_dup g)).quiet_append
        ((quiet_of_dup (home_cmds_dup g m)).quiet_append
        ((skip_guarded_term _ _ (by decide) (by decide)).quiet.quiet_append
        ((QuietFor.quiet_nil _).quiet_append (quiet_last g nx p _)))))
    | false =>
      have hsec : SkipFor "PATH".toList (secure_cmds g) := by
        rw [secure_cmds_of_inactive g hact]; exact SkipFor.skip_nil _
      rw [List.foldl_append, hsec.foldl, List.foldl_append,
        (skip_logname g _ (by decide) (by decide) (by decide)).foldl, List.foldl_append,
        (skip_home g m _ (by decide) (by decide)).foldl, List.foldl_append,
        (skip_guarded_term _ _ (by decide) (by decide)).foldl, List.foldl_append]
      refine QuietFor.foldl_le_one (quiet_last g nx p _) _ (guarded_le_one _ _ _ c0 hc
        (fun h => flag_zero_of_unset d 1 c0 (by rw [← DID_PATH_eq]; exact hflag) (by
          rw [secure_didvar_path, hact, Bool.or_false] at h
          rw [← DID_PATH_eq]; exact h)))

/-- In filter mode every insertion of an entry for a name other than `TERM`
and `PATH` is made with `dupcheck`. -/
theorem all_cmds_filter_quiet (g : Ctx) (m : sudo_mode_t) (nx : Bool) (d : Nat) (p : Option Str)
    (hr : g.def_env_reset = false) (X : Str) (hX : '=' ∉ X) (h1 : "TERM".toList ≠ X)
    (h2 : "PATH".toList ≠ X) : QuietFor X (all_cmds g m nx d p) := by
  rw [all_cmds_filter g m nx d p hr]
  exact (quiet_of_dup (secure_cmds_dup g)).quiet_append
    ((quiet_of_dup (logname_cmds_dup g)).quiet_append
    ((quiet_of_dup (home_cmds_dup g m)).quiet_append
    ((skip_guarded_term _ _ hX h1).quiet.quiet_append
    ((skip_guarded_fmt _ _ _ _ hX (by decide) h2).quiet.quiet_append (quiet_last g nx p _)))))

/-- In filter mode, and in reset mode without the login-shell flag, the result
holds at most one entry for a name of which the sources hold at most one. -/
theorem rebuild_count_le_one (g : Ctx) (envp1 envp2 : Option (List Str)) (m : sudo_mode_t)
    (nx : Bool) (hmode : g.def_env_reset = false ∨ m.login_shell = false) (l : List Str)
    (h : rebuild_environ g envp1 envp2 m nx = some l) (X : Str) (hX : '=' ∉ X)
    (hsrc : count_named X (sources envp1 envp2) ≤ 1) : count_named X l ≤ 1 := by
  obtain ⟨st, h0, hrun, -⟩ := rebuild_environ_origin g envp1 envp2 m nx l h
  have hc0 : count_named X st.env ≤ 1 := le_trans (loop_count_le g _ st h0 X) hsrc
  rw [count_run X hX _ _ _ hrun]
  cases hr : g.def_env_reset with
  | false =>
    by_cases hT : "TERM".toList = X
    · subst hT
      exact (filter_fold_le_one g m nx _ _ hr).1 _ hc0 (filter_flag_iff g _ st hr h0).1
    by_cases hP : "PATH".toList = X
    · subst hP
      exact (filter_fold_le_one g m nx _ _ hr).2 _ hc0 (filter_flag_iff g _ st hr h0).2
    exact (all_cmds_filter_quiet g m nx _ _ hr X hX hT hP).foldl_le_one _ hc0
  | true =>
    have hl : m.login_shell = false := by
      rcases hmode with h1 | h1
      · rw [hr] at h1; cases h1
      · exact h1
    by_cases hsix : X ∈ six_names
    · obtain ⟨k, hk⟩ := six_names_flag X hsix
      exact reset_user_fold_le_one g m nx _ _ hr hl X k _ hk hc0
        (reset_flag_iff g _ st hr h0 (X, k) hk)
    · exact (all_cmds_quiet g m nx _ _ X hX hsix).foldl_le_one _ hc0


/-! ## Names of entries and entries for a name -/

theorem name_of_entry (n v : Str) (hn : '=' ∉ n) : name_of (n ++ '=' :: v) = n := by
  unfold name_of
  induction n with
  | nil => simp [List.takeWhile]
  | cons a n ih =>
    have ha : a ≠ '=' := fun e => hn (by simp [e])
    have hn2 : '=' ∉ n := fun e => hn (by simp [e])
    simp [List.takeWhile_cons, ha, ih hn2]

theorem name_of_no_eq (e : Str) : '=' ∉ name_of e := by
  intro h
  have := List.mem_takeWhile_imp h
  simp at this

theorem exists_entry_of_mem (e : Str) (he : '=' ∈ e) : ∃ n v, e = n ++ '=' :: v ∧ '=' ∉ n := by
  cases hc : strchr e '=' with
  | none => exact absurd he ((strchr_eq_none_iff e '=').mp hc)
  | some i => exact exists_entry_of_strchr e i hc

theorem named_iff_name_of (n e : Str) (hn : '=' ∉ n) (he : '=' ∈ e) :
    Named n e ↔ name_of e = n := by
  obtain ⟨n0, v, rfl, hn0⟩ := exists_entry_of_mem e he
  rw [name_of_entry n0 v hn0]
  exact named_entry_iff n n0 v hn hn0

theorem count_named_zero_of_not_mem (l : List Str) (hl : ∀ e ∈ l, '=' ∈ e) (n : Str)
    (hn : '=' ∉ n) (h : n ∉ l.map name_of) : count_named n l = 0 := by
  by_contra hne
  have hpos : 1 ≤ count_named n l := Nat.one_le_iff_ne_zero.mpr hne
  obtain ⟨e, he, hnamed⟩ := (count_named_pos_iff n l).mp hpos
  exact h (List.mem_map.mpr ⟨e, he, (named_iff_name_of n e hn (hl e he)).mp hnamed⟩)

/-- For entries that all contain `=`: no two share a name exactly when there
is at most one entry for every name. -/
theorem uniqueNames_iff (l : List Str) (hl : ∀ e ∈ l, '=' ∈ e) :
    UniqueNames l ↔ ∀ n, '=' ∉ n → count_named n l ≤ 1 := by
  unfold UniqueNames
  induction l with
  | nil => simp [count_named]
  | cons a l ih =>
    have hl2 : ∀ e ∈ l, '=' ∈ e := fun e he => hl e (by simp [he])
    have ha := hl a (by simp)
    rw [List.map_cons, List.nodup_cons, ih hl2]
    constructor
    · rintro ⟨h1, h2⟩ n hn
      rw [count_named_cons]
      by_cases hna : Named n a
      · have e1 := (named_iff_name_of n a hn ha).mp hna
        rw [count_named_zero_of_not_mem l hl2 n hn (e1 ▸ h1)]
        simp [hna]
      · simp only [hna, if_false, Nat.add_zero]
        exact h2 n hn
    · intro h
      refine ⟨fun hmem => ?_, fun n hn => ?_⟩
      · obtain ⟨e, he, heq⟩ := List.mem_map.mp hmem
        have hn := name_of_no_eq a
        have h1 : Named (name_of a) a := (named_iff_name_of _ a hn ha).mpr rfl
        have h2 : Named (name_of a) e := (named_iff_name_of _ e hn (hl2 e he)).mpr heq
        have h3 := h (name_of a) hn
        rw [count_named_cons] at h3
        have h4 : 1 ≤ count_named (name_of a) l := (count_named_pos_iff _ l).mpr ⟨e, he, h2⟩
        simp only [h1, if_true] at h3
        omega
      · have := h n hn
        rw [count_named_cons] at this
        omega

/-- Every string of the result contains `=`, when every source entry does. -/
theorem rebuild_environ_have_eq (g : Ctx) (envp1 envp2 : Option (List Str)) (m : sudo_mode_t)
    (nx : Bool) (hsrc : ∀ e ∈ sources envp1 envp2, '=' ∈ e) (l : List Str)
    (h : rebuild_environ g envp1 envp2 m nx = some l) : ∀ e ∈ l, '=' ∈ e := by
  obtain ⟨st, h0, -, horig⟩ := rebuild_environ_origin g envp1 envp2 m nx l h
  intro e he
  rcases horig e he with ⟨hs, -⟩ | ⟨c, hc, rfl⟩
  · exact hsrc e hs
  · exact all_cmds_have_eq g m nx _ st h0 hsrc c hc

/-- In filter mode, and in reset mode without the login-shell flag, no two
strings of the result share a name when every source entry contains `=` and no
two source entries share a name. -/
theorem rebuild_environ_unique (g : Ctx) (envp1 envp2 : Option (List Str)) (m : sudo_mode_t)
    (nx : Bool) (hmode : g.def_env_reset = false ∨ m.login_shell = false)
    (hsrc : ∀ e ∈ sources envp1 envp2, '=' ∈ e) (huniq : UniqueNames (sources envp1 envp2))
    (l : List Str) (h : rebuild_environ g envp1 envp2 m nx = some l) : UniqueNames l := by
  rw [uniqueNames_iff l (rebuild_environ_have_eq g envp1 envp2 m nx hsrc l h)]
  intro n hn
  exact rebuild_count_le_one g envp1 envp2 m nx hmode l h n hn
    ((uniqueNames_iff _ hsrc).mp huniq n hn)

/-! ## Running the insertions on a list that already holds their strings -/

/-- Two entries for the same name in a list without shared names are one. -/
theorem unique_named_eq (R : List Str) (hu : UniqueNames R) (hR : ∀ e ∈ R, '=' ∈ e)
    (n : Str) (hn : '=' ∉ n) (x y : Str) (hx : x ∈ R) (hy : y ∈ R)
    (h1 : Named n x) (h2 : Named n y) : x = y := by
  have e1 := (named_iff_name_of n x hn (hR x hx)).mp h1
  have e2 := (named_iff_name_of n y hn (hR y hy)).mp h2
  exact List.inj_on_of_nodup_map hu hx hy (e1.trans e2.symm)

/-- A string of a group of insertions is in the list at the end of the run,
when it is an entry for `X`, the group inserts no other string for `X` and the
insertions after the group replace no entry for `X`. -/
theorem run_group_stays (pre G post : List (Str × Bool)) (l l2 : List Str)
    (h : run (pre ++ (G ++ post)) l = some l2) (X : Str) (hX : '=' ∉ X) (c : Str × Bool)
    (hc : c ∈ G) (hn : Named X c.1)
    (hG : ∀ c2 ∈ G, c2.2 = true → Named X c2.1 → c2.1 = c.1)
    (hpost : ∀ c2 ∈ post, c2.2 = true → ¬ Named X c2.1) : c.1 ∈ l2 := by
  obtain ⟨g1, g2, rfl⟩ := List.append_of_mem hc
  have hcs : pre ++ ((g1 ++ c :: g2) ++ post) = (pre ++ g1) ++ (c.1, c.2) :: (g2 ++ post) := by
    simp
  rw [hcs] at h
  refine run_inserted _ _ c.1 c.2 l l2 h ?_
  intro c2 hc2 hd
  by_cases hn2 : Named X c2.1
  · rcases List.mem_append.mp hc2 with h3 | h3
    · exact Or.inl (hG c2 (by simp [h3]) hd hn2)
    · exact absurd hn2 (hpost c2 h3 hd)
  · exact Or.inr (not_replaced_of_not_named X c2.1 c.1 hX hn hn2)

/-- A run whose insertions are all strings of `R`, started on strings of `R`
and covering `R`, ends with the strings of `R`, when no two strings of `R`
share a name. -/
theorem run_same_set (cs : List (Str × Bool)) (A R R2 : List Str) (hu : UniqueNames R)
    (hR : ∀ e ∈ R, '=' ∈ e) (hA : ∀ e ∈ A, e ∈ R) (hcs : ∀ c ∈ cs, c.1 ∈ R)
    (hcover : ∀ e ∈ R, e ∈ A ∨ ∃ c ∈ cs, c.1 = e) (h : run cs A = some R2) :
    ∀ e, e ∈ R2 ↔ e ∈ R := by
  have hrep : ∀ e ∈ R, ∀ c ∈ cs, c.2 = true →
      c.1 = e ∨ ∀ n, '=' ∉ n → Named n c.1 → ¬ Named n e := by
    intro e he c hc _
    by_cases heq : c.1 = e
    · exact Or.inl heq
    · right
      intro n hn h1 h2
      exact heq (unique_named_eq R hu hR n hn c.1 e (hcs c hc) he h1 h2)
  intro e
  constructor
  · intro he
    rcases run_mem cs A R2 h e he with h1 | ⟨c, hc, rfl⟩
    · exact hA e h1
    · exact hcs c hc
  · intro he
    rcases hcover e he with h1 | ⟨c, hc, rfl⟩
    · exact run_keeps cs A R2 h e h1 (hrep e he)
    · obtain ⟨pre, post, rfl⟩ := List.append_of_mem hc
      have h3 : run (pre ++ (c.1, c.2) :: post) A = some R2 := h
      refine run_inserted pre post c.1 c.2 A R2 h3 ?_
      intro c2 hc2 hd
      exact hrep c.1 he c2 (by simp [hc2]) hd

/-! ## The prompt string left by the filter-mode loop -/

theorem ps1_fold_skip (K : List Str) (p0 : Option Str)
    (h : ∀ y ∈ K, ¬ Named "SUDO_PS1".toList y) :
    K.foldl (fun p ep =>
      if strncmp ep "SUDO_PS1=".toList 9 == 0 then some (ep.drop 5) else p) p0 = p0 := by
  induction K generalizing p0 with
  | nil => rfl
  | cons y K ih =>
    have hy : ¬ (strncmp y "SUDO_PS1=".toList 9 == 0) = true :=
      fun e => h y (by simp) ((strncmp_named "SUDO_PS1".toList y).mp e)
    simp only [List.foldl_cons, hy, if_false]
    exact ih p0 (fun z hz => h z (by simp [hz]))

theorem ps1_fold_of_unique (K : List Str) (x : Str) (hx : x ∈ K)
    (hn : Named "SUDO_PS1".toList x) (hu : ∀ y ∈ K, Named "SUDO_PS1".toList y → y = x)
    (p0 : Option Str) :
    K.foldl (fun p ep =>
      if strncmp ep "SUDO_PS1=".toList 9 == 0 then some (ep.drop 5) else p) p0 =
        some (x.drop 5) := by
  induction K generalizing p0 with
  | nil => simp at hx
  | cons y K ih =>
    simp only [List.foldl_cons]
    by_cases hxK : x ∈ K
    · exact ih hxK (fun z hz => hu z (by simp [hz])) _
    · have hxy : x = y := by
        rcases List.mem_cons.mp hx with h | h
        · exact h
        · exact absurd h hxK
      subst hxy
      have hy : (strncmp x "SUDO_PS1=".toList 9 == 0) = true :=
        (strncmp_named "SUDO_PS1".toList x).mpr hn
      simp only [hy, if_true]
      refine ps1_fold_skip K _ (fun z hz hnz => ?_)
      have := hu z (by simp [hz]) hnz
      exact hxK (this ▸ hz)

/-! ## The strings inserted in filter mode stay -/

theorem secure_cmds_mem (g : Ctx) (c : Str × Bool) (hc : c ∈ secure_cmds g) :
    ∃ sp, g.def_secure_path = some sp ∧ c = (fmt "PATH".toList [some sp], true) := by
  unfold secure_cmds at hc
  cases hs : g.def_secure_path with
  | none => simp [hs] at hc
  | some sp =>
    simp only [hs] at hc
    exact ⟨sp, rfl, (mem_ite_singleton hc).2⟩

theorem home_cmds_mem (g : Ctx) (m : sudo_mode_t) (c : Str × Bool) (hc : c ∈ home_cmds g m) :
    ∃ dir, g.runas_pw.pw_dir = some dir ∧ c = (fmt "HOME".toList [some dir], true) := by
  unfold home_cmds at hc
  cases hs : g.runas_pw.pw_dir with
  | none => simp [hs] at hc
  | some dir =>
    simp only [hs] at hc
    exact ⟨dir, rfl, (mem_ite_singleton hc).2⟩

theorem ps1_cmds_mem (p : Option Str) (c : Str × Bool) (hc : c ∈ ps1_cmds p) :
    ∃ q, p = some q ∧ c = (q, true) := by
  unfold ps1_cmds at hc
  cases hs : p with
  | none => simp [hs] at hc
  | some q =>
    simp only [hs, List.mem_singleton] at hc
    exact ⟨q, rfl, hc⟩

/-- Each preload insertion is an entry for a name of its own. -/
theorem noexec_cmds_names (g : Ctx) (nx : Bool) (c : Str × Bool) (hc : c ∈ noexec_cmds g nx) :
    ∃ X ∈ ["DYLD_INSERT_LIBRARIES".toList, "DYLD_FORCE_FLAT_NAMESPACE".toList,
        "_RLD_LIST".toList, "LD_PRELOAD".toList],
      Named X c.1 ∧ ∀ c2 ∈ noexec_cmds g nx, Named X c2.1 → c2.1 = c.1 := by
  unfold noexec_cmds at hc ⊢
  cases hs : g.def_noexec_file with
  | none => simp [hs] at hc
  | some file =>
    simp only [hs] at hc ⊢
    by_cases hnx : nx = true
    · simp only [hnx, if_true] at hc ⊢
      cases hp : g.platform with
      | darwin =>
        simp only [hp, List.mem_cons, List.mem_singleton, List.not_mem_nil, or_false] at hc ⊢
        rcases hc with rfl | rfl
        · refine ⟨_, Or.inl rfl, named_fmt_self _ _, ?_⟩
          rintro c2 (rfl | rfl) h2
          · rfl
          · exact absurd h2 (not_named_fmt _ _ _ (by decide) (by decide) (by decide))
        · refine ⟨_, Or.inr (Or.inl rfl), named_fmt_self _ _, ?_⟩
          rintro c2 (rfl | rfl) h2
          · exact absurd h2 (not_named_fmt _ _ _ (by decide) (by decide) (by decide))
          · rfl
      | osf_sgi =>
        simp only [hp, List.mem_singleton] at hc ⊢
        subst hc
        exact ⟨_, by simp, named_fmt_self _ _, fun c2 h2 _ => by rw [h2]⟩
      | other =>
        simp only [hp, List.mem_singleton] at hc ⊢
        subst hc
        exact ⟨_, by simp, named_fmt_self _ _, fun c2 h2 _ => by rw [h2]⟩
    · simp [hnx] at hc

/-- Each of the four `SUDO_` insertions is an entry for a name of its own. -/
theorem sudo_cmds_names (g : Ctx) (c : Str × Bool) (hc : c ∈ sudo_cmds g) :
    ∃ X ∈ ["SUDO_COMMAND".toList, "SUDO_USER".toList, "SUDO_UID".toList, "SUDO_GID".toList],
      Named X c.1 ∧ ∀ c2 ∈ sudo_cmds g, Named X c2.1 → c2.1 = c.1 := by
  obtain ⟨v, hv, -⟩ := sudo_command_eq g
  have hU : sudo_cmds g = [("SUDO_COMMAND".toList ++ '=' :: v, true),
      ("SUDO_USER".toList ++ '=' :: g.user_name, true),
      ("SUDO_UID".toList ++ '=' :: Nat.toDigits 10 g.user_uid, true),
      ("SUDO_GID".toList ++ '=' :: Nat.toDigits 10 g.user_gid, true)] := by
    rw [sudo_cmds_head, hv]
    simp
  rw [hU] at hc ⊢
  have nm : ∀ X w : Str, Named X (X ++ '=' :: w) := fun X w => ⟨w, by simp⟩
  simp only [List.mem_cons, List.mem_singleton, List.not_mem_nil, or_false] at hc
  rcases hc with rfl | rfl | rfl | rfl
  · refine ⟨_, by decide, nm _ _, ?_⟩
    rintro c2 hc2 h2
    simp only [List.mem_cons, List.mem_singleton, List.not_mem_nil, or_false] at hc2
    rcases hc2 with rfl | rfl | rfl | rfl
    · rfl
    all_goals exact absurd h2 (not_named_var _ _ _ (by decide) (by decide) (by decide))
  · refine ⟨_, by decide, nm _ _, ?_⟩
    rintro c2 hc2 h2
    simp only [List.mem_cons, List.mem_singleton, List.not_mem_nil, or_false] at hc2
    rcases hc2 with rfl | rfl | rfl | rfl
    · exact absurd h2 (not_named_var _ _ _ (by decide) (by decide) (by decide))
    · rfl
    all_goals exact absurd h2 (not_named_var _ _ _ (by decide) (by decide) (by decide))
  · refine ⟨_, by decide, nm _ _, ?_⟩
    rintro c2 hc2 h2
    simp only [List.mem_cons, List.mem_singleton, List.not_mem_nil, or_false] at hc2
    rcases hc2 with rfl | rfl | rfl | rfl
    · exact absurd h2 (not_named_var _ _ _ (by decide) (by decide) (by decide))
    · exact absurd h2 (not_named_var _ _ _ (by decide) (by decide) (by decide))
    · rfl
    · exact absurd h2 (not_named_var _ _ _ (by decide) (by decide) (by decide))
  · refine ⟨_, by decide, nm _ _, ?_⟩
    rintro c2 hc2 h2
    simp only [List.mem_cons, List.mem_singleton, List.not_mem_nil, or_false] at hc2
    rcases hc2 with rfl | rfl | rfl | rfl
    · exact absurd h2 (not_named_var _ _ _ (by decide) (by decide) (by decide))
    · exact absurd h2 (not_named_var _ _ _ (by decide) (by decide) (by decide))
    · exact absurd h2 (not_named_var _ _ _ (by decide) (by decide) (by decide))
    · rfl


/-- In filter mode every string inserted after the loop is in the list at the
end: no later insertion replaces it. -/
theorem all_cmds_filter_stays (g : Ctx) (m : sudo_mode_t) (nx : Bool) (d : Nat) (p : Option Str)
    (hr : g.def_env_reset = false) (hp : ∀ q, p = some q → "PS1".toList <+: q ∧ '=' ∈ q)
    (A R : List Str) (hrun : run (all_cmds g m nx d p) A = some R) :
    ∀ c ∈ all_cmds g m nx d p, c.1 ∈ R := by
  have hL : logname_cmds g = [] := by
    unfold logname_cmds
    cases g.runas_pw.pw_name <;> simp [hr]
  have hC : all_cmds g m nx d p = secure_cmds g ++ (home_cmds g m ++
      (termpath_cmds g (secure_didvar g d) ++ (noexec_cmds g nx ++
        (ps1_cmds p ++ sudo_cmds g)))) := by
    simp [all_cmds, hr, tail_cmds, hL]
  have hp1 : ∀ q, p = some q → "PS1".toList <+: q := fun q hq => (hp q hq).1
  rw [hC] at hrun ⊢
  intro c hc
  simp only [List.mem_append] at hc
  rcases hc with h | h | h | h | h | h
  · obtain ⟨sp, hsp, rfl⟩ := secure_cmds_mem g c h
    refine run_group_stays [] (secure_cmds g) _ A R (by simpa using hrun) "PATH".toList
      (by decide) _ h (named_fmt_self _ _) ?_ ?_
    · intro c2 hc2 _ _
      obtain ⟨sp2, hsp2, rfl⟩ := secure_cmds_mem g c2 hc2
      rw [hsp] at hsp2
      cases hsp2
      rfl
    · intro c2 hc2
      rcases List.mem_append.mp hc2 with h1 | h1
      · exact home_cmds_not_named g m _ (by decide) (by decide) c2 h1
      · exact rest_not_named g nx _ p _ (by decide) hp1 (by decide) (by decide) (by decide) c2 h1
  · obtain ⟨dir, hdir, rfl⟩ := home_cmds_mem g m c h
    refine run_group_stays (secure_cmds g) (home_cmds g m) _ A R hrun "HOME".toList
      (by decide) _ h (named_fmt_self _ _) ?_ ?_
    · intro c2 hc2 _ _
      obtain ⟨dir2, hdir2, rfl⟩ := home_cmds_mem g m c2 hc2
      rw [hdir] at hdir2
      cases hdir2
      rfl
    · exact rest_not_named g nx _ p _ (by decide) hp1 (by decide) (by decide) (by decide)
  · have hrun2 : run ((secure_cmds g ++ home_cmds g m) ++
        (termpath_cmds g (secure_didvar g d) ++ (noexec_cmds g nx ++
          (ps1_cmds p ++ sudo_cmds g)))) A = some R := by
      rw [List.append_assoc]; exact hrun
    have hcases : c.1 = "TERM=unknown".toList ∨ c.1 = fmt "PATH".toList [some g.PATH_DEFPATH] := by
      unfold termpath_cmds at h
      rcases List.mem_append.mp h with h1 | h1
      · exact Or.inl (by rw [(mem_ite_singleton h1).2])
      · exact Or.inr (by rw [(mem_ite_singleton h1).2])
    rcases hcases with e | e
    · refine run_group_stays _ _ _ A R hrun2 "TERM".toList (by decide) c h
        (by rw [e]; exact ⟨"unknown".toList, rfl⟩) ?_ ?_
      · intro c2 hc2 hd hn2
        exact absurd hn2 (termpath_cmds_not_named g _ _ c2 hc2 hd)
      · intro c2 hc2 _
        exact skip_last g nx p _ (by decide) hp1 (by decide) (by decide) (by decide) c2 hc2
    · refine run_group_stays _ _ _ A R hrun2 "PATH".toList (by decide) c h
        (by rw [e]; exact named_fmt_self _ _) ?_ ?_
      · intro c2 hc2 hd hn2
        exact absurd hn2 (termpath_cmds_not_named g _ _ c2 hc2 hd)
      · intro c2 hc2 _
        exact skip_last g nx p _ (by decide) hp1 (by decide) (by decide) (by decide) c2 hc2
  · have hrun2 : run ((secure_cmds g ++ (home_cmds g m ++
        termpath_cmds g (secure_didvar g d))) ++ (noexec_cmds g nx ++
          (ps1_cmds p ++ sudo_cmds g))) A = some R := by
      simpa [List.append_assoc] using hrun
    obtain ⟨X, hX, hn, hG⟩ := noexec_cmds_names g nx c h
    have hpost : ∀ c2 ∈ ps1_cmds p ++ sudo_cmds g, c2.2 = true → ¬ Named X c2.1 := by
      intro c2 hc2
      simp only [List.mem_cons, List.mem_singleton, List.not_mem_nil, or_false] at hX
      rcases List.mem_append.mp hc2 with h1 | h1
      · rcases hX with rfl | rfl | rfl | rfl <;>
          exact ps1_cmds_not_named p _ hp1 (by decide) (by decide) c2 h1
      · rcases hX with rfl | rfl | rfl | rfl <;>
          exact sudo_cmds_not_named g _ (by decide) (by decide) (by decide) (by decide)
            (by decide) c2 h1
    have hXe : '=' ∉ X := by
      simp only [List.mem_cons, List.mem_singleton, List.not_mem_nil, or_false] at hX
      rcases hX with rfl | rfl | rfl | rfl <;> decide
    exact run_group_stays _ _ _ A R hrun2 X hXe c h hn (fun c2 hc2 _ h2 => hG c2 hc2 h2) hpost
  · have hrun2 : run ((secure_cmds g ++ (home_cmds g m ++
        (termpath_cmds g (secure_didvar g d) ++ noexec_cmds g nx))) ++ (ps1_cmds p ++
          sudo_cmds g)) A = some R := by
      simpa [List.append_assoc] using hrun
    obtain ⟨q, hq, rfl⟩ := ps1_cmds_mem p c h
    obtain ⟨hq1, hq2⟩ := hp q hq
    obtain ⟨n, v, rfl, hn⟩ := exists_entry_of_mem q hq2
    have hnq : Named n (n ++ '=' :: v) := ⟨v, by simp⟩
    refine run_group_stays _ _ _ A R hrun2 n hn _ h hnq ?_ ?_
    · intro c2 hc2 _ _
      obtain ⟨q2, hq2, rfl⟩ := ps1_cmds_mem p c2 hc2
      rw [hq] at hq2
      cases hq2
      rfl
    · refine sudo_cmds_not_named g n hn ?_ ?_ ?_ ?_
      · rintro rfl
        exact ps1_not_named _ _ hq1 (by decide) (by decide) hnq
      · rintro rfl
        exact ps1_not_named _ _ hq1 (by decide) (by decide) hnq
      · rintro rfl
        exact ps1_not_named _ _ hq1 (by decide) (by decide) hnq
      · rintro rfl
        exact ps1_not_named _ _ hq1 (by decide) (by decide) hnq
  · have hrun2 : run ((secure_cmds g ++ (home_cmds g m ++
        (termpath_cmds g (secure_didvar g d) ++ (noexec_cmds g nx ++ ps1_cmds p)))) ++
          (sudo_cmds g ++ [])) A = some R := by
      simpa [List.append_assoc] using hrun
    obtain ⟨X, hX, hn, hG⟩ := sudo_cmds_names g c h
    have hXe : '=' ∉ X := by
      simp only [List.mem_cons, List.mem_singleton, List.not_mem_nil, or_false] at hX
      rcases hX with rfl | rfl | rfl | rfl <;> decide
    exact run_group_stays _ _ _ A R hrun2 X hXe c h hn (fun c2 hc2 _ h2 => hG c2 hc2 h2)
      (fun c2 hc2 => by simp at hc2)

/-! ## Running rebuild_env on its own result, filter mode -/

theorem all_cmds_filter_mem_iff (g : Ctx) (m : sudo_mode_t) (nx : Bool) (d : Nat)
    (p : Option Str) (hr : g.def_env_reset = false) (c : Str × Bool) :
    c ∈ all_cmds g m nx d p ↔
      c ∈ secure_cmds g ∨ c ∈ logname_cmds g ∨ c ∈ home_cmds g m ∨
      (ISSET (secure_didvar g d) DID_TERM = false ∧ c = ("TERM=unknown".toList, false)) ∨
      (ISSET (secure_didvar g d) DID_PATH = false ∧
        c = (fmt "PATH".toList [some g.PATH_DEFPATH], false)) ∨
      c ∈ noexec_cmds g nx ∨ c ∈ ps1_cmds p ∨ c ∈ sudo_cmds g := by
  rw [all_cmds_filter g m nx d p hr]
  simp only [List.mem_append]
  have e1 : ∀ (b : Bool) (x : Str × Bool),
      c ∈ (if (!b) = true then [x] else []) ↔ (b = false ∧ c = x) := by
    intro b x
    cases b <;> simp
  rw [e1, e1]

/-- No string inserted after the loops is an entry for `SUDO_PS1`. -/
theorem all_cmds_not_sudo_ps1 (g : Ctx) (m : sudo_mode_t) (nx : Bool) (d : Nat) (p : Option Str)
    (hp : ∀ q, p = some q → "PS1".toList <+: q) :
    ∀ c ∈ all_cmds g m nx d p, ¬ Named "SUDO_PS1".toList c.1 := by
  intro c hc hn
  cases hd : c.2 with
  | false =>
    obtain ⟨Y, hY, hnY⟩ := all_cmds_nodup_six g m nx d p c hc hd
    have := named_unique Y _ c.1 (six_names_no_eq Y hY) (by decide) hnY hn
    subst this
    revert hY
    decide
  | true =>
    rcases all_cmds_dup_mem g m nx d p c hc hd with h | h | h | h | h | h
    · exact skip_secure g _ (by decide) (by decide) c h hn
    · exact logname_cmds_not_named g _ (by decide) (by decide) (by decide) c h hd hn
    · exact home_cmds_not_named g m _ (by decide) (by decide) c h hd hn
    · exact noexec_cmds_not_named g nx _ (by decide) (by decide) (by decide) (by decide)
        (by decide) c h hd hn
    · exact ps1_cmds_not_named p _ hp (by decide) (by decide) c h hd hn
    · exact sudo_cmds_not_named g _ (by decide) (by decide) (by decide) (by decide) (by decide)
        c h hd hn

theorem ps1_cmds_sub (g : Ctx) (m : sudo_mode_t) (nx : Bool) (d : Nat) (p : Option Str) :
    ∀ c ∈ ps1_cmds p, c ∈ all_cmds g m nx d p := by
  intro c hc
  unfold all_cmds tail_cmds
  simp [hc]

/-- In filter mode, when every source entry contains `=` and no two share a
name, `rebuild_env` run on its own result returns the same strings. -/
theorem filter_rerun_same (g : Ctx) (envp1 envp2 : Option (List Str)) (m : sudo_mode_t)
    (nx : Bool) (hr : g.def_env_reset = false)
    (hsrc : ∀ e ∈ sources envp1 envp2, '=' ∈ e) (huniq : UniqueNames (sources envp1 envp2))
    (R R2 : List Str) (h1 : rebuild_environ g envp1 envp2 m nx = some R)
    (h2 : rebuild_environ g (some R) none m nx = some R2) : ∀ e, e ∈ R2 ↔ e ∈ R := by
  have hReq := rebuild_environ_have_eq g envp1 envp2 m nx hsrc R h1
  have hRu := rebuild_environ_unique g envp1 envp2 m nx (Or.inl hr) hsrc huniq R h1
  obtain ⟨st, h0, hrun, horig⟩ := rebuild_environ_origin g envp1 envp2 m nx R h1
  obtain ⟨st2, h02, hrun2, -⟩ := rebuild_environ_origin g (some R) none m nx R2 h2
  have hsR : sources (some R) none = R := by simp [sources]
  rw [hsR] at h02
  simp only [hr, Bool.false_eq_true, if_false] at horig
  obtain ⟨hst, -⟩ := loop_locals_filter g _ st hr h0
  obtain ⟨hst2, -⟩ := loop_locals_filter g _ st2 hr h02
  have henv : st.env = (sources envp1 envp2).filter (filter_keeps g) := by
    rw [hst]; simp [filter_locals]
  have henv2 : st2.env = R.filter (filter_keeps g) := by
    rw [hst2]; simp [filter_locals]
  have hfold : st.ps1 = st.env.foldl (fun p ep =>
      if strncmp ep "SUDO_PS1=".toList 9 == 0 then some (ep.drop 5) else p) none := by
    rw [henv, hst]; rfl
  have hfold2 : st2.ps1 = st2.env.foldl (fun p ep =>
      if strncmp ep "SUDO_PS1=".toList 9 == 0 then some (ep.drop 5) else p) none := by
    rw [henv2, hst2]; rfl
  have hp1 : ∀ q, st.ps1 = some q → "PS1".toList <+: q :=
    fun q hq => (ps1_plain g _ st h0 q hq).2
  have hpp : ∀ q, st.ps1 = some q → "PS1".toList <+: q ∧ '=' ∈ q := by
    intro q hq
    refine ⟨hp1 q hq, ?_⟩
    exact all_cmds_have_eq g m nx _ st h0 hsrc (q, true)
      (ps1_cmds_sub g m nx _ _ _ (by simp [ps1_cmds, hq]))
  have hfl := filter_flag_iff g _ st hr h0
  have hfl2 := filter_flag_iff g _ st2 hr h02
  have hstays := all_cmds_filter_stays g m nx st.didvar st.ps1 hr hpp st.env R hrun
  have hA : ∀ e ∈ st2.env, e ∈ R := by
    intro e he
    rw [henv2] at he
    exact (List.mem_filter.mp he).1
  -- a copied entry that no insertion replaces is copied again
  have F : ∀ X : Str, '=' ∉ X →
      (∀ c ∈ all_cmds g m nx st.didvar st.ps1, c.2 = true → ¬ Named X c.1) →
      ∀ x ∈ st.env, Named X x → x ∈ st2.env := by
    intro X hX hnot x hx hnx
    have hxR : x ∈ R := run_keeps _ _ _ hrun x hx
      (fun c hc hd => Or.inr (not_replaced_of_not_named X c.1 x hX hnx (hnot c hc hd)))
    have hk := (loop_locals_env g _ st h0 x hx).2
    simp only [hr, Bool.false_eq_true, if_false] at hk
    rw [henv2]
    exact List.mem_filter.mpr ⟨hxR, hk⟩
  have hdupTP := all_cmds_dup_not_path g m nx st.didvar st.ps1 hp1
  -- the flags of the second run
  have cnt2 : ∀ X : Str, '=' ∉ X → ∀ e ∈ R, Named X e → e ∉ st2.env →
      ¬ 1 ≤ count_named X st2.env := by
    intro X hX e he hne hout hc
    obtain ⟨x, hx, hnx⟩ := (count_named_pos_iff X _).mp hc
    have := unique_named_eq R hRu hReq X hX x e (hA x hx) he hnx hne
    exact hout (this ▸ hx)
  have hT : ISSET st2.didvar DID_TERM = false → ISSET st.didvar DID_TERM = false := by
    intro hb
    cases hb1 : ISSET st.didvar DID_TERM with
    | false => rfl
    | true =>
      rw [hfl.1, decide_eq_true_eq] at hb1
      obtain ⟨x, hx, hnx⟩ := (count_named_pos_iff _ _).mp hb1
      have hx2 := F _ (by decide) hdupTP.2 x hx hnx
      have : 1 ≤ count_named "TERM".toList st2.env :=
        (count_named_pos_iff _ _).mpr ⟨x, hx2, hnx⟩
      rw [hfl2.1, decide_eq_false_iff_not] at hb
      exact absurd this hb
  have hP : secure_active g = false → ISSET st2.didvar DID_PATH = false →
      ISSET st.didvar DID_PATH = false := by
    intro hsec hb
    cases hb1 : ISSET st.didvar DID_PATH with
    | false => rfl
    | true =>
      rw [hfl.2, decide_eq_true_eq] at hb1
      obtain ⟨x, hx, hnx⟩ := (count_named_pos_iff _ _).mp hb1
      have hx2 := F _ (by decide) (hdupTP.1 hsec) x hx hnx
      have : 1 ≤ count_named "PATH".toList st2.env :=
        (count_named_pos_iff _ _).mpr ⟨x, hx2, hnx⟩
      rw [hfl2.2, decide_eq_false_iff_not] at hb
      exact absurd this hb
  -- the prompt string of the second run
  have hqb : ∀ q, st.ps1 = some q → st2.ps1 = some q := by
    intro q hq
    obtain ⟨ep, hep, rfl, hcond⟩ := loop_locals_ps1 g _ st h0 q hq
    simp only [hr, Bool.false_eq_true, if_false] at hcond
    have hn : Named "SUDO_PS1".toList ep :=
      (strncmp_named "SUDO_PS1".toList ep).mp (by simpa using hcond.2)
    have hin : ep ∈ st.env := by
      rw [henv]
      exact List.mem_filter.mpr ⟨hep, by simp [filter_keeps, hcond.1]⟩
    have hin2 := F _ (by decide)
      (fun c hc _ => all_cmds_not_sudo_ps1 g m nx _ _ hp1 c hc) ep hin hn
    rw [hfold2]
    exact ps1_fold_of_unique _ ep hin2 hn
      (fun y hy hny => unique_named_eq R hRu hReq _ (by decide) y ep (hA y hy) (hA ep hin2)
        hny hn) none
  have hqa : ∀ q, st2.ps1 = some q → st.ps1 = some q := by
    intro q hq
    obtain ⟨ep, hep, rfl, hcond⟩ := loop_locals_ps1 g _ st2 h02 q hq
    simp only [hr, Bool.false_eq_true, if_false] at hcond
    have hn : Named "SUDO_PS1".toList ep :=
      (strncmp_named "SUDO_PS1".toList ep).mp (by simpa using hcond.2)
    have hin : ep ∈ st.env := by
      rcases horig ep hep with ⟨hs, hk⟩ | ⟨c, hc, rfl⟩
      · rw [henv]
        exact List.mem_filter.mpr ⟨hs, hk⟩
      · exact absurd hn (all_cmds_not_sudo_ps1 g m nx _ _ hp1 c hc)
    have hsub : ∀ y ∈ st.env, y ∈ sources envp1 envp2 := by
      intro y hy
      rw [henv] at hy
      exact (List.mem_filter.mp hy).1
    rw [hfold]
    exact ps1_fold_of_unique _ ep hin hn
      (fun y hy hny => unique_named_eq _ huniq hsrc _ (by decide) y ep (hsub y hy)
        (hsub ep hin) hny hn) none
  refine run_same_set _ st2.env R R2 hRu hReq hA ?_ ?_ hrun2
  · intro c hc
    refine hstays c ?_
    rw [all_cmds_filter_mem_iff g m nx _ _ hr] at hc ⊢
    rcases hc with h | h | h | ⟨hb, h⟩ | ⟨hb, h⟩ | h | h | h
    · exact Or.inl h
    · exact Or.inr (Or.inl h)
    · exact Or.inr (Or.inr (Or.inl h))
    · refine Or.inr (Or.inr (Or.inr (Or.inl ⟨?_, h⟩)))
      rw [secure_didvar_term] at hb ⊢
      exact hT hb
    · refine Or.inr (Or.inr (Or.inr (Or.inr (Or.inl ⟨?_, h⟩))))
      rw [secure_didvar_path, Bool.or_eq_false_iff] at hb ⊢
      exact ⟨hP hb.2 hb.1, hb.2⟩
    · exact Or.inr (Or.inr (Or.inr (Or.inr (Or.inr (Or.inl h)))))
    · obtain ⟨q, hq, rfl⟩ := ps1_cmds_mem _ c h
      refine Or.inr (Or.inr (Or.inr (Or.inr (Or.inr (Or.inr (Or.inl ?_))))))
      simp [ps1_cmds, hqa q hq]
    · exact Or.inr (Or.inr (Or.inr (Or.inr (Or.inr (Or.inr (Or.inr h))))))
  · intro e he
    by_cases hin : e ∈ st2.env
    · exact Or.inl hin
    right
    rcases horig e he with ⟨-, hk⟩ | ⟨c, hc, rfl⟩
    · exact absurd (by rw [henv2]; exact List.mem_filter.mpr ⟨he, hk⟩) hin
    refine ⟨c, ?_, rfl⟩
    rw [all_cmds_filter_mem_iff g m nx _ _ hr] at hc ⊢
    rcases hc with h | h | h | ⟨hb, h⟩ | ⟨hb, h⟩ | h | h | h
    · exact Or.inl h
    · exact Or.inr (Or.inl h)
    · exact Or.inr (Or.inr (Or.inl h))
    · refine Or.inr (Or.inr (Or.inr (Or.inl ⟨?_, h⟩)))
      rw [secure_didvar_term, hfl2.1, decide_eq_false_iff_not]
      exact cnt2 _ (by decide) c.1 he (by rw [h]; exact ⟨"unknown".toList, rfl⟩) hin
    · refine Or.inr (Or.inr (Or.inr (Or.inr (Or.inl ⟨?_, h⟩))))
      rw [secure_didvar_path, Bool.or_eq_false_iff] at hb ⊢
      refine ⟨?_, hb.2⟩
      rw [hfl2.2, decide_eq_false_iff_not]
      exact cnt2 _ (by decide) c.1 he (by rw [h]; exact named_fmt_self _ _) hin
    · exact Or.inr (Or.inr (Or.inr (Or.inr (Or.inr (Or.inl h)))))
    · obtain ⟨q, hq, rfl⟩ := ps1_cmds_mem _ c h
      refine Or.inr (Or.inr (Or.inr (Or.inr (Or.inr (Or.inr (Or.inl ?_))))))
      simp [ps1_cmds, hqb q hq]
    · exact Or.inr (Or.inr (Or.inr (Or.inr (Or.inr (Or.inr (Or.inr h))))))

/-! ## clean_env on a sample vector -/

set_option maxRecDepth 100000 in
/-- The run of `clean_env` on the sample vector with `IFS` denied, for any
fuel of four iterations or more. -/
theorem clean_env_sample_run (k : Nat) :
    clean_env_strings 8 sample_heap (Ctx.ofLists ["IFS".toList] []) ⟨none, none, none, none⟩
      (k + 4) sample_vector = some (["A=1".toList, "A=1".toList], ["IFS=x".toList]) := by
  rfl

set_option maxRecDepth 100000 in
/-- The run of `clean_env` on the sample vector with `A` denied: after the
one byte moved into the second slot, the slot holds `0x7ffc5a3e1f00`, a pointer
to no string. -/
theorem clean_env_sample_last (k : Nat) :
    clean_env 8 sample_heap (Ctx.ofLists ["A".toList] []) ⟨none, none, none, none⟩
      (k + 3) sample_vector = none := by
  rfl

/-! ## The contract of insert_env -/

/-- The builder after the capacity test of `insert_env` (lines 264-267), for a
builder whose vector holds `l`, then `NULL`, then the slots `rest`: at least one
slot follows the `NULL`, and the slots of the old vector are unchanged. -/
theorem grown_vector (e : environment) (l : List Str) (rest : List Slot)
    (hv : e.envp = l.map Slot.ptr ++ Slot.null :: rest) (hlen : e.env_len = l.length)
    (hsize : e.env_size = e.envp.length) :
    ∃ r rest2 extra,
      (if e.env_len + 2 > e.env_size then
          { e with env_size := e.env_size + 128, envp := erealloc3 e.envp (e.env_size + 128) }
        else e) = ⟨l.map Slot.ptr ++ Slot.null :: r :: rest2,
          (l.map Slot.ptr ++ Slot.null :: r :: rest2).length, l.length⟩ ∧
      rest ++ extra = r :: rest2 := by
  obtain ⟨v, n, k⟩ := e
  simp only at hv hlen hsize
  subst hv hlen hsize
  cases rest with
  | nil =>
    refine ⟨Slot.uninit, List.replicate 127 Slot.uninit, List.replicate 128 Slot.uninit, ?_, ?_⟩
    · have h1 : l.length + 2 > (List.map Slot.ptr l ++ [Slot.null]).length := by simp
      dsimp only
      rw [if_pos h1]
      simp [erealloc3, List.replicate_succ]
    · simp [List.replicate_succ]
  | cons r rest =>
    refine ⟨r, rest, [], ?_, by simp⟩
    have h1 : ¬ l.length + 2 > (List.map Slot.ptr l ++ Slot.null :: r :: rest).length := by
      simp
    dsimp only
    rw [if_neg h1]

/-! ## The order of the pattern lists -/

theorem keep_loop_eq (l : List Str) (e : Str) (hl : ∀ p ∈ l, p ≠ []) :
    keep_loop l e = some (decide (∃ p ∈ l, EntryMatch p e)) := by
  induction l with
  | nil => simp [keep_loop]
  | cons p l ih =>
    simp only [keep_loop, pattern_test_eq_entryMatch p e (hl p (by simp))]
    by_cases hm : EntryMatch p e
    · simp [hm]
    · simp only [hm, decide_False, Bool.false_eq_true, if_false,
        ih (fun q hq => hl q (by simp [hq]))]
      simp [hm]

theorem exists_mem_perm {l l2 : List Str} (h : l.Perm l2) (P : Str → Prop) :
    (∃ p ∈ l, P p) ↔ ∃ p ∈ l2, P p := by
  constructor
  · rintro ⟨p, hp, hm⟩
    exact ⟨p, h.mem_iff.mp hp, hm⟩
  · rintro ⟨p, hp, hm⟩
    exact ⟨p, h.mem_iff.mpr hp, hm⟩

theorem prepend_table_eq (table list : List Str) :
    prepend_table table list = table.reverse ++ list := by
  unfold prepend_table
  induction table generalizing list with
  | nil => rfl
  | cons p table ih => simp [ih]

/-- The lists that `init_envtables` builds by prepending hold the entries of
the lists built by appending in declaration order. -/
theorem init_envtables_perm (b : build_config) (g : Ctx) :
    (init_envtables b g).def_env_delete.Perm (append_tables b g).def_env_delete ∧
    (init_envtables b g).def_env_check.Perm (append_tables b g).def_env_check ∧
    (init_envtables b g).def_env_keep.Perm (append_tables b g).def_env_keep := by
  simp only [init_envtables, append_tables, prepend_table_eq]
  exact ⟨(List.perm_append_comm).trans ((List.reverse_perm _).append_left _),
    (List.perm_append_comm).trans ((List.reverse_perm _).append_left _),
    (List.perm_append_comm).trans ((List.reverse_perm _).append_left _)⟩

/-! ## Insertions and the value a lookup finds -/

theorem getenv_replace_ne (n v n2 : Str) (l : List Str) (hn : '=' ∉ n) (hn2 : '=' ∉ n2)
    (hne : n ≠ n2) :
    getenv n2 (replace_or_append (fun x => decide (Named n x)) (n ++ '=' :: v) l) =
      getenv n2 l := by
  have hs : ¬ Named n2 (n ++ '=' :: v) := fun h => hne ((named_entry_iff n2 n v hn2 hn).mp h)
  induction l with
  | nil => simp [replace_or_append, getenv, hs]
  | cons a l ih =>
    by_cases h : Named n a
    · have h2 : ¬ Named n2 a := fun h2 => hne (named_unique n n2 a hn hn2 h h2)
      simp [replace_or_append, getenv, h, hs, h2]
    · by_cases h2 : Named n2 a
      · simp [replace_or_append, getenv, h, h2]
      · simp [replace_or_append, getenv, h, h2, ih]

theorem getenv_list_insert (n : Str) (hn : '=' ∉ n) (s : Str) (d : Bool) (l l2 : List Str)
    (h : list_insert s l d = some l2) : getenv n l2 = get_step n (getenv n l) (s, d) := by
  cases d with
  | false =>
    simp only [list_insert, Bool.false_eq_true, if_false, Option.some.injEq] at h
    rw [← h, getenv_append]
    by_cases hs : Named n s
    · simp [get_step, hs, getenv]
    · simp only [get_step, hs, if_false, getenv]
      cases getenv n l <;> rfl
  | true =>
    cases hc : strchr s '=' with
    | none => simp [list_insert, hc] at h
    | some i =>
      obtain ⟨n2, v, rfl, hn2⟩ := exists_entry_of_strchr s i hc
      rw [list_insert_dup n2 v l hn2] at h
      by_cases hl : l = []
      · simp [hl] at h
      · simp only [hl, if_false, Option.some.injEq] at h
        rw [← h]
        by_cases h2 : n2 = n
        · subst h2
          have hs2 : Named n2 (n2 ++ '=' :: v) := ⟨v, by simp⟩
          rw [getenv_replace_self]
          simp [get_step, hs2]
        · have hs2 : ¬ Named n (n2 ++ '=' :: v) :=
            fun h3 => h2 ((named_entry_iff n n2 v hn hn2).mp h3)
          rw [getenv_replace_ne n2 v n l hn2 hn h2]
          simp [get_step, hs2]

/-- The value a lookup finds after a run. -/
theorem getenv_run (n : Str) (hn : '=' ∉ n) (cs : List (Str × Bool)) (l l2 : List Str)
    (h : run cs l = some l2) : getenv n l2 = cs.foldl (get_step n) (getenv n l) := by
  induction cs generalizing l with
  | nil =>
    simp only [run, Option.some.injEq] at h
    rw [← h]; rfl
  | cons c cs ih =>
    simp only [run] at h
    cases h1 : list_insert c.1 l c.2 with
    | none => simp [h1] at h
    | some l1 =>
      simp only [h1, Option.some_bind] at h
      rw [ih l1 h, List.foldl_cons, getenv_list_insert n hn c.1 c.2 l l1 h1]

theorem SkipFor.get_foldl {n : Str} {cs : List (Str × Bool)} (h : SkipFor n cs)
    (o : Option Str) : cs.foldl (get_step n) o = o := by
  induction cs generalizing o with
  | nil => rfl
  | cons a cs ih =>
    have ha : ¬ Named n a.1 := h a (by simp)
    simp only [List.foldl_cons, get_step, ha, if_false]
    exact ih (fun x hx => h x (by simp [hx])) o

theorem get_foldl_some (n : Str) (cs : List (Str × Bool)) (v : Str) :
    ∃ w, cs.foldl (get_step n) (some v) = some w := by
  induction cs generalizing v with
  | nil => exact ⟨v, rfl⟩
  | cons a cs ih =>
    simp only [List.foldl_cons, get_step]
    by_cases ha : Named n a.1
    · cases hd : a.2 with
      | true => simpa [ha, hd] using ih _
      | false => simpa [ha, hd] using ih _
    · simpa [ha] using ih v

/-- Insertions made with `dupcheck` either settle the value found for `n` or
leave it as it was. -/
theorem get_foldl_dup (n : Str) (cs : List (Str × Bool)) (hd : ∀ c ∈ cs, c.2 = true)
    (o : Option Str) :
    cs.foldl (get_step n) o = (cs.foldl (get_step n) none).orElse fun _ => o := by
  induction cs generalizing o with
  | nil => rfl
  | cons a cs ih =>
    have hda := hd a (by simp)
    have hcs : ∀ c ∈ cs, c.2 = true := fun c hc => hd c (by simp [hc])
    simp only [List.foldl_cons, get_step, hda, if_true]
    by_cases ha : Named n a.1
    · simp only [ha, if_true]
      obtain ⟨w, hw⟩ := get_foldl_some n cs (a.1.drop (n.length + 1))
      rw [hw]
      rfl
    · simp only [ha, if_false]
      exact ih hcs o

theorem get_foldl_guarded (n s : Str) (b : Bool) (o : Option Str) (hs : Named n s) :
    (if b = true then [(s, false)] else []).foldl (get_step n) o =
      if b = true then o.orElse (fun _ => some (s.drop (n.length + 1))) else o := by
  cases b with
  | false => rfl
  | true => simp [get_step, hs]

theorem getenv_isSome_iff (n : Str) (l : List Str) :
    (getenv n l).isSome = decide (1 ≤ count_named n l) := by
  induction l with
  | nil => simp [getenv, count_named]
  | cons a l ih =>
    rw [count_named_cons]
    by_cases h : Named n a
    · simp [getenv, h]
    · simp [getenv, h, ih]

/-- The value found is that of an entry of the list. -/
theorem getenv_mem (n : Str) (l : List Str) (v : Str) (h : getenv n l = some v) :
    n ++ '=' :: v ∈ l := by
  induction l with
  | nil => simp [getenv] at h
  | cons a l ih =>
    by_cases ha : Named n a
    · simp only [getenv, ha, if_true, Option.some.injEq] at h
      obtain ⟨t, rfl⟩ := ha
      have : v = t := by simpa using h.symm
      subst this
      simp
    · simp only [getenv, ha, if_false] at h
      exact List.mem_cons_of_mem _ (ih h)

/-- In a list without shared names, a lookup finds the value of the entry of
that name. -/
theorem getenv_of_mem_unique (l : List Str) (hu : UniqueNames l) (hl : ∀ e ∈ l, '=' ∈ e)
    (n v : Str) (hn : '=' ∉ n) (h : n ++ '=' :: v ∈ l) : getenv n l = some v := by
  have hnamed : Named n (n ++ '=' :: v) := ⟨v, by simp⟩
  have hpos : (getenv n l).isSome = true := by
    rw [getenv_isSome_iff, decide_eq_true_eq, count_named_pos_iff]
    exact ⟨_, h, hnamed⟩
  obtain ⟨w, hw⟩ := Option.isSome_iff_exists.mp hpos
  have hmem := getenv_mem n l w hw
  have := unique_named_eq l hu hl n hn _ _ hmem h ⟨w, by simp⟩ hnamed
  have hwv : w = v := by simpa using this
  rw [hw, hwv]

/-- Two lists without shared names in which every lookup finds the same value
hold the same strings. -/
theorem same_strings_of_getenv (l1 l2 : List Str) (hu1 : UniqueNames l1)
    (hu2 : UniqueNames l2) (h1 : ∀ e ∈ l1, '=' ∈ e) (h2 : ∀ e ∈ l2, '=' ∈ e)
    (h : ∀ n, '=' ∉ n → getenv n l1 = getenv n l2) : ∀ e, e ∈ l1 ↔ e ∈ l2 := by
  intro e
  constructor
  · intro he
    obtain ⟨n, v, rfl, hn⟩ := exists_entry_of_mem e (h1 e he)
    have := getenv_of_mem_unique l1 hu1 h1 n v hn he
    rw [h n hn] at this
    exact getenv_mem n l2 v this
  · intro he
    obtain ⟨n, v, rfl, hn⟩ := exists_entry_of_mem e (h2 e he)
    have := getenv_of_mem_unique l2 hu2 h2 n v hn he
    rw [← h n hn] at this
    exact getenv_mem n l1 v this

/-- In a list without shared names, the value found among the entries that
`f` accepts is the value found in the list, when `f` accepts its entry. -/
theorem getenv_filter_unique (l : List Str) (hu : UniqueNames l) (hl : ∀ e ∈ l, '=' ∈ e)
    (f : Str → Bool) (n : Str) (hn : '=' ∉ n) :
    getenv n (l.filter f) =
      match getenv n l with
      | some v => if f (n ++ '=' :: v) = true then some v else none
      | none => none := by
  have hsub : ∀ e ∈ l.filter f, e ∈ l := fun e he => (List.mem_filter.mp he).1
  cases h : getenv n l with
  | none =>
    cases h2 : getenv n (l.filter f) with
    | none => rfl
    | some w =>
      have hm := hsub _ (getenv_mem n _ w h2)
      rw [getenv_of_mem_unique l hu hl n w hn hm] at h
      cases h
  | some v =>
    have hm := getenv_mem n l v h
    by_cases hf : f (n ++ '=' :: v) = true
    · simp only [hf, if_true]
      have hu2 : UniqueNames (l.filter f) := by
        unfold UniqueNames at hu ⊢
        exact hu.sublist ((List.filter_sublist l).map name_of)
      exact getenv_of_mem_unique _ hu2 (fun e he => hl e (hsub e he)) n v hn
        (List.mem_filter.mpr ⟨hm, hf⟩)
    · simp only [hf, if_false]
      cases h2 : getenv n (l.filter f) with
      | none => rfl
      | some w =>
        have hm2 := getenv_mem n _ w h2
        have hw : getenv n l = some w := getenv_of_mem_unique l hu hl n w hn (hsub _ hm2)
        rw [h] at hw
        cases hw
        exact absurd (List.mem_filter.mp hm2).2 hf

/-! ## The value found after the insertions of reset mode -/

theorem guard_orElse (o : Option Str) (b : Bool) (hb : b = o.isSome) (v : Str) :
    (if (!b) = true then o.orElse (fun _ => some v) else o) = o.orElse (fun _ => some v) := by
  subst hb
  cases o <;> rfl

theorem dup_cmds_dup (g : Ctx) (m : sudo_mode_t) (nx : Bool) (p : Option Str) :
    ∀ c ∈ dup_cmds g m nx p, c.2 = true := by
  intro c hc
  simp only [dup_cmds, List.mem_append] at hc
  rcases hc with h | h | h | h | h | h
  · exact secure_cmds_dup g c h
  · exact logname_cmds_dup g c h
  · exact home_cmds_dup g m c h
  · exact noexec_cmds_dup g nx c h
  · exact ps1_cmds_dup p c h
  · exact sudo_cmds_dup g c h

theorem getenv_default_entries (g : Ctx) :
    getenv "HOME".toList (default_entries g) = some g.user_dir ∧
    getenv "SHELL".toList (default_entries g) = some g.sudo_user_pw_shell ∧
    getenv "LOGNAME".toList (default_entries g) = some g.user_name ∧
    getenv "USER".toList (default_entries g) = some g.user_name ∧
    getenv "TERM".toList (default_entries g) = some "unknown".toList ∧
    getenv "PATH".toList (default_entries g) = some g.PATH_DEFPATH := by
  have nn : ∀ X Y : Str, '=' ∉ X → '=' ∉ Y → Y ≠ X → ∀ a, ¬ Named X (fmt Y a) :=
    fun X Y hX hY hne a => not_named_fmt X Y a hX hY hne
  have nt : ∀ X : Str, '=' ∉ X → "TERM".toList ≠ X → ¬ Named X "TERM=unknown".toList :=
    fun X hX hne => not_named_var X "TERM".toList "unknown".toList hX (by decide) hne
  have dr : ∀ (X w : Str), (fmt X [some w]).drop (X.length + 1) = w := by
    intro X w
    rw [fmt_one]
    have : X ++ '=' :: w = (X ++ ['=']) ++ w := by simp
    rw [this, List.drop_left' (by simp)]
  refine ⟨?_, ?_, ?_, ?_, ?_, ?_⟩
  · simp only [default_entries, getenv, named_fmt_self, if_true, dr]
  · simp only [default_entries, getenv, named_fmt_self, if_true, dr,
      nn "SHELL".toList "HOME".toList (by decide) (by decide) (by decide), if_false]
  · simp only [default_entries, getenv, named_fmt_self, if_true, dr,
      nn "LOGNAME".toList "HOME".toList (by decide) (by decide) (by decide),
      nn "LOGNAME".toList "SHELL".toList (by decide) (by decide) (by decide), if_false]
  · simp only [default_entries, getenv, named_fmt_self, if_true, dr,
      nn "USER".toList "HOME".toList (by decide) (by decide) (by decide),
      nn "USER".toList "SHELL".toList (by decide) (by decide) (by decide),
      nn "USER".toList "LOGNAME".toList (by decide) (by decide) (by decide), if_false]
  · have ht : Named "TERM".toList "TERM=unknown".toList := ⟨"unknown".toList, rfl⟩
    simp only [default_entries, getenv, ht, if_true,
      nn "TERM".toList "HOME".toList (by decide) (by decide) (by decide),
      nn "TERM".toList "SHELL".toList (by decide) (by decide) (by decide),
      nn "TERM".toList "LOGNAME".toList (by decide) (by decide) (by decide),
      nn "TERM".toList "USER".toList (by decide) (by decide) (by decide), if_false]
    rfl
  · simp only [default_entries, getenv, named_fmt_self, if_true, dr,
      nn "PATH".toList "HOME".toList (by decide) (by decide) (by decide),
      nn "PATH".toList "SHELL".toList (by decide) (by decide) (by decide),
      nn "PATH".toList "LOGNAME".toList (by decide) (by decide) (by decide),
      nn "PATH".toList "USER".toList (by decide) (by decide) (by decide),
      nt "PATH".toList (by decide) (by decide), if_false]

theorem getenv_default_entries_none (g : Ctx) (n : Str) (hn : '=' ∉ n) (h : n ∉ six_names) :
    getenv n (default_entries g) = none := by
  cases hg : getenv n (default_entries g) with
  | none => rfl
  | some v =>
    exfalso
    have hm := getenv_mem n _ v hg
    have hnamed : Named n (n ++ '=' :: v) := ⟨v, by simp⟩
    simp only [default_entries, List.mem_cons, List.mem_singleton, List.not_mem_nil,
      or_false] at hm
    have key : ∀ X : Str, X ∈ six_names → ∀ s, Named X s → n ++ '=' :: v = s → False := by
      intro X hX s hs heq
      rw [← heq] at hs
      exact h ((named_unique X n _ (six_names_no_eq X hX) hn hs hnamed) ▸ hX)
    rcases hm with e | e | e | e | e | e
    · exact key "HOME".toList (by decide) _ (named_fmt_self _ _) e
    · exact key "SHELL".toList (by decide) _ (named_fmt_self _ _) e
    · exact key "LOGNAME".toList (by decide) _ (named_fmt_self _ _) e
    · exact key "USER".toList (by decide) _ (named_fmt_self _ _) e
    · exact key "TERM".toList (by decide) _ ⟨"unknown".toList, rfl⟩ e
    · exact key "PATH".toList (by decide) _ (named_fmt_self _ _) e

theorem orElse_none_left (f : Unit → Option Str) : (none : Option Str).orElse f = f () := rfl

/-- In reset mode without the login-shell flag: the value found for `n` after
the insertions is the one settled by an insertion with `dupcheck`, else the one
found before, else the default of the name. -/
theorem reset_user_get_fold (g : Ctx) (m : sudo_mode_t) (nx : Bool) (d : Nat) (p : Option Str)
    (hr : g.def_env_reset = true) (hl : m.login_shell = false) (n : Str) (hn : '=' ∉ n)
    (o : Option Str) (hp : ∀ q, p = some q → "PS1".toList <+: q)
    (hflag : ∀ k, (n, k) ∈ flag_table → ISSET d (2 ^ k) = o.isSome) :
    (all_cmds g m nx d p).foldl (get_step n) o =
      ((dup_cmds g m nx p).foldl (get_step n) none).orElse fun _ =>
        o.orElse fun _ => getenv n (default_entries g) := by
  obtain ⟨dH, dS, dL, dU, dT, dP⟩ := getenv_default_entries g
  have dr : ∀ (X w : Str), (fmt X [some w]).drop (X.length + 1) = w := by
    intro X w
    rw [fmt_one]
    have : X ++ '=' :: w = (X ++ ['=']) ++ w := by simp
    rw [this, List.drop_left' (by simp)]
  rw [all_cmds_reset_user g m nx d p hr hl]
  by_cases hsix : n ∈ six_names
  · simp only [six_names, List.mem_cons, List.mem_singleton, List.not_mem_nil, or_false] at hsix
    rcases hsix with rfl | rfl | rfl | rfl | rfl | rfl
    · -- HOME
      have hf : ISSET d DID_HOME = o.isSome := by
        rw [DID_HOME_eq]; exact hflag 2 (by decide)
      rw [List.foldl_append,
        get_foldl_guarded "HOME".toList (fmt "HOME".toList [some g.user_dir]) _ _
          (named_fmt_self _ _), guard_orElse o _ hf, List.foldl_append,
        (skip_guarded_fmt _ _ _ _ (by decide) (by decide) (by decide)).get_foldl,
        List.foldl_append,
        (skip_guarded_fmt _ _ _ _ (by decide) (by decide) (by decide)).get_foldl,
        List.foldl_append,
        (skip_guarded_fmt _ _ _ _ (by decide) (by decide) (by decide)).get_foldl,
        List.foldl_append, (skip_secure g _ (by decide) (by decide)).get_foldl,
        List.foldl_append,
        (skip_logname g _ (by decide) (by decide) (by decide)).get_foldl, List.foldl_append,
        List.foldl_append,
        (skip_guarded_term _ _ (by decide) (by decide)).get_foldl (List.foldl _ _ _),
        List.foldl_append,
        (skip_guarded_fmt _ _ _ _ (by decide) (by decide) (by decide)).get_foldl,
        (skip_last g nx p _ (by decide) hp (by decide) (by decide) (by decide)).get_foldl,
        get_foldl_dup _ _ (home_cmds_dup g m), dr, dH]
      simp only [dup_cmds, List.foldl_append]
      rw [(skip_secure g _ (by decide) (by decide)).get_foldl,
        (skip_logname g _ (by decide) (by decide) (by decide)).get_foldl,
        ← List.foldl_append, ← List.foldl_append,
        (skip_last g nx p _ (by decide) hp (by decide) (by decide) (by decide)).get_foldl]
    · -- SHELL
      have hf : ISSET d DID_SHELL = o.isSome := by
        rw [DID_SHELL_eq]; exact hflag 3 (by decide)
      rw [List.foldl_append, (skip_guarded_fmt _ _ _ _ (by decide) (by decide) (by decide)).get_foldl, List.foldl_append,
        get_foldl_guarded "SHELL".toList (fmt "SHELL".toList [some g.sudo_user_pw_shell]) _ _
          (named_fmt_self _ _), guard_orElse o _ hf,
        List.foldl_append, (skip_guarded_fmt _ _ _ _ (by decide) (by decide) (by decide)).get_foldl, List.foldl_append, (skip_guarded_fmt _ _ _ _ (by decide) (by decide) (by decide)).get_foldl,
        List.foldl_append, (skip_secure g _ (by decide) (by decide)).get_foldl,
        List.foldl_append,
        (skip_logname g _ (by decide) (by decide) (by decide)).get_foldl, List.foldl_append,
        (skip_home g m _ (by decide) (by decide)).get_foldl, List.foldl_append,
        (skip_guarded_term _ _ (by decide) (by decide)).get_foldl,
        List.foldl_append, (skip_guarded_fmt _ _ _ _ (by decide) (by decide) (by decide)).get_foldl,
        (skip_last g nx p _ (by decide) hp (by decide) (by decide) (by decide)).get_foldl,
        dr, dS]
      simp only [dup_cmds, List.foldl_append]
      rw [(skip_secure g _ (by decide) (by decide)).get_foldl,
        (skip_logname g _ (by decide) (by decide) (by decide)).get_foldl,
        (skip_home g m _ (by decide) (by decide)).get_foldl,
        ← List.foldl_append, ← List.foldl_append,
        (skip_last g nx p _ (by decide) hp (by decide) (by decide) (by decide)).get_foldl,
        orElse_none_left]
    · -- LOGNAME
      have hf : ISSET d DID_LOGNAME = o.isSome := by
        rw [DID_LOGNAME_eq]; exact hflag 4 (by decide)
      rw [List.foldl_append, (skip_guarded_fmt _ _ _ _ (by decide) (by decide) (by decide)).get_foldl, List.foldl_append, (skip_guarded_fmt _ _ _ _ (by decide) (by decide) (by decide)).get_foldl, List.foldl_append,
        get_foldl_guarded "LOGNAME".toList (fmt "LOGNAME".toList [some g.user_name]) _ _
          (named_fmt_self _ _), guard_orElse o _ hf,
        List.foldl_append, (skip_guarded_fmt _ _ _ _ (by decide) (by decide) (by decide)).get_foldl,
        List.foldl_append, (skip_secure g _ (by decide) (by decide)).get_foldl,
        List.foldl_append, List.foldl_append,
        (skip_home g m _ (by decide) (by decide)).get_foldl (List.foldl _ _ _),
        List.foldl_append,
        (skip_guarded_term _ _ (by decide) (by decide)).get_foldl,
        List.foldl_append, (skip_guarded_fmt _ _ _ _ (by decide) (by decide) (by decide)).get_foldl,
        (skip_last g nx p _ (by decide) hp (by decide) (by decide) (by decide)).get_foldl,
        get_foldl_dup _ _ (logname_cmds_dup g), dr, dL]
      simp only [dup_cmds, List.foldl_append]
      rw [(skip_secure g _ (by decide) (by decide)).get_foldl,
        (skip_home g m _ (by decide) (by decide)).get_foldl,
        ← List.foldl_append, ← List.foldl_append,
        (skip_last g nx p _ (by decide) hp (by decide) (by decide) (by decide)).get_foldl]
    · -- USER
      have hf : ISSET d DID_USER = o.isSome := by
        rw [DID_USER_eq]; exact hflag 5 (by decide)
      rw [List.foldl_append, (skip_guarded_fmt _ _ _ _ (by decide) (by decide) (by decide)).get_foldl, List.foldl_append, (skip_guarded_fmt _ _ _ _ (by decide) (by decide) (by decide)).get_foldl, List.foldl_append, (skip_guarded_fmt _ _ _ _ (by decide) (by decide) (by decide)).get_foldl,
        List.foldl_append,
        get_foldl_guarded "USER".toList (fmt "USER".toList [some g.user_name]) _ _
          (named_fmt_self _ _), guard_orElse o _ hf,
        List.foldl_append, (skip_secure g _ (by decide) (by decide)).get_foldl,
        List.foldl_append, List.foldl_append,
        (skip_home g m _ (by decide) (by decide)).get_foldl (List.foldl _ _ _),
        List.foldl_append,
        (skip_guarded_term _ _ (by decide) (by decide)).get_foldl,
        List.foldl_append, (skip_guarded_fmt _ _ _ _ (by decide) (by decide) (by decide)).get_foldl,
        (skip_last g nx p _ (by decide) hp (by decide) (by decide) (by decide)).get_foldl,
        get_foldl_dup _ _ (logname_cmds_dup g), dr, dU]
      simp only [dup_cmds, List.foldl_append]
      rw [(skip_secure g _ (by decide) (by decide)).get_foldl,
        (skip_home g m _ (by decide) (by decide)).get_foldl,
        ← List.foldl_append, ← List.foldl_append,
        (skip_last g nx p _ (by decide) hp (by decide) (by decide) (by decide)).get_foldl]
    · -- TERM
      have hf : ISSET d DID_TERM = o.isSome := by
        rw [DID_TERM_eq]; exact hflag 0 (by decide)
      have hdrop : ("TERM=unknown".toList).drop ("TERM".toList.length + 1) = "unknown".toList :=
        rfl
      rw [secure_didvar_term, List.foldl_append, (skip_guarded_fmt _ _ _ _ (by decide) (by decide) (by decide)).get_foldl, List.foldl_append, (skip_guarded_fmt _ _ _ _ (by decide) (by decide) (by decide)).get_foldl,
        List.foldl_append, (skip_guarded_fmt _ _ _ _ (by decide) (by decide) (by decide)).get_foldl, List.foldl_append, (skip_guarded_fmt _ _ _ _ (by decide) (by decide) (by decide)).get_foldl,
        List.foldl_append, (skip_secure g _ (by decide) (by decide)).get_foldl,
        List.foldl_append,
        (skip_logname g _ (by decide) (by decide) (by decide)).get_foldl, List.foldl_append,
        (skip_home g m _ (by decide) (by decide)).get_foldl, List.foldl_append,
        get_foldl_guarded "TERM".toList "TERM=unknown".toList _ _ ⟨"unknown".toList, rfl⟩,
        guard_orElse o _ hf, List.foldl_append, (skip_guarded_fmt _ _ _ _ (by decide) (by decide) (by decide)).get_foldl,
        (skip_last g nx p _ (by decide) hp (by decide) (by decide) (by decide)).get_foldl,
        hdrop, dT]
      simp only [dup_cmds, List.foldl_append]
      rw [(skip_secure g _ (by decide) (by decide)).get_foldl,
        (skip_logname g _ (by decide) (by decide) (by decide)).get_foldl,
        (skip_home g m _ (by decide) (by decide)).get_foldl,
        ← List.foldl_append, ← List.foldl_append,
        (skip_last g nx p _ (by decide) hp (by decide) (by decide) (by decide)).get_foldl,
        orElse_none_left]
    · -- PATH
      have hf : ISSET d DID_PATH = o.isSome := by
        rw [DID_PATH_eq]; exact hflag 1 (by decide)
      have hD : (dup_cmds g m nx p).foldl (get_step "PATH".toList) none =
          (secure_cmds g).foldl (get_step "PATH".toList) none := by
        simp only [dup_cmds, List.foldl_append]
        rw [(skip_logname g _ (by decide) (by decide) (by decide)).get_foldl,
          (skip_home g m _ (by decide) (by decide)).get_foldl,
          ← List.foldl_append, ← List.foldl_append,
          (skip_last g nx p _ (by decide) hp (by decide) (by decide) (by decide)).get_foldl]
      rw [hD, List.foldl_append, (skip_guarded_fmt _ _ _ _ (by decide) (by decide) (by decide)).get_foldl, List.foldl_append, (skip_guarded_fmt _ _ _ _ (by decide) (by decide) (by decide)).get_foldl,
        List.foldl_append, (skip_guarded_fmt _ _ _ _ (by decide) (by decide) (by decide)).get_foldl, List.foldl_append, (skip_guarded_fmt _ _ _ _ (by decide) (by decide) (by decide)).get_foldl,
        List.foldl_append, List.foldl_append,
        (skip_logname g _ (by decide) (by decide) (by decide)).get_foldl (List.foldl _ _ _),
        List.foldl_append,
        (skip_home g m _ (by decide) (by decide)).get_foldl, List.foldl_append,
        (skip_guarded_term _ _ (by decide) (by decide)).get_foldl, List.foldl_append,
        (skip_last g nx p _ (by decide) hp (by decide) (by decide) (by decide)).get_foldl,
        get_foldl_guarded "PATH".toList (fmt "PATH".toList [some g.PATH_DEFPATH]) _ _
          (named_fmt_self _ _), dr, dP, secure_didvar_path]
      cases hact : secure_active g with
      | true =>
        have hsome : ∃ v, ∀ x, (secure_cmds g).foldl (get_step "PATH".toList) x = some v := by
          unfold secure_active at hact
          unfold secure_cmds
          cases hs : g.def_secure_path with
          | none => simp [hs] at hact
          | some sp =>
            simp only [hs, Option.isSome_some, Bool.true_and] at hact
            refine ⟨sp, fun x => ?_⟩
            simp only [hact, if_true, List.foldl_cons, List.foldl_nil, get_step,
              named_fmt_self, dr]
        obtain ⟨v, hv⟩ := hsome
        simp only [hv, Bool.or_true, Bool.not_true, Bool.false_eq_true, if_false]
        rfl
      | false =>
        rw [secure_cmds_of_inactive g hact]
        simp only [List.foldl_nil, Bool.or_false]
        rw [guard_orElse o _ hf, orElse_none_left]
  · have hne : ∀ X ∈ six_names, X ≠ n := fun X hX e => hsix (e ▸ hX)
    have hnone := getenv_default_entries_none g n hn hsix
    rw [List.foldl_append,
      (skip_guarded_fmt _ _ _ _ hn (by decide) (hne _ (by decide))).get_foldl,
      List.foldl_append,
      (skip_guarded_fmt _ _ _ _ hn (by decide) (hne _ (by decide))).get_foldl,
      List.foldl_append,
      (skip_guarded_fmt _ _ _ _ hn (by decide) (hne _ (by decide))).get_foldl,
      List.foldl_append,
      (skip_guarded_fmt _ _ _ _ hn (by decide) (hne _ (by decide))).get_foldl,
      List.foldl_append, List.foldl_append, List.foldl_append, List.foldl_append,
      (skip_guarded_term _ _ hn (hne _ (by decide))).get_foldl (List.foldl _ _ _),
      List.foldl_append,
      (skip_guarded_fmt _ _ _ _ hn (by decide) (hne _ (by decide))).get_foldl, hnone,
      ← get_foldl_dup _ _ (dup_cmds_dup g m nx p)]
    have ho : (o.orElse fun _ => (none : Option Str)) = o := by cases o <;> rfl
    rw [ho]
    simp only [dup_cmds, List.foldl_append]

/-! ## The prompt string left by the reset-mode loop -/

theorem captured_starts_ps1 (e : Str)
    (h : (!is_bash_function e && strncmp e "SUDO_PS1=".toList 8 == 0) = true) :
    "SUDO_PS1".toList <+: e := by
  simp only [Bool.and_eq_true, beq_iff_eq] at h
  exact strncmp_sudo_ps1 e h.2

theorem reset_ps1_skip (e : Str) (p0 : Option Str) (h : ¬ "SUDO_PS1".toList <+: e) :
    (if (!is_bash_function e && strncmp e "SUDO_PS1=".toList 8 == 0) = true
      then some (e.drop 5) else p0) = p0 := by
  have : ¬ (!is_bash_function e && strncmp e "SUDO_PS1=".toList 8 == 0) = true :=
    fun hc => h (captured_starts_ps1 e hc)
  rw [if_neg this]

/-- The reset-mode loop takes the same prompt string from the kept entries as
from all entries, when it keeps every entry it takes a prompt string from. -/
theorem reset_ps1_filter (g : Ctx) (v : List Str) (p0 : Option Str)
    (h : ∀ e ∈ v, strncmp e "SUDO_PS1=".toList 8 = 0 →
      is_bash_function e = true ∨ reset_keeps g e = true) :
    reset_ps1 (v.filter (reset_keeps g)) p0 = reset_ps1 v p0 := by
  induction v generalizing p0 with
  | nil => rfl
  | cons e v ih =>
    have ih2 := fun q => ih q (fun x hx => h x (by simp [hx]))
    by_cases hk : reset_keeps g e = true
    · simp only [List.filter_cons, hk, if_true, reset_ps1, List.foldl_cons]
      exact ih2 _
    · simp only [List.filter_cons, hk, Bool.false_eq_true, if_false]
      rw [ih2 p0]
      simp only [reset_ps1, List.foldl_cons]
      by_cases hc : (!is_bash_function e && strncmp e "SUDO_PS1=".toList 8 == 0) = true
      · exfalso
        simp only [Bool.and_eq_true, Bool.not_eq_true', beq_iff_eq] at hc
        rcases h e (by simp) hc.2 with h1 | h1
        · rw [hc.1] at h1
          cases h1
        · exact hk h1
      · rw [if_neg hc]

theorem reset_ps1_append (l : List Str) (s : Str) (p0 : Option Str)
    (hs : ¬ "SUDO_PS1".toList <+: s) : reset_ps1 (l ++ [s]) p0 = reset_ps1 l p0 := by
  simp only [reset_ps1, List.foldl_append, List.foldl_cons, List.foldl_nil]
  exact reset_ps1_skip s _ hs

theorem reset_ps1_replace (n v : Str) (l : List Str) (p0 : Option Str)
    (hs : ¬ "SUDO_PS1".toList <+: n ++ '=' :: v) :
    reset_ps1 (replace_or_append (fun x => decide (Named n x)) (n ++ '=' :: v) l) p0 =
      reset_ps1 l p0 := by
  induction l generalizing p0 with
  | nil =>
    simp only [replace_or_append, reset_ps1, List.foldl_cons, List.foldl_nil]
    exact reset_ps1_skip _ _ hs
  | cons a l ih =>
    by_cases ha : Named n a
    · have hna : ¬ "SUDO_PS1".toList <+: a := by
        intro hpre
        rcases List.prefix_or_prefix_of_prefix hpre ha with h1 | h1
        · exact hs (h1.trans ⟨v, by simp⟩)
        · have : '=' ∈ "SUDO_PS1".toList := h1.subset (by simp)
          revert this
          decide
      simp only [replace_or_append, ha, decide_True, if_true, reset_ps1, List.foldl_cons]
      rw [reset_ps1_skip _ _ hs, reset_ps1_skip _ _ hna]
    · simp only [replace_or_append, ha, decide_False, Bool.false_eq_true, if_false, reset_ps1,
        List.foldl_cons]
      exact ih _

theorem reset_ps1_list_insert (s : Str) (d : Bool) (l l2 : List Str) (p0 : Option Str)
    (h : list_insert s l d = some l2) (hs : ¬ "SUDO_PS1".toList <+: s) :
    reset_ps1 l2 p0 = reset_ps1 l p0 := by
  cases d with
  | false =>
    simp only [list_insert, Bool.false_eq_true, if_false, Option.some.injEq] at h
    rw [← h]
    exact reset_ps1_append l s p0 hs
  | true =>
    cases hc : strchr s '=' with
    | none => simp [list_insert, hc] at h
    | some i =>
      obtain ⟨n, v, rfl, hn⟩ := exists_entry_of_strchr s i hc
      rw [list_insert_dup n v l hn] at h
      by_cases hl : l = []
      · simp [hl] at h
      · simp only [hl, if_false, Option.some.injEq] at h
        rw [← h]
        exact reset_ps1_replace n v l p0 hs

theorem reset_ps1_run (cs : List (Str × Bool)) (l l2 : List Str) (p0 : Option Str)
    (h : run cs l = some l2) (hcs : ∀ c ∈ cs, ¬ "SUDO_PS1".toList <+: c.1) :
    reset_ps1 l2 p0 = reset_ps1 l p0 := by
  induction cs generalizing l with
  | nil =>
    simp only [run, Option.some.injEq] at h
    rw [← h]
  | cons c cs ih =>
    simp only [run] at h
    cases h1 : list_insert c.1 l c.2 with
    | none => simp [h1] at h
    | some l1 =>
      simp only [h1, Option.some_bind] at h
      rw [ih l1 h (fun x hx => hcs x (by simp [hx])),
        reset_ps1_list_insert c.1 c.2 l l1 p0 h1 (hcs c (by simp))]

theorem no_prefix_lit (lit v : Str) (h1 : ¬ "SUDO_PS1".toList <+: lit)
    (h2 : ¬ lit <+: "SUDO_PS1".toList) : ¬ "SUDO_PS1".toList <+: lit ++ v := by
  intro h
  rcases List.prefix_or_prefix_of_prefix h (List.prefix_append lit v) with h3 | h3
  · exact h1 h3
  · exact h2 h3

/-- No string inserted after the loops starts with `SUDO_PS1`. -/
theorem all_cmds_not_ps1_start (g : Ctx) (m : sudo_mode_t) (nx : Bool) (d : Nat)
    (p : Option Str) (hp : ∀ q, p = some q → "PS1".toList <+: q) :
    ∀ c ∈ all_cmds g m nx d p, ¬ "SUDO_PS1".toList <+: c.1 := by
  refine all_cmds_cases g m nx d p (fun s => ¬ "SUDO_PS1".toList <+: s)
    ?_ ?_ ?_ ?_ ?_ ?_ ?_ ?_ ?_ ?_
  · intro _ _
    exact ⟨no_prefix_lit _ _ (by decide) (by decide), no_prefix_lit _ _ (by decide) (by decide),
      no_prefix_lit _ _ (by decide) (by decide), no_prefix_lit _ _ (by decide) (by decide)⟩
  · intro _ _
    exact ⟨fun _ => no_prefix_lit _ _ (by decide) (by decide),
      fun _ => no_prefix_lit _ _ (by decide) (by decide),
      fun _ => no_prefix_lit _ _ (by decide) (by decide),
      fun _ => no_prefix_lit _ _ (by decide) (by decide)⟩
  · intro _ _ _; exact no_prefix_lit _ _ (by decide) (by decide)
  · intro _ _ _
    exact ⟨no_prefix_lit _ _ (by decide) (by decide), no_prefix_lit _ _ (by decide) (by decide)⟩
  · intro _ _ _; exact no_prefix_lit _ _ (by decide) (by decide)
  · intro _; decide
  · intro _; exact no_prefix_lit _ _ (by decide) (by decide)
  · intro file _ _
    refine ⟨fun _ => ⟨no_prefix_lit _ _ (by decide) (by decide), by decide⟩, fun _ => ?_,
      fun _ => no_prefix_lit _ _ (by decide) (by decide)⟩
    rw [List.append_assoc]
    exact no_prefix_lit _ _ (by decide) (by decide)
  · intro q hq h
    rcases List.prefix_or_prefix_of_prefix h (hp q hq) with h3 | h3
    · revert h3; decide
    · revert h3; decide
  · refine ⟨?_, no_prefix_lit _ _ (by decide) (by decide),
      no_prefix_lit _ _ (by decide) (by decide), no_prefix_lit _ _ (by decide) (by decide)⟩
    obtain ⟨w, hw, -⟩ := sudo_command_eq g
    rw [hw]
    exact no_prefix_lit _ _ (by decide) (by decide)

/-! ## Running rebuild_env on its own result, reset mode -/

/-- The value a lookup finds in the result of reset mode without the
login-shell flag. -/
theorem reset_user_getenv (g : Ctx) (envp1 envp2 : Option (List Str)) (m : sudo_mode_t)
    (nx : Bool) (hr : g.def_env_reset = true) (hl : m.login_shell = false) (R : List Str)
    (h : rebuild_environ g envp1 envp2 m nx = some R) (n : Str) (hn : '=' ∉ n) :
    getenv n R =
      ((dup_cmds g m nx (reset_ps1 (sources envp1 envp2) none)).foldl (get_step n) none).orElse
        fun _ => (getenv n ((sources envp1 envp2).filter (reset_keeps g))).orElse
          fun _ => getenv n (default_entries g) := by
  obtain ⟨st, h0, hrun, -⟩ := rebuild_environ_origin g envp1 envp2 m nx R h
  obtain ⟨hst, -⟩ := loop_locals_reset g _ st hr h0
  have henv : st.env = (sources envp1 envp2).filter (reset_keeps g) := by
    rw [hst]; simp [reset_locals]
  have hps : st.ps1 = reset_ps1 (sources envp1 envp2) none := by
    rw [hst]; rfl
  have hp1 : ∀ q, st.ps1 = some q → "PS1".toList <+: q :=
    fun q hq => (ps1_plain g _ st h0 q hq).2
  have hflag := reset_flag_iff g _ st hr h0
  rw [getenv_run n hn _ _ _ hrun,
    reset_user_get_fold g m nx _ _ hr hl n hn _ hp1
      (fun k hk => by rw [hflag (n, k) hk, getenv_isSome_iff]),
    hps, henv]

/-- In reset mode without the login-shell flag, when every source entry
contains `=`, no two share a name and the loop keeps every entry it takes a
prompt string from, `rebuild_env` run on its own result returns the same
strings. -/
theorem reset_rerun_same (g : Ctx) (envp1 envp2 : Option (List Str)) (m : sudo_mode_t)
    (nx : Bool) (hr : g.def_env_reset = true) (hl : m.login_shell = false)
    (hsrc : ∀ e ∈ sources envp1 envp2, '=' ∈ e) (huniq : UniqueNames (sources envp1 envp2))
    (hps : ∀ e ∈ sources envp1 envp2, strncmp e "SUDO_PS1=".toList 8 = 0 →
      is_bash_function e = true ∨ reset_keeps g e = true)
    (R R2 : List Str) (h1 : rebuild_environ g envp1 envp2 m nx = some R)
    (h2 : rebuild_environ g (some R) none m nx = some R2) : ∀ e, e ∈ R2 ↔ e ∈ R := by
  have hsR : sources (some R) none = R := by simp [sources]
  have hReq := rebuild_environ_have_eq g envp1 envp2 m nx hsrc R h1
  have hRu := rebuild_environ_unique g envp1 envp2 m nx (Or.inr hl) hsrc huniq R h1
  have hReq2 := rebuild_environ_have_eq g (some R) none m nx (by rw [hsR]; exact hReq) R2 h2
  have hRu2 := rebuild_environ_unique g (some R) none m nx (Or.inr hl)
    (by rw [hsR]; exact hReq) (by rw [hsR]; exact hRu) R2 h2
  refine same_strings_of_getenv R2 R hRu2 hRu hReq2 hReq (fun n hn => ?_)
  obtain ⟨st, h0, hrun, -⟩ := rebuild_environ_origin g envp1 envp2 m nx R h1
  obtain ⟨hst, -⟩ := loop_locals_reset g _ st hr h0
  have henv : st.env = (sources envp1 envp2).filter (reset_keeps g) := by
    rw [hst]; simp [reset_locals]
  have hp1 : ∀ q, st.ps1 = some q → "PS1".toList <+: q :=
    fun q hq => (ps1_plain g _ st h0 q hq).2
  -- the second run takes the same prompt string
  have hsame : reset_ps1 R none = reset_ps1 (sources envp1 envp2) none := by
    rw [reset_ps1_run _ _ _ none hrun (all_cmds_not_ps1_start g m nx _ _ hp1), henv,
      reset_ps1_filter g _ none hps]
  have v1 := reset_user_getenv g envp1 envp2 m nx hr hl R h1 n hn
  have v2 := reset_user_getenv g (some R) none m nx hr hl R2 h2 n hn
  rw [hsR, hsame] at v2
  rw [getenv_filter_unique R hRu hReq (reset_keeps g) n hn] at v2
  rw [v2]
  cases hD : (dup_cmds g m nx (reset_ps1 (sources envp1 envp2) none)).foldl (get_step n) none with
  | some v =>
    rw [hD] at v1
    rw [v1]
    rfl
  | none =>
    rw [hD, orElse_none_left] at v1
    rw [orElse_none_left]
    cases hX : getenv n R with
    | none =>
      rw [hX] at v1
      simp only [orElse_none_left]
      cases ho : getenv n ((sources envp1 envp2).filter (reset_keeps g)) with
      | some w =>
        rw [ho] at v1
        cases v1
      | none =>
        rw [ho, orElse_none_left] at v1
        exact v1.symm
    | some x =>
      rw [hX] at v1
      by_cases hk : reset_keeps g (n ++ '=' :: x) = true
      · simp only [hk, if_true]
        rfl
      · simp only [hk, if_false, orElse_none_left]
        cases ho : getenv n ((sources envp1 envp2).filter (reset_keeps g)) with
        | some w =>
          exfalso
          rw [ho] at v1
          have hw : x = w := Option.some.inj v1
          subst hw
          have hm := getenv_mem n _ x ho
          exact hk (List.mem_filter.mp hm).2
        | none =>
          rw [ho, orElse_none_left] at v1
          exact v1.symm

/-- The four counts of P5 in a run with a defined result. -/
theorem sudo_count_of_defined (g : Ctx) (envp1 envp2 : Option (List Str)) (m : sudo_mode_t)
    (nx : Bool) (l : List Str) (h : rebuild_environ g envp1 envp2 m nx = some l) :
    ∀ X ∈ sudo_names, 1 ≤ count_named X l ∧
      (count_named X (sources envp1 envp2) ≤ 1 → count_named X l = 1) := by
  obtain ⟨st, h0, hrun, -⟩ := rebuild_environ_origin g envp1 envp2 m nx l h
  intro X hX
  have hpos : 1 ≤ count_named X l := by
    rw [count_run X (sudo_names_no_eq X hX) _ _ _ hrun]
    exact foldl_cnt_pos_of_mem _ _ _ (mem_all_cmds_sudo g m nx _ _ X hX)
  refine ⟨hpos, fun hsrc => le_antisymm ?_ hpos⟩
  rw [count_run X (sudo_names_no_eq X hX) _ _ _ hrun]
  exact (all_cmds_quiet g m nx _ _ X (sudo_names_no_eq X hX) (sudo_names_not_six X hX)).foldl_le_one
    _ (le_trans (loop_count_le g _ st h0 X) hsrc)

/-! ## Entries behind the first entry of their name -/

theorem after_first_subset (n : Str) (l : List Str) : ∀ e ∈ after_first n l, e ∈ l := by
  induction l with
  | nil => intro e he; simp [after_first] at he
  | cons x l ih =>
    intro e he
    by_cases hx : Named n x
    · simp only [after_first, hx, if_true] at he
      exact List.mem_cons_of_mem _ he
    · simp only [after_first, hx, if_false] at he
      exact List.mem_cons_of_mem _ (ih e he)

/-- An entry for `n` is the one a lookup finds, or comes after it. -/
theorem mem_first_or_after (n : Str) (l : List Str) (v : Str) (h : n ++ '=' :: v ∈ l) :
    getenv n l = some v ∨ n ++ '=' :: v ∈ after_first n l := by
  have hnamed : Named n (n ++ '=' :: v) := ⟨v, by simp⟩
  have hdrop : (n ++ '=' :: v).drop (n.length + 1) = v := by
    have : n ++ '=' :: v = (n ++ ['=']) ++ v := by simp
    rw [this, List.drop_left' (by simp)]
  induction l with
  | nil => simp at h
  | cons x l ih =>
    by_cases hx : Named n x
    · simp only [getenv, after_first, hx, if_true]
      rcases List.mem_cons.mp h with e | e
      · left; rw [← e, hdrop]
      · exact Or.inr e
    · simp only [getenv, after_first, hx, if_false]
      rcases List.mem_cons.mp h with e | e
      · exact absurd (e ▸ hnamed) hx
      · exact ih e

theorem after_first_snoc (n : Str) (l : List Str) (s : Str) :
    ∀ e ∈ after_first n (l ++ [s]), e ∈ after_first n l ∨ e = s := by
  induction l with
  | nil =>
    intro e he
    by_cases hs : Named n s <;> simp [after_first, hs] at he
  | cons x l ih =>
    intro e he
    by_cases hx : Named n x
    · simp only [List.cons_append, after_first, hx, if_true] at he ⊢
      simpa using he
    · simp only [List.cons_append, after_first, hx, if_false] at he ⊢
      exact ih e he

theorem replace_or_append_mem (p : Str → Bool) (s : Str) (l : List Str) :
    ∀ e ∈ replace_or_append p s l, e ∈ l ∨ e = s := by
  induction l with
  | nil => intro e he; simp [replace_or_append] at he; exact Or.inr he
  | cons x l ih =>
    intro e he
    by_cases hx : p x = true
    · simp only [replace_or_append, hx, if_true, List.mem_cons] at he
      rcases he with rfl | he
      · exact Or.inr rfl
      · exact Or.inl (List.mem_cons_of_mem _ he)
    · simp only [replace_or_append, hx, Bool.false_eq_true, if_false, List.mem_cons] at he
      rcases he with rfl | he
      · exact Or.inl (by simp)
      · rcases ih e he with h | h
        · exact Or.inl (List.mem_cons_of_mem _ h)
        · exact Or.inr h

theorem after_first_replace (n m w : Str) (hn : '=' ∉ n) (hm : '=' ∉ m) (l : List Str) :
    ∀ e ∈ after_first n (replace_or_append (fun x => decide (Named m x)) (m ++ '=' :: w) l),
      Named n e → e ∈ after_first n l := by
  have hs : Named m (m ++ '=' :: w) := ⟨w, by simp⟩
  induction l with
  | nil =>
    intro e he _
    by_cases h : Named n (m ++ '=' :: w) <;> simp [replace_or_append, after_first, h] at he
  | cons x l ih =>
    intro e he hne
    by_cases hx : Named m x
    · simp only [replace_or_append, hx, decide_True, if_true] at he
      by_cases hns : Named n (m ++ '=' :: w)
      · have hnm : n = m := named_unique n m _ hn hm hns hs
        have hnx : Named n x := hnm ▸ hx
        simp only [after_first, hns, if_true] at he
        simp only [after_first, hnx, if_true]
        exact he
      · have hnx : ¬ Named n x := by
          intro h
          have hnm : n = m := named_unique n m _ hn hm h hx
          exact hns (hnm ▸ hs)
        simp only [after_first, hns, if_false] at he
        simp only [after_first, hnx, if_false]
        exact he
    · simp only [replace_or_append, hx, decide_False, Bool.false_eq_true, if_false] at he
      by_cases hnx : Named n x
      · simp only [after_first, hnx, if_true] at he ⊢
        rcases replace_or_append_mem _ _ _ e he with h | h
        · exact h
        · exfalso
          rw [h] at hne
          have hnm : n = m := named_unique n m _ hn hm hne hs
          exact hx (hnm ▸ hnx)
      · simp only [after_first, hnx, if_false] at he ⊢
        exact ih e he hne

/-- After an insertion, an entry for `n` behind the first one was there
before, or is the string inserted, without `dupcheck`. -/
theorem after_first_list_insert (n : Str) (hn : '=' ∉ n) (s : Str) (d : Bool) (l l2 : List Str)
    (h : list_insert s l d = some l2) :
    ∀ e ∈ after_first n l2, Named n e → e ∈ after_first n l ∨ (e = s ∧ d = false) := by
  intro e he hne
  cases d with
  | false =>
    simp only [list_insert, Bool.false_eq_true, if_false, Option.some.injEq] at h
    rw [← h] at he
    rcases after_first_snoc n l s e he with h1 | h1
    · exact Or.inl h1
    · exact Or.inr ⟨h1, rfl⟩
  | true =>
    cases hc : strchr s '=' with
    | none => simp [list_insert, hc] at h
    | some i =>
      obtain ⟨m, w, rfl, hm⟩ := exists_entry_of_strchr s i hc
      rw [list_insert_dup m w l hm] at h
      by_cases hl : l = []
      · simp [hl] at h
      · simp only [hl, if_false, Option.some.injEq] at h
        rw [← h] at he
        exact Or.inl (after_first_replace n m w hn hm l e he hne)

theorem after_first_run (n : Str) (hn : '=' ∉ n) (cs : List (Str × Bool)) (l l2 : List Str)
    (h : run cs l = some l2) :
    ∀ e ∈ after_first n l2, Named n e →
      e ∈ after_first n l ∨ ∃ c ∈ cs, c.1 = e ∧ c.2 = false := by
  induction cs generalizing l with
  | nil =>
    simp only [run, Option.some.injEq] at h
    intro e he _
    rw [← h] at he
    exact Or.inl he
  | cons c cs ih =>
    simp only [run] at h
    cases h1 : list_insert c.1 l c.2 with
    | none => simp [h1] at h
    | some l1 =>
      simp only [h1, Option.some_bind] at h
      intro e he hne
      rcases ih l1 h e he hne with h2 | ⟨c2, hc2, h3⟩
      · rcases after_first_list_insert n hn c.1 c.2 l l1 h1 e h2 hne with h4 | ⟨h4, h5⟩
        · exact Or.inl h4
        · exact Or.inr ⟨c, by simp, h4.symm, h5⟩
      · exact Or.inr ⟨c2, by simp [hc2], h3⟩

/-- In a list without shared names no entry for `n` comes after the first. -/
theorem after_first_unique (l : List Str) (hu : UniqueNames l) (hl : ∀ e ∈ l, '=' ∈ e)
    (n : Str) (hn : '=' ∉ n) : ∀ e ∈ after_first n l, ¬ Named n e := by
  induction l with
  | nil => intro e he; simp [after_first] at he
  | cons x l ih =>
    have hu2 : UniqueNames l := by
      unfold UniqueNames at hu ⊢
      simp only [List.map_cons, List.nodup_cons] at hu
      exact hu.2
    intro e he hne
    by_cases hx : Named n x
    · simp only [after_first, hx, if_true] at he
      have h1 := (named_iff_name_of n x hn (hl x (by simp))).mp hx
      have h2 := (named_iff_name_of n e hn (hl e (by simp [he]))).mp hne
      unfold UniqueNames at hu
      simp only [List.map_cons, List.nodup_cons] at hu
      exact hu.1 (List.mem_map.mpr ⟨e, he, h2.trans h1.symm⟩)
    · simp only [after_first, hx, if_false] at he
      exact ih hu2 (fun y hy => hl y (by simp [hy])) e he hne

/-! ## Insertions that agree on each name -/

theorem get_foldl_fixed (n : Str) (cs : List (Str × Bool)) (s : Str)
    (hco : ∀ c ∈ cs, Named n c.1 → c.1 = s) :
    cs.foldl (get_step n) (some (s.drop (n.length + 1))) = some (s.drop (n.length + 1)) := by
  induction cs with
  | nil => rfl
  | cons c cs ih =>
    have hstep : get_step n (some (s.drop (n.length + 1))) c = some (s.drop (n.length + 1)) := by
      unfold get_step
      by_cases hc : Named n c.1
      · rw [if_pos hc, hco c (by simp) hc]
        cases c.2 <;> rfl
      · rw [if_neg hc]
    rw [List.foldl_cons, hstep]
    exact ih (fun c2 hc2 => hco c2 (by simp [hc2]))

/-- A lookup after the insertions finds the string that an insertion with
`dupcheck` made for the name, when every insertion for that name makes the same
string. -/
theorem get_foldl_coherent (n : Str) (cs : List (Str × Bool)) (c : Str × Bool) (hc : c ∈ cs)
    (hd : c.2 = true) (hcn : Named n c.1) (hco : ∀ c2 ∈ cs, Named n c2.1 → c2.1 = c.1)
    (o : Option Str) : cs.foldl (get_step n) o = some (c.1.drop (n.length + 1)) := by
  induction cs generalizing o with
  | nil => simp at hc
  | cons c0 cs ih =>
    rw [List.foldl_cons]
    rcases List.mem_cons.mp hc with e | e
    · subst e
      have hstep : get_step n o c = some (c.1.drop (n.length + 1)) := by
        unfold get_step
        rw [if_pos hcn, if_pos hd]
      rw [hstep]
      exact get_foldl_fixed n cs c.1 (fun c2 hc2 => hco c2 (by simp [hc2]))
    · exact ih e (fun c2 hc2 => hco c2 (by simp [hc2])) _

/-- Every string inserted stays in the list, when the insertions for one name
all make the same string. -/
theorem coherent_stays (cs : List (Str × Bool)) (l R : List Str) (h : run cs l = some R)
    (hco : ∀ c ∈ cs, ∀ c2 ∈ cs, ∀ n, '=' ∉ n → Named n c.1 → Named n c2.1 → c.1 = c2.1) :
    ∀ c ∈ cs, c.1 ∈ R := by
  intro c hc
  obtain ⟨pre, post, rfl⟩ := List.append_of_mem hc
  have h3 : run (pre ++ (c.1, c.2) :: post) l = some R := h
  refine run_inserted pre post c.1 c.2 l R h3 ?_
  intro c2 hc2 _
  by_cases heq : c2.1 = c.1
  · exact Or.inl heq
  · right
    intro n hn h1 h2
    exact heq (hco c2 (by simp [hc2]) c (by simp) n hn h1 h2)

/-- An entry of the result with the name of an insertion made with `dupcheck`
is the string of that insertion, when the run starts on a list without shared
names and the insertions for one name all make the same string. -/
theorem rep_of_coherent (cs : List (Str × Bool)) (K R : List Str) (h : run cs K = some R)
    (hu : UniqueNames K) (hK : ∀ e ∈ K, '=' ∈ e)
    (hco : ∀ c ∈ cs, ∀ c2 ∈ cs, ∀ n, '=' ∉ n → Named n c.1 → Named n c2.1 → c.1 = c2.1)
    (e : Str) (he : e ∈ R) (c : Str × Bool) (hc : c ∈ cs) (hd : c.2 = true)
    (n : Str) (hn : '=' ∉ n) (h1 : Named n c.1) (h2 : Named n e) : c.1 = e := by
  obtain ⟨v, rfl⟩ := h2
  obtain ⟨w, hw⟩ := h1
  have hv : n ++ ['='] ++ v = n ++ '=' :: v := by simp
  rw [hv] at he ⊢
  have hdrop : ∀ u : Str, (n ++ ['='] ++ u).drop (n.length + 1) = u := by
    intro u
    rw [List.drop_left' (by simp)]
  rcases mem_first_or_after n R v he with h3 | h3
  · have h4 := getenv_run n hn cs K R h
    rw [get_foldl_coherent n cs c hc hd ⟨w, hw⟩
      (fun c2 hc2 hn2 => hco c2 hc2 c hc n hn hn2 ⟨w, hw⟩) _, h3, ← hw, hdrop] at h4
    rw [← hw, Option.some.inj h4]
    simp
  · rcases after_first_run n hn cs K R h _ h3 ⟨v, by simp⟩ with h4 | ⟨c2, hc2, h5, -⟩
    · exact absurd ⟨v, by simp⟩ (after_first_unique K hu hK n hn _ h4)
    · rw [← h5]
      exact hco c hc c2 hc2 n hn ⟨w, hw⟩ (h5 ▸ ⟨v, by simp⟩)

/-- A run whose insertions are all strings of `R`, started on strings of `R`
and covering `R`, ends with the strings of `R`, when no insertion with
`dupcheck` has the name of another string of `R`. -/
theorem run_same_of_rep (cs : List (Str × Bool)) (A R R2 : List Str)
    (hrep : ∀ e ∈ R, ∀ c ∈ cs, c.2 = true →
      c.1 = e ∨ ∀ n, '=' ∉ n → Named n c.1 → ¬ Named n e)
    (hA : ∀ e ∈ A, e ∈ R) (hcs : ∀ c ∈ cs, c.1 ∈ R)
    (hcover : ∀ e ∈ R, e ∈ A ∨ ∃ c ∈ cs, c.1 = e) (h : run cs A = some R2) :
    ∀ e, e ∈ R2 ↔ e ∈ R := by
  intro e
  constructor
  · intro he
    rcases run_mem cs A R2 h e he with h1 | ⟨c, hc, rfl⟩
    · exact hA e h1
    · exact hcs c hc
  · intro he
    rcases hcover e he with h1 | ⟨c, hc, rfl⟩
    · exact run_keeps cs A R2 h e h1 (hrep e he)
    · obtain ⟨pre, post, rfl⟩ := List.append_of_mem hc
      have h3 : run (pre ++ (c.1, c.2) :: post) A = some R2 := h
      refine run_inserted pre post c.1 c.2 A R2 h3 ?_
      intro c2 hc2 hd
      exact hrep c.1 he c2 (by simp [hc2]) hd

/-! ## The strings built in reset mode under the login-shell flag -/

/-- Each string inserted after the loops in reset mode under the login-shell
flag is the prompt string or the entry of `login_entry` for its name. -/
theorem all_cmds_login_table (g : Ctx) (m : sudo_mode_t) (nx : Bool) (d : Nat)
    (p : Option Str) (hl : m.login_shell = true) :
    ∀ c ∈ all_cmds g m nx d p,
      p = some c.1 ∨ ∃ X ∈ built_names, Named X c.1 ∧ c.1 = login_entry g X := by
  refine all_cmds_cases g m nx d p
    (fun s => p = some s ∨ ∃ X ∈ built_names, Named X s ∧ s = login_entry g X)
    ?_ ?_ ?_ ?_ ?_ ?_ ?_ ?_ ?_ ?_
  · intro _ _
    exact ⟨Or.inr ⟨"HOME".toList, by decide, ⟨_, rfl⟩, rfl⟩,
      Or.inr ⟨"SHELL".toList, by decide, ⟨_, rfl⟩, rfl⟩,
      Or.inr ⟨"LOGNAME".toList, by decide, ⟨_, rfl⟩, rfl⟩,
      Or.inr ⟨"USER".toList, by decide, ⟨_, rfl⟩, rfl⟩⟩
  · intro _ h
    rw [hl] at h
    cases h
  · intro sp hsp hex
    have hact : secure_active g = true := by simp [secure_active, hsp, hex]
    refine Or.inr ⟨"PATH".toList, by decide, ⟨_, rfl⟩, ?_⟩
    show _ = (if secure_active g = true then "PATH=".toList ++ g.def_secure_path.getD []
      else "PATH=".toList ++ g.PATH_DEFPATH)
    rw [if_pos hact, hsp]
    rfl
  · intro name hname _
    refine ⟨Or.inr ⟨"LOGNAME".toList, by decide, ⟨_, rfl⟩, ?_⟩,
      Or.inr ⟨"USER".toList, by decide, ⟨_, rfl⟩, ?_⟩⟩
    · show _ = "LOGNAME=".toList ++ g.runas_pw.pw_name.getD []
      rw [hname]; rfl
    · show _ = "USER=".toList ++ g.runas_pw.pw_name.getD []
      rw [hname]; rfl
  · intro dir hdir _
    refine Or.inr ⟨"HOME".toList, by decide, ⟨_, rfl⟩, ?_⟩
    show _ = "HOME=".toList ++ g.runas_pw.pw_dir.getD []
    rw [hdir]; rfl
  · intro _
    exact Or.inr ⟨"TERM".toList, by decide, ⟨"unknown".toList, rfl⟩, rfl⟩
  · intro hP
    have hact : ¬ secure_active g = true := by
      rw [secure_didvar_path] at hP
      simp only [Bool.or_eq_false_iff] at hP
      simp [hP.2]
    refine Or.inr ⟨"PATH".toList, by decide, ⟨_, rfl⟩, ?_⟩
    show _ = (if secure_active g = true then "PATH=".toList ++ g.def_secure_path.getD []
      else "PATH=".toList ++ g.PATH_DEFPATH)
    rw [if_neg hact]
  · intro file hfile _
    refine ⟨fun _ => ⟨Or.inr ⟨"DYLD_INSERT_LIBRARIES".toList, by decide, ⟨_, rfl⟩, ?_⟩,
        Or.inr ⟨"DYLD_FORCE_FLAT_NAMESPACE".toList, by decide, ⟨[], rfl⟩, rfl⟩⟩,
      fun _ => Or.inr ⟨"_RLD_LIST".toList, by decide, ⟨file ++ ":DEFAULT".toList, ?_⟩, ?_⟩,
      fun _ => Or.inr ⟨"LD_PRELOAD".toList, by decide, ⟨_, rfl⟩, ?_⟩⟩
    · show _ = "DYLD_INSERT_LIBRARIES=".toList ++ g.def_noexec_file.getD []
      rw [hfile]; rfl
    · simp
    · show _ = "_RLD_LIST=".toList ++ g.def_noexec_file.getD [] ++ ":DEFAULT".toList
      rw [hfile]; rfl
    · show _ = "LD_PRELOAD=".toList ++ g.def_noexec_file.getD []
      rw [hfile]; rfl
  · intro q hq
    exact Or.inl hq
  · obtain ⟨w, hw, -⟩ := sudo_command_eq g
    refine ⟨Or.inr ⟨"SUDO_COMMAND".toList, by decide, ⟨w, ?_⟩, rfl⟩,
      Or.inr ⟨"SUDO_USER".toList, by decide, ⟨_, rfl⟩, rfl⟩,
      Or.inr ⟨"SUDO_UID".toList, by decide, ⟨_, rfl⟩, rfl⟩,
      Or.inr ⟨"SUDO_GID".toList, by decide, ⟨_, rfl⟩, rfl⟩⟩
    rw [hw]; simp

theorem built_names_no_eq : ∀ X ∈ built_names, '=' ∉ X := by decide

theorem built_names_not_ps1 :
    ∀ X ∈ built_names, ¬ "PS1".toList <+: X ++ ['='] ∧ ¬ (X ++ ['=']) <+: "PS1".toList := by
  decide

/-- Under the login-shell flag two strings inserted after the loops, in
whatever state of `didvar`, that are entries for one name are one string. -/
theorem all_cmds_login_coherent (g : Ctx) (m : sudo_mode_t) (nx : Bool) (d d2 : Nat)
    (p : Option Str) (hl : m.login_shell = true) (hp : ∀ q, p = some q → "PS1".toList <+: q) :
    ∀ c ∈ all_cmds g m nx d p, ∀ c2 ∈ all_cmds g m nx d2 p, ∀ n, '=' ∉ n →
      Named n c.1 → Named n c2.1 → c.1 = c2.1 := by
  intro c hc c2 hc2 n hn h1 h2
  rcases all_cmds_login_table g m nx d p hl c hc with e1 | ⟨X, hX, hX1, e1⟩ <;>
    rcases all_cmds_login_table g m nx d2 p hl c2 hc2 with e2 | ⟨Y, hY, hY2, e2⟩
  · rw [e1] at e2
    exact Option.some.inj e2
  · exfalso
    have hnY : n = Y := named_unique n Y _ hn (built_names_no_eq Y hY) h2 hY2
    subst hnY
    exact ps1_not_named n c.1 (hp _ e1) (built_names_not_ps1 n hY).1
      (built_names_not_ps1 n hY).2 h1
  · exfalso
    have hnX : n = X := named_unique n X _ hn (built_names_no_eq X hX) h1 hX1
    subst hnX
    exact ps1_not_named n c2.1 (hp _ e2) (built_names_not_ps1 n hX).1
      (built_names_not_ps1 n hX).2 h2
  · have hnX : n = X := named_unique n X _ hn (built_names_no_eq X hX) h1 hX1
    have hnY : n = Y := named_unique n Y _ hn (built_names_no_eq Y hY) h2 hY2
    rw [e1, e2, ← hnX, ← hnY]

theorem all_cmds_mem_iff (g : Ctx) (m : sudo_mode_t) (nx : Bool) (d : Nat) (p : Option Str)
    (c : Str × Bool) :
    c ∈ all_cmds g m nx d p ↔
      (g.def_env_reset = true ∧ c ∈ defaults_cmds g m d) ∨
      c ∈ secure_cmds g ∨ c ∈ logname_cmds g ∨ c ∈ home_cmds g m ∨
      (ISSET (secure_didvar g d) DID_TERM = false ∧ c = ("TERM=unknown".toList, false)) ∨
      (ISSET (secure_didvar g d) DID_PATH = false ∧
        c = (fmt "PATH".toList [some g.PATH_DEFPATH], false)) ∨
      c ∈ noexec_cmds g nx ∨ c ∈ ps1_cmds p ∨ c ∈ sudo_cmds g := by
  have e1 : ∀ (b : Bool) (x : Str × Bool),
      c ∈ (if (!b) = true then [x] else []) ↔ (b = false ∧ c = x) := by
    intro b x
    cases b <;> simp
  have e2 : c ∈ (if g.def_env_reset = true then defaults_cmds g m d else []) ↔
      (g.def_env_reset = true ∧ c ∈ defaults_cmds g m d) := by
    cases g.def_env_reset <;> simp
  unfold all_cmds tail_cmds termpath_cmds
  simp only [List.mem_append]
  rw [e1, e1, e2]
  simp only [or_assoc]

/-- Under the login-shell flag the insertions differ, from one state of
`didvar` to another, by the defaults of `TERM` and `PATH` only. -/
theorem all_cmds_login_transfer (g : Ctx) (m : sudo_mode_t) (nx : Bool) (d d2 : Nat)
    (p : Option Str) (hl : m.login_shell = true) (c : Str × Bool)
    (hc : c ∈ all_cmds g m nx d p) :
    c ∈ all_cmds g m nx d2 p ∨
      (ISSET d DID_TERM = false ∧ c = ("TERM=unknown".toList, false)) ∨
      (ISSET d DID_PATH = false ∧ secure_active g = false ∧
        c = (fmt "PATH".toList [some g.PATH_DEFPATH], false)) := by
  have hD : defaults_cmds g m d = defaults_cmds g m d2 := by
    simp [defaults_cmds, hl]
  rw [all_cmds_mem_iff] at hc ⊢
  rcases hc with h | h | h | h | h | h | h | h | h
  · exact Or.inl (Or.inl ⟨h.1, hD ▸ h.2⟩)
  · exact Or.inl (Or.inr (Or.inl h))
  · exact Or.inl (Or.inr (Or.inr (Or.inl h)))
  · exact Or.inl (Or.inr (Or.inr (Or.inr (Or.inl h))))
  · rw [secure_didvar_term] at h
    exact Or.inr (Or.inl h)
  · rw [secure_didvar_path, Bool.or_eq_false_iff] at h
    exact Or.inr (Or.inr ⟨h.1.1, h.1.2, h.2⟩)
  · exact Or.inl (Or.inr (Or.inr (Or.inr (Or.inr (Or.inr (Or.inr (Or.inl h)))))))
  · exact Or.inl (Or.inr (Or.inr (Or.inr (Or.inr (Or.inr (Or.inr (Or.inr (Or.inl h))))))))
  · exact Or.inl (Or.inr (Or.inr (Or.inr (Or.inr (Or.inr (Or.inr (Or.inr (Or.inr h))))))))

/-! ## Running rebuild_env on its own result, reset mode under the login-shell flag -/

/-- A kept entry for `X` is kept again from the result, when no insertion with
`dupcheck` is an entry for `X`. -/
theorem kept_again (g : Ctx) (cs : List (Str × Bool)) (K R : List Str) (X : Str)
    (hX : '=' ∉ X) (hrun : run cs K = some R) (hKk : ∀ e ∈ K, reset_keeps g e = true)
    (hnd : ∀ c ∈ cs, c.2 = true → ¬ Named X c.1) (h : 1 ≤ count_named X K) :
    1 ≤ count_named X (R.filter (reset_keeps g)) := by
  obtain ⟨e, he, hne⟩ := (count_named_pos_iff X K).mp h
  have heR : e ∈ R := run_keeps cs K R hrun e he
    (fun c hc hd => Or.inr (not_replaced_of_not_named X c.1 e hX hne (hnd c hc hd)))
  exact (count_named_pos_iff X _).mpr ⟨e, List.mem_filter.mpr ⟨heR, hKk e he⟩, hne⟩

/-- A default inserted for `X` is the entry for `X` that is kept from the
result, if one is. -/
theorem default_kept (g : Ctx) (cs : List (Str × Bool)) (K R : List Str) (X : Str)
    (hrun : run cs K = some R) (c : Str × Bool)
    (hco : ∀ c2 ∈ cs, Named X c2.1 → c2.1 = c.1) (h0 : ¬ 1 ≤ count_named X K)
    (h2 : 1 ≤ count_named X (R.filter (reset_keeps g))) :
    c.1 ∈ R.filter (reset_keeps g) := by
  obtain ⟨e, he, hne⟩ := (count_named_pos_iff X _).mp h2
  rcases run_mem cs K R hrun e (List.mem_filter.mp he).1 with h | ⟨c2, hc2, h⟩
  · exact absurd ((count_named_pos_iff X K).mpr ⟨e, h, hne⟩) h0
  · rw [← hco c2 hc2 (h ▸ hne), h]
    exact he

/-- In reset mode under the login-shell flag, when every source entry
contains `=`, no two share a name and the loop keeps every entry it takes a
prompt string from, `rebuild_env` run on its own result returns the same
strings. -/
theorem login_rerun_same (g : Ctx) (envp1 envp2 : Option (List Str)) (m : sudo_mode_t)
    (nx : Bool) (hr : g.def_env_reset = true) (hl : m.login_shell = true)
    (hsrc : ∀ e ∈ sources envp1 envp2, '=' ∈ e) (huniq : UniqueNames (sources envp1 envp2))
    (hps : ∀ e ∈ sources envp1 envp2, strncmp e "SUDO_PS1=".toList 8 = 0 →
      is_bash_function e = true ∨ reset_keeps g e = true)
    (R R2 : List Str) (h1 : rebuild_environ g envp1 envp2 m nx = some R)
    (h2 : rebuild_environ g (some R) none m nx = some R2) : ∀ e, e ∈ R2 ↔ e ∈ R := by
  have hsR : sources (some R) none = R := by simp [sources]
  obtain ⟨st, h0, hrun, -⟩ := rebuild_environ_origin g envp1 envp2 m nx R h1
  obtain ⟨st2, h02, hrun2, -⟩ := rebuild_environ_origin g (some R) none m nx R2 h2
  rw [hsR] at h02
  obtain ⟨hst, -⟩ := loop_locals_reset g _ st hr h0
  obtain ⟨hst2, -⟩ := loop_locals_reset g _ st2 hr h02
  have henv : st.env = (sources envp1 envp2).filter (reset_keeps g) := by
    rw [hst]; simp [reset_locals]
  have henv2 : st2.env = R.filter (reset_keeps g) := by
    rw [hst2]; simp [reset_locals]
  have hp1 : ∀ q, st.ps1 = some q → "PS1".toList <+: q :=
    fun q hq => (ps1_plain g _ st h0 q hq).2
  have hps1 : st2.ps1 = st.ps1 := by
    have e1 : st2.ps1 = reset_ps1 R none := by rw [hst2]; rfl
    have e2 : st.ps1 = reset_ps1 (sources envp1 envp2) none := by rw [hst]; rfl
    rw [e1, e2, reset_ps1_run _ _ _ none hrun (all_cmds_not_ps1_start g m nx _ _ hp1), henv,
      reset_ps1_filter g _ none hps]
  rw [hps1] at hrun2
  have hsub := loop_locals_sublist g _ st h0
  have hKu : UniqueNames st.env := huniq.sublist (hsub.map name_of)
  have hK : ∀ e ∈ st.env, '=' ∈ e := fun e he => hsrc e (hsub.subset he)
  have hKk : ∀ e ∈ st.env, reset_keeps g e = true := by
    intro e he
    rw [henv] at he
    exact (List.mem_filter.mp he).2
  have hco := fun d d2 => all_cmds_login_coherent g m nx d d2 st.ps1 hl hp1
  have T1 := coherent_stays _ _ _ hrun (hco st.didvar st.didvar)
  have hnd := all_cmds_dup_not_path g m nx st.didvar st.ps1 hp1
  have hf1 := reset_flag_iff g _ st hr h0
  have hf2 := reset_flag_iff g _ st2 hr h02
  have fT1 : ISSET st.didvar DID_TERM = decide (1 ≤ count_named "TERM".toList st.env) := by
    rw [DID_TERM_eq]; exact hf1 ("TERM".toList, 0) (by decide)
  have fP1 : ISSET st.didvar DID_PATH = decide (1 ≤ count_named "PATH".toList st.env) := by
    rw [DID_PATH_eq]; exact hf1 ("PATH".toList, 1) (by decide)
  have fT2 : ISSET st2.didvar DID_TERM =
      decide (1 ≤ count_named "TERM".toList (R.filter (reset_keeps g))) := by
    rw [DID_TERM_eq, ← henv2]; exact hf2 ("TERM".toList, 0) (by decide)
  have fP2 : ISSET st2.didvar DID_PATH =
      decide (1 ≤ count_named "PATH".toList (R.filter (reset_keeps g))) := by
    rw [DID_PATH_eq, ← henv2]; exact hf2 ("PATH".toList, 1) (by decide)
  have hterm : Named "TERM".toList "TERM=unknown".toList := ⟨"unknown".toList, rfl⟩
  have hpath : Named "PATH".toList (fmt "PATH".toList [some g.PATH_DEFPATH]) :=
    named_fmt_self _ _
  have memT : ∀ d, ISSET d DID_TERM = false →
      (("TERM=unknown".toList, false) : Str × Bool) ∈ all_cmds g m nx d st.ps1 := by
    intro d hd
    rw [all_cmds_mem_iff]
    exact Or.inr (Or.inr (Or.inr (Or.inr (Or.inl ⟨by rw [secure_didvar_term]; exact hd, rfl⟩))))
  have memP : ∀ d, ISSET d DID_PATH = false → secure_active g = false →
      ((fmt "PATH".toList [some g.PATH_DEFPATH], false) : Str × Bool) ∈
        all_cmds g m nx d st.ps1 := by
    intro d hd hs
    rw [all_cmds_mem_iff]
    exact Or.inr (Or.inr (Or.inr (Or.inr (Or.inr (Or.inl
      ⟨by rw [secure_didvar_path, hd, hs]; rfl, rfl⟩)))))
  refine run_same_of_rep (all_cmds g m nx st2.didvar st.ps1) st2.env R R2 ?_ ?_ ?_ ?_ hrun2
  · -- no insertion with dupcheck has the name of another string of R
    intro e he c hc hd
    by_cases heq : c.1 = e
    · exact Or.inl heq
    · right
      intro n hn hn1 hn2
      apply heq
      rcases all_cmds_login_transfer g m nx st2.didvar st.didvar st.ps1 hl c hc with
        h | ⟨-, h⟩ | ⟨-, -, h⟩
      · exact rep_of_coherent _ _ _ hrun hKu hK (hco _ _) e he c h hd n hn hn1 hn2
      · rw [h] at hd; cases hd
      · rw [h] at hd; cases hd
  · intro e he
    rw [henv2] at he
    exact (List.mem_filter.mp he).1
  · -- the strings inserted by the second run are in R
    intro c hc
    rcases all_cmds_login_transfer g m nx st2.didvar st.didvar st.ps1 hl c hc with
      h | ⟨hflag, h⟩ | ⟨hflag, hsec, h⟩
    · exact T1 c h
    · rw [h]
      by_cases hf : 1 ≤ count_named "TERM".toList st.env
      · have := kept_again g _ _ _ "TERM".toList (by decide) hrun hKk hnd.2 hf
        rw [fT2, decide_eq_true this] at hflag
        cases hflag
      · exact T1 _ (memT _ (by rw [fT1]; exact decide_eq_false hf))
    · rw [h]
      by_cases hf : 1 ≤ count_named "PATH".toList st.env
      · have := kept_again g _ _ _ "PATH".toList (by decide) hrun hKk (hnd.1 hsec) hf
        rw [fP2, decide_eq_true this] at hflag
        cases hflag
      · exact T1 _ (memP _ (by rw [fP1]; exact decide_eq_false hf) hsec)
  · -- every string of R is kept or inserted by the second run
    intro e he
    rcases run_mem _ _ _ hrun e he with h | ⟨c, hc, rfl⟩
    · left
      rw [henv2]
      exact List.mem_filter.mpr ⟨he, hKk e h⟩
    · rcases all_cmds_login_transfer g m nx st.didvar st2.didvar st.ps1 hl c hc with
        h | ⟨hflag, h⟩ | ⟨hflag, hsec, h⟩
      · exact Or.inr ⟨c, h, rfl⟩
      · by_cases hf : 1 ≤ count_named "TERM".toList (R.filter (reset_keeps g))
        · left
          rw [henv2]
          refine default_kept g _ _ _ "TERM".toList hrun c ?_ ?_ hf
          · intro c2 hc2 hn2
            exact hco _ _ c2 hc2 c hc "TERM".toList (by decide) hn2 (h ▸ hterm)
          · rw [fT1] at hflag
            exact of_decide_eq_false hflag
        · right
          exact ⟨c, h ▸ memT _ (by rw [fT2]; exact decide_eq_false hf), rfl⟩
      · by_cases hf : 1 ≤ count_named "PATH".toList (R.filter (reset_keeps g))
        · left
          rw [henv2]
          refine default_kept g _ _ _ "PATH".toList hrun c ?_ ?_ hf
          · intro c2 hc2 hn2
            exact hco _ _ c2 hc2 c hc "PATH".toList (by decide) hn2 (h ▸ hpath)
          · rw [fP1] at hflag
            exact of_decide_eq_false hflag
        · right
          exact ⟨c, h ▸ memP _ (by rw [fP2]; exact decide_eq_false hf) hsec, rfl⟩

/-- In any mode, when every source entry contains `=`, no two share a name
and, in reset mode, the loop keeps every entry it takes a prompt string from,
a second run of `rebuild_env` on the result of the first, if it has a result,
returns the same strings. -/
theorem rerun_same (g : Ctx) (envp1 envp2 : Option (List Str)) (m : sudo_mode_t)
    (nx : Bool) (hsrc : ∀ e ∈ sources envp1 envp2, '=' ∈ e)
    (huniq : UniqueNames (sources envp1 envp2))
    (hps : g.def_env_reset = true → ∀ e ∈ sources envp1 envp2,
      strncmp e "SUDO_PS1=".toList 8 = 0 → is_bash_function e = true ∨ reset_keeps g e = true)
    (R R2 : List Str) (h1 : rebuild_environ g envp1 envp2 m nx = some R)
    (h2 : rebuild_environ g (some R) none m nx = some R2) : ∀ e, e ∈ R2 ↔ e ∈ R := by
  cases hr : g.def_env_reset with
  | false => exact filter_rerun_same g envp1 envp2 m nx hr hsrc huniq R R2 h1 h2
  | true =>
    cases hl : m.login_shell with
    | false => exact reset_rerun_same g envp1 envp2 m nx hr hl hsrc huniq (hps hr) R R2 h1 h2
    | true => exact login_rerun_same g envp1 envp2 m nx hr hl hsrc huniq (hps hr) R R2 h1 h2

/-! ## Claims -/

/-- C3: for a non-empty pattern without `=` and an entry `name=value` (`name`
the text before the first `=`), the pattern test coded in `var_ok` and in the
keep loop of `rebuild_env` succeeds, for a pattern ending in `*`, exactly when
`name` starts with the pattern minus its trailing `*`, and for any other
pattern exactly when `name` equals the pattern; the deny loop and the keep loop
on the one-pattern list decide accordingly. -/
theorem pattern_matching_rule (pattern name value : Str)
    (hne : pattern ≠ []) (hp : '=' ∉ pattern) (hn : '=' ∉ name) :
    (pattern.getLast? = some '*' →
      pattern_test pattern (name ++ '=' :: value) = some (decide (pattern.dropLast <+: name))) ∧
    (pattern.getLast? ≠ some '*' →
      pattern_test pattern (name ++ '=' :: value) = some (decide (name = pattern))) ∧
    keep_loop [pattern] (name ++ '=' :: value) = some (decide (SpecMatch pattern name)) ∧
    delete_loop [pattern] (name ++ '=' :: value) true = some (decide (¬ SpecMatch pattern name)) := by
  have key : pattern_test pattern (name ++ '=' :: value) = some (decide (SpecMatch pattern name)) := by
    rw [pattern_test_eq_entryMatch _ _ hne]
    simp only [Option.some.injEq, decide_eq_decide]
    exact entryMatch_iff_specMatch pattern name value hp hn
  refine ⟨?_, ?_, ?_, ?_⟩
  · intro hw
    rw [key]; simp [SpecMatch, hw]
  · intro hw
    rw [key]; simp [SpecMatch, hw]
  · simp only [keep_loop, key]
    by_cases h : SpecMatch pattern name <;> simp [h]
  · simp only [delete_loop, if_true, key]
    by_cases h : SpecMatch pattern name <;> simp [h, delete_loop]

theorem pattern_matching_rule_witness :
    pattern_test "LC_*".toList ("LC_ALL".toList ++ '=' :: "C".toList)
      = some (decide ("LC_*".toList.dropLast <+: "LC_ALL".toList)) ∧
    pattern_test "LC_*".toList ("LC_ALL".toList ++ '=' :: "C".toList) = some true :=
  ⟨(pattern_matching_rule "LC_*".toList "LC_ALL".toList "C".toList
      (by decide) (by decide) (by decide)).1 (by decide), by decide⟩

/-- C2, as stated, fails: with check list `LC_*` the entry `LC_/X=abc` is
rejected by `var_ok` although its value holds neither `/` nor `%` (the code
looks for them in the whole entry), and with deny list `A=B` the entry
`A=B=C`, whose name is `A`, is rejected (the code compares the pattern with
the start of the entry). -/
theorem var_ok_classify_counterexample :
    ¬ (var_ok (Ctx.ofLists [] ["LC_*".toList]) ("LC_/X".toList ++ '=' :: "abc".toList) = some false ↔
        SpecReject [] ["LC_*".toList] "LC_/X".toList "abc".toList) ∧
    ¬ (var_ok (Ctx.ofLists ["A=B".toList] []) ("A".toList ++ '=' :: "B=C".toList) = some false ↔
        SpecReject ["A=B".toList] [] "A".toList "B=C".toList) := by
  decide

/-- C2, amended: for every entry `name=value` and every deny list and check
list of non-empty patterns without `=`, `var_ok` returns FALSE if and only if
the value begins with `()`, or some deny pattern matches the name, or some
check pattern matches the name and the entry (name or value) contains `/` or
`%`; otherwise it returns TRUE. -/
theorem var_ok_classify (g : Ctx) (name value : Str)
    (hd : ∀ p ∈ g.def_env_delete, p ≠ [] ∧ '=' ∉ p)
    (hc : ∀ p ∈ g.def_env_check, p ≠ [] ∧ '=' ∉ p) (hn : '=' ∉ name) :
    (var_ok g (name ++ '=' :: value) = some false ↔
      CodeReject g.def_env_delete g.def_env_check name value) ∧
    (var_ok g (name ++ '=' :: value) = some true ↔
      ¬ CodeReject g.def_env_delete g.def_env_check name value) := by
  have h1 : (∃ p ∈ g.def_env_delete, EntryMatch p (name ++ '=' :: value)) ↔
      ∃ p ∈ g.def_env_delete, SpecMatch p name := by
    constructor
    · rintro ⟨p, hp, hm⟩
      exact ⟨p, hp, (entryMatch_iff_specMatch p name value (hd p hp).2 hn).mp hm⟩
    · rintro ⟨p, hp, hm⟩
      exact ⟨p, hp, (entryMatch_iff_specMatch p name value (hd p hp).2 hn).mpr hm⟩
  have h2 : (∃ p ∈ g.def_env_check, EntryMatch p (name ++ '=' :: value)) ↔
      ∃ p ∈ g.def_env_check, SpecMatch p name := by
    constructor
    · rintro ⟨p, hp, hm⟩
      exact ⟨p, hp, (entryMatch_iff_specMatch p name value (hc p hp).2 hn).mp hm⟩
    · rintro ⟨p, hp, hm⟩
      exact ⟨p, hp, (entryMatch_iff_specMatch p name value (hc p hp).2 hn).mpr hm⟩
  rw [var_ok_eq g _ (fun p hp => (hd p hp).1) (fun p hp => (hc p hp).1),
    is_bash_function_entry name value hn]
  simp only [Option.some.injEq, decide_eq_true_eq, decide_eq_false_iff_not, not_not, h1, h2]
  exact ⟨Iff.rfl, Iff.rfl⟩

theorem var_ok_classify_witness :
    var_ok (Ctx.ofLists [] ["LC_*".toList]) ("LC_ALL".toList ++ '=' :: "/tmp/%n".toList) = some false ∧
    var_ok (Ctx.ofLists [] ["LC_*".toList]) ("LC_ALL".toList ++ '=' :: "en_US.UTF-8".toList)
      = some true :=
  ⟨(var_ok_classify (Ctx.ofLists [] ["LC_*".toList]) "LC_ALL".toList "/tmp/%n".toList
      (by decide) (by decide) (by decide)).1.mpr (by decide),
   (var_ok_classify (Ctx.ofLists [] ["LC_*".toList]) "LC_ALL".toList "en_US.UTF-8".toList
      (by decide) (by decide) (by decide)).2.mpr (by decide)⟩

/-- C1: for every pair of source environments, every keep, deny and check
list and every mode, if none of the configured values (name, home and shell of
the target user and of the invoking user, secure path, noexec file, command
path) begins with `()`, then no entry of the vector returned by `rebuild_env`
has the characters `=()` at its first `=`; in particular every source entry of
that form is absent from the result. -/
theorem exported_functions_never_pass (g : Ctx) (envp1 envp2 : Option (List Str))
    (m : sudo_mode_t) (nx : Bool) (hv : ValuesPlain g) (l : List Str)
    (h : rebuild_environ g envp1 envp2 m nx = some l) :
    (∀ e ∈ l, ¬ FunctionExport e) ∧
    (∀ e ∈ sources envp1 envp2, FunctionExport e → e ∉ l) := by
  have key := rebuild_environ_plain g envp1 envp2 m nx hv l h
  refine ⟨fun e he hf => ?_, fun e _ hf he => ?_⟩
  · have := key e he
    rw [(is_bash_function_iff e).mpr hf] at this
    exact absurd this (by decide)
  · have := key e he
    rw [(is_bash_function_iff e).mpr hf] at this
    exact absurd this (by decide)

theorem sample_plain (g : Ctx) (h1 : g.runas_pw = sample.runas_pw)
    (h2 : g.user_name = sample.user_name) (h3 : g.user_dir = sample.user_dir)
    (h4 : g.sudo_user_pw_shell = sample.sudo_user_pw_shell)
    (h5 : g.def_secure_path = none ∨ g.def_secure_path = some "/usr/bin:/bin".toList)
    (h6 : g.def_noexec_file = none) (h7 : g.user_cmnd = sample.user_cmnd) : ValuesPlain g := by
  unfold ValuesPlain
  rw [h1, h2, h3, h4, h6, h7]
  refine ⟨?_, ?_, by decide, by decide, by decide, by decide, ?_, ?_, by decide⟩
  · intro v hv
    cases hv
    decide
  · intro v hv
    cases hv
    decide
  · intro v hv
    rcases h5 with h5 | h5
    · rw [h5] at hv; cases hv
    · rw [h5] at hv; cases hv; decide
  · intro v hv
    cases hv

set_option maxRecDepth 100000 in
theorem exported_functions_never_pass_witness :
    ∃ l, rebuild_environ sample (some ["f=() { id; }".toList, "TERM=xterm".toList]) none
        ⟨false, false⟩ false = some l ∧
      (∀ e ∈ l, ¬ FunctionExport e) ∧
      (∀ e ∈ sources (some ["f=() { id; }".toList, "TERM=xterm".toList]) none,
        FunctionExport e → e ∉ l) :=
  ⟨["TERM=xterm".toList, "PATH=/usr/bin:/bin".toList, "SUDO_COMMAND=/bin/ls -l".toList,
      "SUDO_USER=bob".toList, "SUDO_UID=1000".toList, "SUDO_GID=100".toList],
    by decide,
    exported_functions_never_pass sample (some ["f=() { id; }".toList, "TERM=xterm".toList])
      none ⟨false, false⟩ false (sample_plain sample rfl rfl rfl rfl (Or.inl rfl) rfl rfl) _
      (by decide)⟩

/-- C4: in filter mode every entry of the vector returned by `rebuild_env` is
either an entry of one of the two sources for which `var_ok` returns TRUE, or
one of the mandatory additions (secure `PATH`, reset-home `HOME`,
`TERM=unknown`, default `PATH`, the noexec preload variable, `PS1` from a
copied `SUDO_PS1`, `SUDO_COMMAND`, `SUDO_USER`, `SUDO_UID`, `SUDO_GID`); in
particular, with `IFS` in the deny list no entry `IFS=x` is in the result. -/
theorem filter_mode_provenance (g : Ctx) (envp1 envp2 : Option (List Str)) (m : sudo_mode_t)
    (nx : Bool) (hr : g.def_env_reset = false) (l : List Str)
    (h : rebuild_environ g envp1 envp2 m nx = some l) :
    (∀ e ∈ l, (e ∈ sources envp1 envp2 ∧ var_ok g e = some true) ∨
      FilterAddition g m nx (sources envp1 envp2) e) ∧
    ("IFS".toList ∈ g.def_env_delete → ∀ x, "IFS=".toList ++ x ∉ l) := by
  obtain ⟨st, h0, -, horig⟩ := rebuild_environ_origin g envp1 envp2 m nx l h
  have key : ∀ e ∈ l, (e ∈ sources envp1 envp2 ∧ var_ok g e = some true) ∨
      FilterAddition g m nx (sources envp1 envp2) e := by
    intro e he
    rcases horig e he with ⟨hsrc, hk⟩ | ⟨c, hc, rfl⟩
    · simp only [hr, Bool.false_eq_true, if_false, filter_keeps, beq_iff_eq] at hk
      exact Or.inl ⟨hsrc, hk⟩
    · right
      refine all_cmds_cases g m nx st.didvar st.ps1
        (fun s => FilterAddition g m nx (sources envp1 envp2) s)
        ?_ ?_ ?_ ?_ ?_ ?_ ?_ ?_ ?_ ?_ c hc
      · intro h1; rw [hr] at h1; cases h1
      · intro h1; rw [hr] at h1; cases h1
      · intro sp hsp hex
        exact Or.inl ⟨sp, hsp, hex, rfl⟩
      · intro name _ h1; rw [hr] at h1; cases h1
      · intro dir hdir h1
        rw [hr, Bool.false_or] at h1
        exact Or.inr (Or.inl ⟨dir, hdir, h1, rfl⟩)
      · intro _; exact Or.inr (Or.inr (Or.inl rfl))
      · intro _; exact Or.inr (Or.inr (Or.inr (Or.inl rfl)))
      · intro file hfile hnx
        refine ⟨fun hp => ⟨?_, ?_⟩, fun hp => ?_, fun hp => ?_⟩ <;>
          refine Or.inr (Or.inr (Or.inr (Or.inr (Or.inl ⟨file, hfile, hnx, ?_⟩)))) <;>
          rw [hp] <;> simp [NoexecVar]
      · intro q hq
        obtain ⟨ep, hep, rfl, hcond⟩ := loop_locals_ps1 g _ st h0 q hq
        simp only [hr, Bool.false_eq_true, if_false] at hcond
        obtain ⟨v, rfl⟩ := strncmp_literal_prefix ep "SUDO_PS1=".toList hcond.2
        exact Or.inr (Or.inr (Or.inr (Or.inr (Or.inr (Or.inl ⟨v, hep, hcond.1, rfl⟩)))))
      · refine ⟨?_, ?_, ?_, ?_⟩ <;>
          refine Or.inr (Or.inr (Or.inr (Or.inr (Or.inr (Or.inr ?_))))) <;> simp [SudoVar]
  refine ⟨key, fun hifs x hx => ?_⟩
  rcases key _ hx with ⟨-, hok⟩ | hadd
  · have h1 := var_ok_true_deny g _ hok "IFS".toList hifs
    rw [pattern_test_eq_entryMatch _ _ (by decide)] at h1
    have h2 : EntryMatch "IFS".toList ("IFS=".toList ++ x) := by
      unfold EntryMatch
      simp
    rw [decide_eq_true h2] at h1
    cases h1
  · rcases hadd with ⟨sp, -, -, h1⟩ | ⟨dir, -, -, h1⟩ | h1 | h1 | ⟨file, -, -, h1⟩ |
      ⟨v, -, -, h1⟩ | h1 | h1 | h1 | h1
    · simp at h1
    · simp at h1
    · simp at h1
    · simp at h1
    · cases hp : g.platform <;> simp [NoexecVar, hp] at h1
    · simp at h1
    · unfold sudo_command at h1
      cases hu : g.user_args <;> rw [hu] at h1 <;> simp at h1
    · simp at h1
    · simp at h1
    · simp at h1


set_option maxRecDepth 100000 in
theorem filter_mode_provenance_witness :
    ∃ l, rebuild_environ sample (some ["IFS=x".toList, "SUDO_PS1=hi".toList, "A=b".toList]) none
        ⟨false, false⟩ false = some l ∧
      (∀ e ∈ l,
        (e ∈ sources (some ["IFS=x".toList, "SUDO_PS1=hi".toList, "A=b".toList]) none ∧
          var_ok sample e = some true) ∨
        FilterAddition sample ⟨false, false⟩ false
          (sources (some ["IFS=x".toList, "SUDO_PS1=hi".toList, "A=b".toList]) none) e) ∧
      ("IFS".toList ∈ sample.def_env_delete → ∀ x, "IFS=".toList ++ x ∉ l) :=
  ⟨["SUDO_PS1=hi".toList, "A=b".toList, "TERM=unknown".toList, "PATH=/usr/bin:/bin".toList,
      "PS1=hi".toList, "SUDO_COMMAND=/bin/ls -l".toList, "SUDO_USER=bob".toList,
      "SUDO_UID=1000".toList, "SUDO_GID=100".toList],
    by decide,
    filter_mode_provenance sample (some ["IFS=x".toList, "SUDO_PS1=hi".toList, "A=b".toList])
      none ⟨false, false⟩ false rfl _ (by decide)⟩

set_option maxRecDepth 100000 in
/-- C5 fails on the code: line 397 compares 8 of the 9 characters of
`SUDO_PS1=`, so in reset mode the source entry `SUDO_PS1_LD_PRELOAD=/tmp/e.so`,
which the keep list `PATH`, `TERM`, `SHELL`, `HOME` does not keep and which is
not named `SUDO_PS1`, is taken for the prompt string: the vector returned by
`rebuild_env` holds `PS1_LD_PRELOAD=/tmp/e.so`, which is neither a kept source
entry nor an entry the orchestrator synthesizes.  The filter-mode loop, which
compares 9 characters (line 464), adds no such entry on the same source. -/
theorem reset_prompt_leaks_unkept_entry :
    rebuild_environ { sample with def_env_reset := true }
        (some ["SUDO_PS1_LD_PRELOAD=/tmp/e.so".toList]) none ⟨false, false⟩ false =
      some ["HOME=/root".toList, "SHELL=/bin/bash".toList, "LOGNAME=root".toList,
        "USER=root".toList, "TERM=unknown".toList, "PATH=/usr/bin:/bin".toList,
        "PS1_LD_PRELOAD=/tmp/e.so".toList, "SUDO_COMMAND=/bin/ls -l".toList,
        "SUDO_USER=bob".toList, "SUDO_UID=1000".toList, "SUDO_GID=100".toList] ∧
    reset_keeps { sample with def_env_reset := true } "SUDO_PS1_LD_PRELOAD=/tmp/e.so".toList =
      false ∧
    ¬ Named "SUDO_PS1".toList "SUDO_PS1_LD_PRELOAD=/tmp/e.so".toList ∧
    rebuild_environ sample (some ["SUDO_PS1_LD_PRELOAD=/tmp/e.so".toList]) none
        ⟨false, false⟩ false =
      some ["SUDO_PS1_LD_PRELOAD=/tmp/e.so".toList, "TERM=unknown".toList,
        "PATH=/usr/bin:/bin".toList, "SUDO_COMMAND=/bin/ls -l".toList, "SUDO_USER=bob".toList,
        "SUDO_UID=1000".toList, "SUDO_GID=100".toList] := by
  decide

/-- In every run of `rebuild_env` that has a defined result, in both modes, if
a secure path is configured and the invoking user is not exempt, a lookup of
`PATH` in the vector returned (its first entry named `PATH`) finds the secure
path, whatever `PATH` entries the sources hold. -/
theorem secure_path_wins (g : Ctx) (envp1 envp2 : Option (List Str)) (m : sudo_mode_t)
    (nx : Bool) (sp : Str) (hsp : g.def_secure_path = some sp) (hex : g.user_is_exempt = false)
    (l : List Str) (h : rebuild_environ g envp1 envp2 m nx = some l) :
    getenv "PATH".toList l = some sp := by
  obtain ⟨st, h0, hrun, -⟩ := rebuild_environ_origin g envp1 envp2 m nx l h
  have hcmds : all_cmds g m nx st.didvar st.ps1 =
      (if g.def_env_reset then defaults_cmds g m st.didvar else []) ++
      ("PATH".toList ++ '=' :: sp, true) ::
        (logname_cmds g ++ (home_cmds g m ++ (termpath_cmds g (secure_didvar g st.didvar) ++
          (noexec_cmds g nx ++ (ps1_cmds st.ps1 ++ sudo_cmds g))))) := by
    simp [all_cmds, tail_cmds, secure_cmds, hsp, hex, fmt_one]
  rw [hcmds] at hrun
  refine run_getenv_set "PATH".toList sp (by decide) _ _ _ l ?_ hrun
  intro c hc
  rcases List.mem_append.mp hc with h1 | h1
  · exact logname_cmds_not_named g _ (by decide) (by decide) (by decide) c h1
  rcases List.mem_append.mp h1 with h2 | h2
  · exact home_cmds_not_named g m _ (by decide) (by decide) c h2
  · exact rest_not_named g nx _ st.ps1 _ (by decide)
      (fun q hq => (ps1_plain g _ st h0 q hq).2) (by decide) (by decide) (by decide) c h2


set_option maxRecDepth 100000 in
theorem secure_path_wins_witness :
    ∃ l, rebuild_environ
        { sample_secure with def_env_reset := true }
        (some ["PATH=/evil".toList]) none ⟨false, false⟩ false = some l ∧
      getenv "PATH".toList l = some "/usr/bin:/bin".toList :=
  ⟨["PATH=/usr/bin:/bin".toList, "HOME=/root".toList, "SHELL=/bin/bash".toList,
      "LOGNAME=root".toList, "USER=root".toList, "TERM=unknown".toList,
      "SUDO_COMMAND=/bin/ls -l".toList, "SUDO_USER=bob".toList, "SUDO_UID=1000".toList,
      "SUDO_GID=100".toList],
    by decide,
    secure_path_wins
      { sample_secure with def_env_reset := true }
      (some ["PATH=/evil".toList]) none ⟨false, false⟩ false "/usr/bin:/bin".toList rfl rfl _
      (by decide)⟩

set_option maxRecDepth 100000 in
/-- C6 fails on the code: in filter mode with the secure path `/usr/bin:/bin`
in force and the source `IFS=x`, `LD_PRELOAD=/tmp/e.so`, of which the deny list
`IFS`, `LD_*` lets nothing through, the insertion of `PATH` (line 477,
`dupcheck` set) is the first call of `insert_env`: its scan (line 272) reads
the vector that `erealloc3` has just handed out before any slot was written,
which is undefined, and no vector with a `PATH` entry is determined.  With one
more entry copied, and in reset mode on the same source, a lookup of `PATH`
finds the secure path. -/
theorem secure_path_scans_unwritten_vector :
    rebuild_environ sample_secure (some ["IFS=x".toList, "LD_PRELOAD=/tmp/e.so".toList]) none
        ⟨false, false⟩ false = none ∧
    insert_env "PATH=/usr/bin:/bin".toList ⟨[], 0, 0⟩ true = none ∧
    dup_scan "PATH=/usr/bin:/bin".toList 5 (erealloc3 [] 128) 0 = none ∧
    (rebuild_environ sample_secure
        (some ["IFS=x".toList, "LD_PRELOAD=/tmp/e.so".toList, "A=1".toList]) none
        ⟨false, false⟩ false).bind (getenv "PATH".toList) = some "/usr/bin:/bin".toList ∧
    (rebuild_environ { sample_secure with def_env_reset := true }
        (some ["IFS=x".toList, "LD_PRELOAD=/tmp/e.so".toList]) none
        ⟨false, false⟩ false).bind (getenv "PATH".toList) = some "/usr/bin:/bin".toList := by
  decide

/-- In every run of `rebuild_env` that has a defined result: in reset mode
with a target user that has a name, a lookup of `LOGNAME` and of `USER` in the
result finds that name; and whenever reset mode or the reset-home flag is set
and the target user has a home directory, a lookup of `HOME` finds that
directory, whatever `HOME`, `LOGNAME` or `USER` the sources supplied. -/
theorem identity_overrides_win (g : Ctx) (envp1 envp2 : Option (List Str)) (m : sudo_mode_t)
    (nx : Bool) (l : List Str) (h : rebuild_environ g envp1 envp2 m nx = some l) :
    (∀ name, g.def_env_reset = true → g.runas_pw.pw_name = some name →
      getenv "LOGNAME".toList l = some name ∧ getenv "USER".toList l = some name) ∧
    (∀ dir, (g.def_env_reset || m.reset_home) = true → g.runas_pw.pw_dir = some dir →
      getenv "HOME".toList l = some dir) := by
  obtain ⟨st, h0, hrun, -⟩ := rebuild_environ_origin g envp1 envp2 m nx l h
  have hps : ∀ q, st.ps1 = some q → "PS1".toList <+: q :=
    fun q hq => (ps1_plain g _ st h0 q hq).2
  refine ⟨fun name hr hname => ⟨?_, ?_⟩, fun dir hr hdir => ?_⟩
  · have hcmds : all_cmds g m nx st.didvar st.ps1 =
        ((if g.def_env_reset then defaults_cmds g m st.didvar else []) ++ secure_cmds g) ++
        ("LOGNAME".toList ++ '=' :: name, true) :: (("USER".toList ++ '=' :: name, true) ::
          (home_cmds g m ++ (termpath_cmds g (secure_didvar g st.didvar) ++
            (noexec_cmds g nx ++ (ps1_cmds st.ps1 ++ sudo_cmds g))))) := by
      simp [all_cmds, tail_cmds, logname_cmds, hname, hr, fmt_one]
    rw [hcmds] at hrun
    refine run_getenv_set "LOGNAME".toList name (by decide) _ _ _ l ?_ hrun
    intro c hc
    rcases List.mem_cons.mp hc with rfl | h1
    · exact fun _ => not_named_var _ _ _ (by decide) (by decide) (by decide)
    rcases List.mem_append.mp h1 with h2 | h2
    · exact home_cmds_not_named g m _ (by decide) (by decide) c h2
    · exact rest_not_named g nx _ st.ps1 _ (by decide) hps (by decide) (by decide) (by decide) c h2
  · have hcmds : all_cmds g m nx st.didvar st.ps1 =
        ((if g.def_env_reset then defaults_cmds g m st.didvar else []) ++ (secure_cmds g ++
          [("LOGNAME".toList ++ '=' :: name, true)])) ++
        ("USER".toList ++ '=' :: name, true) ::
          (home_cmds g m ++ (termpath_cmds g (secure_didvar g st.didvar) ++
            (noexec_cmds g nx ++ (ps1_cmds st.ps1 ++ sudo_cmds g)))) := by
      simp [all_cmds, tail_cmds, logname_cmds, hname, hr, fmt_one]
    rw [hcmds] at hrun
    refine run_getenv_set "USER".toList name (by decide) _ _ _ l ?_ hrun
    intro c hc
    rcases List.mem_append.mp hc with h2 | h2
    · exact home_cmds_not_named g m _ (by decide) (by decide) c h2
    · exact rest_not_named g nx _ st.ps1 _ (by decide) hps (by decide) (by decide) (by decide) c h2
  · have hcmds : all_cmds g m nx st.didvar st.ps1 =
        ((if g.def_env_reset then defaults_cmds g m st.didvar else []) ++ (secure_cmds g ++
          logname_cmds g)) ++
        ("HOME".toList ++ '=' :: dir, true) ::
          (termpath_cmds g (secure_didvar g st.didvar) ++
            (noexec_cmds g nx ++ (ps1_cmds st.ps1 ++ sudo_cmds g))) := by
      simp [all_cmds, tail_cmds, home_cmds, hdir, hr, fmt_one]
    rw [hcmds] at hrun
    refine run_getenv_set "HOME".toList dir (by decide) _ _ _ l ?_ hrun
    exact rest_not_named g nx _ st.ps1 _ (by decide) hps (by decide) (by decide) (by decide)


set_option maxRecDepth 100000 in
theorem identity_overrides_win_witness :
    ∃ l, rebuild_environ { sample with def_env_reset := true }
        (some ["HOME=/tmp".toList, "LOGNAME=x".toList, "USER=y".toList]) none
        ⟨false, false⟩ false = some l ∧
      (getenv "LOGNAME".toList l = some "root".toList ∧
        getenv "USER".toList l = some "root".toList) ∧
      getenv "HOME".toList l = some "/root".toList :=
  ⟨["HOME=/root".toList, "SHELL=/bin/bash".toList, "LOGNAME=root".toList, "USER=root".toList,
      "TERM=unknown".toList, "PATH=/usr/bin:/bin".toList, "SUDO_COMMAND=/bin/ls -l".toList,
      "SUDO_USER=bob".toList, "SUDO_UID=1000".toList, "SUDO_GID=100".toList],
    by decide,
    (identity_overrides_win { sample with def_env_reset := true }
      (some ["HOME=/tmp".toList, "LOGNAME=x".toList, "USER=y".toList]) none ⟨false, false⟩
      false _ (by decide)).1 "root".toList rfl rfl,
    (identity_overrides_win { sample with def_env_reset := true }
      (some ["HOME=/tmp".toList, "LOGNAME=x".toList, "USER=y".toList]) none ⟨false, false⟩
      false _ (by decide)).2 "/root".toList rfl rfl⟩

set_option maxRecDepth 100000 in
/-- C7 fails on the code: in filter mode with the reset-home flag set, a target
user whose home is `/root`, no secure path and the source `IFS=x`, which the
deny list does not let through, the insertion of `HOME` (line 489, `dupcheck`
set) is the first call of `insert_env` and scans the vector before any slot
was written: the behaviour is undefined and no vector in which a lookup of
`HOME` finds `/root` is determined.  With the entry `HOME=/home/bob` copied
first, the lookup finds `/root`. -/
theorem reset_home_scans_unwritten_vector :
    rebuild_environ sample (some ["IFS=x".toList]) none ⟨false, true⟩ false = none ∧
    insert_env "HOME=/root".toList ⟨[], 0, 0⟩ true = none ∧
    (rebuild_environ sample (some ["IFS=x".toList, "HOME=/home/bob".toList]) none
        ⟨false, true⟩ false).bind (getenv "HOME".toList) = some "/root".toList := by
  decide

set_option maxRecDepth 100000 in
/-- C8 fails on the code: in reset mode under the login-shell flag, with
`SHELL` in the keep list and `SHELL=/bin/evil` in the source, the vector
returned by `rebuild_env` holds the kept entry before the `SHELL=/bin/sh` of
the target user (line 440 inserts it without `dupcheck`, and nothing forces
`SHELL` later), so a lookup of `SHELL` finds `/bin/evil`; `HOME`, `LOGNAME` and
`USER` are the target user's. -/
theorem login_shell_keeps_source_shell :
    rebuild_environ { sample with def_env_reset := true } (some ["SHELL=/bin/evil".toList]) none
      ⟨true, false⟩ false =
      some ["SHELL=/bin/evil".toList, "HOME=/root".toList, "SHELL=/bin/sh".toList,
        "LOGNAME=root".toList, "USER=root".toList, "TERM=unknown".toList,
        "PATH=/usr/bin:/bin".toList, "SUDO_COMMAND=/bin/ls -l".toList, "SUDO_USER=bob".toList,
        "SUDO_UID=1000".toList, "SUDO_GID=100".toList] ∧
    getenv "SHELL".toList ["SHELL=/bin/evil".toList, "HOME=/root".toList, "SHELL=/bin/sh".toList,
        "LOGNAME=root".toList, "USER=root".toList, "TERM=unknown".toList,
        "PATH=/usr/bin:/bin".toList, "SUDO_COMMAND=/bin/ls -l".toList, "SUDO_USER=bob".toList,
        "SUDO_UID=1000".toList, "SUDO_GID=100".toList] = some "/bin/evil".toList ∧
    sample.runas_pw.pw_shell = "/bin/sh".toList := by
  decide

/-- In every run of `rebuild_env` that has a defined result, in both modes, a
lookup in the result finds for `SUDO_USER` the invoking user's name, for
`SUDO_UID` and `SUDO_GID` the decimal rendering of the invoking uid and gid,
and for `SUDO_COMMAND` the command path alone when there are no arguments, the
command path, one space and the argument string when there are; inherited
values are overridden. -/
theorem sudo_metadata_values (g : Ctx) (envp1 envp2 : Option (List Str)) (m : sudo_mode_t)
    (nx : Bool) (l : List Str) (h : rebuild_environ g envp1 envp2 m nx = some l) :
    getenv "SUDO_USER".toList l = some g.user_name ∧
    getenv "SUDO_UID".toList l = some (Nat.toDigits 10 g.user_uid) ∧
    getenv "SUDO_GID".toList l = some (Nat.toDigits 10 g.user_gid) ∧
    getenv "SUDO_COMMAND".toList l = some (match g.user_args with
      | some args => g.user_cmnd ++ ' ' :: args
      | none => g.user_cmnd) := by
  obtain ⟨st, -, hrun, -⟩ := rebuild_environ_origin g envp1 envp2 m nx l h
  obtain ⟨pre, v, hcmds, hv⟩ := all_cmds_split_sudo g m nx st.didvar st.ps1
  rw [hcmds] at hrun
  refine ⟨?_, ?_, ?_, ?_⟩
  · have hrun2 : run ((pre ++ [("SUDO_COMMAND".toList ++ '=' :: v, true)]) ++
        ("SUDO_USER".toList ++ '=' :: g.user_name, true) ::
          [("SUDO_UID".toList ++ '=' :: Nat.toDigits 10 g.user_uid, true),
           ("SUDO_GID".toList ++ '=' :: Nat.toDigits 10 g.user_gid, true)]) st.env = some l := by
      simpa using hrun
    refine run_getenv_set "SUDO_USER".toList _ (by decide) _ _ _ l ?_ hrun2
    intro c hc _
    simp only [List.mem_cons, List.mem_singleton, List.not_mem_nil, or_false] at hc
    rcases hc with rfl | rfl <;> exact not_named_var _ _ _ (by decide) (by decide) (by decide)
  · have hrun2 : run ((pre ++ [("SUDO_COMMAND".toList ++ '=' :: v, true),
          ("SUDO_USER".toList ++ '=' :: g.user_name, true)]) ++
        ("SUDO_UID".toList ++ '=' :: Nat.toDigits 10 g.user_uid, true) ::
          [("SUDO_GID".toList ++ '=' :: Nat.toDigits 10 g.user_gid, true)]) st.env = some l := by
      simpa using hrun
    refine run_getenv_set "SUDO_UID".toList _ (by decide) _ _ _ l ?_ hrun2
    intro c hc _
    simp only [List.mem_singleton] at hc
    subst hc
    exact not_named_var _ _ _ (by decide) (by decide) (by decide)
  · have hrun2 : run ((pre ++ [("SUDO_COMMAND".toList ++ '=' :: v, true),
          ("SUDO_USER".toList ++ '=' :: g.user_name, true),
          ("SUDO_UID".toList ++ '=' :: Nat.toDigits 10 g.user_uid, true)]) ++
        ("SUDO_GID".toList ++ '=' :: Nat.toDigits 10 g.user_gid, true) :: []) st.env = some l := by
      simpa using hrun
    refine run_getenv_set "SUDO_GID".toList _ (by decide) _ _ _ l ?_ hrun2
    intro c hc
    simp at hc
  · rw [← hv]
    refine run_getenv_set "SUDO_COMMAND".toList v (by decide) _ _ _ l ?_ hrun
    intro c hc _
    simp only [List.mem_cons, List.mem_singleton, List.not_mem_nil, or_false] at hc
    rcases hc with rfl | rfl | rfl <;>
      exact not_named_var _ _ _ (by decide) (by decide) (by decide)


set_option maxRecDepth 100000 in
theorem sudo_metadata_values_witness :
    ∃ l, rebuild_environ sample (some ["SUDO_USER=mallory".toList, "SUDO_UID=0".toList]) none
        ⟨false, false⟩ false = some l ∧
      getenv "SUDO_USER".toList l = some "bob".toList ∧
      getenv "SUDO_UID".toList l = some "1000".toList ∧
      getenv "SUDO_GID".toList l = some "100".toList ∧
      getenv "SUDO_COMMAND".toList l = some "/bin/ls -l".toList :=
  ⟨["SUDO_USER=bob".toList, "SUDO_UID=1000".toList, "TERM=unknown".toList,
      "PATH=/usr/bin:/bin".toList, "SUDO_COMMAND=/bin/ls -l".toList, "SUDO_GID=100".toList],
    by decide,
    sudo_metadata_values sample (some ["SUDO_USER=mallory".toList, "SUDO_UID=0".toList]) none
      ⟨false, false⟩ false _ (by decide)⟩

set_option maxRecDepth 100000 in
/-- C9 fails on the code: in filter mode with an empty source environment,
when the secure path is in force, or when the reset-home flag is set and the
target user has a home, the first call of `insert_env` is made with `dupcheck`
and scans the vector before any slot was written; the behaviour is undefined
before lines 521-533 are reached, and no vector in which the lookups of
`SUDO_USER`, `SUDO_UID`, `SUDO_GID` and `SUDO_COMMAND` find their values is
determined.  With neither in force the four lookups find `bob`, `1000`, `100`
and `/bin/ls -l`. -/
theorem sudo_metadata_after_unwritten_scan :
    rebuild_environ sample_secure (some []) none ⟨false, false⟩ false = none ∧
    rebuild_environ sample (some []) none ⟨false, true⟩ false = none ∧
    rebuild_environ sample (some []) none ⟨false, false⟩ false =
      some ["TERM=unknown".toList, "PATH=/usr/bin:/bin".toList,
        "SUDO_COMMAND=/bin/ls -l".toList, "SUDO_USER=bob".toList, "SUDO_UID=1000".toList,
        "SUDO_GID=100".toList] := by
  decide

set_option maxRecDepth 100000 in
/-- C10, as stated, fails: in reset mode with `TERM` in the keep list and the
source `TERM=`, `TERM=vt100`, the vector returned by `rebuild_env` holds two
entries named `TERM`, the first with an empty value. -/
theorem reset_mode_six_names_counterexample :
    ∃ l, rebuild_environ { sample with def_env_reset := true }
        (some ["TERM=".toList, "TERM=vt100".toList]) none ⟨false, false⟩ false = some l ∧
      count_named "TERM".toList l = 2 ∧ "TERM=".toList ∈ l :=
  ⟨["TERM=".toList, "TERM=vt100".toList, "HOME=/root".toList, "SHELL=/bin/bash".toList,
      "LOGNAME=root".toList, "USER=root".toList, "PATH=/usr/bin:/bin".toList,
      "SUDO_COMMAND=/bin/ls -l".toList, "SUDO_USER=bob".toList, "SUDO_UID=1000".toList,
      "SUDO_GID=100".toList],
    by decide, by decide, by decide⟩

/-- C10, amended: in reset mode the vector returned by `rebuild_env` contains
at least one entry named each of `HOME`, `SHELL`, `LOGNAME`, `USER`, `TERM`
and `PATH`; with the login-shell flag off it contains exactly one of each when
the sources hold at most one entry of each of these names; and no entry of
these names has an empty value when no source entry of these names has one and
the strings the code builds them from are not empty. -/
theorem reset_mode_six_names (g : Ctx) (envp1 envp2 : Option (List Str)) (m : sudo_mode_t)
    (nx : Bool) (hr : g.def_env_reset = true) (l : List Str)
    (h : rebuild_environ g envp1 envp2 m nx = some l) :
    (∀ X ∈ six_names, 1 ≤ count_named X l) ∧
    (m.login_shell = false → (∀ X ∈ six_names, count_named X (sources envp1 envp2) ≤ 1) →
      ∀ X ∈ six_names, count_named X l = 1) ∧
    (ValuesNonEmpty g m → (∀ X ∈ six_names, X ++ ['='] ∉ sources envp1 envp2) →
      ∀ X ∈ six_names, X ++ ['='] ∉ l) := by
  obtain ⟨st, h0, hrun, horig⟩ := rebuild_environ_origin g envp1 envp2 m nx l h
  have hflag := reset_flag_iff g _ st hr h0
  have hpos : ∀ X ∈ six_names, 1 ≤ count_named X l := by
    intro X hX
    obtain ⟨k, hk⟩ := six_names_flag X hX
    rw [count_run X (six_names_no_eq X hX) _ _ _ hrun]
    by_cases hc : 1 ≤ count_named X st.env
    · exact le_trans hc (foldl_cnt_ge _ _ _)
    · refine foldl_cnt_pos_of_mem _ _ _ (mem_all_cmds_named g m nx _ _ hr X k hk ?_)
      rw [hflag (X, k) hk]
      simpa using hc
  refine ⟨hpos, fun hl hsrc X hX => ?_, fun hne hsrc X hX hmem => ?_⟩
  · obtain ⟨k, hk⟩ := six_names_flag X hX
    refine le_antisymm ?_ (hpos X hX)
    rw [count_run X (six_names_no_eq X hX) _ _ _ hrun]
    exact reset_user_fold_le_one g m nx _ _ hr hl X k _ hk
      (le_trans (reset_count_le g _ st hr h0 X) (hsrc X hX)) (hflag (X, k) hk)
  · obtain ⟨n1, n2, n3, n4, n5⟩ := hne
    have key : ∀ e ∈ l, ∀ Y ∈ six_names, e ≠ Y ++ ['='] := by
      intro e he
      rcases horig e he with ⟨hs, -⟩ | ⟨c, hc, rfl⟩
      · intro Y hY heq
        exact hsrc Y hY (heq ▸ hs)
      · refine all_cmds_cases g m nx st.didvar st.ps1 (fun s => ∀ Y ∈ six_names, s ≠ Y ++ ['='])
          ?_ ?_ ?_ ?_ ?_ ?_ ?_ ?_ ?_ ?_ c hc
        · intro _ hl
          obtain ⟨a1, a2, a3⟩ := n1 hl
          exact ⟨nonempty_entry "HOME".toList _ (by decide) (Or.inl a1),
            nonempty_entry "SHELL".toList _ (by decide) (Or.inl a2),
            nonempty_entry "LOGNAME".toList _ (by decide) (Or.inl a3),
            nonempty_entry "USER".toList _ (by decide) (Or.inl a3)⟩
        · intro _ hl
          obtain ⟨a1, a2, a3⟩ := n2 hl
          exact ⟨fun _ => nonempty_entry "HOME".toList _ (by decide) (Or.inl a1),
            fun _ => nonempty_entry "SHELL".toList _ (by decide) (Or.inl a2),
            fun _ => nonempty_entry "LOGNAME".toList _ (by decide) (Or.inl a3),
            fun _ => nonempty_entry "USER".toList _ (by decide) (Or.inl a3)⟩
        · intro sp hsp _
          exact nonempty_entry "PATH".toList _ (by decide) (Or.inl (n3 sp hsp))
        · intro name hname _
          exact ⟨nonempty_entry "LOGNAME".toList _ (by decide) (Or.inl (n4 name hname)),
            nonempty_entry "USER".toList _ (by decide) (Or.inl (n4 name hname))⟩
        · intro dir hdir _
          exact nonempty_entry "HOME".toList _ (by decide) (Or.inl (n5 dir hdir))
        · intro _
          exact nonempty_entry "TERM".toList "unknown".toList (by decide) (Or.inl (by decide))
        · intro _
          refine nonempty_entry "PATH".toList _ (by decide) (Or.inl ?_)
          intro hnil
          have hnil2 : g.PATH_DEFPATH = [] := hnil
          have := g.PATH_DEFPATH_abs
          rw [hnil2] at this
          cases this
        · intro file _ _
          exact ⟨fun _ => ⟨nonempty_entry "DYLD_INSERT_LIBRARIES".toList _ (by decide)
              (Or.inr (by decide)),
              nonempty_entry "DYLD_FORCE_FLAT_NAMESPACE".toList [] (by decide)
                (Or.inr (by decide))⟩,
            fun _ => by
              have := nonempty_entry "_RLD_LIST".toList (file ++ ":DEFAULT".toList) (by decide)
                (Or.inr (by decide))
              simpa using this,
            fun _ => nonempty_entry "LD_PRELOAD".toList _ (by decide) (Or.inr (by decide))⟩
        · intro q hq Y hY heq
          have hpre := (ps1_plain g _ st h0 q hq).2
          rw [heq] at hpre
          have hdec : ∀ Z ∈ six_names, ¬ "PS1".toList <+: Z ++ ['='] := by decide
          exact hdec Y hY hpre
        · refine ⟨?_, nonempty_entry "SUDO_USER".toList _ (by decide) (Or.inr (by decide)),
            nonempty_entry "SUDO_UID".toList _ (by decide) (Or.inr (by decide)),
            nonempty_entry "SUDO_GID".toList _ (by decide) (Or.inr (by decide))⟩
          obtain ⟨v, hv, -⟩ := sudo_command_eq g
          rw [hv]
          exact nonempty_entry "SUDO_COMMAND".toList v (by decide) (Or.inr (by decide))
    exact key _ hmem X hX rfl

theorem sample_nonempty : ValuesNonEmpty { sample with def_env_reset := true } ⟨false, false⟩ := by
  refine ⟨fun h => (by cases h), fun _ => ⟨by decide, by decide, by decide⟩, ?_, ?_, ?_⟩
  · intro v hv; cases hv
  · intro v hv; cases hv; decide
  · intro v hv; cases hv; decide

set_option maxRecDepth 100000 in
theorem reset_mode_six_names_witness :
    ∃ l, rebuild_environ { sample with def_env_reset := true } (some ["TERM=vt100".toList]) none
        ⟨false, false⟩ false = some l ∧
      (∀ X ∈ six_names, 1 ≤ count_named X l) ∧
      (∀ X ∈ six_names, count_named X l = 1) ∧
      (∀ X ∈ six_names, X ++ ['='] ∉ l) :=
  ⟨["TERM=vt100".toList, "HOME=/root".toList, "SHELL=/bin/bash".toList, "LOGNAME=root".toList,
      "USER=root".toList, "PATH=/usr/bin:/bin".toList, "SUDO_COMMAND=/bin/ls -l".toList,
      "SUDO_USER=bob".toList, "SUDO_UID=1000".toList, "SUDO_GID=100".toList],
    by decide,
    (reset_mode_six_names { sample with def_env_reset := true } (some ["TERM=vt100".toList]) none
      ⟨false, false⟩ false rfl _ (by decide)).1,
    (reset_mode_six_names { sample with def_env_reset := true } (some ["TERM=vt100".toList]) none
      ⟨false, false⟩ false rfl _ (by decide)).2.1 rfl (by decide),
    (reset_mode_six_names { sample with def_env_reset := true } (some ["TERM=vt100".toList]) none
      ⟨false, false⟩ false rfl _ (by decide)).2.2 sample_nonempty (by decide)⟩

set_option maxRecDepth 100000 in
/-- C11, as stated, fails: in filter mode with the source `SUDO_USER=a`,
`SUDO_USER=b`, the vector returned by `rebuild_env` holds two entries named
`SUDO_USER` (the first is replaced, the second is copied as it is).  And in
filter mode with the secure path `/usr/bin:/bin` in force and the source
`IFS=x`, which the deny list does not let through, the first insertion scans
the vector before any slot was written, and no vector is determined. -/
theorem sudo_metadata_once_counterexample :
    (∃ l, rebuild_environ sample (some ["SUDO_USER=a".toList, "SUDO_USER=b".toList]) none
        ⟨false, false⟩ false = some l ∧
      count_named "SUDO_USER".toList l = 2 ∧ "SUDO_USER=b".toList ∈ l) ∧
    rebuild_environ sample_secure (some ["IFS=x".toList]) none ⟨false, false⟩ false = none :=
  ⟨⟨["SUDO_USER=bob".toList, "SUDO_USER=b".toList, "TERM=unknown".toList,
      "PATH=/usr/bin:/bin".toList, "SUDO_COMMAND=/bin/ls -l".toList, "SUDO_UID=1000".toList,
      "SUDO_GID=100".toList],
    by decide, by decide, by decide⟩, by decide⟩

/-- C11, amended: in both modes, when no pattern of the lists the mode reads is
empty, every source entry contains `=` and, in filter mode, some source entry
is copied or no insertion with `dupcheck` comes before `TERM=unknown` (no
secure path in force and no `HOME` to force), `rebuild_env` returns a vector
that contains at least one entry named each of `SUDO_USER`, `SUDO_UID`,
`SUDO_GID` and `SUDO_COMMAND`, and exactly one of a name of which the sources
hold at most one entry. -/
theorem sudo_metadata_once (g : Ctx) (envp1 envp2 : Option (List Str)) (m : sudo_mode_t)
    (nx : Bool)
    (hkeep : g.def_env_reset = true → ∀ p ∈ g.def_env_keep, p ≠ [])
    (hdeny : g.def_env_reset = false →
      (∀ p ∈ g.def_env_delete, p ≠ []) ∧ ∀ p ∈ g.def_env_check, p ≠ [])
    (hsrc : ∀ e ∈ sources envp1 envp2, '=' ∈ e)
    (hfilter : g.def_env_reset = false →
      (∃ e ∈ sources envp1 envp2, var_ok g e = some true) ∨
      (secure_active g = false ∧ (g.runas_pw.pw_dir = none ∨ m.reset_home = false))) :
    ∃ l, rebuild_environ g envp1 envp2 m nx = some l ∧
      ∀ X ∈ sudo_names, 1 ≤ count_named X l ∧
        (count_named X (sources envp1 envp2) ≤ 1 → count_named X l = 1) := by
  obtain ⟨l, h⟩ := rebuild_environ_defined g envp1 envp2 m nx hkeep hdeny hsrc hfilter
  exact ⟨l, h, sudo_count_of_defined g envp1 envp2 m nx l h⟩

set_option maxRecDepth 100000 in
theorem sudo_metadata_once_witness :
    (∀ e ∈ sources (some ["SUDO_USER=mallory".toList]) none, '=' ∈ e) ∧
    (∃ e ∈ sources (some ["SUDO_USER=mallory".toList]) none, var_ok sample e = some true) ∧
    ∃ l, rebuild_environ sample (some ["SUDO_USER=mallory".toList]) none
        ⟨false, false⟩ false = some l ∧
      ∀ X ∈ sudo_names, 1 ≤ count_named X l ∧
        (count_named X (sources (some ["SUDO_USER=mallory".toList]) none) ≤ 1 →
          count_named X l = 1) :=
  ⟨by decide, by decide,
    sudo_metadata_once sample (some ["SUDO_USER=mallory".toList]) none ⟨false, false⟩ false
      (by decide) (by decide) (by decide) (by decide)⟩

/-- C12: in reset mode with the login-shell flag off and no secure path in
force, when a pattern of the keep list matches `PATH` and `PATH=v` is the first
source entry for `PATH` whose value does not begin with `()`, a lookup of
`PATH` in the result of `rebuild_env` finds `v`, and the result holds as many
entries for `PATH` as were kept (the default `PATH` is not added); it holds as
many entries for `TERM` as were kept when one was kept (`TERM=unknown` is not
added), and one entry for `TERM` when none was. -/
theorem explicit_values_honored (g : Ctx) (envp1 envp2 : Option (List Str)) (m : sudo_mode_t)
    (nx : Bool) (pre post : List Str) (v : Str) (l : List Str)
    (hr : g.def_env_reset = true) (hl : m.login_shell = false) (hsec : secure_active g = false)
    (hkeep : ∃ p ∈ g.def_env_keep, SpecMatch p "PATH".toList)
    (hsrc : sources envp1 envp2 = pre ++ ("PATH".toList ++ '=' :: v) :: post)
    (hpre : ∀ e ∈ pre, Named "PATH".toList e → "()".toList <+: e.drop 5)
    (hv : ¬ "()".toList <+: v)
    (h : rebuild_environ g envp1 envp2 m nx = some l) :
    getenv "PATH".toList l = some v ∧
    count_named "PATH".toList l =
      count_named "PATH".toList ((sources envp1 envp2).filter (reset_keeps g)) ∧
    (1 ≤ count_named "TERM".toList ((sources envp1 envp2).filter (reset_keeps g)) →
      count_named "TERM".toList l =
        count_named "TERM".toList ((sources envp1 envp2).filter (reset_keeps g))) ∧
    (count_named "TERM".toList ((sources envp1 envp2).filter (reset_keeps g)) = 0 →
      count_named "TERM".toList l = 1) := by
  obtain ⟨st, h0, hrun, -⟩ := rebuild_environ_origin g envp1 envp2 m nx l h
  obtain ⟨hst, hdef⟩ := loop_locals_reset g _ st hr h0
  have henv : st.env = (sources envp1 envp2).filter (reset_keeps g) := by
    rw [hst]; simp [reset_locals]
  have hps : ∀ q, st.ps1 = some q → "PS1".toList <+: q :=
    fun q hq => (ps1_plain g _ st h0 q hq).2
  have hflag := reset_flag_iff g _ st hr h0
  have hnf : is_bash_function ("PATH".toList ++ '=' :: v) = false := by
    rw [is_bash_function_entry _ _ (by decide)]
    simpa using hv
  have hkept : reset_keeps g ("PATH".toList ++ '=' :: v) = true := by
    have hd := hdef ("PATH".toList ++ '=' :: v) (by rw [hsrc]; simp)
    simp only [reset_defined, hnf, Bool.false_or] at hd
    obtain ⟨b, hb⟩ := Option.isSome_iff_exists.mp hd
    have hb2 := keep_loop_of_specMatch _ _ _ b hkeep hb
    subst hb2
    unfold reset_keeps
    rw [hnf, hb]
    rfl
  have hget : getenv "PATH".toList st.env = some v := by
    rw [henv, hsrc, getenv_filter_first "PATH".toList _ pre post _ ?_ hkept ⟨v, by simp⟩]
    · simp
    · intro x hx hn
      obtain ⟨w, rfl⟩ := hn
      have hw : "()".toList <+: w := by
        have := hpre _ hx ⟨w, rfl⟩
        simpa using this
      have : is_bash_function ("PATH".toList ++ '=' :: w) = true := by
        rw [is_bash_function_entry _ _ (by decide)]
        simpa using hw
      have h2 : "PATH".toList ++ ['='] ++ w = "PATH".toList ++ '=' :: w := by simp
      rw [h2]
      unfold reset_keeps
      rw [this]
      rfl
  have hcnt : 1 ≤ count_named "PATH".toList st.env := by
    rw [count_named_pos_iff, henv]
    exact ⟨_, List.mem_filter.mpr ⟨by rw [hsrc]; simp, hkept⟩, ⟨v, by simp⟩⟩
  have hdup := all_cmds_dup_not_path g m nx st.didvar st.ps1 hps
  have hfP : ISSET st.didvar (2 ^ 1) = decide (1 ≤ count_named "PATH".toList st.env) :=
    hflag ("PATH".toList, 1) (by decide)
  have hfT : ISSET st.didvar (2 ^ 0) = decide (1 ≤ count_named "TERM".toList st.env) :=
    hflag ("TERM".toList, 0) (by decide)
  rw [← DID_PATH_eq] at hfP
  rw [← DID_TERM_eq] at hfT
  rw [← henv]
  refine ⟨run_getenv_preserved _ (by decide) _ _ _ v (hdup.1 hsec) hget hrun, ?_, ?_, ?_⟩
  · rw [count_run _ (by decide) _ _ _ hrun, reset_user_fold_path g m nx _ _ hr hl hsec hps,
      if_pos (hfP.trans (decide_eq_true hcnt))]
  · intro hk
    rw [count_run _ (by decide) _ _ _ hrun, reset_user_fold_term g m nx _ _ hr hl hps,
      if_pos (hfT.trans (decide_eq_true hk))]
  · intro hk
    have hT : ISSET st.didvar DID_TERM = false := hfT.trans (decide_eq_false (by omega))
    rw [count_run _ (by decide) _ _ _ hrun, reset_user_fold_term g m nx _ _ hr hl hps,
      if_neg (by rw [hT]; exact Bool.false_ne_true), hk]

set_option maxRecDepth 100000 in
theorem explicit_values_honored_witness :
    ∃ l, rebuild_environ { sample with def_env_reset := true }
        (some ["PATH=() x".toList, "PATH=/custom/bin".toList, "TERM=vt100".toList,
          "PATH=/other".toList]) none ⟨false, false⟩ false = some l ∧
      getenv "PATH".toList l = some "/custom/bin".toList ∧
      count_named "PATH".toList l = 2 ∧ count_named "TERM".toList l = 1 :=
  ⟨["PATH=/custom/bin".toList, "TERM=vt100".toList, "PATH=/other".toList, "HOME=/root".toList,
      "SHELL=/bin/bash".toList, "LOGNAME=root".toList, "USER=root".toList,
      "SUDO_COMMAND=/bin/ls -l".toList, "SUDO_USER=bob".toList, "SUDO_UID=1000".toList,
      "SUDO_GID=100".toList],
    by decide,
    (explicit_values_honored { sample with def_env_reset := true }
      (some ["PATH=() x".toList, "PATH=/custom/bin".toList, "TERM=vt100".toList,
        "PATH=/other".toList]) none ⟨false, false⟩ false ["PATH=() x".toList]
      ["TERM=vt100".toList, "PATH=/other".toList] "/custom/bin".toList _ rfl rfl rfl
      ⟨"PATH".toList, by decide, by decide⟩ rfl (by decide) (by decide) (by decide)).1,
    by decide, by decide⟩

set_option maxRecDepth 100000 in
/-- C13 fails on the code: the reset-mode loop compares only 8 characters of
the entry with `SUDO_PS1=` (line 397), so an entry whose name merely starts
with `SUDO_PS1` is captured.  With the source `SUDO_PS1=good`,
`SUDO_PS1X=evil` the last capture is `PS1X=evil`: the vector returned by
`rebuild_env` holds `PS1X=evil`, taken from an entry that is not named
`SUDO_PS1`, and it does not hold `PS1=good`, though the entry named `SUDO_PS1`
has the value `good`; with the source `SUDO_PS1X=evil` alone the prompt step
still inserts `PS1X=evil`.  The filter-mode loop compares 9 characters (line 464) and
yields `PS1=good` on the same source. -/
theorem reset_prompt_captures_longer_names :
    rebuild_environ { sample with def_env_reset := true }
        (some ["SUDO_PS1=good".toList, "SUDO_PS1X=evil".toList]) none ⟨false, false⟩ false =
      some ["HOME=/root".toList, "SHELL=/bin/bash".toList, "LOGNAME=root".toList,
        "USER=root".toList, "TERM=unknown".toList, "PATH=/usr/bin:/bin".toList,
        "PS1X=evil".toList, "SUDO_COMMAND=/bin/ls -l".toList, "SUDO_USER=bob".toList,
        "SUDO_UID=1000".toList, "SUDO_GID=100".toList] ∧
    rebuild_environ { sample with def_env_reset := true }
        (some ["SUDO_PS1X=evil".toList]) none ⟨false, false⟩ false =
      some ["HOME=/root".toList, "SHELL=/bin/bash".toList, "LOGNAME=root".toList,
        "USER=root".toList, "TERM=unknown".toList, "PATH=/usr/bin:/bin".toList,
        "PS1X=evil".toList, "SUDO_COMMAND=/bin/ls -l".toList, "SUDO_USER=bob".toList,
        "SUDO_UID=1000".toList, "SUDO_GID=100".toList] ∧
    rebuild_environ sample
        (some ["SUDO_PS1=good".toList, "SUDO_PS1X=evil".toList]) none ⟨false, false⟩ false =
      some ["SUDO_PS1=good".toList, "SUDO_PS1X=evil".toList, "TERM=unknown".toList,
        "PATH=/usr/bin:/bin".toList, "PS1=good".toList, "SUDO_COMMAND=/bin/ls -l".toList,
        "SUDO_USER=bob".toList, "SUDO_UID=1000".toList, "SUDO_GID=100".toList] := by
  decide

set_option maxRecDepth 100000 in
/-- C14, as stated, fails.  In reset mode with the keep list `PATH`, `TERM`,
`SHELL`, `HOME` and the source `SUDO_PS1=x`, the result holds `PS1=x`; run
again on that result, `rebuild_env` finds no `SUDO_PS1` entry and keeps no
`PS1` entry, so the second result does not hold `PS1=x`.  In filter mode with
the check list `PATH`, the secure path `/usr/bin:/bin` and the source `PATH=a`,
`PATH=b`, the result holds `PATH=/usr/bin:/bin`, `PATH=b`; run again, the
first of the two is not copied (its value holds `/`) and the secure path
replaces `PATH=b`, which the second result does not hold.  In filter mode
with the deny list `TERM`, `SUDO_*`, the check list `PATH`, the secure path
`/usr/bin:/bin` and the source `PATH=`, the first run has a result, of which
the second run copies no entry: its first insertion, of the secure path with
`dupcheck`, reads the slots of the vector `erealloc3` has just handed out, and
the run has no defined result. -/
theorem rebuild_idempotent_counterexample :
    (∃ R R2, rebuild_environ { sample with def_env_reset := true }
        (some ["SUDO_PS1=x".toList]) none ⟨false, false⟩ false = some R ∧
      rebuild_environ { sample with def_env_reset := true } (some R) none ⟨false, false⟩ false =
        some R2 ∧
      "PS1=x".toList ∈ R ∧ "PS1=x".toList ∉ R2) ∧
    (∃ R R2, rebuild_environ { sample_secure with def_env_check := ["PATH".toList] }
        (some ["PATH=a".toList, "PATH=b".toList]) none ⟨false, false⟩ false = some R ∧
      rebuild_environ { sample_secure with def_env_check := ["PATH".toList] } (some R) none
        ⟨false, false⟩ false = some R2 ∧
      "PATH=b".toList ∈ R ∧ "PATH=b".toList ∉ R2) ∧
    ∃ R, rebuild_environ
        { sample_secure with
          def_env_delete := ["TERM".toList, "SUDO_*".toList],
          def_env_check := ["PATH".toList] }
        (some ["PATH=".toList]) none ⟨false, false⟩ false = some R ∧
      rebuild_environ
        { sample_secure with
          def_env_delete := ["TERM".toList, "SUDO_*".toList],
          def_env_check := ["PATH".toList] }
        (some R) none ⟨false, false⟩ false = none :=
  ⟨⟨["HOME=/root".toList, "SHELL=/bin/bash".toList, "LOGNAME=root".toList, "USER=root".toList,
      "TERM=unknown".toList, "PATH=/usr/bin:/bin".toList, "PS1=x".toList,
      "SUDO_COMMAND=/bin/ls -l".toList, "SUDO_USER=bob".toList, "SUDO_UID=1000".toList,
      "SUDO_GID=100".toList],
    ["HOME=/root".toList, "SHELL=/bin/bash".toList, "TERM=unknown".toList,
      "PATH=/usr/bin:/bin".toList, "LOGNAME=root".toList, "USER=root".toList,
      "SUDO_COMMAND=/bin/ls -l".toList, "SUDO_USER=bob".toList, "SUDO_UID=1000".toList,
      "SUDO_GID=100".toList],
    by decide, by decide, by decide, by decide⟩,
   ⟨["PATH=/usr/bin:/bin".toList, "PATH=b".toList, "TERM=unknown".toList,
      "SUDO_COMMAND=/bin/ls -l".toList, "SUDO_USER=bob".toList, "SUDO_UID=1000".toList,
      "SUDO_GID=100".toList],
    ["PATH=/usr/bin:/bin".toList, "TERM=unknown".toList,
      "SUDO_COMMAND=/bin/ls -l".toList, "SUDO_USER=bob".toList, "SUDO_UID=1000".toList,
      "SUDO_GID=100".toList],
    by decide, by decide, by decide, by decide⟩,
   ⟨["PATH=/usr/bin:/bin".toList, "TERM=unknown".toList,
      "SUDO_COMMAND=/bin/ls -l".toList, "SUDO_USER=bob".toList, "SUDO_UID=1000".toList,
      "SUDO_GID=100".toList],
    by decide, by decide⟩⟩

/-- C14, amended: for every mode, login-shell flag included, and every policy
and pair of sources such that no pattern of the lists the mode reads is empty,
every source entry contains `=`, no two source entries share a name, in reset
mode the keep list keeps every source entry that passes the exported-function
guard and agrees with `SUDO_PS1=` on 8 characters, and in filter mode some
source entry is copied or no insertion with `dupcheck` comes before
`TERM=unknown` (no secure path in force and no `HOME` to force): `rebuild_env`
returns a vector `R`; and when, in filter mode, the same holds of `R` (some
entry of `R` is copied, or no such insertion comes first), `rebuild_env` run
under the same policy and mode with `R` as the sole source returns a vector
with the same strings as `R`. -/
theorem rebuild_idempotent (g : Ctx) (envp1 envp2 : Option (List Str)) (m : sudo_mode_t)
    (nx : Bool)
    (hkeep : g.def_env_reset = true → ∀ p ∈ g.def_env_keep, p ≠ [])
    (hdeny : g.def_env_reset = false →
      (∀ p ∈ g.def_env_delete, p ≠ []) ∧ ∀ p ∈ g.def_env_check, p ≠ [])
    (hsrc : ∀ e ∈ sources envp1 envp2, '=' ∈ e) (huniq : UniqueNames (sources envp1 envp2))
    (hps : g.def_env_reset = true → ∀ e ∈ sources envp1 envp2,
      strncmp e "SUDO_PS1=".toList 8 = 0 → is_bash_function e = true ∨ reset_keeps g e = true)
    (hfilter : g.def_env_reset = false →
      (∃ e ∈ sources envp1 envp2, var_ok g e = some true) ∨
      (secure_active g = false ∧ (g.runas_pw.pw_dir = none ∨ m.reset_home = false))) :
    ∃ R, rebuild_environ g envp1 envp2 m nx = some R ∧
      ((g.def_env_reset = false →
          (∃ e ∈ R, var_ok g e = some true) ∨
          (secure_active g = false ∧ (g.runas_pw.pw_dir = none ∨ m.reset_home = false))) →
        ∃ R2, rebuild_environ g (some R) none m nx = some R2 ∧ ∀ e, e ∈ R2 ↔ e ∈ R) := by
  obtain ⟨R, h1⟩ := rebuild_environ_defined g envp1 envp2 m nx hkeep hdeny hsrc hfilter
  refine ⟨R, h1, fun hcopy => ?_⟩
  have hsR : sources (some R) none = R := by simp [sources]
  obtain ⟨R2, h2⟩ := rebuild_environ_defined g (some R) none m nx hkeep hdeny
    (by rw [hsR]; exact rebuild_environ_have_eq g envp1 envp2 m nx hsrc R h1)
    (by rw [hsR]; exact hcopy)
  exact ⟨R2, h2, rerun_same g envp1 envp2 m nx hsrc huniq hps R R2 h1 h2⟩

set_option maxRecDepth 100000 in
theorem rebuild_idempotent_witness :
    (∃ R2, rebuild_environ
        { sample with
          def_env_reset := true,
          def_env_keep := ["HOME".toList, "SHELL".toList, "SUDO_PS1".toList] }
        (some ["HOME=/root".toList, "SHELL=/bin/zsh".toList, "SUDO_PS1=p".toList,
          "HOME=/root".toList, "SHELL=/bin/sh".toList, "LOGNAME=root".toList, "USER=root".toList,
          "TERM=unknown".toList, "PATH=/usr/bin:/bin".toList, "PS1=p".toList,
          "SUDO_COMMAND=/bin/ls -l".toList, "SUDO_USER=bob".toList, "SUDO_UID=1000".toList,
          "SUDO_GID=100".toList]) none ⟨true, false⟩ false = some R2 ∧
      ∀ e, e ∈ R2 ↔ e ∈ ["HOME=/root".toList, "SHELL=/bin/zsh".toList, "SUDO_PS1=p".toList,
          "HOME=/root".toList, "SHELL=/bin/sh".toList, "LOGNAME=root".toList, "USER=root".toList,
          "TERM=unknown".toList, "PATH=/usr/bin:/bin".toList, "PS1=p".toList,
          "SUDO_COMMAND=/bin/ls -l".toList, "SUDO_USER=bob".toList, "SUDO_UID=1000".toList,
          "SUDO_GID=100".toList]) ∧
    ∃ R2, rebuild_environ sample_secure
        (some ["A=1".toList, "SUDO_PS1=x".toList, "PATH=/usr/bin:/bin".toList,
          "HOME=/root".toList, "TERM=unknown".toList, "PS1=x".toList,
          "SUDO_COMMAND=/bin/ls -l".toList, "SUDO_USER=bob".toList, "SUDO_UID=1000".toList,
          "SUDO_GID=100".toList]) none ⟨false, true⟩ false = some R2 ∧
      ∀ e, e ∈ R2 ↔ e ∈ ["A=1".toList, "SUDO_PS1=x".toList, "PATH=/usr/bin:/bin".toList,
          "HOME=/root".toList, "TERM=unknown".toList, "PS1=x".toList,
          "SUDO_COMMAND=/bin/ls -l".toList, "SUDO_USER=bob".toList, "SUDO_UID=1000".toList,
          "SUDO_GID=100".toList] := by
  constructor
  · obtain ⟨R, hR, hin⟩ := rebuild_idempotent
      { sample with
        def_env_reset := true,
        def_env_keep := ["HOME".toList, "SHELL".toList, "SUDO_PS1".toList] }
      (some ["HOME=/x".toList, "SHELL=/bin/zsh".toList, "SUDO_PS1=p".toList, "A=1".toList]) none
      ⟨true, false⟩ false (by decide) (by decide) (by decide) (by decide) (by decide) (by decide)
    have hc : rebuild_environ
        { sample with
          def_env_reset := true,
          def_env_keep := ["HOME".toList, "SHELL".toList, "SUDO_PS1".toList] }
        (some ["HOME=/x".toList, "SHELL=/bin/zsh".toList, "SUDO_PS1=p".toList, "A=1".toList])
        none ⟨true, false⟩ false =
        some ["HOME=/root".toList, "SHELL=/bin/zsh".toList, "SUDO_PS1=p".toList,
          "HOME=/root".toList, "SHELL=/bin/sh".toList, "LOGNAME=root".toList, "USER=root".toList,
          "TERM=unknown".toList, "PATH=/usr/bin:/bin".toList, "PS1=p".toList,
          "SUDO_COMMAND=/bin/ls -l".toList, "SUDO_USER=bob".toList, "SUDO_UID=1000".toList,
          "SUDO_GID=100".toList] := by decide
    have hRe := Option.some.inj (hR.symm.trans hc)
    subst hRe
    exact hin (fun h => absurd h (by decide))
  · obtain ⟨R, hR, hin⟩ := rebuild_idempotent sample_secure
      (some ["A=1".toList, "SUDO_PS1=x".toList, "PATH=/opt/bin".toList]) none
      ⟨false, true⟩ false (by decide) (by decide) (by decide) (by decide) (by decide)
      (fun _ => Or.inl (by decide))
    have hc : rebuild_environ sample_secure
        (some ["A=1".toList, "SUDO_PS1=x".toList, "PATH=/opt/bin".toList]) none
        ⟨false, true⟩ false =
        some ["A=1".toList, "SUDO_PS1=x".toList, "PATH=/usr/bin:/bin".toList,
          "HOME=/root".toList, "TERM=unknown".toList, "PS1=x".toList,
          "SUDO_COMMAND=/bin/ls -l".toList, "SUDO_USER=bob".toList, "SUDO_UID=1000".toList,
          "SUDO_GID=100".toList] := by decide
    have hRe := Option.some.inj (hR.symm.trans hc)
    subst hRe
    exact hin (fun _ => Or.inl (by decide))

set_option maxRecDepth 100000 in
/-- C15 fails on the code: `memmove(ep, ep + 1, end - ep)` (line 194) is given
the number of slots up to `end` as its number of bytes.  On the vector
`{"IFS=x", "A=1", NULL}` with `IFS` denied and pointers of 8 bytes, `var_ok`
accepts only `A=1`, and the one `memmove` made copies 2 bytes: the first slot
becomes a second pointer to `A=1` and nothing else moves, so the vector is left
as `{"A=1", "A=1", NULL}`, of its old length, while `IFS=x` is returned as
pruned; whatever the fuel, the run does not leave `{"A=1", NULL}`.  With `A`
denied instead, the one byte moved turns the second slot into a pointer to no
string, which the loop then dereferences. -/
theorem clean_env_moves_bytes_not_slots :
    ["IFS=x".toList, "A=1".toList].filter
      (fun e => var_ok (Ctx.ofLists ["IFS".toList] []) e == some true) = ["A=1".toList] ∧
    memmove sample_vector 0 8 2 =
      some ([0x16, 0x1f, 0x3e, 0x5a, 0xfc, 0x7f, 0, 0] ++ ([0x16, 0x1f, 0x3e, 0x5a, 0xfc, 0x7f, 0, 0] ++
        [0, 0, 0, 0, 0, 0, 0, 0])) ∧
    clean_env_strings 8 sample_heap (Ctx.ofLists ["IFS".toList] []) ⟨none, none, none, none⟩
      4 sample_vector = some (["A=1".toList, "A=1".toList], ["IFS=x".toList]) ∧
    (∀ fuel, clean_env_strings 8 sample_heap (Ctx.ofLists ["IFS".toList] [])
      ⟨none, none, none, none⟩ fuel sample_vector ≠ some (["A=1".toList], ["IFS=x".toList])) ∧
    (∀ fuel, clean_env 8 sample_heap (Ctx.ofLists ["A".toList] []) ⟨none, none, none, none⟩
      fuel sample_vector = none) := by
  refine ⟨by decide, by decide, by decide, fun fuel => ?_, fun fuel => ?_⟩
  · rcases fuel with _ | _ | _ | _ | k
    · decide
    · decide
    · decide
    · decide
    · rw [clean_env_sample_run k]
      decide
  · rcases fuel with _ | _ | _ | k
    · decide
    · decide
    · decide
    · exact clean_env_sample_last k

/-- C16: on a builder whose vector holds the `env_len` entries `l`, then
`NULL`, with `env_size` the number of its slots, `insert_env` of a string
`name=value` has a result.  With `dupcheck` set and an entry for `name` among
`l`, the first such entry is overwritten in place, the other slots of the
vector and `env_len` are unchanged (slots may be added at the end); otherwise
the string is stored at index `env_len`, the entries before it are unchanged
and `env_len` grows by one.  In both cases `NULL` follows the last entry and
`env_len + 1 <= env_size`, the number of slots. -/
theorem insert_env_contract (e : environment) (l : List Str) (rest : List Slot)
    (name value : Str) (dupcheck : Bool)
    (hv : e.envp = l.map Slot.ptr ++ Slot.null :: rest) (hlen : e.env_len = l.length)
    (hsize : e.env_size = e.envp.length) (hname : '=' ∉ name) :
    ∃ e2, insert_env (name ++ '=' :: value) e dupcheck = some e2 ∧
      e2.env_size = e2.envp.length ∧ e2.env_len + 1 ≤ e2.env_size ∧
      ((dupcheck = true ∧ ∃ l1 s l2, l = l1 ++ s :: l2 ∧ (∀ x ∈ l1, ¬ Named name x) ∧
          Named name s ∧ e2.env_len = e.env_len ∧
          ∃ extra, e2.envp =
            (l1 ++ (name ++ '=' :: value) :: l2).map Slot.ptr ++ Slot.null :: (rest ++ extra)) ∨
       ((dupcheck = false ∨ ∀ x ∈ l, ¬ Named name x) ∧ e2.env_len = e.env_len + 1 ∧
          ∃ rest2, e2.envp =
            (l ++ [name ++ '=' :: value]).map Slot.ptr ++ Slot.null :: rest2)) := by
  obtain ⟨r, rest2, extra, hg, hextra⟩ := grown_vector e l rest hv hlen hsize
  have hl : l.length = (l.map Slot.ptr).length := by simp
  have happ : insert_at ⟨l.map Slot.ptr ++ Slot.null :: r :: rest2,
      (l.map Slot.ptr ++ Slot.null :: r :: rest2).length, l.length⟩ l.length
        (name ++ '=' :: value) =
      some ⟨l.map Slot.ptr ++ Slot.ptr (name ++ '=' :: value) :: Slot.null :: rest2,
        (l.map Slot.ptr ++ Slot.null :: r :: rest2).length, l.length + 1⟩ := by
    have := insert_at_shape (l.map Slot.ptr) Slot.null r rest2
      (l.map Slot.ptr ++ Slot.null :: r :: rest2).length l.length (name ++ '=' :: value)
    rw [← hl] at this
    exact this
  cases dupcheck with
  | false =>
    refine ⟨⟨l.map Slot.ptr ++ Slot.ptr (name ++ '=' :: value) :: Slot.null :: rest2,
      (l.map Slot.ptr ++ Slot.null :: r :: rest2).length, l.length + 1⟩, ?_, ?_, ?_,
      Or.inr ⟨Or.inl rfl, ?_, rest2, ?_⟩⟩
    · unfold insert_env
      simp only [hg, Bool.false_eq_true, if_false]
      exact happ
    · simp
    · simp
      omega
    · simp [hlen]
    · simp
  | true =>
    have hscan : insert_env (name ++ '=' :: value) e true =
        match dup_scan (name ++ '=' :: value) (name.length + 1)
            (l.map Slot.ptr ++ Slot.null :: r :: rest2) 0 with
        | none => none
        | some (true, k) =>
          match store (l.map Slot.ptr ++ Slot.null :: r :: rest2) k
              (Slot.ptr (name ++ '=' :: value)) with
          | none => none
          | some v => some ⟨v, (l.map Slot.ptr ++ Slot.null :: r :: rest2).length, l.length⟩
        | some (false, k) =>
          insert_at ⟨l.map Slot.ptr ++ Slot.null :: r :: rest2,
            (l.map Slot.ptr ++ Slot.null :: r :: rest2).length, l.length⟩ k
              (name ++ '=' :: value) := by
      unfold insert_env
      simp only [hg, if_true, strchr_append_cons name value '=' hname]
      try rfl
    rcases first_split (fun x => strncmp (name ++ '=' :: value) x (name.length + 1) == 0) l with
      hnone | ⟨l1, s, l2, rfl, h1, h2⟩
    · have hno : ∀ x ∈ l, ¬ Named name x := by
        intro x hx hn
        have := hnone x hx
        rw [(dup_test_iff name value x).mpr hn] at this
        cases this
      refine ⟨⟨l.map Slot.ptr ++ Slot.ptr (name ++ '=' :: value) :: Slot.null :: rest2,
      (l.map Slot.ptr ++ Slot.null :: r :: rest2).length, l.length + 1⟩, ?_, ?_, ?_,
        Or.inr ⟨Or.inr hno, ?_, rest2, ?_⟩⟩
      · rw [hscan, dup_scan_none_found _ _ l _ 0 hnone]
        simp only [Nat.zero_add]
        exact happ
      · simp
      · simp
        omega
      · simp [hlen]
      · simp
    · have hno : ∀ x ∈ l1, ¬ Named name x := by
        intro x hx hn
        have := h1 x hx
        rw [(dup_test_iff name value x).mpr hn] at this
        cases this
      have hs : Named name s := (dup_test_iff name value s).mp h2
      have hvec : List.map Slot.ptr (l1 ++ s :: l2) ++ Slot.null :: r :: rest2 =
          l1.map Slot.ptr ++ Slot.ptr s :: (l2.map Slot.ptr ++ Slot.null :: r :: rest2) := by
        simp
      have hl1 : l1.length = (l1.map Slot.ptr).length := by simp
      refine ⟨⟨l1.map Slot.ptr ++ Slot.ptr (name ++ '=' :: value) ::
          (l2.map Slot.ptr ++ Slot.null :: r :: rest2),
          (List.map Slot.ptr (l1 ++ s :: l2) ++ Slot.null :: r :: rest2).length,
          (l1 ++ s :: l2).length⟩, ?_, ?_, ?_,
        Or.inl ⟨rfl, l1, s, l2, rfl, hno, hs, ?_, extra, ?_⟩⟩
      · rw [hscan, hvec, dup_scan_found _ _ l1 s _ 0 h1 h2]
        simp only [Nat.zero_add]
        conv_lhs => rw [hl1, store_append_cons]
      · simp
      · simp
        omega
      · simp [hlen]
      · simp [hextra]

theorem insert_env_contract_witness :
    ∃ e2, insert_env ("B".toList ++ '=' :: "3".toList)
        ⟨["A=1".toList, "B=2".toList].map Slot.ptr ++ Slot.null :: [], 3, 2⟩ true = some e2 ∧
      e2.env_size = e2.envp.length ∧ e2.env_len + 1 ≤ e2.env_size ∧
      ((true = true ∧ ∃ l1 s l2, ["A=1".toList, "B=2".toList] = l1 ++ s :: l2 ∧
          (∀ x ∈ l1, ¬ Named "B".toList x) ∧
          Named "B".toList s ∧ e2.env_len = 2 ∧
          ∃ extra, e2.envp =
            (l1 ++ ("B".toList ++ '=' :: "3".toList) :: l2).map Slot.ptr ++
              Slot.null :: ([] ++ extra)) ∨
       ((true = false ∨ ∀ x ∈ ["A=1".toList, "B=2".toList], ¬ Named "B".toList x) ∧
          e2.env_len = 2 + 1 ∧
          ∃ rest2, e2.envp =
            (["A=1".toList, "B=2".toList] ++ ["B".toList ++ '=' :: "3".toList]).map Slot.ptr ++
              Slot.null :: rest2)) :=
  insert_env_contract ⟨["A=1".toList, "B=2".toList].map Slot.ptr ++ Slot.null :: [], 3, 2⟩
    ["A=1".toList, "B=2".toList] [] "B".toList "3".toList true rfl rfl rfl (by decide)

/-- C17, as stated, fails: with a `size_t` of 32 bits, the name `A` and three
fragments that are one string of 1610612736 characters, the lengths add up to
4831838211, `esize` wraps to 536870915, and `format_env` takes the `errorx`
exit at the first fragment. -/
theorem format_env_exact_counterexample :
    format_env_esize 4294967295 "A".toList
        [some (List.replicate 1610612736 'a'), some (List.replicate 1610612736 'a'),
          some (List.replicate 1610612736 'a')] = 536870915 ∧
    format_env 4294967295 "A".toList
        [some (List.replicate 1610612736 'a'), some (List.replicate 1610612736 'a'),
          some (List.replicate 1610612736 'a')] = none :=
  format_env_wraps_thrice (List.replicate 1610612736 'a') (List.length_replicate _ _)

/-- C17, amended: for every name and every list of fragments (the variadic
arguments up to `VNULL`) for which the length of the name plus 2 plus the
lengths of the fragments is at most `SIZE_MAX`, the capacity `esize` that
`format_env` computes is that sum, which is the length of the string returned
plus one for its terminator; no bound check of `strlcpy` or `strlcat` fails
(the result is not the `errorx` exit); and the string returned is the name,
`=`, and the fragments in order with nothing between them: `name=` when there
are none. -/
theorem format_env_exact (size_max : Nat) (var : Str) (vals : List Str)
    (rest : List (Option Str))
    (hfit : var.length + 2 + (vals.map List.length).sum ≤ size_max) :
    format_env_esize size_max var (vals.map some ++ none :: rest) =
      var.length + 2 + (vals.map List.length).sum ∧
    format_env size_max var (vals.map some ++ none :: rest) =
      some (var ++ '=' :: vals.flatten) ∧
    (var ++ '=' :: vals.flatten).length + 1 =
      format_env_esize size_max var (vals.map some ++ none :: rest) ∧
    format_env size_max var (none :: rest) = some (var ++ ['=']) ∧
    format_env size_max var [] = some (var ++ ['=']) := by
  have hsum : (vals.map strlen).sum = (vals.map List.length).sum := rfl
  have hesize : format_env_esize size_max var (vals.map some ++ none :: rest) =
      var.length + 2 + (vals.map List.length).sum := by
    rw [format_env_esize_eq, va_strings_map_some, Nat.mod_eq_of_lt (by simp only [strlen]; omega)]
    rfl
  have hfit0 : strlen var + 2 ≤ size_max := by simp only [strlen]; omega
  refine ⟨hesize, ?_, ?_, ?_, ?_⟩
  · rw [format_env_eq _ _ _ (by rw [va_strings_map_some]; simp only [strlen] at hsum ⊢; omega),
      fmt, va_strings_map_some]
  · rw [hesize]
    have := length_flatten_str vals
    simp only [List.length_append, List.length_cons, this]
    omega
  · rw [format_env_eq _ _ _ (by simpa [va_strings] using hfit0)]
    rfl
  · rw [format_env_eq _ _ _ (by simpa [va_strings] using hfit0)]
    rfl

theorem format_env_exact_witness :
    4 + 2 + (["/usr/bin".toList, ":".toList, "/bin".toList].map List.length).sum ≤ 255 ∧
    format_env_esize 255 "PATH".toList
        [some "/usr/bin".toList, some ":".toList, some "/bin".toList, none] = 19 ∧
    format_env 255 "PATH".toList
        [some "/usr/bin".toList, some ":".toList, some "/bin".toList, none] =
      some "PATH=/usr/bin:/bin".toList :=
  ⟨by decide,
    (format_env_exact 255 "PATH".toList ["/usr/bin".toList, ":".toList, "/bin".toList] []
      (by decide)).1,
    (format_env_exact 255 "PATH".toList ["/usr/bin".toList, ":".toList, "/bin".toList] []
      (by decide)).2.1⟩

/-- C18: for two policies whose deny lists, check lists and keep lists hold
the same patterns in any order (as the lists `init_envtables` builds by
prepending and the lists built by appending), all patterns non-empty, `var_ok`
returns the same result on every entry, and the keep loop of the reset branch
of `rebuild_env` makes the same decision on every entry. -/
theorem pattern_order_irrelevant (g g2 : Ctx) (var : Str)
    (hd : g.def_env_delete.Perm g2.def_env_delete) (hc : g.def_env_check.Perm g2.def_env_check)
    (hk : g.def_env_keep.Perm g2.def_env_keep)
    (hne : ∀ p ∈ g.def_env_delete ++ (g.def_env_check ++ g.def_env_keep), p ≠ []) :
    var_ok g var = var_ok g2 var ∧
    keep_loop g.def_env_keep var = keep_loop g2.def_env_keep var ∧
    reset_keeps g var = reset_keeps g2 var := by
  have n1 : ∀ p ∈ g.def_env_delete, p ≠ [] := fun p hp => hne p (by simp [hp])
  have n2 : ∀ p ∈ g.def_env_check, p ≠ [] := fun p hp => hne p (by simp [hp])
  have n3 : ∀ p ∈ g.def_env_keep, p ≠ [] := fun p hp => hne p (by simp [hp])
  have m1 : ∀ p ∈ g2.def_env_delete, p ≠ [] := fun p hp => n1 p (hd.mem_iff.mpr hp)
  have m2 : ∀ p ∈ g2.def_env_check, p ≠ [] := fun p hp => n2 p (hc.mem_iff.mpr hp)
  have m3 : ∀ p ∈ g2.def_env_keep, p ≠ [] := fun p hp => n3 p (hk.mem_iff.mpr hp)
  have hkeep : keep_loop g.def_env_keep var = keep_loop g2.def_env_keep var := by
    rw [keep_loop_eq _ var n3, keep_loop_eq _ var m3]
    simp only [exists_mem_perm hk]
  refine ⟨?_, hkeep, ?_⟩
  · rw [var_ok_eq g var n1 n2, var_ok_eq g2 var m1 m2]
    simp only [exists_mem_perm hd, exists_mem_perm hc]
  · unfold reset_keeps
    rw [hkeep]

theorem pattern_order_irrelevant_witness :
    var_ok (init_envtables ⟨false, false, true, false, false, false⟩ (Ctx.ofLists [] []))
        "DYLD_LIBRARY_PATH=/tmp".toList =
      var_ok (append_tables ⟨false, false, true, false, false, false⟩ (Ctx.ofLists [] []))
        "DYLD_LIBRARY_PATH=/tmp".toList ∧
    keep_loop (init_envtables ⟨false, false, true, false, false, false⟩
        (Ctx.ofLists [] [])).def_env_keep "DYLD_LIBRARY_PATH=/tmp".toList =
      keep_loop (append_tables ⟨false, false, true, false, false, false⟩
        (Ctx.ofLists [] [])).def_env_keep "DYLD_LIBRARY_PATH=/tmp".toList ∧
    reset_keeps (init_envtables ⟨false, false, true, false, false, false⟩ (Ctx.ofLists [] []))
        "DYLD_LIBRARY_PATH=/tmp".toList =
      reset_keeps (append_tables ⟨false, false, true, false, false, false⟩ (Ctx.ofLists [] []))
        "DYLD_LIBRARY_PATH=/tmp".toList :=
  pattern_order_irrelevant _ _ _
    (init_envtables_perm ⟨false, false, true, false, false, false⟩ (Ctx.ofLists [] [])).1
    (init_envtables_perm ⟨false, false, true, false, false, false⟩ (Ctx.ofLists [] [])).2.1
    (init_envtables_perm ⟨false, false, true, false, false, false⟩ (Ctx.ofLists [] [])).2.2
    (by decide)

set_option maxRecDepth 100000 in
/-- C19 fails on the code: the reset-mode loop compares only 8 characters of
the entry with `SUDO_PS1=` (line 397), so the source entry `SUDO_PS1`, which
has no `=`, sets `ps1` to `PS1`; line 519 passes it to `insert_env` with
`dupcheck` set, where `strchr(str, '=')` returns `NULL` and the pointer
difference has no result.  The filter-mode loop compares 9 characters (line
464) and does not take the entry for a prompt. -/
theorem reset_prompt_without_separator :
    (loop_locals { sample with def_env_reset := true } ["SUDO_PS1".toList]).map
      (fun st => st.ps1) = some (some "PS1".toList) ∧
    ("PS1".toList, true) ∈ all_cmds { sample with def_env_reset := true } ⟨false, false⟩ false
      0 (some "PS1".toList) ∧
    strchr "PS1".toList '=' = none ∧
    insert_env "PS1".toList ⟨["HOME=/root".toList].map Slot.ptr ++ [Slot.null], 2, 1⟩ true =
      none ∧
    rebuild_env { sample with def_env_reset := true } (some ["SUDO_PS1".toList]) none
      ⟨false, false⟩ false = none ∧
    rebuild_environ sample (some ["SUDO_PS1".toList]) none ⟨false, false⟩ false =
      some ["SUDO_PS1".toList, "TERM=unknown".toList, "PATH=/usr/bin:/bin".toList,
        "SUDO_COMMAND=/bin/ls -l".toList, "SUDO_USER=bob".toList, "SUDO_UID=1000".toList,
        "SUDO_GID=100".toList] := by
  decide

/-- C20: when every entry of the two sources contains `=` and no two entries
of the sources share a name, then in filter mode, and in reset mode with the
login-shell flag off, no two entries of the vector returned by `rebuild_env`
share a name (and every entry contains `=`). -/
theorem unique_names_preserved (g : Ctx) (envp1 envp2 : Option (List Str)) (m : sudo_mode_t)
    (nx : Bool) (hmode : g.def_env_reset = false ∨ m.login_shell = false)
    (hsrc : ∀ e ∈ sources envp1 envp2, '=' ∈ e) (huniq : UniqueNames (sources envp1 envp2))
    (l : List Str) (h : rebuild_environ g envp1 envp2 m nx = some l) :
    UniqueNames l ∧ ∀ e ∈ l, '=' ∈ e :=
  ⟨rebuild_environ_unique g envp1 envp2 m nx hmode hsrc huniq l h,
    rebuild_environ_have_eq g envp1 envp2 m nx hsrc l h⟩

set_option maxRecDepth 100000 in
theorem unique_names_preserved_witness :
    ∃ l, rebuild_environ { sample with def_env_reset := true }
        (some ["HOME=/tmp".toList, "SUDO_USER=eve".toList, "SUDO_PS1=x".toList])
        (some ["TERM=vt100".toList]) ⟨false, true⟩ false = some l ∧
      UniqueNames l ∧ ∀ e ∈ l, '=' ∈ e :=
  ⟨["HOME=/root".toList, "TERM=vt100".toList, "SHELL=/bin/bash".toList, "LOGNAME=root".toList,
      "USER=root".toList, "PATH=/usr/bin:/bin".toList, "PS1=x".toList,
      "SUDO_COMMAND=/bin/ls -l".toList, "SUDO_USER=bob".toList, "SUDO_UID=1000".toList,
      "SUDO_GID=100".toList],
    by decide,
    unique_names_preserved { sample with def_env_reset := true }
      (some ["HOME=/tmp".toList, "SUDO_USER=eve".toList, "SUDO_PS1=x".toList])
      (some ["TERM=vt100".toList]) ⟨false, true⟩ false (Or.inr rfl) (by decide) (by decide) _
      (by decide)⟩

end Sudo
